import Mathlib

/-!
# Asset generation scheduler (SMLEditor): a shallow embedding

Source files embedded here:

* `Toolkit/AssetGeneration/AssetTypeGenerator.{h,cpp}`: the per-package generator
  and its four-stage life cycle (`UAssetTypeGenerator`), and the generator registry
  (`FAssetTypeGeneratorRegistry`);
* `Toolkit/AssetGeneration/AssetGenerationProcessor.cpp`: the scheduler
  (`FAssetGenerationProcessor`);
* `Toolkit/AssetTypeGenerator/UserDefinedEnumGenerator.cpp`: the generator variant for
  user defined enumerations (`UUserDefinedEnumGenerator`);
* `Toolkit/AssetGeneration/AssetDumpViewWidget.{h,cpp}`: the tree of the asset dump
  directory with its selection state (`FAssetDumpTreeNode`).

Conventions of the embedding.

* An `FName` is compared by its index in the engine name table, so it is a `Nat`. In the
  enumeration generator, where names are made from strings of the dump, a name is
  represented by its string.
* Heap objects (`UAssetTypeGenerator*`, `TSharedPtr<FDependencyList>`) live in two
  object stores of the processor state and are referred to by their index there.
  Objects are never freed in the model: un-rooting a generator does not remove it
  from the store (garbage collection is not modelled).
* `TMap` is an association list with unique keys, `TSet` a duplicate-free list,
  `TArray` a list.
* `check`/`checkf`/`FindChecked` failures and the `Fatal` log abort the program:
  the operations return `Except EAbort _`.
* `AddPackage` and `RefreshGeneratorDependencies` call each other; the embedding
  bounds the nesting depth by a fuel argument, and `EAbort.fuelExhausted` is the
  only outcome that is not a behaviour of the program.
* The host (dump directory, loaded packages, generator variants) is a fixed
  record `FEnvironment`.
* `Trace` fields are instrumentation: they record which calls were made and are
  never read by the embedded code.
* The enumeration generator calls engine functions that are not among the sources
  (comparison of strings, `FJsonObject::GetIntegerField`, names made from strings). What is
  taken for them is stated at the head of that section; the folding of case and the
  conversion to `int32` are fields of the host record `FEnumHost`.
* A tree node owns its children, so `FAssetDumpTreeNode` is an inductive type; the
  recursion of `PopulateGeneratedPackages` may follow directories that the host
  lists on the way, and is bounded by a fuel argument (`none` is the exhausted
  bound).
-/

namespace AssetGeneration

/-! ## Names and containers -/

/-- An `FName`, identified by its comparison index. -/
abbrev FName := Nat

/-- Lookup `TMap::Find`: the value stored under a key, if any. -/
def TMap.Find {K V : Type} [DecidableEq K] : List (K × V) → K → Option V
  | [], _ => none
  | (k, v) :: rest, key => if k = key then some v else TMap.Find rest key

/-- Membership test `TMap::Contains`. -/
def TMap.Contains {K V : Type} [DecidableEq K] (m : List (K × V)) (key : K) : Bool :=
  (TMap.Find m key).isSome

/-- Insertion `TMap::Add`: replaces the value of an existing key, otherwise appends a new pair. -/
def TMap.Add {K V : Type} [DecidableEq K] : List (K × V) → K → V → List (K × V)
  | [], key, v => [(key, v)]
  | (k, w) :: rest, key, v =>
    if k = key then (key, v) :: rest else (k, w) :: TMap.Add rest key v

/-- Deletion `TMap::Remove`: drops the pair stored under a key. -/
def TMap.Remove {K V : Type} [DecidableEq K] : List (K × V) → K → List (K × V)
  | [], _ => []
  | (k, w) :: rest, key =>
    if k = key then TMap.Remove rest key else (k, w) :: TMap.Remove rest key

/-- The keys of a `TMap`, in storage order. -/
def TMap.Keys {K V : Type} (m : List (K × V)) : List K :=
  m.map Prod.fst

/-- Membership test `TSet::Contains`. -/
def TSet.Contains (s : List FName) (key : FName) : Bool :=
  decide (key ∈ s)

/-- Insertion `TSet::Add`: adding a present element changes nothing. -/
def TSet.Add (s : List FName) (key : FName) : List FName :=
  if key ∈ s then s else s ++ [key]

/-! ## The generator (AssetTypeGenerator.h / AssetTypeGenerator.cpp) -/

/-- The phases of asset generation, `enum class EAssetGenerationStage`. -/
inductive EAssetGenerationStage where
  | CONSTRUCTION
  | DATA_POPULATION
  | CDO_FINALIZATION
  | FINISHED
  deriving DecidableEq, Repr

/-- The `(int32)` cast of a stage. -/
def EAssetGenerationStage.toIndex : EAssetGenerationStage → Nat
  | .CONSTRUCTION => 0
  | .DATA_POPULATION => 1
  | .CDO_FINALIZATION => 2
  | .FINISHED => 3

/-- The stage that follows a stage in the declaration order of the enum
(`FINISHED` has none and is mapped to itself). -/
def EAssetGenerationStage.next : EAssetGenerationStage → EAssetGenerationStage
  | .CONSTRUCTION => .DATA_POPULATION
  | .DATA_POPULATION => .CDO_FINALIZATION
  | .CDO_FINALIZATION => .FINISHED
  | .FINISHED => .FINISHED

/-- A single package dependency, `struct FAssetDependency`. -/
structure FAssetDependency where
  PackageName : FName
  State : EAssetGenerationStage
  deriving DecidableEq, Repr

/-- The virtual hooks and host calls made by `AdvanceGenerationState`
(instrumentation of the generator). -/
inductive EGeneratorCall where
  | CreateAssetPackage
  | OnExistingPackageLoaded
  | PopulateAssetWithData
  | FinalizeAssetCDO
  | PromptForCheckoutAndSave (bCheckDirty : Bool)
  deriving DecidableEq, Repr

/-- The fields of `UAssetTypeGenerator` the scheduler depends on. `Class` is the
generator class chosen by `FindGeneratorForClass`; `Calls` is instrumentation. -/
structure UAssetTypeGenerator where
  Class : Nat
  PackageName : FName
  AssetName : FName
  CurrentStage : EAssetGenerationStage
  bUsingExistingPackage : Bool
  Calls : List EGeneratorCall
  deriving DecidableEq, Repr

/-- The ways a call can abort the program, plus the fuel bound of the model. -/
inductive EAbort where
  /-- The nesting bound of the model was reached (not a program behaviour). -/
  | fuelExhausted
  /-- The `checkf` of `InitializeInternal`: dump package name differs from the requested one. -/
  | inconsistentPackageName
  /-- The `checkf` of `AdvanceGenerationState`: the existing package lacks the asset. -/
  | existingPackageWithoutAsset
  /-- The `FindChecked` of `OnGeneratorStageAdvanced` found no entry. -/
  | findCheckedFailed
  /-- The `check` of `CleanupAssetGenerator`: somebody still waits for the generator. -/
  | dependentsStillWaiting
  /-- The `Fatal` log of `TickAssetGeneration`. -/
  | cyclicDependencies
  /-- The `check`s of `CreateAssetGenerator`. -/
  | createAssetGeneratorCheck
  /-- An index or object reference outside its store. -/
  | invalidReference
  deriving DecidableEq, Repr

/-- The fields of the dump JSON root object read by `InitializeFromFile`/`InitializeInternal`. -/
structure FDumpRoot where
  PackageName : FName
  AssetName : FName
  AssetClass : FName
  deriving DecidableEq, Repr

/-- What `InitializeFromFile` finds at the dump path of a package, when a file exists there. -/
inductive FDumpFile where
  /-- The file exists but `LoadFileToString` fails. -/
  | unreadable
  /-- The file loads but is not valid JSON. -/
  | invalidJson
  /-- The file parses to a JSON root object. -/
  | json (root : FDumpRoot)
  deriving DecidableEq, Repr

/-- The host environment of a run.

* `DumpFiles`: the files under the dump root directory, keyed by the package name
  whose dump path they sit at (no entry: `FileExists` is false);
* `FindGeneratorForClass`: the generator registry lookup;
* `PopulateStageDependencies`: the virtual const method of the generator variants,
  a function of the generator object;
* `LoadPackage`: the asset names of an existing package, `none` when `LoadPackage`
  returns `NULL`;
* `FindPackage`, `DoesPackageExist`: the in-memory and on-disk probes of `AddPackage`. -/
structure FEnvironment where
  DumpFiles : List (FName × FDumpFile)
  FindGeneratorForClass : FName → Option Nat
  PopulateStageDependencies : UAssetTypeGenerator → List FAssetDependency
  LoadPackage : FName → Option (List FName)
  FindPackage : FName → Bool
  DoesPackageExist : FName → Bool

/-- The `CONSTRUCTION` block of `AdvanceGenerationState` (AssetTypeGenerator.cpp 33-56). The
virtual hooks are taken to return, and `CreateAssetPackage` to allocate the asset object, so
that `FindObjectChecked` passes; the `checkf` on an existing package without the asset is
kept. -/
def AdvanceGenerationState.construction (env : FEnvironment) (g : UAssetTypeGenerator) :
    Except EAbort UAssetTypeGenerator :=
  match env.LoadPackage g.PackageName with
  | none =>
    .ok { g with
      Calls := g.Calls ++ [.CreateAssetPackage, .PromptForCheckoutAndSave false]
      CurrentStage := .DATA_POPULATION }
  | some ExistingPackage =>
    if g.AssetName ∈ ExistingPackage then
      .ok { g with
        bUsingExistingPackage := true
        Calls := g.Calls ++ [.OnExistingPackageLoaded]
        CurrentStage := .DATA_POPULATION }
    else .error .existingPackageWithoutAsset

/-- The `DATA_POPULATION` block of `AdvanceGenerationState` (AssetTypeGenerator.cpp 60-65). -/
def AdvanceGenerationState.dataPopulation (g : UAssetTypeGenerator) : UAssetTypeGenerator :=
  { g with
    Calls := g.Calls ++ [.PopulateAssetWithData, .PromptForCheckoutAndSave true]
    CurrentStage := .CDO_FINALIZATION }

/-- The `CDO_FINALIZATION` block of `AdvanceGenerationState` (AssetTypeGenerator.cpp 69-73). -/
def AdvanceGenerationState.cdoFinalization (g : UAssetTypeGenerator) : UAssetTypeGenerator :=
  { g with
    Calls := g.Calls ++ [.FinalizeAssetCDO, .PromptForCheckoutAndSave true]
    CurrentStage := .FINISHED }

/-- Embedding of `UAssetTypeGenerator::AdvanceGenerationState` (AssetTypeGenerator.cpp 31-77): three
consecutive `if` statements, each testing the stage left by the previous one; returns the
new stage together with the updated generator. -/
def AdvanceGenerationState (env : FEnvironment) (g : UAssetTypeGenerator) :
    Except EAbort (EAssetGenerationStage × UAssetTypeGenerator) :=
  match (if g.CurrentStage = .CONSTRUCTION then AdvanceGenerationState.construction env g
         else .ok g) with
  | .error e => .error e
  | .ok g1 =>
    let g2 :=
      if g1.CurrentStage = .DATA_POPULATION then AdvanceGenerationState.dataPopulation g1 else g1
    let g3 :=
      if g2.CurrentStage = .CDO_FINALIZATION then AdvanceGenerationState.cdoFinalization g2 else g2
    .ok (g3.CurrentStage, g3)

/-- Embedding of `UAssetTypeGenerator::InitializeFromFile` with `InitializeInternal`
(AssetTypeGenerator.cpp 79-116 and 19-29): `none` is the `NULL` result. -/
def InitializeFromFile (env : FEnvironment) (PackageName : FName) :
    Except EAbort (Option UAssetTypeGenerator) :=
  match TMap.Find env.DumpFiles PackageName with
  | none => .ok none
  | some .unreadable => .ok none
  | some .invalidJson => .ok none
  | some (.json RootFileObject) =>
    match env.FindGeneratorForClass RootFileObject.AssetClass with
    | none => .ok none
    | some AssetTypeGenerator =>
      if RootFileObject.PackageName = PackageName then
        .ok (some {
          Class := AssetTypeGenerator
          PackageName := RootFileObject.PackageName
          AssetName := RootFileObject.AssetName
          CurrentStage := .CONSTRUCTION
          bUsingExistingPackage := false
          Calls := [] })
      else .error .inconsistentPackageName

/-! ## The scheduler (AssetGenerationProcessor.cpp) -/

/-- The record `FDependencyList`: a dependent generator and the dependencies it still
waits for (package name and required stage). -/
structure FDependencyList where
  AssetTypeGenerator : Nat
  PackageDependencies : List (FName × EAssetGenerationStage)
  deriving DecidableEq, Repr

/-- The result of `AddPackage`, `enum class EAddPackageResult`. -/
inductive EAddPackageResult where
  | PACKAGE_EXISTS
  | PACKAGE_WILL_BE_GENERATED
  | PACKAGE_NOT_FOUND
  deriving DecidableEq, Repr

/-- Calls recorded in the processor trace (instrumentation). The generator is named by
its index in the object store. -/
inductive EEvent where
  /-- Embedding of `NewObject<UAssetTypeGenerator>` in `InitializeFromFile`. -/
  | GeneratorConstructed (Generator : Nat) (PackageName : FName)
  /-- A call of `AdvanceGenerationState`, with the stage the generator had before it and the
  number of dependencies its dependency lists still held at the call. -/
  | AdvanceGenerationState (Generator : Nat) (StageBefore : EAssetGenerationStage)
      (Remaining : Nat)
  /-- A call of `OnGeneratorStageAdvanced`. -/
  | OnGeneratorStageAdvanced (Generator : Nat)
  /-- A call of `CleanupAssetGenerator` that passed its `check`. -/
  | CleanupAssetGenerator (Generator : Nat)
  deriving DecidableEq, Repr

/-- The state of `FAssetGenerationProcessor`. `Generators` and `DependencyLists` are the
object stores that the pointers of the C++ members refer to; `Trace` is instrumentation.
`MaxAssetsToAdvancePerTick` is the one configuration field the scheduler reads (an `int32`
that the editor widget keeps between 1 and 32; negative values are outside the model). -/
structure FAssetGenerationProcessor where
  MaxAssetsToAdvancePerTick : Nat
  PackagesToGenerate : List FName
  NextPackageToGenerateIndex : Nat
  bGenerationFinished : Bool
  bIsFirstTick : Bool
  AssetGenerators : List (FName × Nat)
  PendingDependencies : List (FName × List Nat)
  GeneratorsReadyToAdvance : List Nat
  AlreadyGeneratedPackages : List FName
  ExternalPackagesResolved : List FName
  KnownMissingPackages : List FName
  Generators : List UAssetTypeGenerator
  DependencyLists : List FDependencyList
  Trace : List EEvent
  deriving DecidableEq, Repr

/-- The constructor `FAssetGenerationProcessor::FAssetGenerationProcessor`
(AssetGenerationProcessor.cpp 327-334). -/
def FAssetGenerationProcessor.Create (MaxAssetsToAdvancePerTick : Nat)
    (PackagesToGenerate : List FName) : FAssetGenerationProcessor :=
  { MaxAssetsToAdvancePerTick := MaxAssetsToAdvancePerTick
    PackagesToGenerate := PackagesToGenerate
    NextPackageToGenerateIndex := 0
    bGenerationFinished := false
    bIsFirstTick := true
    AssetGenerators := []
    PendingDependencies := []
    GeneratorsReadyToAdvance := []
    AlreadyGeneratedPackages := []
    ExternalPackagesResolved := []
    KnownMissingPackages := []
    Generators := []
    DependencyLists := []
    Trace := [] }

/-- Embedding of `FAssetGenerationProcessor::CreateAssetGenerator` (AssetGenerationProcessor.cpp 336-343);
`bActiveValid` is `ActiveAssetGenerator.IsValid()` at the call. -/
def CreateAssetGenerator (bActiveValid : Bool) (MaxAssetsToAdvancePerTick : Nat)
    (PackagesToGenerate : List FName) : Except EAbort FAssetGenerationProcessor :=
  if bActiveValid then .error .createAssetGeneratorCheck
  else if PackagesToGenerate.length = 0 then .error .createAssetGeneratorCheck
  else .ok (FAssetGenerationProcessor.Create MaxAssetsToAdvancePerTick PackagesToGenerate)

/-- Lines 28-29 and 44-45 of `RefreshGeneratorDependencies`:
`DependencyList->PackageDependencies.Add(...)` followed by
`PendingDependencies.FindOrAdd(DependencyPackageName).Add(DependencyList)`. -/
def RefreshGeneratorDependencies.record (s : FAssetGenerationProcessor) (DependencyList : Nat)
    (AssetDependency : FAssetDependency) : FAssetGenerationProcessor :=
  { s with
    DependencyLists :=
      match s.DependencyLists[DependencyList]? with
      | none => s.DependencyLists
      | some dl =>
        s.DependencyLists.set DependencyList
          { dl with
            PackageDependencies :=
              TMap.Add dl.PackageDependencies AssetDependency.PackageName AssetDependency.State }
    PendingDependencies :=
      TMap.Add s.PendingDependencies AssetDependency.PackageName
        (((TMap.Find s.PendingDependencies AssetDependency.PackageName).getD [])
          ++ [DependencyList]) }

/-- One iteration of the loop of `RefreshGeneratorDependencies`
(AssetGenerationProcessor.cpp 16-51); `addPackage` is the `AddPackage` it calls. -/
def RefreshGeneratorDependencies.dependency
    (addPackage : FName → FAssetGenerationProcessor →
      Except EAbort (EAddPackageResult × FAssetGenerationProcessor))
    (DependencyList : Nat) (s : FAssetGenerationProcessor) (AssetDependency : FAssetDependency) :
    Except EAbort FAssetGenerationProcessor :=
  match TMap.Find s.AssetGenerators AssetDependency.PackageName with
  | some DependencyGenerator =>
    match s.Generators[DependencyGenerator]? with
    | none => .error .invalidReference
    | some dg =>
      if AssetDependency.State.toIndex ≥ dg.CurrentStage.toIndex then
        .ok (RefreshGeneratorDependencies.record s DependencyList AssetDependency)
      else .ok s
  | none =>
    match addPackage AssetDependency.PackageName s with
    | .error e => .error e
    | .ok (AddPackageResult, s1) =>
      if AddPackageResult = .PACKAGE_WILL_BE_GENERATED then
        .ok (RefreshGeneratorDependencies.record s1 DependencyList AssetDependency)
      else .ok s1

/-- The `for` loop of `RefreshGeneratorDependencies` over the declared dependencies. -/
def RefreshGeneratorDependencies.loop
    (addPackage : FName → FAssetGenerationProcessor →
      Except EAbort (EAddPackageResult × FAssetGenerationProcessor))
    (DependencyList : Nat) :
    List FAssetDependency → FAssetGenerationProcessor → Except EAbort FAssetGenerationProcessor
  | [], s => .ok s
  | AssetDependency :: rest, s =>
    match RefreshGeneratorDependencies.dependency addPackage DependencyList s AssetDependency with
    | .error e => .error e
    | .ok s1 => RefreshGeneratorDependencies.loop addPackage DependencyList rest s1

/-- The body of `RefreshGeneratorDependencies` (AssetGenerationProcessor.cpp 8-59) over the
`AddPackage` it calls: a fresh `FDependencyList` is allocated, the declared dependencies are
resolved in order, and the generator is queued when nothing was recorded. -/
def RefreshGeneratorDependencies.body (env : FEnvironment)
    (addPackage : FName → FAssetGenerationProcessor →
      Except EAbort (EAddPackageResult × FAssetGenerationProcessor))
    (Generator : Nat) (s : FAssetGenerationProcessor) : Except EAbort FAssetGenerationProcessor :=
  match s.Generators[Generator]? with
  | none => .error .invalidReference
  | some g =>
    let GeneratorDependencies := env.PopulateStageDependencies g
    let DependencyList := s.DependencyLists.length
    let s0 := { s with
      DependencyLists := s.DependencyLists ++
        [{ AssetTypeGenerator := Generator, PackageDependencies := [] }] }
    match RefreshGeneratorDependencies.loop addPackage DependencyList GeneratorDependencies s0 with
    | .error e => .error e
    | .ok s1 =>
      match s1.DependencyLists[DependencyList]? with
      | none => .error .invalidReference
      | some dl =>
        if dl.PackageDependencies.length = 0 then
          .ok { s1 with GeneratorsReadyToAdvance := s1.GeneratorsReadyToAdvance ++ [Generator] }
        else .ok s1

/-- The body of `InitializeAssetGeneratorInternal` (AssetGenerationProcessor.cpp 110-119) over
the `AddPackage` its refresh calls. -/
def InitializeAssetGeneratorInternal.body (env : FEnvironment)
    (addPackage : FName → FAssetGenerationProcessor →
      Except EAbort (EAddPackageResult × FAssetGenerationProcessor))
    (Generator : Nat) (s : FAssetGenerationProcessor) : Except EAbort FAssetGenerationProcessor :=
  match s.Generators[Generator]? with
  | none => .error .invalidReference
  | some g =>
    RefreshGeneratorDependencies.body env addPackage Generator
      { s with AssetGenerators := TMap.Add s.AssetGenerators g.PackageName Generator }

/-- Embedding of `FAssetGenerationProcessor::MarkExternalPackageDependencySatisfied`
(AssetGenerationProcessor.cpp 121-124). -/
def MarkExternalPackageDependencySatisfied (s : FAssetGenerationProcessor) (PackageName : FName) :
    FAssetGenerationProcessor :=
  { s with ExternalPackagesResolved := TSet.Add s.ExternalPackagesResolved PackageName }

/-- Embedding of `FAssetGenerationProcessor::MarkPackageAsNotFound` (AssetGenerationProcessor.cpp 126-129). -/
def MarkPackageAsNotFound (s : FAssetGenerationProcessor) (PackageName : FName) :
    FAssetGenerationProcessor :=
  { s with KnownMissingPackages := TSet.Add s.KnownMissingPackages PackageName }

/-- Embedding of `FAssetGenerationProcessor::AddPackage` (AssetGenerationProcessor.cpp 145-180). The first
argument bounds the nesting of `AddPackage` inside `RefreshGeneratorDependencies`. The object
built by `InitializeFromFile` is allocated in the generator store before it is registered. -/
def AddPackage (env : FEnvironment) :
    Nat → FName → FAssetGenerationProcessor →
      Except EAbort (EAddPackageResult × FAssetGenerationProcessor)
  | 0, _, _ => .error .fuelExhausted
  | fuel + 1, PackageName, s =>
    if TSet.Contains s.ExternalPackagesResolved PackageName
        || TSet.Contains s.AlreadyGeneratedPackages PackageName
        || TSet.Contains s.KnownMissingPackages PackageName then
      .ok (.PACKAGE_EXISTS, s)
    else if TMap.Contains s.AssetGenerators PackageName then
      .ok (.PACKAGE_WILL_BE_GENERATED, s)
    else
      match InitializeFromFile env PackageName with
      | .error e => .error e
      | .ok (some NewGenerator) =>
        let AssetTypeGenerator := s.Generators.length
        let s0 := { s with
          Generators := s.Generators ++ [NewGenerator]
          Trace := s.Trace ++ [.GeneratorConstructed AssetTypeGenerator NewGenerator.PackageName] }
        match InitializeAssetGeneratorInternal.body env (AddPackage env fuel)
            AssetTypeGenerator s0 with
        | .error e => .error e
        | .ok s1 => .ok (.PACKAGE_WILL_BE_GENERATED, s1)
      | .ok none =>
        if env.FindPackage PackageName then
          .ok (.PACKAGE_EXISTS, MarkExternalPackageDependencySatisfied s PackageName)
        else if env.DoesPackageExist PackageName then
          .ok (.PACKAGE_EXISTS, MarkExternalPackageDependencySatisfied s PackageName)
        else
          .ok (.PACKAGE_NOT_FOUND, MarkPackageAsNotFound s PackageName)

/-- Embedding of `FAssetGenerationProcessor::RefreshGeneratorDependencies` (AssetGenerationProcessor.cpp 8-59);
`fuel` bounds the nesting of the `AddPackage` calls it makes. -/
def RefreshGeneratorDependencies (env : FEnvironment) (fuel : Nat) (Generator : Nat)
    (s : FAssetGenerationProcessor) : Except EAbort FAssetGenerationProcessor :=
  RefreshGeneratorDependencies.body env (AddPackage env fuel) Generator s

/-- Embedding of `FAssetGenerationProcessor::InitializeAssetGeneratorInternal`
(AssetGenerationProcessor.cpp 110-119). -/
def InitializeAssetGeneratorInternal (env : FEnvironment) (fuel : Nat) (Generator : Nat)
    (s : FAssetGenerationProcessor) : Except EAbort FAssetGenerationProcessor :=
  InitializeAssetGeneratorInternal.body env (AddPackage env fuel) Generator s

/-- Embedding of `FAssetGenerationProcessor::CleanupAssetGenerator` (AssetGenerationProcessor.cpp 131-143). -/
def CleanupAssetGenerator (Generator : Nat) (s : FAssetGenerationProcessor) :
    Except EAbort FAssetGenerationProcessor :=
  match s.Generators[Generator]? with
  | none => .error .invalidReference
  | some g =>
    if (TMap.Find s.PendingDependencies g.PackageName).isSome then
      .error .dependentsStillWaiting
    else
      .ok { s with
        AssetGenerators := TMap.Remove s.AssetGenerators g.PackageName
        AlreadyGeneratedPackages := TSet.Add s.AlreadyGeneratedPackages g.PackageName
        Trace := s.Trace ++ [.CleanupAssetGenerator Generator] }

/-- The loop over the dependents in `OnGeneratorStageAdvanced`
(AssetGenerationProcessor.cpp 69-87): the first argument is `i + 1` for the index `i` handled
next, so the loop runs from the last index down to 0. `Dependents` is re-read from
`PendingDependencies` because the loop edits it in place. Line 83 queues `Generator`, the
generator that has just advanced. -/
def OnGeneratorStageAdvanced.dependents (PackageName : FName) (CurrentStageIndex : Nat)
    (Generator : Nat) :
    Nat → FAssetGenerationProcessor → Except EAbort FAssetGenerationProcessor
  | 0, s => .ok s
  | i + 1, s =>
    match TMap.Find s.PendingDependencies PackageName with
    | none => .error .invalidReference
    | some Dependents =>
      match Dependents[i]? with
      | none => .error .invalidReference
      | some DependencyList =>
        match s.DependencyLists[DependencyList]? with
        | none => .error .invalidReference
        | some dl =>
          match TMap.Find dl.PackageDependencies PackageName with
          | none => .error .findCheckedFailed
          | some DependencyStage =>
            if CurrentStageIndex > DependencyStage.toIndex then
              let dl1 := { dl with
                PackageDependencies := TMap.Remove dl.PackageDependencies PackageName }
              let s1 := { s with DependencyLists := s.DependencyLists.set DependencyList dl1 }
              if dl1.PackageDependencies.length = 0 then
                OnGeneratorStageAdvanced.dependents PackageName CurrentStageIndex Generator i
                  { s1 with
                    GeneratorsReadyToAdvance := s1.GeneratorsReadyToAdvance ++ [Generator]
                    PendingDependencies :=
                      TMap.Add s1.PendingDependencies PackageName (Dependents.eraseIdx i) }
              else
                OnGeneratorStageAdvanced.dependents PackageName CurrentStageIndex Generator i s1
            else
              OnGeneratorStageAdvanced.dependents PackageName CurrentStageIndex Generator i s

/-- Lines 67-93 of `OnGeneratorStageAdvanced`: notify the dependents recorded under the
package of the advanced generator and drop the bucket once it is empty. -/
def OnGeneratorStageAdvanced.notify (PackageName : FName) (CurrentStageIndex : Nat)
    (Generator : Nat) (s : FAssetGenerationProcessor) : Except EAbort FAssetGenerationProcessor :=
  match TMap.Find s.PendingDependencies PackageName with
  | none => .ok s
  | some Dependents =>
    match OnGeneratorStageAdvanced.dependents PackageName CurrentStageIndex Generator
        Dependents.length s with
    | .error e => .error e
    | .ok s1 =>
      match TMap.Find s1.PendingDependencies PackageName with
      | none => .error .invalidReference
      | some Dependents1 =>
        if Dependents1.length = 0 then
          .ok { s1 with PendingDependencies := TMap.Remove s1.PendingDependencies PackageName }
        else .ok s1

/-- Embedding of `FAssetGenerationProcessor::OnGeneratorStageAdvanced` (AssetGenerationProcessor.cpp 61-102). -/
def OnGeneratorStageAdvanced (env : FEnvironment) (fuel : Nat) (Generator : Nat)
    (s : FAssetGenerationProcessor) : Except EAbort FAssetGenerationProcessor :=
  match s.Generators[Generator]? with
  | none => .error .invalidReference
  | some g =>
    match OnGeneratorStageAdvanced.notify g.PackageName g.CurrentStage.toIndex Generator
        { s with Trace := s.Trace ++ [.OnGeneratorStageAdvanced Generator] } with
    | .error e => .error e
    | .ok s1 =>
      if g.CurrentStage ≠ .FINISHED then RefreshGeneratorDependencies env fuel Generator s1
      else CleanupAssetGenerator Generator s1

/-- The `while` loop of `GatherNewAssetsForGeneration` (AssetGenerationProcessor.cpp 182-199);
the first numeric argument bounds the number of iterations. -/
def GatherNewAssetsForGeneration.loop (env : FEnvironment) (fuel : Nat) :
    Nat → FAssetGenerationProcessor → Except EAbort (Bool × FAssetGenerationProcessor)
  | 0, s =>
    match s.PackagesToGenerate[s.NextPackageToGenerateIndex]? with
    | none => .ok (false, s)
    | some _ => .error .fuelExhausted
  | n + 1, s =>
    match s.PackagesToGenerate[s.NextPackageToGenerateIndex]? with
    | none => .ok (false, s)
    | some PackageToGenerate =>
      let s0 := { s with NextPackageToGenerateIndex := s.NextPackageToGenerateIndex + 1 }
      if TSet.Contains s0.AlreadyGeneratedPackages PackageToGenerate then
        GatherNewAssetsForGeneration.loop env fuel n s0
      else
        match AddPackage env fuel PackageToGenerate s0 with
        | .error e => .error e
        | .ok (Result, s1) =>
          if Result ≠ .PACKAGE_WILL_BE_GENERATED then
            GatherNewAssetsForGeneration.loop env fuel n s1
          else .ok (true, s1)

/-- Embedding of `FAssetGenerationProcessor::GatherNewAssetsForGeneration`
(AssetGenerationProcessor.cpp 182-199). -/
def GatherNewAssetsForGeneration (env : FEnvironment) (fuel : Nat)
    (s : FAssetGenerationProcessor) : Except EAbort (Bool × FAssetGenerationProcessor) :=
  GatherNewAssetsForGeneration.loop env fuel
    (s.PackagesToGenerate.length - s.NextPackageToGenerateIndex) s

/-- Embedding of `FAssetGenerationProcessor::OnAssetGenerationFinished` (AssetGenerationProcessor.cpp 247-260). -/
def OnAssetGenerationFinished (s : FAssetGenerationProcessor) : FAssetGenerationProcessor :=
  { s with bGenerationFinished := true }

/-- The number of dependencies that the dependency lists of a generator still hold
(used by the instrumentation only). -/
def RemainingIn (Lists : List FDependencyList) (Generator : Nat) : Nat :=
  ((Lists.filter (fun dl => dl.AssetTypeGenerator = Generator)).map
    (fun dl => dl.PackageDependencies.length)).sum

/-- The number of dependencies a generator still waits for (instrumentation only). -/
def FAssetGenerationProcessor.Remaining (s : FAssetGenerationProcessor) (Generator : Nat) : Nat :=
  RemainingIn s.DependencyLists Generator

/-- One iteration of the advance loop of `TickAssetGeneration`
(AssetGenerationProcessor.cpp 222-224) for loop index `i`. -/
def TickAssetGeneration.advanceOne (env : FEnvironment) (fuel : Nat) (i : Nat)
    (s : FAssetGenerationProcessor) : Except EAbort FAssetGenerationProcessor :=
  match s.GeneratorsReadyToAdvance[i]? with
  | none => .error .invalidReference
  | some Generator =>
    match s.Generators[Generator]? with
    | none => .error .invalidReference
    | some g =>
      match AdvanceGenerationState env g with
      | .error e => .error e
      | .ok (_, g1) =>
        OnGeneratorStageAdvanced env fuel Generator
          { s with
            Generators := s.Generators.set Generator g1
            Trace := s.Trace ++
              [.AdvanceGenerationState Generator g.CurrentStage (s.Remaining Generator)] }

/-- The advance loop of `TickAssetGeneration` (AssetGenerationProcessor.cpp 221-225): the
first numeric argument is the number of iterations left, the second the loop index `i`. -/
def TickAssetGeneration.advance (env : FEnvironment) (fuel : Nat) :
    Nat → Nat → FAssetGenerationProcessor → Except EAbort FAssetGenerationProcessor
  | 0, _, s => .ok s
  | n + 1, i, s =>
    match TickAssetGeneration.advanceOne env fuel i s with
    | .error e => .error e
    | .ok s1 => TickAssetGeneration.advance env fuel n (i + 1) s1

/-- Lines 218-228 of `TickAssetGeneration`: advance the first `MaxGeneratorsToAdvance`
queued generators, then remove them from the front of the queue. -/
def TickAssetGeneration.advancePhase (env : FEnvironment) (fuel : Nat)
    (s : FAssetGenerationProcessor) : Except EAbort FAssetGenerationProcessor :=
  let MaxGeneratorsToAdvance := min s.GeneratorsReadyToAdvance.length s.MaxAssetsToAdvancePerTick
  match TickAssetGeneration.advance env fuel MaxGeneratorsToAdvance 0 s with
  | .error e => .error e
  | .ok s1 =>
    .ok { s1 with
      GeneratorsReadyToAdvance := s1.GeneratorsReadyToAdvance.drop MaxGeneratorsToAdvance }

/-- Embedding of `FAssetGenerationProcessor::TickAssetGeneration` (AssetGenerationProcessor.cpp 201-232). -/
def TickAssetGeneration (env : FEnvironment) (fuel : Nat) (s : FAssetGenerationProcessor) :
    Except EAbort FAssetGenerationProcessor :=
  if s.GeneratorsReadyToAdvance.length = 0 ∧ s.AssetGenerators.length ≠ 0 then
    .error .cyclicDependencies
  else if s.AssetGenerators.length = 0 then
    match GatherNewAssetsForGeneration env fuel s with
    | .error e => .error e
    | .ok (false, s1) => .ok (OnAssetGenerationFinished s1)
    | .ok (true, s1) => TickAssetGeneration.advancePhase env fuel s1
  else TickAssetGeneration.advancePhase env fuel s

/-- Embedding of `FAssetGenerationProcessor::Tick` (AssetGenerationProcessor.cpp 345-357); the reset of the
static `ActiveAssetGenerator` after the run has finished is not part of the state. -/
def Tick (env : FEnvironment) (fuel : Nat) (s : FAssetGenerationProcessor) :
    Except EAbort FAssetGenerationProcessor :=
  let s0 := if s.bIsFirstTick then { s with bIsFirstTick := false } else s
  if !s0.bGenerationFinished then TickAssetGeneration env fuel s0 else .ok s0

/-- A run of `n` external ticks, stopping at the first abort. -/
def Ticks (env : FEnvironment) (fuel : Nat) :
    Nat → FAssetGenerationProcessor → Except EAbort FAssetGenerationProcessor
  | 0, s => .ok s
  | n + 1, s =>
    match Tick env fuel s with
    | .error e => .error e
    | .ok s1 => Ticks env fuel n s1

/-- The nesting bound that is enough for every call of `AddPackage` in this environment:
one level per dump file, plus one for the outermost call. -/
def FEnvironment.Fuel (env : FEnvironment) : Nat :=
  env.DumpFiles.length + 1

/-! ## Specification vocabulary -/

/-- The package name is in one of the three terminal sets. -/
def FAssetGenerationProcessor.IsTerminal (s : FAssetGenerationProcessor) (PackageName : FName) :
    Prop :=
  PackageName ∈ s.ExternalPackagesResolved ∨ PackageName ∈ s.AlreadyGeneratedPackages
    ∨ PackageName ∈ s.KnownMissingPackages

/-- A generator for the package name is in the in-flight map `AssetGenerators`. -/
def FAssetGenerationProcessor.IsInFlight (s : FAssetGenerationProcessor) (PackageName : FName) :
    Prop :=
  PackageName ∈ TMap.Keys s.AssetGenerators

/-- Every dump file that parses carries the package name of the path it sits at, so the
`checkf` of `InitializeInternal` holds for every package. -/
def FEnvironment.DumpsConsistent (env : FEnvironment) : Prop :=
  ∀ PackageName root, TMap.Find env.DumpFiles PackageName = some (.json root) →
    root.PackageName = PackageName

/-- The elementary state changes made by the scheduler. The level bounds which of them may
occur: level 0 is what `AddPackage` and `RefreshGeneratorDependencies` do, level 1 adds the
changes of the notification loop and of `CleanupAssetGenerator`, level 2 the bookkeeping of a
tick, and level 3 the call of `AdvanceGenerationState`. -/
inductive Step (env : FEnvironment) :
    Nat → FAssetGenerationProcessor → FAssetGenerationProcessor → Prop where
  /-- A generator is built from its dump and registered (AddPackage 159-161, 117). -/
  | construct (l : Nat) (s : FAssetGenerationProcessor) (g : UAssetTypeGenerator)
      (hTerminal : ¬ s.IsTerminal g.PackageName) (hFlight : ¬ s.IsInFlight g.PackageName)
      (hFile : InitializeFromFile env g.PackageName = .ok (some g)) :
      Step env l s
        { s with
          Generators := s.Generators ++ [g]
          Trace := s.Trace ++ [.GeneratorConstructed s.Generators.length g.PackageName]
          AssetGenerators := TMap.Add s.AssetGenerators g.PackageName s.Generators.length }
  /-- A fresh dependency list is allocated (RefreshGeneratorDependencies 13-14). -/
  | allocate (l : Nat) (s : FAssetGenerationProcessor) (Generator : Nat)
      (hGenerator : Generator < s.Generators.length) :
      Step env l s
        { s with
          DependencyLists := s.DependencyLists ++
            [{ AssetTypeGenerator := Generator, PackageDependencies := [] }] }
  /-- A dependency is recorded (RefreshGeneratorDependencies 28-29, 44-45). -/
  | record (l : Nat) (s : FAssetGenerationProcessor) (DependencyList : Nat)
      (AssetDependency : FAssetDependency)
      (hFlight : s.IsInFlight AssetDependency.PackageName) :
      Step env l s (RefreshGeneratorDependencies.record s DependencyList AssetDependency)
  /-- A generator is appended to the ready queue (57, 83). -/
  | ready (l : Nat) (s : FAssetGenerationProcessor) (Generator : Nat)
      (hGenerator : Generator < s.Generators.length) :
      Step env l s
        { s with GeneratorsReadyToAdvance := s.GeneratorsReadyToAdvance ++ [Generator] }
  /-- An untouched package is resolved externally (AddPackage 166-175). -/
  | markExternal (l : Nat) (s : FAssetGenerationProcessor) (PackageName : FName)
      (hTerminal : ¬ s.IsTerminal PackageName) (hFlight : ¬ s.IsInFlight PackageName) :
      Step env l s (MarkExternalPackageDependencySatisfied s PackageName)
  /-- An untouched package is marked missing (AddPackage 178). -/
  | markMissing (l : Nat) (s : FAssetGenerationProcessor) (PackageName : FName)
      (hTerminal : ¬ s.IsTerminal PackageName) (hFlight : ¬ s.IsInFlight PackageName) :
      Step env l s (MarkPackageAsNotFound s PackageName)
  /-- A satisfied dependency is removed from a dependency list (75). -/
  | satisfy (l : Nat) (hl : 1 ≤ l) (s : FAssetGenerationProcessor) (DependencyList : Nat)
      (dl : FDependencyList) (PackageName : FName)
      (hList : s.DependencyLists[DependencyList]? = some dl) :
      Step env l s
        { s with
          DependencyLists := s.DependencyLists.set DependencyList
            { dl with PackageDependencies := TMap.Remove dl.PackageDependencies PackageName } }
  /-- A dependent is removed from a ledger bucket (84). -/
  | setBucket (l : Nat) (hl : 1 ≤ l) (s : FAssetGenerationProcessor) (PackageName : FName)
      (Dependents : List Nat) :
      Step env l s
        { s with PendingDependencies := TMap.Add s.PendingDependencies PackageName Dependents }
  /-- An empty ledger bucket is removed (91). -/
  | removeBucket (l : Nat) (hl : 1 ≤ l) (s : FAssetGenerationProcessor) (PackageName : FName) :
      Step env l s
        { s with PendingDependencies := TMap.Remove s.PendingDependencies PackageName }
  /-- A generator is retired (CleanupAssetGenerator 133-139). -/
  | cleanup (l : Nat) (hl : 1 ≤ l) (s : FAssetGenerationProcessor) (Generator : Nat)
      (g : UAssetTypeGenerator) (hGenerator : s.Generators[Generator]? = some g)
      (hPending : TMap.Find s.PendingDependencies g.PackageName = none) :
      Step env l s
        { s with
          AssetGenerators := TMap.Remove s.AssetGenerators g.PackageName
          AlreadyGeneratedPackages := TSet.Add s.AlreadyGeneratedPackages g.PackageName
          Trace := s.Trace ++ [.CleanupAssetGenerator Generator] }
  /-- The call of `OnGeneratorStageAdvanced` is entered (61). -/
  | notified (l : Nat) (hl : 2 ≤ l) (s : FAssetGenerationProcessor) (Generator : Nat) :
      Step env l s { s with Trace := s.Trace ++ [.OnGeneratorStageAdvanced Generator] }
  /-- A generator is advanced by `AdvanceGenerationState` (223). -/
  | advance (l : Nat) (hl : 3 ≤ l) (s : FAssetGenerationProcessor) (Generator : Nat)
      (g g1 : UAssetTypeGenerator) (Stage : EAssetGenerationStage)
      (hGenerator : s.Generators[Generator]? = some g)
      (hAdvance : AdvanceGenerationState env g = .ok (Stage, g1)) :
      Step env l s
        { s with
          Generators := s.Generators.set Generator g1
          Trace := s.Trace ++
            [.AdvanceGenerationState Generator g.CurrentStage (s.Remaining Generator)] }
  /-- The next root package is taken (184). -/
  | nextRoot (l : Nat) (hl : 2 ≤ l) (s : FAssetGenerationProcessor) :
      Step env l s { s with NextPackageToGenerateIndex := s.NextPackageToGenerateIndex + 1 }
  /-- Completion is signalled (213). -/
  | finished (l : Nat) (hl : 2 ≤ l) (s : FAssetGenerationProcessor) :
      Step env l s (OnAssetGenerationFinished s)
  /-- The advanced generators are removed from the front of the queue (228). -/
  | dropReady (l : Nat) (hl : 2 ≤ l) (s : FAssetGenerationProcessor) (Count : Nat) :
      Step env l s { s with GeneratorsReadyToAdvance := s.GeneratorsReadyToAdvance.drop Count }
  /-- The first external tick is noted (348). -/
  | firstTick (l : Nat) (hl : 2 ≤ l) (s : FAssetGenerationProcessor) :
      Step env l s { s with bIsFirstTick := false }

/-- Finite sequences of elementary state changes of a level. -/
abbrev Steps (env : FEnvironment) (l : Nat) :
    FAssetGenerationProcessor → FAssetGenerationProcessor → Prop :=
  Relation.ReflTransGen (Step env l)

/-- The effect shared by all scheduler operations: terminal sets and object stores only grow,
a generator object keeps its package name and never moves to an earlier stage, a binding of
the in-flight map is either kept or its package has been generated, and the run parameters
are fixed. -/
structure FrameTick (s s1 : FAssetGenerationProcessor) : Prop where
  External : ∀ k, k ∈ s.ExternalPackagesResolved → k ∈ s1.ExternalPackagesResolved
  Generated : ∀ k, k ∈ s.AlreadyGeneratedPackages → k ∈ s1.AlreadyGeneratedPackages
  Missing : ∀ k, k ∈ s.KnownMissingPackages → k ∈ s1.KnownMissingPackages
  Generators : ∀ (i : Nat) (g : UAssetTypeGenerator), s.Generators[i]? = some g →
    ∃ g1 : UAssetTypeGenerator, s1.Generators[i]? = some g1 ∧ g1.PackageName = g.PackageName
      ∧ g.CurrentStage.toIndex ≤ g1.CurrentStage.toIndex
  Lists : s.DependencyLists.length ≤ s1.DependencyLists.length
  Bindings : ∀ k v, TMap.Find s.AssetGenerators k = some v →
    TMap.Find s1.AssetGenerators k = some v ∨ k ∈ s1.AlreadyGeneratedPackages
  Packages : s1.PackagesToGenerate = s.PackagesToGenerate
  MaxAssets : s1.MaxAssetsToAdvancePerTick = s.MaxAssetsToAdvancePerTick

/-- The effect of the operations below the tick (`AddPackage`, `RefreshGeneratorDependencies`,
the notification loop, `CleanupAssetGenerator`): existing generator objects are untouched, the
ready queue and the trace are only appended to, the trace gains no advance or notification
event, and the root cursor and the flags are kept. -/
structure FrameNotify (s s1 : FAssetGenerationProcessor) : Prop where
  Generators : ∃ extra, s1.Generators = s.Generators ++ extra
  Ready : ∃ extra, s1.GeneratorsReadyToAdvance = s.GeneratorsReadyToAdvance ++ extra
  Trace : ∃ extra, s1.Trace = s.Trace ++ extra ∧
    ∀ e ∈ extra, (∃ g n, e = EEvent.GeneratorConstructed g n) ∨ (∃ g, e = .CleanupAssetGenerator g)
  Next : s1.NextPackageToGenerateIndex = s.NextPackageToGenerateIndex
  Finished : s1.bGenerationFinished = s.bGenerationFinished
  FirstTick : s1.bIsFirstTick = s.bIsFirstTick

/-- The effect of `AddPackage` and `RefreshGeneratorDependencies`: bindings of the in-flight
map are kept, the generated set is untouched, no in-flight package enters a terminal set, and
the trace gains construction events only. -/
structure FrameAdd (s s1 : FAssetGenerationProcessor) : Prop where
  Bindings : ∀ k v, TMap.Find s.AssetGenerators k = some v →
    TMap.Find s1.AssetGenerators k = some v
  Generated : s1.AlreadyGeneratedPackages = s.AlreadyGeneratedPackages
  Terminal : ∀ k, s.IsInFlight k → s1.IsTerminal k → s.IsTerminal k
  Trace : ∃ extra, s1.Trace = s.Trace ++ extra ∧
    ∀ e ∈ extra, ∃ g n, e = EEvent.GeneratorConstructed g n

/-- What the body of `RefreshGeneratorDependencies` needs from the `AddPackage` it calls:
a successful call is a sequence of level 0 changes, and a package reported as
`PACKAGE_WILL_BE_GENERATED` is in flight afterwards. -/
def AddPackageSound (env : FEnvironment)
    (addPackage : FName → FAssetGenerationProcessor →
      Except EAbort (EAddPackageResult × FAssetGenerationProcessor)) : Prop :=
  ∀ PackageName s r s1, addPackage PackageName s = .ok (r, s1) →
    Steps env 0 s s1 ∧ (r = .PACKAGE_WILL_BE_GENERATED → s1.IsInFlight PackageName)

/-- The package names of the generator objects built so far, in order of construction. -/
def FAssetGenerationProcessor.GeneratorNames (s : FAssetGenerationProcessor) : List FName :=
  s.Generators.map (fun g => g.PackageName)

/-- The package name of a construction event. -/
def EEvent.Constructed : EEvent → Option FName
  | .GeneratorConstructed _ PackageName => some PackageName
  | _ => none

/-- The package names for which the trace records the construction of a generator. -/
def FAssetGenerationProcessor.ConstructedNames (s : FAssetGenerationProcessor) : List FName :=
  s.Trace.filterMap EEvent.Constructed

/-- The bookkeeping invariant of the scheduler state. -/
structure FAssetGenerationProcessor.Consistent (s : FAssetGenerationProcessor) : Prop where
  /-- A binding of the in-flight map points at a generator object of that package. -/
  Bound : ∀ k v, TMap.Find s.AssetGenerators k = some v → s.GeneratorNames[v]? = some k
  /-- The package of every generator object is in flight or generated. -/
  Owned : ∀ k, k ∈ s.GeneratorNames → s.IsInFlight k ∨ k ∈ s.AlreadyGeneratedPackages
  /-- No in-flight package is in a terminal set. -/
  FlightTerminal : ∀ k, s.IsInFlight k → ¬ s.IsTerminal k
  /-- The generated and the externally resolved sets are disjoint. -/
  GeneratedExternal : ∀ k, k ∈ s.AlreadyGeneratedPackages → k ∉ s.ExternalPackagesResolved
  /-- The generated and the known-missing sets are disjoint. -/
  GeneratedMissing : ∀ k, k ∈ s.AlreadyGeneratedPackages → k ∉ s.KnownMissingPackages
  /-- The externally resolved and the known-missing sets are disjoint. -/
  ExternalMissing : ∀ k, k ∈ s.ExternalPackagesResolved → k ∉ s.KnownMissingPackages
  /-- There is one generator object per package name. -/
  Unique : s.GeneratorNames.Nodup
  /-- The construction events of the trace are the generator objects of the store. -/
  Constructed : s.ConstructedNames = s.GeneratorNames

/-- The states a scheduler state can move to by calls of `AddPackage`,
`OnGeneratorStageAdvanced` (for a generator object of the store), `TickAssetGeneration` and
`Tick` that return. -/
inductive ReachableFrom (env : FEnvironment) (s0 : FAssetGenerationProcessor) :
    FAssetGenerationProcessor → Prop where
  | start : ReachableFrom env s0 s0
  | addPackage (s s1 : FAssetGenerationProcessor) (fuel : Nat) (PackageName : FName)
      (r : EAddPackageResult) (hs : ReachableFrom env s0 s)
      (hcall : AddPackage env fuel PackageName s = .ok (r, s1)) : ReachableFrom env s0 s1
  | stageAdvanced (s s1 : FAssetGenerationProcessor) (fuel Generator : Nat)
      (hs : ReachableFrom env s0 s)
      (hcall : OnGeneratorStageAdvanced env fuel Generator s = .ok s1) : ReachableFrom env s0 s1
  | tickAssetGeneration (s s1 : FAssetGenerationProcessor) (fuel : Nat)
      (hs : ReachableFrom env s0 s)
      (hcall : TickAssetGeneration env fuel s = .ok s1) : ReachableFrom env s0 s1
  | tick (s s1 : FAssetGenerationProcessor) (fuel : Nat) (hs : ReachableFrom env s0 s)
      (hcall : Tick env fuel s = .ok s1) : ReachableFrom env s0 s1

/-- The states reachable from a freshly created processor. -/
def Reachable (env : FEnvironment) (s : FAssetGenerationProcessor) : Prop :=
  ∃ MaxAssetsToAdvancePerTick PackagesToGenerate,
    ReachableFrom env (FAssetGenerationProcessor.Create MaxAssetsToAdvancePerTick
      PackagesToGenerate) s

/-! ## Concrete dump sets -/

/-- A host with the given dump files and declared dependencies in which every asset class has
a generator and no package exists outside the dump directory. -/
def DumpEnvironment (DumpFiles : List (FName × FDumpFile))
    (PopulateStageDependencies : UAssetTypeGenerator → List FAssetDependency) : FEnvironment where
  DumpFiles := DumpFiles
  FindGeneratorForClass := fun _ => some 0
  PopulateStageDependencies := PopulateStageDependencies
  LoadPackage := fun _ => none
  FindPackage := fun _ => false
  DoesPackageExist := fun _ => false

/-- A well-formed dump file for a package. -/
def DumpOf (PackageName : FName) : FName × FDumpFile :=
  (PackageName, .json { PackageName := PackageName, AssetName := PackageName, AssetClass := 0 })

/-- The dump set of the dependency scenario: packages `Pkg1` and `Pkg2` have dump files,
`Pkg1` declares a dependency on `Pkg2` at `DATA_POPULATION`, `Pkg2` declares none. -/
def DependencyEnvironment (Pkg1 Pkg2 : FName) : FEnvironment :=
  DumpEnvironment [DumpOf Pkg1, DumpOf Pkg2]
    (fun g => if g.PackageName = Pkg1 then [{ PackageName := Pkg2, State := .DATA_POPULATION }]
      else [])

/-- The dump set of the cycle scenario: package `A` declares a dependency on `B` at
`DATA_POPULATION` and `B` declares a dependency on `A` at `DATA_POPULATION`. -/
def CycleEnvironment (A B : FName) : FEnvironment :=
  DumpEnvironment [DumpOf A, DumpOf B]
    (fun g => if g.PackageName = A then [{ PackageName := B, State := .DATA_POPULATION }]
      else if g.PackageName = B then [{ PackageName := A, State := .DATA_POPULATION }]
      else [])

/-- A generator as `InitializeFromFile` builds it for a well-formed dump. -/
def FreshGenerator (PackageName : FName) : UAssetTypeGenerator :=
  { Class := 0, PackageName := PackageName, AssetName := PackageName,
    CurrentStage := .CONSTRUCTION, bUsingExistingPackage := false, Calls := [] }

/-- The condition under which the scheduler does not wait for a dependency on a package it
has touched (AssetGenerationProcessor.cpp 20-27 and 147-151): the package is in a terminal
set, or its in-flight generator is strictly past the required stage. -/
def FAssetGenerationProcessor.IsSatisfied (s : FAssetGenerationProcessor)
    (PackageName : FName) (State : EAssetGenerationStage) : Prop :=
  s.IsTerminal PackageName ∨
    ∃ v g, TMap.Find s.AssetGenerators PackageName = some v ∧ s.Generators[v]? = some g
      ∧ State.toIndex < g.CurrentStage.toIndex

/-- The two calls the advance loop of `TickAssetGeneration` makes for a generator. -/
inductive EAdvanceCall where
  | AdvanceGenerationState (Generator : Nat)
  | OnGeneratorStageAdvanced (Generator : Nat)
  deriving DecidableEq, Repr

/-- The advance-loop call recorded by a trace event, if it records one. -/
def EEvent.AdvanceCall : EEvent → Option EAdvanceCall
  | .AdvanceGenerationState Generator _ _ => some (.AdvanceGenerationState Generator)
  | .OnGeneratorStageAdvanced Generator => some (.OnGeneratorStageAdvanced Generator)
  | _ => none

/-- The calls made when the listed generators are advanced one after the other:
`AdvanceGenerationState` followed by `OnGeneratorStageAdvanced` for each of them, in order. -/
def AdvanceCallsFor : List Nat → List EAdvanceCall
  | [] => []
  | Generator :: rest =>
    .AdvanceGenerationState Generator :: .OnGeneratorStageAdvanced Generator
      :: AdvanceCallsFor rest

/-- The package name is neither in a terminal set nor in flight. -/
def FAssetGenerationProcessor.IsUntouched (s : FAssetGenerationProcessor)
    (PackageName : FName) : Bool :=
  !(TSet.Contains s.ExternalPackagesResolved PackageName
      || TSet.Contains s.AlreadyGeneratedPackages PackageName
      || TSet.Contains s.KnownMissingPackages PackageName)
    && !(TMap.Contains s.AssetGenerators PackageName)

/-- The number of dump files whose package the scheduler has not touched yet: it bounds the
nesting depth of the `AddPackage` calls still possible. -/
def FEnvironment.Untouched (env : FEnvironment) (s : FAssetGenerationProcessor) : Nat :=
  (env.DumpFiles.filter (fun e => s.IsUntouched e.1)).length

/-- Every binding of the in-flight map refers to an object of the generator store. -/
def FAssetGenerationProcessor.BindingsValid (s : FAssetGenerationProcessor) : Prop :=
  ∀ k v, TMap.Find s.AssetGenerators k = some v → v < s.Generators.length

/-- The `AddPackage` called by the body of `RefreshGeneratorDependencies` returns whenever
fewer than `bound` dump files are untouched. -/
def AddPackageTotal (env : FEnvironment)
    (addPackage : FName → FAssetGenerationProcessor →
      Except EAbort (EAddPackageResult × FAssetGenerationProcessor)) (bound : Nat) : Prop :=
  ∀ PackageName s, s.BindingsValid → env.Untouched s < bound →
    ∃ r s1, addPackage PackageName s = .ok (r, s1)

/-- The invariant behind the ready queue in a run driven by ticks: queued generators and
the owners of dependency lists are objects of the store, no queued generator has a
dependency left in any of its dependency lists, and every recorded call of
`AdvanceGenerationState` was made on a generator without remaining dependencies. -/
structure FAssetGenerationProcessor.ReadySettled (s : FAssetGenerationProcessor) : Prop where
  Ready : ∀ G, G ∈ s.GeneratorsReadyToAdvance → G < s.Generators.length
  Owners : ∀ dl, dl ∈ s.DependencyLists → dl.AssetTypeGenerator < s.Generators.length
  Settled : ∀ G, G ∈ s.GeneratorsReadyToAdvance → s.Remaining G = 0
  Advanced : ∀ G st r, EEvent.AdvanceGenerationState G st r ∈ s.Trace → r = 0

/-- What a call of `AddPackage` adds to the dependency lists and to the ready queue: the
existing lists are untouched, and the new lists and queue entries belong to generators with
an index of at least `base` (generators built during the call). -/
structure FreshOnly (base : Nat) (s s1 : FAssetGenerationProcessor) : Prop where
  Store : s.Generators.length ≤ s1.Generators.length
  Lists : ∃ extra, s1.DependencyLists = s.DependencyLists ++ extra
    ∧ ∀ dl, dl ∈ extra → base ≤ dl.AssetTypeGenerator
  Ready : ∃ extra, s1.GeneratorsReadyToAdvance = s.GeneratorsReadyToAdvance ++ extra
    ∧ ∀ G, G ∈ extra → base ≤ G

/-- What the body of `RefreshGeneratorDependencies` needs from the `AddPackage` it calls to
keep the ready queue settled. -/
def AddPackageSettles
    (addPackage : FName → FAssetGenerationProcessor →
      Except EAbort (EAddPackageResult × FAssetGenerationProcessor)) : Prop :=
  ∀ PackageName s r s1, addPackage PackageName s = .ok (r, s1) → s.ReadySettled →
    s1.ReadySettled ∧ FreshOnly s.Generators.length s s1

/-- The state `t` inside the loop of `RefreshGeneratorDependencies` for a newly built
generator `G`, where the refresh started in state `s`: the list allocated for `G` follows
the lists of `s`, and everything added since belongs to generators built after `G`. -/
structure RefreshPending (G : Nat) (s t : FAssetGenerationProcessor) : Prop where
  Settled : t.ReadySettled
  Store : G < t.Generators.length
  Grown : s.Generators.length ≤ t.Generators.length
  Lists : ∃ deps extra,
    t.DependencyLists
        = s.DependencyLists ++ { AssetTypeGenerator := G, PackageDependencies := deps } :: extra
    ∧ ∀ dl, dl ∈ extra → G < dl.AssetTypeGenerator
  Ready : ∃ extra, t.GeneratorsReadyToAdvance = s.GeneratorsReadyToAdvance ++ extra
    ∧ ∀ G1, G1 ∈ extra → G < G1

/-- The dump file of a package is present but yields no generator: it cannot be loaded, it
is not valid JSON, or no generator is registered for its asset class. -/
def FEnvironment.DumpUnusable (env : FEnvironment) (PackageName : FName) : Prop :=
  TMap.Find env.DumpFiles PackageName = some .unreadable
    ∨ TMap.Find env.DumpFiles PackageName = some .invalidJson
    ∨ ∃ root, TMap.Find env.DumpFiles PackageName = some (.json root)
        ∧ env.FindGeneratorForClass root.AssetClass = none

/-- A host whose dump directory holds the given file for one package, in which no asset
class has a generator and that package exists on disk (it is not loaded in memory). -/
def ExistingPackageEnvironment (PackageName : FName) (DumpFile : FDumpFile) : FEnvironment where
  DumpFiles := [(PackageName, DumpFile)]
  FindGeneratorForClass := fun _ => none
  PopulateStageDependencies := fun _ => []
  LoadPackage := fun _ => none
  FindPackage := fun _ => false
  DoesPackageExist := fun k => decide (k = PackageName)

/-- What `AddPackage` and `RefreshGeneratorDependencies` leave alone: the dependency lists
with an index below `n` are kept as they are, the store of lists only grows, and no ledger
bucket gains or loses a list with an index below `n`. -/
structure ListsKept (n : Nat) (s s1 : FAssetGenerationProcessor) : Prop where
  Kept : ∀ i, i < n → s1.DependencyLists[i]? = s.DependencyLists[i]?
  Length : s.DependencyLists.length ≤ s1.DependencyLists.length
  Buckets : ∀ k i, i < n →
    ((∃ b1, TMap.Find s1.PendingDependencies k = some b1 ∧ i ∈ b1)
      ↔ ∃ b, TMap.Find s.PendingDependencies k = some b ∧ i ∈ b)

/-- What the body of `RefreshGeneratorDependencies` needs from the `AddPackage` it calls to
keep the existing dependency lists. -/
def AddPackageKeeps
    (addPackage : FName → FAssetGenerationProcessor →
      Except EAbort (EAddPackageResult × FAssetGenerationProcessor)) : Prop :=
  ∀ PackageName s r s1, addPackage PackageName s = .ok (r, s1) →
    ListsKept s.DependencyLists.length s s1

/-- The state of the dependency scenario (packages `Pkg1` = 1 and `Pkg2` = 2, root list
`[1, 2]`, 4 generators per tick) after the discovery of the first tick: both generators are
built, the list of `Pkg1` (list 0) waits for `Pkg2` at `DATA_POPULATION`, and the generator of
`Pkg2` (object 1) is queued. -/
def DiscoveredScenario : FAssetGenerationProcessor :=
  { MaxAssetsToAdvancePerTick := 4
    PackagesToGenerate := [1, 2]
    NextPackageToGenerateIndex := 1
    bGenerationFinished := false
    bIsFirstTick := true
    AssetGenerators := [(1, 0), (2, 1)]
    PendingDependencies := [(2, [0])]
    GeneratorsReadyToAdvance := [1]
    AlreadyGeneratedPackages := []
    ExternalPackagesResolved := []
    KnownMissingPackages := []
    Generators := [FreshGenerator 1, FreshGenerator 2]
    DependencyLists :=
      [{ AssetTypeGenerator := 0, PackageDependencies := [(2, .DATA_POPULATION)] },
       { AssetTypeGenerator := 1, PackageDependencies := [] }]
    Trace := [.GeneratorConstructed 0 1, .GeneratorConstructed 1 2] }

/-- The discovered state of the dependency scenario with the generator of `Pkg2` (object 1)
moved to the given stage, as `AdvanceGenerationState` leaves it before the call of
`OnGeneratorStageAdvanced`. -/
def AdvancedScenario (Stage : EAssetGenerationStage) : FAssetGenerationProcessor :=
  { DiscoveredScenario with
    Generators := [FreshGenerator 1, { FreshGenerator 2 with CurrentStage := Stage }] }

/-- The name `NAME_None` of the engine name table (comparison index 0). -/
def NAME_None : FName := 0

/-- A class derived from `UAssetTypeGenerator` as the registry constructor sees it: the two
class flags it tests, and what the class default object answers to `GetAssetClass` and
`GetAdditionallyHandledAssetClasses`. -/
structure UClass where
  CLASS_Abstract : Bool
  CLASS_Native : Bool
  AssetClass : FName
  AdditionallyHandledAssetClasses : List FName
  deriving DecidableEq, Repr

/-- The first loop of the registry constructor (AssetTypeGenerator.cpp 139-154) over the
classes found by `GetDerivedClasses`, from the class with index `i` on: the class default
objects put into `OutFoundInitializers`. A class is referred to by its index in the list of
derived classes. -/
def FAssetTypeGeneratorRegistry.scan : Nat → List UClass → List (Nat × UClass)
  | _, [] => []
  | i, Class :: rest =>
    if Class.CLASS_Abstract then FAssetTypeGeneratorRegistry.scan (i + 1) rest
    else if !Class.CLASS_Native then FAssetTypeGeneratorRegistry.scan (i + 1) rest
    else if Class.AssetClass ≠ NAME_None then
      (i, Class) :: FAssetTypeGeneratorRegistry.scan (i + 1) rest
    else FAssetTypeGeneratorRegistry.scan (i + 1) rest

/-- The body of the second loop of the registry constructor (AssetTypeGenerator.cpp 158-162):
every additionally handled asset class of one generator is mapped to its class. -/
def FAssetTypeGeneratorRegistry.registerAdditional (Generators : List (FName × Nat))
    (Generator : Nat × UClass) : List (FName × Nat) :=
  Generator.2.AdditionallyHandledAssetClasses.foldl
    (fun m AssetClass => TMap.Add m AssetClass Generator.1) Generators

/-- The body of the third loop of the registry constructor (AssetTypeGenerator.cpp 167-168):
the asset class of one generator is mapped to its class. -/
def FAssetTypeGeneratorRegistry.registerPrimary (Generators : List (FName × Nat))
    (Generator : Nat × UClass) : List (FName × Nat) :=
  TMap.Add Generators Generator.2.AssetClass Generator.1

/-- The constructor `FAssetTypeGeneratorRegistry::FAssetTypeGeneratorRegistry`
(AssetTypeGenerator.cpp 133-170): the map `Generators` it builds from the derived classes. -/
def FAssetTypeGeneratorRegistry.Create (AssetGeneratorClasses : List UClass) :
    List (FName × Nat) :=
  let OutFoundInitializers := FAssetTypeGeneratorRegistry.scan 0 AssetGeneratorClasses
  let Generators :=
    OutFoundInitializers.foldl FAssetTypeGeneratorRegistry.registerAdditional []
  OutFoundInitializers.foldl FAssetTypeGeneratorRegistry.registerPrimary Generators

/-- Embedding of `UAssetTypeGenerator::FindGeneratorForClass` (AssetTypeGenerator.cpp 172-175) for
a registry built from the given derived classes; `none` is the `NULL` result. -/
def FindGeneratorForClass (AssetGeneratorClasses : List UClass) (AssetClass : FName) :
    Option Nat :=
  TMap.Find (FAssetTypeGeneratorRegistry.Create AssetGeneratorClasses) AssetClass

/-- The generator class takes part in the registry: it is native, not abstract, and its
class default object names an asset class. -/
def UClass.IsRegistered (Class : UClass) : Prop :=
  Class.CLASS_Abstract = false ∧ Class.CLASS_Native = true ∧ Class.AssetClass ≠ NAME_None
/-- Two native generator classes: class 0 has the primary asset class 5 and lists 7 and 9 as
additionally handled, class 1 has the primary asset class 7 and lists 5. -/
def ExampleGeneratorClasses : List UClass :=
  [{ CLASS_Abstract := false, CLASS_Native := true, AssetClass := 5,
     AdditionallyHandledAssetClasses := [7, 9] },
   { CLASS_Abstract := false, CLASS_Native := true, AssetClass := 7,
     AdditionallyHandledAssetClasses := [5] }]

/-! ## The enumeration generator (UserDefinedEnumGenerator.cpp)

The engine functions that this file calls are not among the sources; the embedding takes
them as follows.

* The comparison of two strings (`FString::operator!=`) and `FString::EndsWith`, which is
  called without a search case, ignore case. The folding of a character is the field
  `ToLower` of the host record `FEnumHost`.
* `FJsonObject::GetIntegerField` returns an `int32`. The conversion of the number of the
  dump is the field `GetIntegerField` of the host record: its values are in the range of
  `int32`, and a number in that range is returned as it is; what is returned for a number
  outside the range is up to the host. An enumeration value is an `int64` in the source and
  an integer here: the values that this generator hands to the host are in the range of
  `int32`, so the host stays within `int64` when it adds one to the largest of them.
* Two names (`FName`) are equal when their strings agree up to case, and the empty string
  makes the name `None`. A name is represented by its string (`FNameToString`), which keeps
  the case it was made with; two names are compared by their folded strings (`FNameKey`),
  also where they are the keys of a map (`FNameMap.Find`, `FNameMap.Add`). The name table of
  the engine, with its limit on the length of a name, is not modelled. -/

/-- A string of the host, `FString`. -/
abbrev FString := String

/-- The functions of the engine that the enumeration generator relies on. -/
structure FEnumHost where
  /-- The folding of a character in the comparisons that ignore case (`Stricmp`). -/
  ToLower : Char → Char
  /-- The `int32` that `FJsonObject::GetIntegerField` returns for a number of the dump. -/
  GetIntegerField : Int → Int
  /-- The values of `GetIntegerField` are in the range of `int32`. -/
  GetIntegerField_int32 : ∀ Number : Int,
    -2147483648 ≤ GetIntegerField Number ∧ GetIntegerField Number ≤ 2147483647
  /-- A number in the range of `int32` is returned as it is. -/
  GetIntegerField_exact : ∀ Number : Int,
    -2147483648 ≤ Number → Number ≤ 2147483647 → GetIntegerField Number = Number

/-- A host for closed examples: the letters `A` to `Z` are folded to `a` to `z`, and a number
outside the range of `int32` is converted to the least `int32`, which is what the conversion
instruction of x86-64 yields. -/
def EditorHost : FEnumHost where
  ToLower := Char.toLower
  GetIntegerField Number :=
    if -2147483648 ≤ Number ∧ Number ≤ 2147483647 then Number else -2147483648
  GetIntegerField_int32 := by
    intro Number
    dsimp only
    split <;> omega
  GetIntegerField_exact := by
    intro Number h1 h2
    simp [h1, h2]

/-- The string with every character folded: two strings agree up to case exactly when their
folded strings are equal. -/
def FString.ToLower (host : FEnumHost) (s : FString) : FString :=
  String.mk (s.data.map host.ToLower)

/-- Embedding of `FString::operator!=`: the comparison `Stricmp`, which ignores case, finds a
difference. -/
def FString.NotEqual (host : FEnumHost) (Lhs Rhs : FString) : Bool :=
  decide (FString.ToLower host Lhs ≠ FString.ToLower host Rhs)

/-- Embedding of `FString::EndsWith` with the default search case `ESearchCase::IgnoreCase`:
false for an empty suffix, otherwise the comparison, ignoring case, of the suffix with the end
of the string of the same length. -/
def FString.EndsWith (host : FEnumHost) (s InSuffix : FString) : Bool :=
  !InSuffix.data.isEmpty
    && (FString.ToLower host InSuffix).data.isSuffixOf (FString.ToLower host s).data

/-- The string of the name made from a string, `FName(*String).ToString()`: the string
itself, and `None` for the empty string. -/
def FNameToString (Name : FString) : FString :=
  if Name = "" then "None" else Name

/-- The comparison key of the name made from a string, `FName(*String)`: two names are equal
(`FName::operator==`) exactly when their keys are. -/
def FNameKey (host : FEnumHost) (Name : FString) : FString :=
  FString.ToLower host (FNameToString Name)

/-- Lookup `TMap::Find` in a map whose keys are names: the value stored under the name made
from the string `Name`, if any. -/
def FNameMap.Find (host : FEnumHost) : List (FString × FString) → FString → Option FString
  | [], _ => none
  | (k, v) :: rest, Name =>
    if FNameKey host k = FNameKey host Name then some v else FNameMap.Find host rest Name

/-- Insertion `TMap::Add` in a map whose keys are names: the pair of the name made from the
string `Name` and the value replaces the pair of an equal name, otherwise it is appended. -/
def FNameMap.Add (host : FEnumHost) :
    List (FString × FString) → FString → FString → List (FString × FString)
  | [], Name, v => [(FNameToString Name, v)]
  | (k, w) :: rest, Name, v =>
    if FNameKey host k = FNameKey host Name then (FNameToString Name, v) :: rest
    else (k, w) :: FNameMap.Add host rest Name v

/-- An element of the array `Names` of the dump: the fields `Name` and `Value`. -/
structure FEnumNamePair where
  Name : FString
  Value : Int
  deriving DecidableEq, Repr

/-- An element of the array `DisplayNameMap` of the dump: the fields `Name` and
`DisplayName`. -/
structure FEnumDisplayNamePair where
  Name : FString
  DisplayName : FString
  deriving DecidableEq, Repr

/-- The fields of the asset data (`GetAssetData()`) that the enumeration generator reads. -/
structure FEnumAssetData where
  Names : List FEnumNamePair
  DisplayNameMap : List FEnumDisplayNamePair
  deriving DecidableEq, Repr

/-- The calls that change the host enumeration object (instrumentation); a name is recorded
by its string. -/
inductive EEnumCall where
  | SetEnums (InNames : List (FString × Int))
  | DisplayNameMapEmpty
  | DisplayNameMapAdd (Name : FString) (DisplayName : FString)
  deriving DecidableEq, Repr

/-- The host object `UUserDefinedEnum`: its entries `Names` (the string of the name and the
value, in order) and its `DisplayNameMap` (the string of the name and the text).
`MaxEnumItem` is the name the host gives to the `_MAX` entry of this enumeration (it is
derived from the name of the object); `Calls` is instrumentation. -/
structure UUserDefinedEnum where
  MaxEnumItem : FString
  Names : List (FString × Int)
  DisplayNameMap : List (FString × FString)
  Calls : List EEnumCall
  deriving DecidableEq, Repr

/-- The ways the enumeration generator can abort the program. -/
inductive EEnumAbort where
  /-- The range check of `Names.Last()` on an empty array (line 39). -/
  | emptyNames
  /-- The `check` of line 40: the name of the last entry does not end with `_MAX`. -/
  | lastNameWithoutMax
  /-- The `check` of line 51: the value of the last entry is not the maximal value. -/
  | maxValueMismatch
  /-- The `FindObjectChecked` of line 18 found no enumeration. -/
  | objectNotFound
  deriving DecidableEq, Repr

/-- Host model of `UEnum::GetMaxEnumValue`: the largest value of the entries, 0 for an
enumeration without entries. -/
def UUserDefinedEnum.GetMaxEnumValue (Enum : UUserDefinedEnum) : Int :=
  match Enum.Names with
  | [] => 0
  | Entry :: rest => rest.foldl (fun MaxValue e => max MaxValue e.2) Entry.2

/-- Host model of `UUserDefinedEnum::SetEnums` with `bAddMaxKeyIfMissing` set: the given
pairs are stored in order and the `_MAX` entry is appended, with the value 0 when no pair is
given and the largest value plus one otherwise. -/
def UUserDefinedEnum.SetEnums (Enum : UUserDefinedEnum) (InNames : List (FString × Int)) :
    UUserDefinedEnum :=
  let MaxEnumValue :=
    if InNames.length = 0 then 0 else ({ Enum with Names := InNames }).GetMaxEnumValue + 1
  { Enum with
    Names := InNames ++ [(Enum.MaxEnumItem, MaxEnumValue)]
    Calls := Enum.Calls ++ [.SetEnums InNames] }

/-- The first loop of `PopulateEnumWithData` (UserDefinedEnumGenerator.cpp 42-48): the pairs
made of the first `n` entries of `Names`; the name of a pair is the name made from the field
`Name` (line 47), its value the `int32` read from the field `Value` (line 45). -/
def PopulateEnumWithData.ResultEnumNames (host : FEnumHost) :
    Nat → List FEnumNamePair → List (FString × Int)
  | 0, _ => []
  | _, [] => []
  | n + 1, PairObject :: rest =>
    (FNameToString PairObject.Name, host.GetIntegerField PairObject.Value)
      :: PopulateEnumWithData.ResultEnumNames host n rest

/-- The second loop of `PopulateEnumWithData` (UserDefinedEnumGenerator.cpp 54-60): the
display name is added under the name made from the field `Name`. -/
def PopulateEnumWithData.displayNames (host : FEnumHost) (Enum : UUserDefinedEnum) :
    List FEnumDisplayNamePair → UUserDefinedEnum
  | [] => Enum
  | PairObject :: rest =>
    PopulateEnumWithData.displayNames host
      { Enum with
        DisplayNameMap :=
          FNameMap.Add host Enum.DisplayNameMap PairObject.Name PairObject.DisplayName
        Calls := Enum.Calls
          ++ [.DisplayNameMapAdd (FNameToString PairObject.Name) PairObject.DisplayName] }
      rest

/-- Embedding of `UUserDefinedEnumGenerator::PopulateEnumWithData`
(UserDefinedEnumGenerator.cpp 32-61). -/
def PopulateEnumWithData (host : FEnumHost) (AssetData : FEnumAssetData)
    (Enum : UUserDefinedEnum) : Except EEnumAbort UUserDefinedEnum :=
  match AssetData.Names.getLast? with
  | none => .error .emptyNames
  | some LastNamePair =>
    if !(FString.EndsWith host LastNamePair.Name "_MAX") then .error .lastNameWithoutMax
    else
      let ResultEnumNames :=
        PopulateEnumWithData.ResultEnumNames host (AssetData.Names.length - 1) AssetData.Names
      let Enum1 := Enum.SetEnums ResultEnumNames
      if host.GetIntegerField LastNamePair.Value ≠ Enum1.GetMaxEnumValue then
        .error .maxValueMismatch
      else .ok (PopulateEnumWithData.displayNames host Enum1 AssetData.DisplayNameMap)

/-- The first loop of `IsEnumerationUpToDate` (UserDefinedEnumGenerator.cpp 72-82) from index
`i` on, over the entries of `Names` that are left. After the comparison of the counts in
line 67 the index is always one of an existing entry; for an index without an entry the
model returns false. -/
def IsEnumerationUpToDate.names (host : FEnumHost) (Enum : UUserDefinedEnum) :
    Nat → List FEnumNamePair → Bool
  | _, [] => true
  | i, PairObject :: rest =>
    let Name := PairObject.Name
    let Value := host.GetIntegerField PairObject.Value
    match Enum.Names[i]? with
    | none => false
    | some (ExistingName, ExistingValue) =>
      if FString.NotEqual host ExistingName Name ∨ ExistingValue ≠ Value then false
      else IsEnumerationUpToDate.names host Enum (i + 1) rest

/-- The second loop of `IsEnumerationUpToDate` (UserDefinedEnumGenerator.cpp 84-94). -/
def IsEnumerationUpToDate.displayNames (host : FEnumHost) (Enum : UUserDefinedEnum) :
    List FEnumDisplayNamePair → Bool
  | [] => true
  | PairObject :: rest =>
    match FNameMap.Find host Enum.DisplayNameMap PairObject.Name with
    | none => false
    | some ExistingDisplayName =>
      if FString.NotEqual host ExistingDisplayName PairObject.DisplayName then false
      else IsEnumerationUpToDate.displayNames host Enum rest

/-- Embedding of `UUserDefinedEnumGenerator::IsEnumerationUpToDate`
(UserDefinedEnumGenerator.cpp 63-96). -/
def IsEnumerationUpToDate (host : FEnumHost) (AssetData : FEnumAssetData)
    (Enum : UUserDefinedEnum) : Bool :=
  if Enum.Names.length ≠ AssetData.Names.length
      ∨ Enum.DisplayNameMap.length ≠ AssetData.DisplayNameMap.length then false
  else if !IsEnumerationUpToDate.names host Enum 0 AssetData.Names then false
  else IsEnumerationUpToDate.displayNames host Enum AssetData.DisplayNameMap

/-- Embedding of `UUserDefinedEnumGenerator::OnExistingPackageLoaded`
(UserDefinedEnumGenerator.cpp 17-30); the argument is what `FindObjectChecked` finds in the
asset package. -/
def OnExistingPackageLoaded (host : FEnumHost) (AssetData : FEnumAssetData)
    (FindObject : Option UUserDefinedEnum) : Except EEnumAbort UUserDefinedEnum :=
  match FindObject with
  | none => .error .objectNotFound
  | some ExistingEnum =>
    if !IsEnumerationUpToDate host AssetData ExistingEnum then
      let Enum1 := ExistingEnum.SetEnums []
      let Enum2 := { Enum1 with
        DisplayNameMap := []
        Calls := Enum1.Calls ++ [.DisplayNameMapEmpty] }
      PopulateEnumWithData host AssetData Enum2
    else .ok ExistingEnum

/-- Embedding of `UUserDefinedEnumGenerator::CreateAssetPackage`
(UserDefinedEnumGenerator.cpp 5-15): the enumeration object of the new package. `MaxEnumItem`
is the name the host derives for the `_MAX` entry of the new object; the meta data set in
line 11 is not modelled. -/
def CreateAssetPackage (host : FEnumHost) (AssetData : FEnumAssetData)
    (MaxEnumItem : FString) : Except EEnumAbort UUserDefinedEnum :=
  let NewEnum : UUserDefinedEnum :=
    { MaxEnumItem := MaxEnumItem, Names := [], DisplayNameMap := [], Calls := [] }
  PopulateEnumWithData host AssetData (NewEnum.SetEnums [])

/-- The dump of the enumeration scenario: `Names = [{A, 0}, {A_MAX, 1}]` and no display
names. -/
def EnumADump : FEnumAssetData :=
  { Names := [{ Name := "A", Value := 0 }, { Name := "A_MAX", Value := 1 }]
    DisplayNameMap := [] }

/-- The dump `Names = [{A, 0}, {A_MAX, 1}]` with the display name `Alpha` for `A`. -/
def EnumAlphaDump : FEnumAssetData :=
  { Names := [{ Name := "A", Value := 0 }, { Name := "A_MAX", Value := 1 }]
    DisplayNameMap := [{ Name := "A", DisplayName := "Alpha" }] }

/-- A dump whose last name ends with `_max` in lower case: `Names = [{A, 0}, {a_max, 1}]`. -/
def EnumLowerCaseMaxDump : FEnumAssetData :=
  { Names := [{ Name := "A", Value := 0 }, { Name := "a_max", Value := 1 }]
    DisplayNameMap := [] }

/-- A dump with a value outside the range of `int32`:
`Names = [{A, 4294967296}, {A_MAX, 4294967297}]`. -/
def EnumWideValueDump : FEnumAssetData :=
  { Names := [{ Name := "A", Value := 4294967296 }, { Name := "A_MAX", Value := 4294967297 }]
    DisplayNameMap := [] }

/-- A dump that passes the assertions of `PopulateEnumWithData` and names the entry `A` twice
in its array `DisplayNameMap`. -/
def EnumDuplicateDisplayNameDump : FEnumAssetData :=
  { Names := [{ Name := "A", Value := 0 }, { Name := "A_MAX", Value := 1 }]
    DisplayNameMap :=
      [{ Name := "A", DisplayName := "First" }, { Name := "A", DisplayName := "First" }] }

/-- A dump that passes the assertions of `PopulateEnumWithData` and whose array
`DisplayNameMap` has the names `A` and `a`, which are one name for the host. -/
def EnumCaseDuplicateDisplayNameDump : FEnumAssetData :=
  { Names := [{ Name := "A", Value := 0 }, { Name := "A_MAX", Value := 1 }]
    DisplayNameMap :=
      [{ Name := "A", DisplayName := "First" }, { Name := "a", DisplayName := "First" }] }

/-- The dump set of the two-dependencies scenario: `Pkg1` declares dependencies on `Pkg2` and
on `Pkg3`, both at `DATA_POPULATION`; `Pkg2` and `Pkg3` declare none. -/
def TwoDependenciesEnvironment (Pkg1 Pkg2 Pkg3 : FName) : FEnvironment :=
  DumpEnvironment [DumpOf Pkg1, DumpOf Pkg2, DumpOf Pkg3]
    (fun g => if g.PackageName = Pkg1 then
        [{ PackageName := Pkg2, State := .DATA_POPULATION },
         { PackageName := Pkg3, State := .DATA_POPULATION }]
      else [])

/-- The dump set of the repeated-dependency scenario: `Pkg1` declares its dependency on `Pkg2`
at `DATA_POPULATION` twice; `Pkg2` declares none. -/
def RepeatedDependencyEnvironment (Pkg1 Pkg2 : FName) : FEnvironment :=
  DumpEnvironment [DumpOf Pkg1, DumpOf Pkg2]
    (fun g => if g.PackageName = Pkg1 then
        [{ PackageName := Pkg2, State := .DATA_POPULATION },
         { PackageName := Pkg2, State := .DATA_POPULATION }]
      else [])

/-- The distinct package names that have a dump file. -/
def FEnvironment.DumpedPackages (env : FEnvironment) : List FName :=
  (TMap.Keys env.DumpFiles).dedup

/-- The number of distinct package names with a dump file that the scheduler has not touched
yet. -/
def FEnvironment.UntouchedPackages (env : FEnvironment) (s : FAssetGenerationProcessor) : Nat :=
  (env.DumpedPackages.filter (fun k => s.IsUntouched k)).length

/-- The dump set of the self-dependency scenario: package `A` declares a dependency on itself
at `DATA_POPULATION`. -/
def SelfDependencyEnvironment (A : FName) : FEnvironment :=
  DumpEnvironment [DumpOf A] (fun _ => [{ PackageName := A, State := .DATA_POPULATION }])

/-- The generator object is the value of a binding of the in-flight map. -/
def FAssetGenerationProcessor.IsBound (s : FAssetGenerationProcessor) (Generator : Nat) : Prop :=
  ∃ PackageName, TMap.Find s.AssetGenerators PackageName = some Generator

/-- Some generator of the in-flight map is not in the ready queue. -/
def FAssetGenerationProcessor.IsStuck (s : FAssetGenerationProcessor) : Prop :=
  ∃ Generator, s.IsBound Generator ∧ Generator ∉ s.GeneratorsReadyToAdvance

/-- The ledger refers to in-flight generators only: every bucket is kept under the name of an
in-flight package, and a dependency list that still holds a dependency belongs to a generator
of the in-flight map. -/
structure FAssetGenerationProcessor.LedgerBound (s : FAssetGenerationProcessor) : Prop where
  Keys : ∀ PackageName, PackageName ∈ TMap.Keys s.PendingDependencies → s.IsInFlight PackageName
  Owners : ∀ dl, dl ∈ s.DependencyLists → dl.PackageDependencies ≠ [] →
    s.IsBound dl.AssetTypeGenerator

/-- The ready queue holds generators of the in-flight map, each at most once. -/
structure FAssetGenerationProcessor.QueueBound (s : FAssetGenerationProcessor) : Prop where
  Nodup : s.GeneratorsReadyToAdvance.Nodup
  Bound : ∀ G, G ∈ s.GeneratorsReadyToAdvance → s.IsBound G

/-- What the body of `RefreshGeneratorDependencies` needs from the `AddPackage` it calls to
keep the ledger and the ready queue bound to the in-flight map. -/
def AddPackageBinds
    (addPackage : FName → FAssetGenerationProcessor →
      Except EAbort (EAddPackageResult × FAssetGenerationProcessor)) : Prop :=
  ∀ PackageName s r s1, addPackage PackageName s = .ok (r, s1) → s.ReadySettled →
    s.LedgerBound → s.QueueBound → s1.LedgerBound ∧ s1.QueueBound

/-- What the notification loop of `OnGeneratorStageAdvanced` (lines 66-93) changes: nothing
but the ledger, the remaining maps of the dependency lists and the ready queue. No bucket is
created, no dependency list gains an entry or changes its owner, and the queue is left alone
when no dependency list holds a dependency. -/
structure FrameLedger (s s1 : FAssetGenerationProcessor) : Prop where
  AssetGenerators : s1.AssetGenerators = s.AssetGenerators
  Generated : s1.AlreadyGeneratedPackages = s.AlreadyGeneratedPackages
  External : s1.ExternalPackagesResolved = s.ExternalPackagesResolved
  Missing : s1.KnownMissingPackages = s.KnownMissingPackages
  Generators : s1.Generators = s.Generators
  Trace : s1.Trace = s.Trace
  Next : s1.NextPackageToGenerateIndex = s.NextPackageToGenerateIndex
  Finished : s1.bGenerationFinished = s.bGenerationFinished
  FirstTick : s1.bIsFirstTick = s.bIsFirstTick
  Packages : s1.PackagesToGenerate = s.PackagesToGenerate
  MaxAssets : s1.MaxAssetsToAdvancePerTick = s.MaxAssetsToAdvancePerTick
  Length : s1.DependencyLists.length = s.DependencyLists.length
  Lists : ∀ (i : Nat) (dl1 : FDependencyList), s1.DependencyLists[i]? = some dl1 →
    ∃ dl : FDependencyList, s.DependencyLists[i]? = some dl ∧ dl1.AssetTypeGenerator = dl.AssetTypeGenerator
      ∧ dl1.PackageDependencies.length ≤ dl.PackageDependencies.length
  Keys : ∀ k, k ∈ TMap.Keys s1.PendingDependencies → k ∈ TMap.Keys s.PendingDependencies
  Quiet : (∀ dl, dl ∈ s.DependencyLists → dl.PackageDependencies = []) →
    s1.GeneratorsReadyToAdvance = s.GeneratorsReadyToAdvance

/-- The invariant of a run driven by ticks, at loop index `i` of the advance loop (`i = 0`
between ticks): the bookkeeping invariant, the settled ready queue, the ledger bound to the
in-flight map, and either some in-flight generator is not queued, or the queue holds no
generator twice and its entries from index `i` on are generators of the in-flight map. -/
structure FAssetGenerationProcessor.Scheduled (s : FAssetGenerationProcessor) (i : Nat) :
    Prop where
  Consistent : s.Consistent
  Settled : s.ReadySettled
  Ledger : s.LedgerBound
  Queue : s.IsStuck ∨ (s.GeneratorsReadyToAdvance.Nodup
    ∧ ∀ (j G : Nat), i ≤ j → s.GeneratorsReadyToAdvance[j]? = some G → s.IsBound G)
/-- The dump set of the missing-dependency scenario: `Pkg1` has a dump file and declares a
dependency on `Pkg2` at `DATA_POPULATION`; `Pkg2` has no dump file and exists nowhere. -/
def MissingDependencyEnvironment (Pkg1 Pkg2 : FName) : FEnvironment :=
  DumpEnvironment [DumpOf Pkg1]
    (fun g => if g.PackageName = Pkg1 then [{ PackageName := Pkg2, State := .DATA_POPULATION }]
      else [])

/-- A processor in which the generator of one package has been constructed and registered in
the in-flight map, as `InitializeAssetGeneratorInternal` leaves it before the call of
`RefreshGeneratorDependencies`. -/
def RegisteredScenario (PackageName : FName) : FAssetGenerationProcessor :=
  { FAssetGenerationProcessor.Create 4 [PackageName] with
    Generators := [FreshGenerator PackageName]
    AssetGenerators := [(PackageName, 0)] }

/-! ## The asset dump tree (AssetDumpViewWidget.h / AssetDumpViewWidget.cpp) -/

/-- The record `FAssetDumpTreeNode` (AssetDumpViewWidget.h 4-27). The nodes owned through
the shared pointers of `Children` are the elements of the list. The weak `ParentNode` pointer
is not stored: the function that reads it takes what `ParentNode.Pin()` gives as an
argument. -/
inductive FAssetDumpTreeNode where
  | mk (RootDirectory : FString) (bIsLeafNode : Bool) (DiskPackagePath : FString)
      (PackageName : FString) (NodeName : FString) (bIsChecked : Bool)
      (bIsOverridingParentState : Bool) (bChildrenNodesInitialized : Bool)
      (Children : List FAssetDumpTreeNode)

/-- Field `RootDirectory`. -/
def FAssetDumpTreeNode.RootDirectory : FAssetDumpTreeNode → FString
  | .mk RootDirectory _ _ _ _ _ _ _ _ => RootDirectory

/-- Field `bIsLeafNode`. -/
def FAssetDumpTreeNode.bIsLeafNode : FAssetDumpTreeNode → Bool
  | .mk _ bIsLeafNode _ _ _ _ _ _ _ => bIsLeafNode

/-- Field `DiskPackagePath`. -/
def FAssetDumpTreeNode.DiskPackagePath : FAssetDumpTreeNode → FString
  | .mk _ _ DiskPackagePath _ _ _ _ _ _ => DiskPackagePath

/-- Field `PackageName`. -/
def FAssetDumpTreeNode.PackageName : FAssetDumpTreeNode → FString
  | .mk _ _ _ PackageName _ _ _ _ _ => PackageName

/-- Field `NodeName`. -/
def FAssetDumpTreeNode.NodeName : FAssetDumpTreeNode → FString
  | .mk _ _ _ _ NodeName _ _ _ _ => NodeName

/-- Field `bIsChecked`, read by `IsChecked()`. -/
def FAssetDumpTreeNode.bIsChecked : FAssetDumpTreeNode → Bool
  | .mk _ _ _ _ _ bIsChecked _ _ _ => bIsChecked

/-- Field `bIsOverridingParentState`. -/
def FAssetDumpTreeNode.bIsOverridingParentState : FAssetDumpTreeNode → Bool
  | .mk _ _ _ _ _ _ bIsOverridingParentState _ _ => bIsOverridingParentState

/-- Field `bChildrenNodesInitialized`. -/
def FAssetDumpTreeNode.bChildrenNodesInitialized : FAssetDumpTreeNode → Bool
  | .mk _ _ _ _ _ _ _ bChildrenNodesInitialized _ => bChildrenNodesInitialized

/-- Field `Children`. -/
def FAssetDumpTreeNode.Children : FAssetDumpTreeNode → List FAssetDumpTreeNode
  | .mk _ _ _ _ _ _ _ _ Children => Children

/-- The host services the tree uses: the directory listing of `IterateDirectory` (entry and
whether it is a directory, in listing order), `FPaths::GetExtension`, the string pipeline of
`SetupPackageNameFromDiskPath` from the root directory and the disk path to the sanitised
package name, and `FPackageName::GetShortName`. -/
structure FPlatformFile where
  IterateDirectory : FString → List (FString × Bool)
  GetExtension : FString → FString
  SanitizePackageName : FString → FString → FString
  GetShortName : FString → FString

/-- Embedding of the constructor `FAssetDumpTreeNode::FAssetDumpTreeNode`
(AssetDumpViewWidget.cpp 4-9). -/
def FAssetDumpTreeNode.Create : FAssetDumpTreeNode :=
  .mk "" false "" "" "" false false false []

/-- Embedding of `FAssetDumpTreeNode::MakeChildNode` (AssetDumpViewWidget.cpp 11-19): the new
node, which takes the root directory and the checked state of its parent; the caller appends
it to `Children` once its fields are set. -/
def FAssetDumpTreeNode.MakeChildNode (this : FAssetDumpTreeNode) : FAssetDumpTreeNode :=
  match FAssetDumpTreeNode.Create with
  | .mk _ bIsLeafNode DiskPackagePath PackageName NodeName _ bIsOverridingParentState
      bChildrenNodesInitialized Children =>
    .mk this.RootDirectory bIsLeafNode DiskPackagePath PackageName NodeName this.bIsChecked
      bIsOverridingParentState bChildrenNodesInitialized Children

/-- Embedding of `FAssetDumpTreeNode::SetupPackageNameFromDiskPath`
(AssetDumpViewWidget.cpp 21-39). -/
def FAssetDumpTreeNode.SetupPackageNameFromDiskPath (host : FPlatformFile) :
    FAssetDumpTreeNode → FAssetDumpTreeNode
  | .mk RootDirectory bIsLeafNode DiskPackagePath _ _ bIsChecked bIsOverridingParentState
      bChildrenNodesInitialized Children =>
    let PackageNameNew := host.SanitizePackageName RootDirectory DiskPackagePath
    .mk RootDirectory bIsLeafNode DiskPackagePath PackageNameNew (host.GetShortName PackageNameNew)
      bIsChecked bIsOverridingParentState bChildrenNodesInitialized Children

/-- One child built by the loops of `RegenerateChildren` (AssetDumpViewWidget.cpp 59-72). -/
def FAssetDumpTreeNode.RegenerateChildren.child (host : FPlatformFile)
    (this : FAssetDumpTreeNode) (bIsLeafNode : Bool) (DiskPackagePath : FString) :
    FAssetDumpTreeNode :=
  match this.MakeChildNode with
  | .mk RootDirectory _ _ PackageName NodeName bIsChecked bIsOverridingParentState
      bChildrenNodesInitialized Children =>
    FAssetDumpTreeNode.SetupPackageNameFromDiskPath host
      (.mk RootDirectory bIsLeafNode DiskPackagePath PackageName NodeName bIsChecked
        bIsOverridingParentState bChildrenNodesInitialized Children)

/-- Embedding of `FAssetDumpTreeNode::RegenerateChildren` (AssetDumpViewWidget.cpp 41-74):
directory nodes first, then the nodes of the `json` files. -/
def FAssetDumpTreeNode.RegenerateChildren (host : FPlatformFile) (this : FAssetDumpTreeNode) :
    FAssetDumpTreeNode :=
  if this.bIsLeafNode then this
  else
    let Entries := host.IterateDirectory this.DiskPackagePath
    let ChildDirectoryNames := (Entries.filter (fun e => e.2)).map (fun e => e.1)
    let ChildFilenames :=
      (Entries.filter (fun e => !e.2 && host.GetExtension e.1 = "json")).map (fun e => e.1)
    match this with
    | .mk RootDirectory bIsLeafNode DiskPackagePath PackageName NodeName bIsChecked
        bIsOverridingParentState bChildrenNodesInitialized Children =>
      .mk RootDirectory bIsLeafNode DiskPackagePath PackageName NodeName bIsChecked
        bIsOverridingParentState bChildrenNodesInitialized
        (Children
          ++ ChildDirectoryNames.map (FAssetDumpTreeNode.RegenerateChildren.child host this false)
          ++ ChildFilenames.map (FAssetDumpTreeNode.RegenerateChildren.child host this true))

mutual
/-- Embedding of `FAssetDumpTreeNode::UpdateSelectedState` (AssetDumpViewWidget.cpp 84-107).
`ParentNodePinned` is what `ParentNode.Pin()` yields: the checked state of the parent while
it is alive, `none` otherwise. -/
def FAssetDumpTreeNode.UpdateSelectedState (ParentNodePinned : Option Bool)
    (bIsCheckedNew bIsSetByParent : Bool) : FAssetDumpTreeNode → FAssetDumpTreeNode
  | .mk RootDirectory bIsLeafNode DiskPackagePath PackageName NodeName _ _
      bChildrenNodesInitialized Children =>
    let bIsOverridingParentState :=
      if bIsSetByParent then false
      else
        let bIsParentChecked :=
          match ParentNodePinned with
          | some bIsChecked => bIsChecked
          | none => false
        if bIsParentChecked = bIsCheckedNew then false else true
    .mk RootDirectory bIsLeafNode DiskPackagePath PackageName NodeName bIsCheckedNew
      bIsOverridingParentState bChildrenNodesInitialized
      (FAssetDumpTreeNode.UpdateSelectedState.children bIsCheckedNew Children)
/-- The loop over `Children` in `UpdateSelectedState` (AssetDumpViewWidget.cpp 104-106): each
child is updated with `bIsSetByParent = true`; its parent is alive and has the new state. -/
def FAssetDumpTreeNode.UpdateSelectedState.children (bIsCheckedNew : Bool) :
    List FAssetDumpTreeNode → List FAssetDumpTreeNode
  | [] => []
  | ChildNode :: rest =>
    FAssetDumpTreeNode.UpdateSelectedState (some bIsCheckedNew) bIsCheckedNew true ChildNode
      :: FAssetDumpTreeNode.UpdateSelectedState.children bIsCheckedNew rest
end

/-- The loop over `Children` in `PopulateGeneratedPackages` (AssetDumpViewWidget.cpp
126-128) over the function called for each child. -/
def FAssetDumpTreeNode.PopulateGeneratedPackages.children
    (populate : FAssetDumpTreeNode → List FString → Option (FAssetDumpTreeNode × List FString)) :
    List FAssetDumpTreeNode → List FString → Option (List FAssetDumpTreeNode × List FString)
  | [], OutPackageNames => some ([], OutPackageNames)
  | ChildNode :: rest, OutPackageNames =>
    match populate ChildNode OutPackageNames with
    | none => none
    | some (ChildNode1, OutPackageNames1) =>
      match FAssetDumpTreeNode.PopulateGeneratedPackages.children populate rest
          OutPackageNames1 with
      | none => none
      | some (rest1, OutPackageNames2) => some (ChildNode1 :: rest1, OutPackageNames2)

/-- Embedding of `FAssetDumpTreeNode::PopulateGeneratedPackages`
(AssetDumpViewWidget.cpp 109-130): the node as the call leaves it and the output array. A
package name added to the array of `FName` is represented by its string. The first argument
bounds the depth of the recursion, which follows directories listed by the host; `none` is
the exhausted bound. -/
def FAssetDumpTreeNode.PopulateGeneratedPackages (host : FPlatformFile) :
    Nat → FAssetDumpTreeNode → List FString → Option (FAssetDumpTreeNode × List FString)
  | 0, _, _ => none
  | fuel + 1, this, OutPackageNames =>
    if this.bIsLeafNode then
      if this.bIsChecked then some (this, OutPackageNames ++ [this.PackageName])
      else some (this, OutPackageNames)
    else
      let this1 :=
        if !this.bChildrenNodesInitialized then
          FAssetDumpTreeNode.RegenerateChildren host
            (.mk this.RootDirectory this.bIsLeafNode this.DiskPackagePath this.PackageName
              this.NodeName this.bIsChecked this.bIsOverridingParentState true this.Children)
        else this
      match FAssetDumpTreeNode.PopulateGeneratedPackages.children
          (FAssetDumpTreeNode.PopulateGeneratedPackages host fuel) this1.Children
          OutPackageNames with
      | none => none
      | some (Children1, OutPackageNames1) =>
        some (.mk this1.RootDirectory this1.bIsLeafNode this1.DiskPackagePath this1.PackageName
          this1.NodeName this1.bIsChecked this1.bIsOverridingParentState
          this1.bChildrenNodesInitialized Children1, OutPackageNames1)

mutual
/-- The node and all nodes below it, in depth-first order of the children lists. -/
def FAssetDumpTreeNode.Subtree : FAssetDumpTreeNode → List FAssetDumpTreeNode
  | .mk RootDirectory bIsLeafNode DiskPackagePath PackageName NodeName bIsChecked
      bIsOverridingParentState bChildrenNodesInitialized Children =>
    .mk RootDirectory bIsLeafNode DiskPackagePath PackageName NodeName bIsChecked
        bIsOverridingParentState bChildrenNodesInitialized Children
      :: FAssetDumpTreeNode.Subtree.children Children
/-- The nodes of the subtrees of a children list. -/
def FAssetDumpTreeNode.Subtree.children : List FAssetDumpTreeNode → List FAssetDumpTreeNode
  | [] => []
  | ChildNode :: rest =>
    FAssetDumpTreeNode.Subtree ChildNode ++ FAssetDumpTreeNode.Subtree.children rest
end

/-- The strict descendants of a node. -/
def FAssetDumpTreeNode.Descendants (this : FAssetDumpTreeNode) : List FAssetDumpTreeNode :=
  FAssetDumpTreeNode.Subtree.children this.Children

mutual
/-- The leaf nodes reached from a node through the children lists of directory nodes, in
depth-first order. -/
def FAssetDumpTreeNode.Leaves : FAssetDumpTreeNode → List FAssetDumpTreeNode
  | .mk RootDirectory bIsLeafNode DiskPackagePath PackageName NodeName bIsChecked
      bIsOverridingParentState bChildrenNodesInitialized Children =>
    if bIsLeafNode then
      [.mk RootDirectory bIsLeafNode DiskPackagePath PackageName NodeName bIsChecked
        bIsOverridingParentState bChildrenNodesInitialized Children]
    else FAssetDumpTreeNode.Leaves.children Children
/-- The leaf nodes reached from the nodes of a children list. -/
def FAssetDumpTreeNode.Leaves.children : List FAssetDumpTreeNode → List FAssetDumpTreeNode
  | [] => []
  | ChildNode :: rest =>
    FAssetDumpTreeNode.Leaves ChildNode ++ FAssetDumpTreeNode.Leaves.children rest
end

/-- The package names of the checked leaf nodes of a tree, in depth-first order of the
children lists. -/
def FAssetDumpTreeNode.CheckedPackages (this : FAssetDumpTreeNode) : List FString :=
  (this.Leaves.filter (fun n => n.bIsChecked)).map (fun n => n.PackageName)

mutual
/-- Every directory node reached from the node has its children initialised. -/
def FAssetDumpTreeNode.ChildrenInitialized : FAssetDumpTreeNode → Bool
  | .mk _ bIsLeafNode _ _ _ _ _ bChildrenNodesInitialized Children =>
    bIsLeafNode
      || (bChildrenNodesInitialized && FAssetDumpTreeNode.ChildrenInitialized.children Children)
/-- Every directory node reached from a children list has its children initialised. -/
def FAssetDumpTreeNode.ChildrenInitialized.children : List FAssetDumpTreeNode → Bool
  | [] => true
  | ChildNode :: rest =>
    FAssetDumpTreeNode.ChildrenInitialized ChildNode
      && FAssetDumpTreeNode.ChildrenInitialized.children rest
end

mutual
/-- The number of directory levels below a node. -/
def FAssetDumpTreeNode.Height : FAssetDumpTreeNode → Nat
  | .mk _ bIsLeafNode _ _ _ _ _ _ Children =>
    if bIsLeafNode then 0 else FAssetDumpTreeNode.Height.children Children
/-- One more than the largest height in a children list, 0 for the empty list. -/
def FAssetDumpTreeNode.Height.children : List FAssetDumpTreeNode → Nat
  | [] => 0
  | ChildNode :: rest =>
    max (FAssetDumpTreeNode.Height ChildNode + 1) (FAssetDumpTreeNode.Height.children rest)
end

/-- A leaf node of the example tree. -/
def ExampleLeaf (PackageName : FString) (bIsChecked bIsOverridingParentState : Bool) :
    FAssetDumpTreeNode :=
  .mk "Dump" true PackageName PackageName PackageName bIsChecked bIsOverridingParentState false []

/-- An example tree: an unchecked root directory with a checked leaf `/Game/A` that overrides
it, an unchecked sub-directory holding the checked leaf `/Game/Sub/B` and the unchecked leaf
`/Game/Sub/C`, and the unchecked leaf `/Game/D`. -/
def ExampleDumpTree : FAssetDumpTreeNode :=
  .mk "Dump" false "Dump/Game" "/Game" "Game" false false true
    [ExampleLeaf "/Game/A" true true,
     .mk "Dump" false "Dump/Game/Sub" "/Game/Sub" "Sub" false false true
       [ExampleLeaf "/Game/Sub/B" true true, ExampleLeaf "/Game/Sub/C" false false],
     ExampleLeaf "/Game/D" false false]

/-- A host without files, for trees that are fully initialised. -/
def EmptyPlatformFile : FPlatformFile where
  IterateDirectory := fun _ => []
  GetExtension := fun _ => ""
  SanitizePackageName := fun _ DiskPackagePath => DiskPackagePath
  GetShortName := fun PackageName => PackageName

/-! # Theorems -/

/-! ## Containers -/

theorem TMap_Find_Add_self {K V : Type} [DecidableEq K] (m : List (K × V)) (k : K) (v : V) :
    TMap.Find (TMap.Add m k v) k = some v := by
  induction m with
  | nil => simp [TMap.Add, TMap.Find]
  | cons e rest ih =>
    obtain ⟨k', w⟩ := e
    by_cases h : k' = k
    · simp [TMap.Add, TMap.Find, h]
    · simp [TMap.Add, TMap.Find, h, ih]

theorem TMap_Find_Add_ne {K V : Type} [DecidableEq K] (m : List (K × V)) (k k' : K) (v : V)
    (hne : k' ≠ k) : TMap.Find (TMap.Add m k v) k' = TMap.Find m k' := by
  induction m with
  | nil => simp [TMap.Add, TMap.Find, Ne.symm hne]
  | cons e rest ih =>
    obtain ⟨k0, w⟩ := e
    by_cases h : k0 = k
    · subst h
      simp [TMap.Add, TMap.Find, Ne.symm hne]
    · by_cases h' : k0 = k'
      · subst h'
        simp [TMap.Add, TMap.Find, h]
      · simp [TMap.Add, TMap.Find, h, h', ih]

theorem TMap_Find_Remove_self {K V : Type} [DecidableEq K] (m : List (K × V)) (k : K) :
    TMap.Find (TMap.Remove m k) k = none := by
  induction m with
  | nil => simp [TMap.Remove, TMap.Find]
  | cons e rest ih =>
    obtain ⟨k0, w⟩ := e
    by_cases h : k0 = k
    · simp [TMap.Remove, h, ih]
    · simp [TMap.Remove, TMap.Find, h, ih]

theorem TMap_Find_Remove_ne {K V : Type} [DecidableEq K] (m : List (K × V)) (k k' : K)
    (hne : k' ≠ k) : TMap.Find (TMap.Remove m k) k' = TMap.Find m k' := by
  induction m with
  | nil => simp [TMap.Remove, TMap.Find]
  | cons e rest ih =>
    obtain ⟨k0, w⟩ := e
    by_cases h : k0 = k
    · subst h
      simp [TMap.Remove, TMap.Find, Ne.symm hne, ih]
    · by_cases h' : k0 = k'
      · subst h'
        simp [TMap.Remove, TMap.Find, h]
      · simp [TMap.Remove, TMap.Find, h, h', ih]

theorem TMap_Find_eq_none_iff {K V : Type} [DecidableEq K] (m : List (K × V)) (k : K) :
    TMap.Find m k = none ↔ k ∉ TMap.Keys m := by
  induction m with
  | nil => simp [TMap.Find, TMap.Keys]
  | cons e rest ih =>
    obtain ⟨k0, w⟩ := e
    by_cases h : k0 = k
    · simp [TMap.Find, TMap.Keys, h]
    · have h2 : ¬ k = k0 := fun h3 => h h3.symm
      simp only [TMap.Find, h, if_false, ih]
      simp [TMap.Keys, h2]

theorem TMap_Contains_iff {K V : Type} [DecidableEq K] (m : List (K × V)) (k : K) :
    TMap.Contains m k = true ↔ k ∈ TMap.Keys m := by
  unfold TMap.Contains
  rw [Option.isSome_iff_ne_none, Ne, TMap_Find_eq_none_iff, not_not]

theorem TMap_mem_Keys_iff {K V : Type} [DecidableEq K] (m : List (K × V)) (k : K) :
    k ∈ TMap.Keys m ↔ ∃ v, TMap.Find m k = some v := by
  rw [← not_iff_not, ← TMap_Find_eq_none_iff]
  cases TMap.Find m k <;> simp

theorem TMap_mem_Keys_Add {K V : Type} [DecidableEq K] (m : List (K × V)) (k k' : K) (v : V) :
    k' ∈ TMap.Keys (TMap.Add m k v) ↔ k' = k ∨ k' ∈ TMap.Keys m := by
  rw [TMap_mem_Keys_iff, TMap_mem_Keys_iff]
  by_cases h : k' = k
  · subst h
    simp [TMap_Find_Add_self]
  · simp [TMap_Find_Add_ne _ _ _ _ h, h]

theorem TMap_mem_Keys_Remove {K V : Type} [DecidableEq K] (m : List (K × V)) (k k' : K) :
    k' ∈ TMap.Keys (TMap.Remove m k) ↔ k' ≠ k ∧ k' ∈ TMap.Keys m := by
  rw [TMap_mem_Keys_iff, TMap_mem_Keys_iff]
  by_cases h : k' = k
  · subst h
    simp [TMap_Find_Remove_self]
  · simp [TMap_Find_Remove_ne _ _ _ h, h]

theorem TSet_Contains_iff (s : List FName) (k : FName) : TSet.Contains s k = true ↔ k ∈ s := by
  simp [TSet.Contains]

theorem TSet_mem_Add (s : List FName) (k k' : FName) :
    k' ∈ TSet.Add s k ↔ k' = k ∨ k' ∈ s := by
  unfold TSet.Add
  by_cases h : k ∈ s
  · simp only [h, if_true]
    constructor
    · exact fun h' => Or.inr h'
    · rintro (rfl | h')
      · exact h
      · exact h'
  · simp [h, or_comm]

theorem TSet_Add_of_mem (s : List FName) (k : FName) (h : k ∈ s) : TSet.Add s k = s := by
  simp [TSet.Add, h]

/-! ## The generator state machine -/

theorem AdvanceGenerationState_construction_ok (env : FEnvironment)
    (g g1 : UAssetTypeGenerator) (h : AdvanceGenerationState.construction env g = .ok g1) :
    g1.CurrentStage = .DATA_POPULATION ∧ g1.PackageName = g.PackageName := by
  unfold AdvanceGenerationState.construction at h
  split at h
  · simp only [Except.ok.injEq] at h
    subst h
    simp
  · split at h
    · simp only [Except.ok.injEq] at h
      subst h
      simp
    · simp at h

theorem AdvanceGenerationState_FINISHED (env : FEnvironment) (g g1 : UAssetTypeGenerator)
    (Stage : EAssetGenerationStage) (h : AdvanceGenerationState env g = .ok (Stage, g1)) :
    Stage = .FINISHED ∧ g1.CurrentStage = .FINISHED ∧ g1.PackageName = g.PackageName := by
  unfold AdvanceGenerationState at h
  split at h
  · simp at h
  · rename_i g0 hg0
    simp only [Except.ok.injEq, Prod.mk.injEq] at h
    obtain ⟨h1, h2⟩ := h
    have key : g0.PackageName = g.PackageName ∧
        (g.CurrentStage = .CONSTRUCTION → g0.CurrentStage = .DATA_POPULATION) ∧
        (g.CurrentStage ≠ .CONSTRUCTION → g0 = g) := by
      by_cases hc : g.CurrentStage = .CONSTRUCTION
      · simp only [hc, if_true] at hg0
        have := AdvanceGenerationState_construction_ok env g g0 hg0
        exact ⟨this.2, fun _ => this.1, fun h' => absurd hc h'⟩
      · simp only [hc, if_false, Except.ok.injEq] at hg0
        subst hg0
        exact ⟨rfl, fun h' => absurd h' hc, fun _ => rfl⟩
    obtain ⟨kn, kc, ko⟩ := key
    subst h2
    subst h1
    cases hs : g.CurrentStage
    · have := kc hs
      simp [this, AdvanceGenerationState.dataPopulation,
        AdvanceGenerationState.cdoFinalization, kn]
    all_goals
      have := ko (by simp [hs])
      subst this
      simp [hs, AdvanceGenerationState.dataPopulation, AdvanceGenerationState.cdoFinalization]
/-! ## Elementary state changes -/

theorem Step_mono (env : FEnvironment) {l l1 : Nat} (hl : l ≤ l1)
    {s s1 : FAssetGenerationProcessor} (h : Step env l s s1) : Step env l1 s s1 := by
  cases h
  case construct g h3 h1 h2 => exact .construct l1 s g h1 h2 h3
  case allocate G h1 => exact .allocate l1 s G h1
  case record dl dep h1 => exact .record l1 s dl dep h1
  case ready G h1 => exact .ready l1 s G h1
  case markExternal n h1 h2 => exact .markExternal l1 s n h1 h2
  case markMissing n h1 h2 => exact .markMissing l1 s n h1 h2
  case satisfy h0 i dl n h1 => exact .satisfy l1 (by omega) s i dl n h1
  case setBucket h0 n b => exact .setBucket l1 (by omega) s n b
  case removeBucket h0 n => exact .removeBucket l1 (by omega) s n
  case cleanup h0 G g h1 h2 => exact .cleanup l1 (by omega) s G g h1 h2
  case notified h0 G => exact .notified l1 (by omega) s G
  case advance h0 G g g1 st h2 h1 => exact .advance l1 (by omega) s G g g1 st h1 h2
  case nextRoot h0 => exact .nextRoot l1 (by omega) s
  case finished h0 => exact .finished l1 (by omega) s
  case dropReady h0 k => exact .dropReady l1 (by omega) s k
  case firstTick h0 => exact .firstTick l1 (by omega) s

theorem Steps_mono (env : FEnvironment) {l l1 : Nat} (hl : l ≤ l1)
    {s s1 : FAssetGenerationProcessor} (h : Steps env l s s1) : Steps env l1 s s1 :=
  Relation.ReflTransGen.mono (fun _ _ h' => Step_mono env hl h') h

theorem FrameTick_refl (s : FAssetGenerationProcessor) : FrameTick s s :=
  ⟨fun _ h => h, fun _ h => h, fun _ h => h, fun _ g h => ⟨g, h, rfl, le_refl _⟩, le_refl _,
    fun _ _ h => Or.inl h, rfl, rfl⟩

theorem FrameTick_trans {s s1 s2 : FAssetGenerationProcessor} (h1 : FrameTick s s1)
    (h2 : FrameTick s1 s2) : FrameTick s s2 := by
  refine ⟨fun k h => h2.External k (h1.External k h), fun k h => h2.Generated k (h1.Generated k h),
    fun k h => h2.Missing k (h1.Missing k h), ?_, le_trans h1.Lists h2.Lists, ?_,
    h2.Packages.trans h1.Packages, h2.MaxAssets.trans h1.MaxAssets⟩
  · intro i g hg
    obtain ⟨g1, hg1, hn1, hs1⟩ := h1.Generators i g hg
    obtain ⟨g2, hg2, hn2, hs2⟩ := h2.Generators i g1 hg1
    exact ⟨g2, hg2, hn2.trans hn1, le_trans hs1 hs2⟩
  · intro k v hk
    rcases h1.Bindings k v hk with h | h
    · exact h2.Bindings k v h
    · exact Or.inr (h2.Generated k h)

theorem Step_frameTick (env : FEnvironment) {l : Nat} {s s1 : FAssetGenerationProcessor}
    (h : Step env l s s1) : FrameTick s s1 := by
  cases h
  case construct g h3 h1 h2 =>
    refine ⟨fun _ h => h, fun _ h => h, fun _ h => h, ?_, le_refl _, ?_, rfl, rfl⟩
    · intro i g0 hg0
      refine ⟨g0, ?_, rfl, le_refl _⟩
      have hi : i < s.Generators.length := (List.getElem?_eq_some.mp hg0).1
      simp only [List.getElem?_append_left hi, hg0]
    · intro k v hk
      left
      have hne : k ≠ g.PackageName := by
        rintro rfl
        exact h2 ((TMap_mem_Keys_iff _ _).mpr ⟨v, hk⟩)
      simp only [TMap_Find_Add_ne _ _ _ _ hne, hk]
  case allocate G h1 =>
    exact ⟨fun _ h => h, fun _ h => h, fun _ h => h, fun _ g h => ⟨g, h, rfl, le_refl _⟩,
      by simp, fun _ _ h => Or.inl h, rfl, rfl⟩
  case record dl dep h1 =>
    refine ⟨fun _ h => h, fun _ h => h, fun _ h => h, fun _ g h => ⟨g, h, rfl, le_refl _⟩,
      ?_, fun _ _ h => Or.inl h, rfl, rfl⟩
    simp only [RefreshGeneratorDependencies.record]
    split <;> simp
  case ready G h1 =>
    exact ⟨fun _ h => h, fun _ h => h, fun _ h => h, fun _ g h => ⟨g, h, rfl, le_refl _⟩,
      le_refl _, fun _ _ h => Or.inl h, rfl, rfl⟩
  case markExternal n h1 h2 =>
    exact ⟨fun k h => (TSet_mem_Add _ _ _).mpr (Or.inr h), fun _ h => h, fun _ h => h,
      fun _ g h => ⟨g, h, rfl, le_refl _⟩, le_refl _, fun _ _ h => Or.inl h, rfl, rfl⟩
  case markMissing n h1 h2 =>
    exact ⟨fun _ h => h, fun _ h => h, fun k h => (TSet_mem_Add _ _ _).mpr (Or.inr h),
      fun _ g h => ⟨g, h, rfl, le_refl _⟩, le_refl _, fun _ _ h => Or.inl h, rfl, rfl⟩
  case satisfy h0 i dl n h1 =>
    exact ⟨fun _ h => h, fun _ h => h, fun _ h => h, fun _ g h => ⟨g, h, rfl, le_refl _⟩,
      by simp, fun _ _ h => Or.inl h, rfl, rfl⟩
  case setBucket h0 n b =>
    exact ⟨fun _ h => h, fun _ h => h, fun _ h => h, fun _ g h => ⟨g, h, rfl, le_refl _⟩,
      le_refl _, fun _ _ h => Or.inl h, rfl, rfl⟩
  case removeBucket h0 n =>
    exact ⟨fun _ h => h, fun _ h => h, fun _ h => h, fun _ g h => ⟨g, h, rfl, le_refl _⟩,
      le_refl _, fun _ _ h => Or.inl h, rfl, rfl⟩
  case cleanup h0 G g h1 h2 =>
    refine ⟨fun _ h => h, fun k h => (TSet_mem_Add _ _ _).mpr (Or.inr h), fun _ h => h,
      fun _ g h => ⟨g, h, rfl, le_refl _⟩, le_refl _, ?_, rfl, rfl⟩
    intro k v hk
    by_cases hkg : k = g.PackageName
    · right
      exact (TSet_mem_Add _ _ _).mpr (Or.inl hkg)
    · left
      simp only [TMap_Find_Remove_ne _ _ _ hkg, hk]
  case notified h0 G =>
    exact ⟨fun _ h => h, fun _ h => h, fun _ h => h, fun _ g h => ⟨g, h, rfl, le_refl _⟩,
      le_refl _, fun _ _ h => Or.inl h, rfl, rfl⟩
  case advance h0 G g g1 st h2 h1 =>
    refine ⟨fun _ h => h, fun _ h => h, fun _ h => h, ?_, le_refl _, fun _ _ h => Or.inl h,
      rfl, rfl⟩
    intro i g0 hg0
    obtain ⟨hst, hfin, hname⟩ := AdvanceGenerationState_FINISHED env g g1 st h2
    by_cases hi : G = i
    · subst hi
      have hlt : G < s.Generators.length := (List.getElem?_eq_some.mp hg0).1
      refine ⟨g1, by simp [List.getElem?_set_self, hlt], ?_, ?_⟩
      · rw [h1] at hg0
        cases hg0
        exact hname
      · rw [hfin]
        cases g0.CurrentStage <;> simp [EAssetGenerationStage.toIndex]
    · exact ⟨g0, by simp [List.getElem?_set_ne hi, hg0], rfl, le_refl _⟩
  case nextRoot h0 =>
    exact ⟨fun _ h => h, fun _ h => h, fun _ h => h, fun _ g h => ⟨g, h, rfl, le_refl _⟩,
      le_refl _, fun _ _ h => Or.inl h, rfl, rfl⟩
  case finished h0 =>
    exact ⟨fun _ h => h, fun _ h => h, fun _ h => h, fun _ g h => ⟨g, h, rfl, le_refl _⟩,
      le_refl _, fun _ _ h => Or.inl h, rfl, rfl⟩
  case dropReady h0 k =>
    exact ⟨fun _ h => h, fun _ h => h, fun _ h => h, fun _ g h => ⟨g, h, rfl, le_refl _⟩,
      le_refl _, fun _ _ h => Or.inl h, rfl, rfl⟩
  case firstTick h0 =>
    exact ⟨fun _ h => h, fun _ h => h, fun _ h => h, fun _ g h => ⟨g, h, rfl, le_refl _⟩,
      le_refl _, fun _ _ h => Or.inl h, rfl, rfl⟩

theorem Steps_frameTick (env : FEnvironment) {l : Nat} {s s1 : FAssetGenerationProcessor}
    (h : Steps env l s s1) : FrameTick s s1 := by
  induction h with
  | refl => exact FrameTick_refl s
  | tail _ hstep ih => exact FrameTick_trans ih (Step_frameTick env hstep)

theorem FrameNotify_refl (s : FAssetGenerationProcessor) : FrameNotify s s :=
  ⟨⟨[], by simp⟩, ⟨[], by simp⟩, ⟨[], by simp⟩, rfl, rfl, rfl⟩

theorem FrameNotify_trans {s s1 s2 : FAssetGenerationProcessor} (h1 : FrameNotify s s1)
    (h2 : FrameNotify s1 s2) : FrameNotify s s2 := by
  obtain ⟨⟨a1, ha1⟩, ⟨b1, hb1⟩, ⟨c1, hc1, hd1⟩, e1, f1, g1⟩ := h1
  obtain ⟨⟨a2, ha2⟩, ⟨b2, hb2⟩, ⟨c2, hc2, hd2⟩, e2, f2, g2⟩ := h2
  refine ⟨⟨a1 ++ a2, by rw [ha2, ha1, List.append_assoc]⟩,
    ⟨b1 ++ b2, by rw [hb2, hb1, List.append_assoc]⟩,
    ⟨c1 ++ c2, by rw [hc2, hc1, List.append_assoc], ?_⟩, e2.trans e1, f2.trans f1, g2.trans g1⟩
  intro e he
  rcases List.mem_append.mp he with h | h
  · exact hd1 e h
  · exact hd2 e h

theorem Step_frameNotify (env : FEnvironment) {s s1 : FAssetGenerationProcessor}
    (h : Step env 1 s s1) : FrameNotify s s1 := by
  cases h
  case construct g h3 h1 h2 =>
    exact ⟨⟨[g], rfl⟩, ⟨[], by simp⟩, ⟨[_], rfl, by simp⟩, rfl, rfl, rfl⟩
  case allocate G h1 => exact ⟨⟨[], by simp⟩, ⟨[], by simp⟩, ⟨[], by simp⟩, rfl, rfl, rfl⟩
  case record dl dep h1 => exact ⟨⟨[], by simp [RefreshGeneratorDependencies.record]⟩,
      ⟨[], by simp [RefreshGeneratorDependencies.record]⟩,
      ⟨[], by simp [RefreshGeneratorDependencies.record]⟩, rfl, rfl, rfl⟩
  case ready G h1 => exact ⟨⟨[], by simp⟩, ⟨[G], rfl⟩, ⟨[], by simp⟩, rfl, rfl, rfl⟩
  case markExternal n h1 h2 =>
    exact ⟨⟨[], by simp [MarkExternalPackageDependencySatisfied]⟩,
      ⟨[], by simp [MarkExternalPackageDependencySatisfied]⟩,
      ⟨[], by simp [MarkExternalPackageDependencySatisfied]⟩, rfl, rfl, rfl⟩
  case markMissing n h1 h2 =>
    exact ⟨⟨[], by simp [MarkPackageAsNotFound]⟩, ⟨[], by simp [MarkPackageAsNotFound]⟩,
      ⟨[], by simp [MarkPackageAsNotFound]⟩, rfl, rfl, rfl⟩
  case satisfy h0 i dl n h1 =>
    exact ⟨⟨[], by simp⟩, ⟨[], by simp⟩, ⟨[], by simp⟩, rfl, rfl, rfl⟩
  case setBucket h0 n b => exact ⟨⟨[], by simp⟩, ⟨[], by simp⟩, ⟨[], by simp⟩, rfl, rfl, rfl⟩
  case removeBucket h0 n => exact ⟨⟨[], by simp⟩, ⟨[], by simp⟩, ⟨[], by simp⟩, rfl, rfl, rfl⟩
  case cleanup h0 G g h1 h2 =>
    exact ⟨⟨[], by simp⟩, ⟨[], by simp⟩, ⟨[_], rfl, by simp⟩, rfl, rfl, rfl⟩
  case notified h0 G => omega
  case advance h0 G g g1 st h2 h1 => omega
  case nextRoot h0 => omega
  case finished h0 => omega
  case dropReady h0 k => omega
  case firstTick h0 => omega

theorem Steps_frameNotify (env : FEnvironment) {s s1 : FAssetGenerationProcessor}
    (h : Steps env 1 s s1) : FrameNotify s s1 := by
  induction h with
  | refl => exact FrameNotify_refl s
  | tail _ hstep ih => exact FrameNotify_trans ih (Step_frameNotify env hstep)

theorem FrameAdd_refl (s : FAssetGenerationProcessor) : FrameAdd s s :=
  ⟨fun _ _ h => h, rfl, fun _ _ h => h, ⟨[], by simp⟩⟩

theorem FrameAdd_trans {s s1 s2 : FAssetGenerationProcessor} (h1 : FrameAdd s s1)
    (h2 : FrameAdd s1 s2) : FrameAdd s s2 := by
  obtain ⟨a1, b1, t1, ⟨c1, hc1, hd1⟩⟩ := h1
  obtain ⟨a2, b2, t2, ⟨c2, hc2, hd2⟩⟩ := h2
  refine ⟨fun k v h => a2 k v (a1 k v h), b2.trans b1, ?_,
    ⟨c1 ++ c2, by rw [hc2, hc1, List.append_assoc], ?_⟩⟩
  · intro k hk hT
    obtain ⟨v, hv⟩ := (TMap_mem_Keys_iff _ _).mp hk
    exact t1 k hk (t2 k ((TMap_mem_Keys_iff _ _).mpr ⟨v, a1 k v hv⟩) hT)
  intro e he
  rcases List.mem_append.mp he with h | h
  · exact hd1 e h
  · exact hd2 e h

theorem Step_frameAdd (env : FEnvironment) {s s1 : FAssetGenerationProcessor}
    (h : Step env 0 s s1) : FrameAdd s s1 := by
  cases h
  case construct g h3 h1 h2 =>
    refine ⟨?_, rfl, fun _ _ h => h, ⟨[_], rfl, by simp⟩⟩
    intro k v hk
    have hne : k ≠ g.PackageName := by
      rintro rfl
      exact h2 ((TMap_mem_Keys_iff _ _).mpr ⟨v, hk⟩)
    simp only [TMap_Find_Add_ne _ _ _ _ hne, hk]
  case allocate G h1 => exact ⟨fun _ _ h => h, rfl, fun _ _ h => h, ⟨[], by simp⟩⟩
  case record dl dep h1 =>
    exact ⟨fun _ _ h => h, rfl, fun _ _ h => h,
      ⟨[], by simp [RefreshGeneratorDependencies.record]⟩⟩
  case ready G h1 => exact ⟨fun _ _ h => h, rfl, fun _ _ h => h, ⟨[], by simp⟩⟩
  case markExternal n h1 h2 =>
    refine ⟨fun _ _ h => h, rfl, ?_, ⟨[], by simp [MarkExternalPackageDependencySatisfied]⟩⟩
    intro k hk hT
    rcases hT with hT | hT | hT
    · rcases (TSet_mem_Add _ _ _).mp hT with hT | hT
      · subst hT
        exact absurd hk h2
      · exact Or.inl hT
    · exact Or.inr (Or.inl hT)
    · exact Or.inr (Or.inr hT)
  case markMissing n h1 h2 =>
    refine ⟨fun _ _ h => h, rfl, ?_, ⟨[], by simp [MarkPackageAsNotFound]⟩⟩
    intro k hk hT
    rcases hT with hT | hT | hT
    · exact Or.inl hT
    · exact Or.inr (Or.inl hT)
    · rcases (TSet_mem_Add _ _ _).mp hT with hT | hT
      · subst hT
        exact absurd hk h2
      · exact Or.inr (Or.inr hT)
  all_goals omega

theorem Steps_frameAdd (env : FEnvironment) {s s1 : FAssetGenerationProcessor}
    (h : Steps env 0 s s1) : FrameAdd s s1 := by
  induction h with
  | refl => exact FrameAdd_refl s
  | tail _ hstep ih => exact FrameAdd_trans ih (Step_frameAdd env hstep)

theorem Steps_isInFlight (env : FEnvironment) {s s1 : FAssetGenerationProcessor}
    (h : Steps env 0 s s1) (k : FName) (hk : s.IsInFlight k) : s1.IsInFlight k := by
  obtain ⟨v, hv⟩ := (TMap_mem_Keys_iff _ _).mp hk
  exact (TMap_mem_Keys_iff _ _).mpr ⟨v, (Steps_frameAdd env h).Bindings k v hv⟩

theorem Steps_generators_length (env : FEnvironment) {l : Nat}
    {s s1 : FAssetGenerationProcessor} (h : Steps env l s s1) (i : Nat)
    (hi : i < s.Generators.length) : i < s1.Generators.length := by
  obtain ⟨g1, hg1, _⟩ := (Steps_frameTick env h).Generators i _ (List.getElem?_eq_getElem hi)
  exact (List.getElem?_eq_some.mp hg1).1

/-! ## The operations as sequences of elementary changes -/

theorem RefreshGeneratorDependencies_dependency_steps (env : FEnvironment)
    (addPackage : FName → FAssetGenerationProcessor →
      Except EAbort (EAddPackageResult × FAssetGenerationProcessor))
    (hadd : AddPackageSound env addPackage) (DependencyList : Nat)
    (s s1 : FAssetGenerationProcessor) (AssetDependency : FAssetDependency)
    (h : RefreshGeneratorDependencies.dependency addPackage DependencyList s AssetDependency
      = .ok s1) : Steps env 0 s s1 := by
  unfold RefreshGeneratorDependencies.dependency at h
  split at h
  · rename_i DependencyGenerator hfind
    split at h
    · simp at h
    · split at h
      · simp only [Except.ok.injEq] at h
        subst h
        exact .single (.record 0 s _ _ ((TMap_mem_Keys_iff _ _).mpr ⟨_, hfind⟩))
      · simp only [Except.ok.injEq] at h
        subst h
        exact .refl
  · split at h
    · simp at h
    · rename_i r s2 hcall
      obtain ⟨hsteps, hflight⟩ := hadd _ _ _ _ hcall
      split at h
      · rename_i hr
        simp only [Except.ok.injEq] at h
        subst h
        exact hsteps.tail (.record 0 s2 _ _ (hflight hr))
      · simp only [Except.ok.injEq] at h
        subst h
        exact hsteps

theorem RefreshGeneratorDependencies_loop_steps (env : FEnvironment)
    (addPackage : FName → FAssetGenerationProcessor →
      Except EAbort (EAddPackageResult × FAssetGenerationProcessor))
    (hadd : AddPackageSound env addPackage) (DependencyList : Nat)
    (deps : List FAssetDependency) (s s1 : FAssetGenerationProcessor)
    (h : RefreshGeneratorDependencies.loop addPackage DependencyList deps s = .ok s1) :
    Steps env 0 s s1 := by
  induction deps generalizing s with
  | nil =>
    simp only [RefreshGeneratorDependencies.loop, Except.ok.injEq] at h
    subst h
    exact .refl
  | cons d rest ih =>
    simp only [RefreshGeneratorDependencies.loop] at h
    split at h
    · simp at h
    · rename_i s2 hd
      exact (RefreshGeneratorDependencies_dependency_steps env addPackage hadd _ _ _ _ hd).trans
        (ih s2 h)

theorem RefreshGeneratorDependencies_body_steps (env : FEnvironment)
    (addPackage : FName → FAssetGenerationProcessor →
      Except EAbort (EAddPackageResult × FAssetGenerationProcessor))
    (hadd : AddPackageSound env addPackage) (Generator : Nat)
    (s s1 : FAssetGenerationProcessor)
    (h : RefreshGeneratorDependencies.body env addPackage Generator s = .ok s1) :
    Steps env 0 s s1 := by
  unfold RefreshGeneratorDependencies.body at h
  split at h
  · simp at h
  · rename_i g hg
    have hlt : Generator < s.Generators.length := (List.getElem?_eq_some.mp hg).1
    simp only at h
    split at h
    · simp at h
    · rename_i s2 hloop
      have hsteps : Steps env 0 s s2 :=
        Relation.ReflTransGen.head (.allocate 0 s Generator hlt)
          (RefreshGeneratorDependencies_loop_steps env addPackage hadd _ _ _ _ hloop)
      split at h
      · simp at h
      · split at h
        · simp only [Except.ok.injEq] at h
          subst h
          exact hsteps.tail (.ready 0 s2 Generator (Steps_generators_length env hsteps _ hlt))
        · simp only [Except.ok.injEq] at h
          subst h
          exact hsteps

theorem AddPackage_sound (env : FEnvironment) (fuel : Nat) :
    AddPackageSound env (AddPackage env fuel) := by
  induction fuel with
  | zero =>
    intro PackageName s r s1 h
    simp [AddPackage] at h
  | succ fuel ih =>
    intro PackageName s r s1 h
    unfold AddPackage at h
    split at h
    · simp only [Except.ok.injEq, Prod.mk.injEq] at h
      obtain ⟨hr, hs⟩ := h
      subst hr hs
      exact ⟨.refl, by simp⟩
    · rename_i hterm
      split at h
      · rename_i hflight
        simp only [Except.ok.injEq, Prod.mk.injEq] at h
        obtain ⟨hr, hs⟩ := h
        subst hr hs
        exact ⟨.refl, fun _ => (TMap_Contains_iff _ _).mp hflight⟩
      · rename_i hflight
        have hT : ¬ s.IsTerminal PackageName := by
          simp only [Bool.or_eq_true, TSet_Contains_iff, not_or] at hterm
          unfold FAssetGenerationProcessor.IsTerminal
          tauto
        have hF : ¬ s.IsInFlight PackageName := by
          rw [TMap_Contains_iff] at hflight
          exact hflight
        split at h
        · simp at h
        · rename_i NewGenerator hfile
          have hname : NewGenerator.PackageName = PackageName := by
            unfold InitializeFromFile at hfile
            split at hfile <;> try simp at hfile
            split at hfile <;> try simp at hfile
            split at hfile <;> try simp at hfile
            rename_i hn
            rw [← hfile]
            exact hn
          simp only [InitializeAssetGeneratorInternal.body, List.getElem?_concat_length] at h
          split at h
          · simp at h
          · rename_i s2 hbody
            simp only [Except.ok.injEq, Prod.mk.injEq] at h
            obtain ⟨hr, hs⟩ := h
            subst hr hs
            have hfirst : Step env 0 s _ :=
              .construct 0 s NewGenerator (hname ▸ hT) (hname ▸ hF) (hname ▸ hfile)
            have hrest := RefreshGeneratorDependencies_body_steps env _ ih _ _ _ hbody
            refine ⟨Relation.ReflTransGen.head hfirst hrest, fun _ => ?_⟩
            apply Steps_isInFlight env hrest
            rw [← hname]
            exact (TMap_mem_Keys_Add _ _ _ _).mpr (Or.inl rfl)
        · split at h
          · simp only [Except.ok.injEq, Prod.mk.injEq] at h
            obtain ⟨hr, hs⟩ := h
            subst hr hs
            exact ⟨.single (.markExternal 0 s PackageName hT hF), by simp⟩
          · split at h
            · simp only [Except.ok.injEq, Prod.mk.injEq] at h
              obtain ⟨hr, hs⟩ := h
              subst hr hs
              exact ⟨.single (.markExternal 0 s PackageName hT hF), by simp⟩
            · simp only [Except.ok.injEq, Prod.mk.injEq] at h
              obtain ⟨hr, hs⟩ := h
              subst hr hs
              exact ⟨.single (.markMissing 0 s PackageName hT hF), by simp⟩

theorem RefreshGeneratorDependencies_steps (env : FEnvironment) (fuel : Nat) (Generator : Nat)
    (s s1 : FAssetGenerationProcessor)
    (h : RefreshGeneratorDependencies env fuel Generator s = .ok s1) : Steps env 0 s s1 :=
  RefreshGeneratorDependencies_body_steps env _ (AddPackage_sound env fuel) _ _ _ h

theorem AddPackage_steps (env : FEnvironment) (fuel : Nat) (PackageName : FName)
    (s s1 : FAssetGenerationProcessor) (r : EAddPackageResult)
    (h : AddPackage env fuel PackageName s = .ok (r, s1)) : Steps env 0 s s1 :=
  (AddPackage_sound env fuel PackageName s r s1 h).1

theorem CleanupAssetGenerator_steps (env : FEnvironment) (Generator : Nat)
    (s s1 : FAssetGenerationProcessor) (h : CleanupAssetGenerator Generator s = .ok s1) :
    Steps env 1 s s1 := by
  unfold CleanupAssetGenerator at h
  split at h
  · simp at h
  · rename_i g hg
    split at h
    · simp at h
    · rename_i hp
      simp only [Except.ok.injEq] at h
      subst h
      refine .single (.cleanup 1 (le_refl _) s Generator g hg ?_)
      cases hf : TMap.Find s.PendingDependencies g.PackageName
      · rfl
      · simp [hf] at hp

theorem OnGeneratorStageAdvanced_dependents_steps (env : FEnvironment) (PackageName : FName)
    (CurrentStageIndex Generator : Nat) (i : Nat) (s s1 : FAssetGenerationProcessor)
    (hG : Generator < s.Generators.length)
    (h : OnGeneratorStageAdvanced.dependents PackageName CurrentStageIndex Generator i s
      = .ok s1) : Steps env 1 s s1 := by
  induction i generalizing s with
  | zero =>
    simp only [OnGeneratorStageAdvanced.dependents, Except.ok.injEq] at h
    subst h
    exact .refl
  | succ i ih =>
    unfold OnGeneratorStageAdvanced.dependents at h
    split at h
    · simp at h
    · rename_i Dependents hb
      split at h
      · simp at h
      · rename_i DependencyList hd
        split at h
        · simp at h
        · rename_i dl hdl
          split at h
          · simp at h
          · rename_i DependencyStage hst
            split at h
            · simp only at h
              have h1 : Step env 1 s _ :=
                .satisfy 1 (le_refl _) s DependencyList dl PackageName hdl
              split at h
              · exact Relation.ReflTransGen.head h1
                  (Relation.ReflTransGen.head (.ready 1 _ Generator (by exact hG))
                    (Relation.ReflTransGen.head
                      (.setBucket 1 (le_refl _) _ PackageName (Dependents.eraseIdx i))
                      (ih _ (by exact hG) h)))
              · exact Relation.ReflTransGen.head h1 (ih _ (by exact hG) h)
            · exact ih _ hG h

theorem OnGeneratorStageAdvanced_notify_steps (env : FEnvironment) (PackageName : FName)
    (CurrentStageIndex Generator : Nat) (s s1 : FAssetGenerationProcessor)
    (hG : Generator < s.Generators.length)
    (h : OnGeneratorStageAdvanced.notify PackageName CurrentStageIndex Generator s = .ok s1) :
    Steps env 1 s s1 := by
  unfold OnGeneratorStageAdvanced.notify at h
  split at h
  · simp only [Except.ok.injEq] at h
    subst h
    exact .refl
  · split at h
    · simp at h
    · rename_i s2 hloop
      have hsteps := OnGeneratorStageAdvanced_dependents_steps env _ _ _ _ _ _ hG hloop
      split at h
      · simp at h
      · split at h
        · simp only [Except.ok.injEq] at h
          subst h
          exact hsteps.tail (.removeBucket 1 (le_refl _) s2 PackageName)
        · simp only [Except.ok.injEq] at h
          subst h
          exact hsteps

theorem OnGeneratorStageAdvanced_steps (env : FEnvironment) (fuel Generator : Nat)
    (s s1 : FAssetGenerationProcessor)
    (h : OnGeneratorStageAdvanced env fuel Generator s = .ok s1) :
    Steps env 1 { s with Trace := s.Trace ++ [.OnGeneratorStageAdvanced Generator] } s1 := by
  unfold OnGeneratorStageAdvanced at h
  split at h
  · simp at h
  · rename_i g hg
    have hlt : Generator < s.Generators.length := (List.getElem?_eq_some.mp hg).1
    split at h
    · simp at h
    · rename_i s2 hnotify
      have hsteps := OnGeneratorStageAdvanced_notify_steps env _ _ _ _ _ (by exact hlt) hnotify
      split at h
      · exact hsteps.trans
          (Steps_mono env (Nat.zero_le 1) (RefreshGeneratorDependencies_steps env _ _ _ _ h))
      · exact hsteps.trans (CleanupAssetGenerator_steps env _ _ _ h)

theorem OnGeneratorStageAdvanced_steps2 (env : FEnvironment) (fuel Generator : Nat)
    (s s1 : FAssetGenerationProcessor)
    (h : OnGeneratorStageAdvanced env fuel Generator s = .ok s1) : Steps env 2 s s1 :=
  Relation.ReflTransGen.head (.notified 2 (le_refl _) s Generator)
    (Steps_mono env (by omega) (OnGeneratorStageAdvanced_steps env fuel Generator s s1 h))

theorem GatherNewAssetsForGeneration_loop_steps (env : FEnvironment) (fuel n : Nat)
    (s s1 : FAssetGenerationProcessor) (b : Bool)
    (h : GatherNewAssetsForGeneration.loop env fuel n s = .ok (b, s1)) : Steps env 2 s s1 := by
  induction n generalizing s with
  | zero =>
    unfold GatherNewAssetsForGeneration.loop at h
    split at h
    · simp only [Except.ok.injEq, Prod.mk.injEq] at h
      rw [← h.2]
    · simp at h
  | succ n ih =>
    unfold GatherNewAssetsForGeneration.loop at h
    split at h
    · simp only [Except.ok.injEq, Prod.mk.injEq] at h
      rw [← h.2]
    · simp only at h
      have h1 : Step env 2 s _ := .nextRoot 2 (le_refl _) s
      split at h
      · exact Relation.ReflTransGen.head h1 (ih _ h)
      · split at h
        · simp at h
        · rename_i r s2 hadd
          have h2 := Steps_mono env (Nat.zero_le 2) (AddPackage_steps env _ _ _ _ _ hadd)
          split at h
          · exact Relation.ReflTransGen.head h1 (h2.trans (ih _ h))
          · simp only [Except.ok.injEq, Prod.mk.injEq] at h
            rw [← h.2]
            exact Relation.ReflTransGen.head h1 h2

theorem TickAssetGeneration_advanceOne_steps (env : FEnvironment) (fuel i : Nat)
    (s s1 : FAssetGenerationProcessor)
    (h : TickAssetGeneration.advanceOne env fuel i s = .ok s1) : Steps env 3 s s1 := by
  unfold TickAssetGeneration.advanceOne at h
  split at h
  · simp at h
  · rename_i Generator hq
    split at h
    · simp at h
    · rename_i g hg
      split at h
      · simp at h
      · rename_i st g1 hadv
        exact Relation.ReflTransGen.head (.advance 3 (le_refl _) s Generator g g1 st hg hadv)
          (Steps_mono env (by omega) (OnGeneratorStageAdvanced_steps2 env _ _ _ _ h))

theorem TickAssetGeneration_advance_steps (env : FEnvironment) (fuel n i : Nat)
    (s s1 : FAssetGenerationProcessor)
    (h : TickAssetGeneration.advance env fuel n i s = .ok s1) : Steps env 3 s s1 := by
  induction n generalizing s i with
  | zero =>
    simp only [TickAssetGeneration.advance, Except.ok.injEq] at h
    subst h
    exact .refl
  | succ n ih =>
    simp only [TickAssetGeneration.advance] at h
    split at h
    · simp at h
    · rename_i s2 hone
      exact (TickAssetGeneration_advanceOne_steps env _ _ _ _ hone).trans (ih _ _ h)

theorem TickAssetGeneration_advancePhase_steps (env : FEnvironment) (fuel : Nat)
    (s s1 : FAssetGenerationProcessor)
    (h : TickAssetGeneration.advancePhase env fuel s = .ok s1) : Steps env 3 s s1 := by
  unfold TickAssetGeneration.advancePhase at h
  simp only at h
  split at h
  · simp at h
  · rename_i s2 hloop
    simp only [Except.ok.injEq] at h
    subst h
    exact (TickAssetGeneration_advance_steps env _ _ _ _ _ hloop).tail
      (.dropReady 3 (by omega) s2 _)

theorem TickAssetGeneration_steps (env : FEnvironment) (fuel : Nat)
    (s s1 : FAssetGenerationProcessor) (h : TickAssetGeneration env fuel s = .ok s1) :
    Steps env 3 s s1 := by
  unfold TickAssetGeneration at h
  split at h
  · simp at h
  · split at h
    · split at h
      · simp at h
      · rename_i s2 hg
        simp only [Except.ok.injEq] at h
        subst h
        exact (Steps_mono env (by omega)
          (GatherNewAssetsForGeneration_loop_steps env _ _ _ _ _ hg)).tail
          (.finished 3 (by omega) s2)
      · rename_i s2 hg
        exact (Steps_mono env (by omega)
          (GatherNewAssetsForGeneration_loop_steps env _ _ _ _ _ hg)).trans
          (TickAssetGeneration_advancePhase_steps env _ _ _ h)
    · exact TickAssetGeneration_advancePhase_steps env _ _ _ h

theorem Tick_steps (env : FEnvironment) (fuel : Nat) (s s1 : FAssetGenerationProcessor)
    (h : Tick env fuel s = .ok s1) : Steps env 3 s s1 := by
  unfold Tick at h
  simp only at h
  have key : ∀ s0 : FAssetGenerationProcessor, Steps env 3 s s0 →
      (if (!s0.bGenerationFinished) = true then TickAssetGeneration env fuel s0 else .ok s0)
        = .ok s1 → Steps env 3 s s1 := by
    intro s0 h0 h'
    split at h'
    · exact h0.trans (TickAssetGeneration_steps env _ _ _ h')
    · simp only [Except.ok.injEq] at h'
      rw [← h']
      exact h0
  by_cases hf : s.bIsFirstTick = true
  · simp only [hf, if_true] at h
    exact key _ (.single (.firstTick 3 (by omega) s)) h
  · simp only [hf] at h
    exact key _ .refl h

theorem Ticks_steps (env : FEnvironment) (fuel n : Nat) (s s1 : FAssetGenerationProcessor)
    (h : Ticks env fuel n s = .ok s1) : Steps env 3 s s1 := by
  induction n generalizing s with
  | zero =>
    simp only [Ticks, Except.ok.injEq] at h
    subst h
    exact .refl
  | succ n ih =>
    simp only [Ticks] at h
    split at h
    · simp at h
    · rename_i s2 ht
      exact (Tick_steps env _ _ _ ht).trans (ih _ h)

theorem Steps_generators_prefix (env : FEnvironment) {s s1 : FAssetGenerationProcessor}
    (h : Steps env 2 s s1) : ∃ extra, s1.Generators = s.Generators ++ extra := by
  induction h with
  | refl => exact ⟨[], by simp⟩
  | tail _ hstep ih =>
    obtain ⟨extra, he⟩ := ih
    cases hstep
    case construct g h3 h1 h2 => exact ⟨extra ++ [g], by simp [he]⟩
    case record dl dep h1 => exact ⟨extra, by simp [RefreshGeneratorDependencies.record, he]⟩
    case markExternal n h1 h2 =>
      exact ⟨extra, by simp [MarkExternalPackageDependencySatisfied, he]⟩
    case markMissing n h1 h2 => exact ⟨extra, by simp [MarkPackageAsNotFound, he]⟩
    case finished h0 => exact ⟨extra, by simp [OnAssetGenerationFinished, he]⟩
    case advance h0 G g g1 st h2 h1 => omega
    all_goals exact ⟨extra, he⟩

/-! ## The bookkeeping invariant -/

theorem Consistent_of_view {s s1 : FAssetGenerationProcessor}
    (h : s.Consistent) (hA : s1.AssetGenerators = s.AssetGenerators)
    (hN : s1.GeneratorNames = s.GeneratorNames)
    (hE : s1.ExternalPackagesResolved = s.ExternalPackagesResolved)
    (hG : s1.AlreadyGeneratedPackages = s.AlreadyGeneratedPackages)
    (hM : s1.KnownMissingPackages = s.KnownMissingPackages)
    (hC : s1.ConstructedNames = s.ConstructedNames) : s1.Consistent := by
  have hF : ∀ k, s1.IsInFlight k ↔ s.IsInFlight k := by
    intro k
    simp only [FAssetGenerationProcessor.IsInFlight, hA]
  have hT : ∀ k, s1.IsTerminal k ↔ s.IsTerminal k := by
    intro k
    simp only [FAssetGenerationProcessor.IsTerminal, hE, hG, hM]
  refine ⟨?_, ?_, ?_, ?_, ?_, ?_, ?_, ?_⟩
  · rw [hA, hN]
    exact h.Bound
  · intro k hk
    rw [hF, hG]
    exact h.Owned k (hN ▸ hk)
  · intro k hk
    rw [hT]
    exact h.FlightTerminal k ((hF k).mp hk)
  · rw [hG, hE]
    exact h.GeneratedExternal
  · rw [hG, hM]
    exact h.GeneratedMissing
  · rw [hE, hM]
    exact h.ExternalMissing
  · rw [hN]
    exact h.Unique
  · rw [hC, hN]
    exact h.Constructed

theorem Consistent_Create (MaxAssets : Nat) (Packages : List FName) :
    (FAssetGenerationProcessor.Create MaxAssets Packages).Consistent := by
  refine ⟨?_, ?_, ?_, ?_, ?_, ?_, ?_, ?_⟩ <;>
    simp [FAssetGenerationProcessor.Create, TMap.Find, FAssetGenerationProcessor.GeneratorNames,
      FAssetGenerationProcessor.IsInFlight, TMap.Keys,
      FAssetGenerationProcessor.ConstructedNames]

theorem Step_consistent (env : FEnvironment) {l : Nat} {s s1 : FAssetGenerationProcessor}
    (h : Step env l s s1) (hs : s.Consistent) : s1.Consistent := by
  cases h
  case construct g h3 h1 h2 =>
    have hfresh : g.PackageName ∉ s.GeneratorNames := by
      intro hmem
      rcases hs.Owned _ hmem with hf | hg
      · exact h2 hf
      · exact h1 (Or.inr (Or.inl hg))
    refine ⟨?_, ?_, ?_, hs.GeneratedExternal, hs.GeneratedMissing, hs.ExternalMissing, ?_, ?_⟩
    · intro k v hk
      simp only [FAssetGenerationProcessor.GeneratorNames, List.map_append, List.map_cons,
        List.map_nil]
      by_cases hkg : k = g.PackageName
      · subst hkg
        rw [TMap_Find_Add_self] at hk
        cases hk
        rw [← List.length_map s.Generators (fun g => g.PackageName)]
        simp
      · rw [TMap_Find_Add_ne _ _ _ _ hkg] at hk
        have := hs.Bound k v hk
        have hlt : v < (s.Generators.map (fun g => g.PackageName)).length :=
          (List.getElem?_eq_some.mp this).1
        rw [List.getElem?_append_left hlt]
        exact this
    · intro k hk
      simp only [FAssetGenerationProcessor.GeneratorNames, List.map_append, List.map_cons,
        List.map_nil, List.mem_append, List.mem_singleton] at hk
      simp only [FAssetGenerationProcessor.IsInFlight, TMap_mem_Keys_Add]
      rcases hk with hk | hk
      · rcases hs.Owned k hk with hf | hg
        · exact Or.inl (Or.inr hf)
        · exact Or.inr hg
      · exact Or.inl (Or.inl hk)
    · intro k hk
      simp only [FAssetGenerationProcessor.IsInFlight, TMap_mem_Keys_Add] at hk
      rcases hk with hk | hk
      · subst hk
        exact h1
      · exact hs.FlightTerminal k hk
    · simp only [FAssetGenerationProcessor.GeneratorNames, List.map_append, List.map_cons,
        List.map_nil]
      refine List.Nodup.append hs.Unique (List.nodup_singleton _) ?_
      intro a ha hb
      simp only [List.mem_singleton] at hb
      subst hb
      exact hfresh ha
    · simp only [FAssetGenerationProcessor.ConstructedNames,
        FAssetGenerationProcessor.GeneratorNames, List.filterMap_append, List.map_append]
      have := hs.Constructed
      simp only [FAssetGenerationProcessor.ConstructedNames,
        FAssetGenerationProcessor.GeneratorNames] at this
      rw [this]
      simp [EEvent.Constructed]
  case allocate G h1 => exact Consistent_of_view hs rfl rfl rfl rfl rfl rfl
  case record dl dep h1 => exact Consistent_of_view hs rfl rfl rfl rfl rfl rfl
  case ready G h1 => exact Consistent_of_view hs rfl rfl rfl rfl rfl rfl
  case markExternal n h1 h2 =>
    have hnE : n ∉ s.ExternalPackagesResolved := fun h => h1 (Or.inl h)
    have hnG : n ∉ s.AlreadyGeneratedPackages := fun h => h1 (Or.inr (Or.inl h))
    have hnM : n ∉ s.KnownMissingPackages := fun h => h1 (Or.inr (Or.inr h))
    refine ⟨hs.Bound, hs.Owned, ?_, ?_, hs.GeneratedMissing, ?_, hs.Unique, hs.Constructed⟩
    · intro k hk hT
      rcases hT with hT | hT | hT
      · rcases (TSet_mem_Add _ _ _).mp hT with hT | hT
        · subst hT
          exact h2 hk
        · exact hs.FlightTerminal k hk (Or.inl hT)
      · exact hs.FlightTerminal k hk (Or.inr (Or.inl hT))
      · exact hs.FlightTerminal k hk (Or.inr (Or.inr hT))
    · intro k hk hT
      rcases (TSet_mem_Add _ _ _).mp hT with hT | hT
      · subst hT
        exact hnG hk
      · exact hs.GeneratedExternal k hk hT
    · intro k hk hT
      rcases (TSet_mem_Add _ _ _).mp hk with hk | hk
      · subst hk
        exact hnM hT
      · exact hs.ExternalMissing k hk hT
  case markMissing n h1 h2 =>
    have hnE : n ∉ s.ExternalPackagesResolved := fun h => h1 (Or.inl h)
    have hnG : n ∉ s.AlreadyGeneratedPackages := fun h => h1 (Or.inr (Or.inl h))
    have hnM : n ∉ s.KnownMissingPackages := fun h => h1 (Or.inr (Or.inr h))
    refine ⟨hs.Bound, hs.Owned, ?_, hs.GeneratedExternal, ?_, ?_, hs.Unique, hs.Constructed⟩
    · intro k hk hT
      rcases hT with hT | hT | hT
      · exact hs.FlightTerminal k hk (Or.inl hT)
      · exact hs.FlightTerminal k hk (Or.inr (Or.inl hT))
      · rcases (TSet_mem_Add _ _ _).mp hT with hT | hT
        · subst hT
          exact h2 hk
        · exact hs.FlightTerminal k hk (Or.inr (Or.inr hT))
    · intro k hk hT
      rcases (TSet_mem_Add _ _ _).mp hT with hT | hT
      · subst hT
        exact hnG hk
      · exact hs.GeneratedMissing k hk hT
    · intro k hk hT
      rcases (TSet_mem_Add _ _ _).mp hT with hT | hT
      · subst hT
        exact hnE hk
      · exact hs.ExternalMissing k hk hT
  case satisfy h0 i dl n h1 => exact Consistent_of_view hs rfl rfl rfl rfl rfl rfl
  case setBucket h0 n b => exact Consistent_of_view hs rfl rfl rfl rfl rfl rfl
  case removeBucket h0 n => exact Consistent_of_view hs rfl rfl rfl rfl rfl rfl
  case cleanup h0 G g h1 h2 =>
    have hmem : g.PackageName ∈ s.GeneratorNames :=
      List.mem_map.mpr ⟨g, List.getElem?_mem h1, rfl⟩
    have hnE : g.PackageName ∉ s.ExternalPackagesResolved := by
      intro h
      rcases hs.Owned _ hmem with hf | hg
      · exact hs.FlightTerminal _ hf (Or.inl h)
      · exact hs.GeneratedExternal _ hg h
    have hnM : g.PackageName ∉ s.KnownMissingPackages := by
      intro h
      rcases hs.Owned _ hmem with hf | hg
      · exact hs.FlightTerminal _ hf (Or.inr (Or.inr h))
      · exact hs.GeneratedMissing _ hg h
    refine ⟨?_, ?_, ?_, ?_, ?_, hs.ExternalMissing, hs.Unique, ?_⟩
    · intro k v hk
      by_cases hkg : k = g.PackageName
      · subst hkg
        rw [TMap_Find_Remove_self] at hk
        cases hk
      · rw [TMap_Find_Remove_ne _ _ _ hkg] at hk
        exact hs.Bound k v hk
    · intro k hk
      simp only [FAssetGenerationProcessor.IsInFlight, TMap_mem_Keys_Remove, TSet_mem_Add]
      by_cases hkg : k = g.PackageName
      · exact Or.inr (Or.inl hkg)
      · rcases hs.Owned k hk with hf | hg
        · exact Or.inl ⟨hkg, hf⟩
        · exact Or.inr (Or.inr hg)
    · intro k hk hT
      simp only [FAssetGenerationProcessor.IsInFlight, TMap_mem_Keys_Remove] at hk
      rcases hT with hT | hT | hT
      · exact hs.FlightTerminal k hk.2 (Or.inl hT)
      · rcases (TSet_mem_Add _ _ _).mp hT with hT | hT
        · exact hk.1 hT
        · exact hs.FlightTerminal k hk.2 (Or.inr (Or.inl hT))
      · exact hs.FlightTerminal k hk.2 (Or.inr (Or.inr hT))
    · intro k hk hT
      rcases (TSet_mem_Add _ _ _).mp hk with hk | hk
      · subst hk
        exact hnE hT
      · exact hs.GeneratedExternal k hk hT
    · intro k hk hT
      rcases (TSet_mem_Add _ _ _).mp hk with hk | hk
      · subst hk
        exact hnM hT
      · exact hs.GeneratedMissing k hk hT
    · have := hs.Constructed
      simp only [FAssetGenerationProcessor.ConstructedNames, List.filterMap_append] at this ⊢
      rw [this]
      simp [EEvent.Constructed, FAssetGenerationProcessor.GeneratorNames]
  case notified h0 G =>
    refine Consistent_of_view hs rfl rfl rfl rfl rfl ?_
    simp [FAssetGenerationProcessor.ConstructedNames, EEvent.Constructed]
  case advance h0 G g g1 st h2 h1 =>
    have hname := (AdvanceGenerationState_FINISHED env g g1 st h2).2.2
    refine Consistent_of_view hs rfl ?_ rfl rfl rfl ?_
    · simp only [FAssetGenerationProcessor.GeneratorNames, List.map_set, hname]
      apply List.ext_getElem?
      intro i
      by_cases hi : G = i
      · subst hi
        obtain ⟨hlt, hgeq⟩ := List.getElem?_eq_some.mp h1
        simp [List.getElem?_set_self, hlt, hgeq]
      · simp [List.getElem?_set_ne hi]
    · simp [FAssetGenerationProcessor.ConstructedNames, EEvent.Constructed]
  case nextRoot h0 => exact Consistent_of_view hs rfl rfl rfl rfl rfl rfl
  case finished h0 => exact Consistent_of_view hs rfl rfl rfl rfl rfl rfl
  case dropReady h0 k => exact Consistent_of_view hs rfl rfl rfl rfl rfl rfl
  case firstTick h0 => exact Consistent_of_view hs rfl rfl rfl rfl rfl rfl

theorem Steps_consistent (env : FEnvironment) {l : Nat} {s s1 : FAssetGenerationProcessor}
    (h : Steps env l s s1) (hs : s.Consistent) : s1.Consistent := by
  induction h with
  | refl => exact hs
  | tail _ hstep ih => exact Step_consistent env hstep ih

theorem ReachableFrom_steps (env : FEnvironment) {s0 s : FAssetGenerationProcessor}
    (h : ReachableFrom env s0 s) : Steps env 3 s0 s := by
  induction h with
  | start => exact .refl
  | addPackage s s1 fuel n r _ hcall ih =>
    exact ih.trans (Steps_mono env (by omega) (AddPackage_steps env _ _ _ _ _ hcall))
  | stageAdvanced s s1 fuel G _ hcall ih =>
    exact ih.trans (Steps_mono env (by omega) (OnGeneratorStageAdvanced_steps2 env _ _ _ _ hcall))
  | tickAssetGeneration s s1 fuel _ hcall ih =>
    exact ih.trans (TickAssetGeneration_steps env _ _ _ hcall)
  | tick s s1 fuel _ hcall ih => exact ih.trans (Tick_steps env _ _ _ hcall)

theorem Reachable_consistent (env : FEnvironment) {s : FAssetGenerationProcessor}
    (h : Reachable env s) : s.Consistent := by
  obtain ⟨m, roots, hr⟩ := h
  exact Steps_consistent env (ReachableFrom_steps env hr) (Consistent_Create m roots)

theorem ReachableFrom_trans (env : FEnvironment) {s0 s s1 : FAssetGenerationProcessor}
    (h0 : ReachableFrom env s0 s) (h1 : ReachableFrom env s s1) : ReachableFrom env s0 s1 := by
  induction h1 with
  | start => exact h0
  | addPackage a b fuel n r _ hcall ih => exact .addPackage a b fuel n r ih hcall
  | stageAdvanced a b fuel G _ hcall ih => exact .stageAdvanced a b fuel G ih hcall
  | tickAssetGeneration a b fuel _ hcall ih => exact .tickAssetGeneration a b fuel ih hcall
  | tick a b fuel _ hcall ih => exact .tick a b fuel ih hcall

theorem AdvanceGenerationState_of_FINISHED (env : FEnvironment) (g : UAssetTypeGenerator)
    (h : g.CurrentStage = .FINISHED) : AdvanceGenerationState env g = .ok (.FINISHED, g) := by
  simp [AdvanceGenerationState, h]

theorem FrameTick_isSatisfied {s s1 : FAssetGenerationProcessor} (h : FrameTick s s1)
    (PackageName : FName) (State : EAssetGenerationStage)
    (hsat : s.IsSatisfied PackageName State) : s1.IsSatisfied PackageName State := by
  rcases hsat with hT | ⟨v, g, hv, hg, hlt⟩
  · left
    rcases hT with hT | hT | hT
    · exact Or.inl (h.External _ hT)
    · exact Or.inr (Or.inl (h.Generated _ hT))
    · exact Or.inr (Or.inr (h.Missing _ hT))
  · rcases h.Bindings _ _ hv with hb | hb
    · obtain ⟨g1, hg1, _, hle⟩ := h.Generators v g hg
      exact Or.inr ⟨v, g1, hb, hg1, lt_of_lt_of_le hlt hle⟩
    · exact Or.inl (Or.inr (Or.inl hb))

/-! ## The advance phase of a tick -/

theorem FrameNotify_advanceCalls {s s1 : FAssetGenerationProcessor} (h : FrameNotify s s1) :
    ∃ extra, s1.Trace = s.Trace ++ extra ∧ extra.filterMap EEvent.AdvanceCall = [] := by
  obtain ⟨extra, he, hall⟩ := h.Trace
  refine ⟨extra, he, List.filterMap_eq_nil_iff.mpr ?_⟩
  intro e hmem
  rcases hall e hmem with ⟨g, n, rfl⟩ | ⟨g, rfl⟩ <;> rfl

theorem TickAssetGeneration_advanceOne_effect (env : FEnvironment) (fuel i : Nat)
    (s s1 : FAssetGenerationProcessor)
    (h : TickAssetGeneration.advanceOne env fuel i s = .ok s1) :
    ∃ Generator appended events,
      s.GeneratorsReadyToAdvance[i]? = some Generator
      ∧ s1.GeneratorsReadyToAdvance = s.GeneratorsReadyToAdvance ++ appended
      ∧ s1.Trace = s.Trace ++ events
      ∧ events.filterMap EEvent.AdvanceCall
          = [.AdvanceGenerationState Generator, .OnGeneratorStageAdvanced Generator] := by
  unfold TickAssetGeneration.advanceOne at h
  split at h
  · simp at h
  · rename_i Generator hq
    split at h
    · simp at h
    · rename_i g hg
      split at h
      · simp at h
      · rename_i st g1 hadv
        have hf := Steps_frameNotify env (OnGeneratorStageAdvanced_steps env _ _ _ _ h)
        obtain ⟨appended, hq1⟩ := hf.Ready
        obtain ⟨extra, ht, hnone⟩ := FrameNotify_advanceCalls hf
        refine ⟨Generator, appended,
          EEvent.AdvanceGenerationState Generator g.CurrentStage (s.Remaining Generator)
            :: EEvent.OnGeneratorStageAdvanced Generator :: extra, hq, hq1, ?_, ?_⟩
        · rw [ht]
          simp
        · simp [EEvent.AdvanceCall, hnone]

theorem TickAssetGeneration_advance_effect (env : FEnvironment) (fuel n i : Nat)
    (s s1 : FAssetGenerationProcessor)
    (h : TickAssetGeneration.advance env fuel n i s = .ok s1)
    (hlen : i + n ≤ s.GeneratorsReadyToAdvance.length) :
    ∃ appended events,
      s1.GeneratorsReadyToAdvance = s.GeneratorsReadyToAdvance ++ appended
      ∧ s1.Trace = s.Trace ++ events
      ∧ events.filterMap EEvent.AdvanceCall
          = AdvanceCallsFor ((s.GeneratorsReadyToAdvance.drop i).take n) := by
  induction n generalizing i s with
  | zero =>
    simp only [TickAssetGeneration.advance, Except.ok.injEq] at h
    subst h
    exact ⟨[], [], by simp, by simp, by simp [AdvanceCallsFor]⟩
  | succ n ih =>
    simp only [TickAssetGeneration.advance] at h
    split at h
    · simp at h
    · rename_i s2 hone
      obtain ⟨G, a1, e1, hG, hq1, ht1, hc1⟩ :=
        TickAssetGeneration_advanceOne_effect env _ _ _ _ hone
      obtain ⟨a2, e2, hq2, ht2, hc2⟩ := ih (i + 1) s2 h (by rw [hq1]; simp; omega)
      refine ⟨a1 ++ a2, e1 ++ e2, by rw [hq2, hq1, List.append_assoc],
        by rw [ht2, ht1, List.append_assoc], ?_⟩
      have hi : i < s.GeneratorsReadyToAdvance.length := by omega
      obtain ⟨_, hGi⟩ := List.getElem?_eq_some.mp hG
      rw [List.filterMap_append, hc1, hc2, hq1,
        List.drop_append_of_le_length (by omega),
        List.take_append_of_le_length (by simp; omega),
        List.drop_eq_getElem_cons hi, List.take_succ_cons, hGi]
      simp [AdvanceCallsFor]

theorem TickAssetGeneration_advancePhase_effect (env : FEnvironment) (fuel : Nat)
    (s s1 : FAssetGenerationProcessor)
    (h : TickAssetGeneration.advancePhase env fuel s = .ok s1) :
    ∃ appended events,
      s1.GeneratorsReadyToAdvance
          = s.GeneratorsReadyToAdvance.drop
              (min s.GeneratorsReadyToAdvance.length s.MaxAssetsToAdvancePerTick) ++ appended
      ∧ s1.Trace = s.Trace ++ events
      ∧ events.filterMap EEvent.AdvanceCall
          = AdvanceCallsFor (s.GeneratorsReadyToAdvance.take
              (min s.GeneratorsReadyToAdvance.length s.MaxAssetsToAdvancePerTick)) := by
  unfold TickAssetGeneration.advancePhase at h
  simp only at h
  split at h
  · simp at h
  · rename_i s2 hloop
    simp only [Except.ok.injEq] at h
    subst h
    obtain ⟨appended, events, hq, ht, hc⟩ :=
      TickAssetGeneration_advance_effect env _ _ _ _ _ hloop (by omega)
    refine ⟨appended, events, ?_, ht, ?_⟩
    · simp only [hq]
      rw [List.drop_append_of_le_length (by omega)]
    · simpa using hc

/-! ## `AddPackage` returns -/

theorem TMap_mem_of_Find {K V : Type} [DecidableEq K] (m : List (K × V)) (k : K) (v : V)
    (h : TMap.Find m k = some v) : (k, v) ∈ m := by
  induction m with
  | nil => simp [TMap.Find] at h
  | cons e rest ih =>
    obtain ⟨k0, w⟩ := e
    by_cases hk : k0 = k
    · simp only [TMap.Find, hk, if_true, Option.some.injEq] at h
      subst hk h
      exact List.mem_cons_self _ _
    · simp only [TMap.Find, hk, if_false] at h
      exact List.mem_cons_of_mem _ (ih h)

theorem filter_length_le_of_imp {α : Type} (p q : α → Bool) (l : List α)
    (h : ∀ x, p x = true → q x = true) : (l.filter p).length ≤ (l.filter q).length := by
  induction l with
  | nil => simp
  | cons a rest ih =>
    by_cases hp : p a = true
    · simp [List.filter, hp, h a hp, ih]
    · by_cases hq : q a = true
      · simp only [List.filter, hp, hq, List.length_cons]
        omega
      · simp [List.filter, hp, hq, ih]

theorem filter_length_lt_of_imp {α : Type} (p q : α → Bool) (l : List α)
    (h : ∀ x, p x = true → q x = true) (a : α) (ha : a ∈ l) (hq : q a = true)
    (hp : ¬ p a = true) : (l.filter p).length < (l.filter q).length := by
  induction l with
  | nil => simp at ha
  | cons b rest ih =>
    rcases List.mem_cons.mp ha with hab | hmem
    · subst hab
      have := filter_length_le_of_imp p q rest h
      simp only [List.filter, hp, hq, List.length_cons]
      omega
    · have := ih hmem
      by_cases hpb : p b = true
      · simp only [List.filter, hpb, h b hpb, List.length_cons]
        omega
      · by_cases hqb : q b = true
        · simp only [List.filter, hpb, hqb, List.length_cons]
          omega
        · simp only [List.filter, hpb, hqb]
          exact this

theorem IsUntouched_iff (s : FAssetGenerationProcessor) (k : FName) :
    s.IsUntouched k = true ↔ ¬ s.IsTerminal k ∧ ¬ s.IsInFlight k := by
  simp only [FAssetGenerationProcessor.IsUntouched, Bool.and_eq_true, Bool.not_eq_true',
    Bool.or_eq_false_iff, FAssetGenerationProcessor.IsTerminal,
    FAssetGenerationProcessor.IsInFlight, not_or]
  rw [← Bool.not_eq_true, ← Bool.not_eq_true, ← Bool.not_eq_true, ← Bool.not_eq_true,
    TSet_Contains_iff, TSet_Contains_iff, TSet_Contains_iff, TMap_Contains_iff]
  tauto

theorem Steps_isUntouched (env : FEnvironment) {s s1 : FAssetGenerationProcessor}
    (h : Steps env 0 s s1) (k : FName) (hk : s1.IsUntouched k = true) :
    s.IsUntouched k = true := by
  rw [IsUntouched_iff] at hk ⊢
  have hf := Steps_frameTick env h
  refine ⟨fun hT => hk.1 ?_, fun hF => hk.2 (Steps_isInFlight env h k hF)⟩
  rcases hT with hT | hT | hT
  · exact Or.inl (hf.External _ hT)
  · exact Or.inr (Or.inl (hf.Generated _ hT))
  · exact Or.inr (Or.inr (hf.Missing _ hT))

theorem Steps_untouched_le (env : FEnvironment) {s s1 : FAssetGenerationProcessor}
    (h : Steps env 0 s s1) : env.Untouched s1 ≤ env.Untouched s :=
  filter_length_le_of_imp _ _ _ (fun e he => Steps_isUntouched env h e.1 he)

theorem Step_bindingsValid (env : FEnvironment) {l : Nat} {s s1 : FAssetGenerationProcessor}
    (h : Step env l s s1) (hs : s.BindingsValid) : s1.BindingsValid := by
  have hf := Step_frameTick env h
  cases h
  case construct g h3 h1 h2 =>
    intro k v hk
    simp only [List.length_append, List.length_singleton]
    by_cases hkg : k = g.PackageName
    · subst hkg
      rw [TMap_Find_Add_self] at hk
      cases hk
      omega
    · rw [TMap_Find_Add_ne _ _ _ _ hkg] at hk
      have := hs k v hk
      omega
  case cleanup h0 G g h1 h2 =>
    intro k v hk
    by_cases hkg : k = g.PackageName
    · subst hkg
      rw [TMap_Find_Remove_self] at hk
      cases hk
    · rw [TMap_Find_Remove_ne _ _ _ hkg] at hk
      exact hs k v hk
  case advance h0 G g g1 st h2 h1 =>
    intro k v hk
    simp only [List.length_set]
    exact hs k v hk
  all_goals exact hs

theorem Steps_bindingsValid (env : FEnvironment) {l : Nat} {s s1 : FAssetGenerationProcessor}
    (h : Steps env l s s1) (hs : s.BindingsValid) : s1.BindingsValid := by
  induction h with
  | refl => exact hs
  | tail _ hstep ih => exact Step_bindingsValid env hstep ih

theorem InitializeFromFile_ok (env : FEnvironment) (hd : env.DumpsConsistent)
    (PackageName : FName) : ∃ o, InitializeFromFile env PackageName = .ok o := by
  unfold InitializeFromFile
  split
  · exact ⟨_, rfl⟩
  · exact ⟨_, rfl⟩
  · exact ⟨_, rfl⟩
  · rename_i root hfind
    split
    · exact ⟨_, rfl⟩
    · rw [if_pos (hd _ _ hfind)]
      exact ⟨_, rfl⟩

theorem InitializeFromFile_some (env : FEnvironment) (PackageName : FName)
    (g : UAssetTypeGenerator) (h : InitializeFromFile env PackageName = .ok (some g)) :
    g.PackageName = PackageName ∧ g.CurrentStage = .CONSTRUCTION
      ∧ ∃ f, TMap.Find env.DumpFiles PackageName = some f := by
  unfold InitializeFromFile at h
  split at h <;> try simp at h
  rename_i root hfind
  split at h <;> try simp at h
  split at h <;> try simp at h
  rename_i hn
  subst h
  exact ⟨hn, rfl, _, hfind⟩

theorem RefreshGeneratorDependencies_dependency_total (env : FEnvironment)
    (addPackage : FName → FAssetGenerationProcessor →
      Except EAbort (EAddPackageResult × FAssetGenerationProcessor)) (bound : Nat)
    (htotal : AddPackageTotal env addPackage bound) (DependencyList : Nat)
    (s : FAssetGenerationProcessor) (AssetDependency : FAssetDependency)
    (hs : s.BindingsValid) (hb : env.Untouched s < bound) :
    ∃ s1, RefreshGeneratorDependencies.dependency addPackage DependencyList s AssetDependency
      = .ok s1 := by
  unfold RefreshGeneratorDependencies.dependency
  split
  · rename_i v hfind
    have hlt := hs _ _ hfind
    rw [List.getElem?_eq_getElem hlt]
    simp only
    split <;> exact ⟨_, rfl⟩
  · obtain ⟨r, s1, hcall⟩ := htotal AssetDependency.PackageName s hs hb
    rw [hcall]
    simp only
    split <;> exact ⟨_, rfl⟩

theorem RefreshGeneratorDependencies_loop_total (env : FEnvironment)
    (addPackage : FName → FAssetGenerationProcessor →
      Except EAbort (EAddPackageResult × FAssetGenerationProcessor)) (bound : Nat)
    (hsound : AddPackageSound env addPackage) (htotal : AddPackageTotal env addPackage bound)
    (DependencyList : Nat) (deps : List FAssetDependency) (s : FAssetGenerationProcessor)
    (hs : s.BindingsValid) (hb : env.Untouched s < bound) :
    ∃ s1, RefreshGeneratorDependencies.loop addPackage DependencyList deps s = .ok s1 := by
  induction deps generalizing s with
  | nil => exact ⟨s, rfl⟩
  | cons d rest ih =>
    obtain ⟨s2, h2⟩ :=
      RefreshGeneratorDependencies_dependency_total env addPackage bound htotal DependencyList
        s d hs hb
    have hsteps := RefreshGeneratorDependencies_dependency_steps env addPackage hsound _ _ _ _ h2
    obtain ⟨s1, h1⟩ := ih s2 (Steps_bindingsValid env hsteps hs)
      (lt_of_le_of_lt (Steps_untouched_le env hsteps) hb)
    refine ⟨s1, ?_⟩
    simp only [RefreshGeneratorDependencies.loop, h2]
    exact h1

theorem RefreshGeneratorDependencies_body_total (env : FEnvironment)
    (addPackage : FName → FAssetGenerationProcessor →
      Except EAbort (EAddPackageResult × FAssetGenerationProcessor)) (bound : Nat)
    (hsound : AddPackageSound env addPackage) (htotal : AddPackageTotal env addPackage bound)
    (Generator : Nat) (s : FAssetGenerationProcessor) (hG : Generator < s.Generators.length)
    (hs : s.BindingsValid) (hb : env.Untouched s < bound) :
    ∃ s1, RefreshGeneratorDependencies.body env addPackage Generator s = .ok s1 := by
  unfold RefreshGeneratorDependencies.body
  rw [List.getElem?_eq_getElem hG]
  simp only
  obtain ⟨s2, h2⟩ := RefreshGeneratorDependencies_loop_total env addPackage bound hsound htotal
    s.DependencyLists.length (env.PopulateStageDependencies s.Generators[Generator])
    { s with
      DependencyLists := s.DependencyLists ++
        [{ AssetTypeGenerator := Generator, PackageDependencies := [] }] }
    hs hb
  rw [h2]
  simp only
  have hlen := (Steps_frameTick env
    (RefreshGeneratorDependencies_loop_steps env addPackage hsound _ _ _ _ h2)).Lists
  simp only [List.length_append, List.length_singleton] at hlen
  rw [List.getElem?_eq_getElem (by omega)]
  simp only
  split <;> exact ⟨_, rfl⟩

theorem AddPackage_total (env : FEnvironment) (hd : env.DumpsConsistent) (fuel : Nat) :
    AddPackageTotal env (AddPackage env fuel) fuel := by
  induction fuel with
  | zero =>
    intro PackageName s _ hb
    omega
  | succ fuel ih =>
    intro PackageName s hs hb
    unfold AddPackage
    split
    · exact ⟨_, _, rfl⟩
    · rename_i hterm
      split
      · exact ⟨_, _, rfl⟩
      · rename_i hflight
        obtain ⟨o, ho⟩ := InitializeFromFile_ok env hd PackageName
        rw [ho]
        cases o with
        | none =>
          simp only
          split
          · exact ⟨_, _, rfl⟩
          · split <;> exact ⟨_, _, rfl⟩
        | some g =>
          obtain ⟨hname, _, f, hfile⟩ := InitializeFromFile_some env PackageName g ho
          simp only [InitializeAssetGeneratorInternal.body, List.getElem?_concat_length]
          have hun : s.IsUntouched PackageName = true := by
            simp only [FAssetGenerationProcessor.IsUntouched, Bool.and_eq_true,
              Bool.not_eq_true']
            exact ⟨by simpa using hterm, by simpa using hflight⟩
          obtain ⟨s1, h1⟩ := RefreshGeneratorDependencies_body_total env (AddPackage env fuel)
            fuel (AddPackage_sound env fuel) ih s.Generators.length
            { s with
              Generators := s.Generators ++ [g]
              Trace := s.Trace ++ [.GeneratorConstructed s.Generators.length g.PackageName]
              AssetGenerators := TMap.Add s.AssetGenerators g.PackageName s.Generators.length }
            (by simp)
            (by
              intro k v hk
              simp only [List.length_append, List.length_singleton]
              by_cases hkg : k = g.PackageName
              · subst hkg
                rw [TMap_Find_Add_self] at hk
                cases hk
                omega
              · rw [TMap_Find_Add_ne _ _ _ _ hkg] at hk
                have := hs k v hk
                omega)
            (by
              refine lt_of_lt_of_le (filter_length_lt_of_imp _ _ _ ?_ (PackageName, f)
                (TMap_mem_of_Find _ _ _ hfile) hun ?_) (Nat.lt_succ_iff.mp hb)
              · intro e he
                rw [IsUntouched_iff] at he ⊢
                refine ⟨he.1, fun hF => he.2 ?_⟩
                exact (TMap_mem_Keys_Add _ _ _ _).mpr (Or.inr hF)
              · rw [IsUntouched_iff]
                intro hc
                exact hc.2 ((TMap_mem_Keys_Add _ _ _ _).mpr (Or.inl hname.symm)))
          rw [h1]
          exact ⟨_, _, rfl⟩

theorem Untouched_lt_Fuel (env : FEnvironment) (s : FAssetGenerationProcessor) :
    env.Untouched s < env.Fuel := by
  unfold FEnvironment.Untouched FEnvironment.Fuel
  exact Nat.lt_succ_of_le (List.length_filter_le _ _)

theorem AddPackage_returns (env : FEnvironment) (hd : env.DumpsConsistent) (fuel : Nat)
    (hfuel : env.Fuel ≤ fuel) (PackageName : FName) (s : FAssetGenerationProcessor)
    (hs : s.BindingsValid) : ∃ r s1, AddPackage env fuel PackageName s = .ok (r, s1) :=
  AddPackage_total env hd fuel PackageName s hs
    (lt_of_lt_of_le (Untouched_lt_Fuel env s) hfuel)

theorem DumpEnvironment_consistent (names : List FName)
    (deps : UAssetTypeGenerator → List FAssetDependency) :
    (DumpEnvironment (names.map DumpOf) deps).DumpsConsistent := by
  intro k root h
  simp only [DumpEnvironment] at h
  induction names with
  | nil => simp [TMap.Find] at h
  | cons n rest ih =>
    simp only [List.map_cons, DumpOf, TMap.Find] at h
    split at h
    · rename_i hn
      simp only [Option.some.injEq, FDumpFile.json.injEq] at h
      rw [← h]
      exact hn
    · exact ih h

theorem BindingsValid_Create (MaxAssets : Nat) (Packages : List FName) :
    (FAssetGenerationProcessor.Create MaxAssets Packages).BindingsValid := by
  intro k v h
  simp [FAssetGenerationProcessor.Create, TMap.Find] at h

theorem AdvanceCallsFor_length (l : List Nat) : (AdvanceCallsFor l).length = 2 * l.length := by
  induction l with
  | nil => rfl
  | cons a rest ih =>
    simp only [AdvanceCallsFor, List.length_cons, ih]
    omega

/-! ## The ready queue holds settled generators only -/

theorem RemainingIn_append (a b : List FDependencyList) (G : Nat) :
    RemainingIn (a ++ b) G = RemainingIn a G + RemainingIn b G := by
  simp [RemainingIn, List.filter_append, List.map_append, List.sum_append]

theorem RemainingIn_cons (dl : FDependencyList) (b : List FDependencyList) (G : Nat) :
    RemainingIn (dl :: b) G
      = (if dl.AssetTypeGenerator = G then dl.PackageDependencies.length else 0)
        + RemainingIn b G := by
  by_cases h : dl.AssetTypeGenerator = G
  · simp [RemainingIn, List.filter, h]
  · simp [RemainingIn, List.filter, h]

theorem RemainingIn_of_ne (lists : List FDependencyList) (G : Nat)
    (h : ∀ dl, dl ∈ lists → dl.AssetTypeGenerator ≠ G) : RemainingIn lists G = 0 := by
  induction lists with
  | nil => rfl
  | cons dl rest ih =>
    rw [RemainingIn_cons, if_neg (h dl (List.mem_cons_self _ _)),
      ih (fun d hd => h d (List.mem_cons_of_mem _ hd))]

theorem RemainingIn_set_le (lists : List FDependencyList) (i : Nat) (dl dl1 : FDependencyList)
    (G : Nat) (hi : lists[i]? = some dl)
    (howner : dl1.AssetTypeGenerator = dl.AssetTypeGenerator)
    (hlen : dl1.PackageDependencies.length ≤ dl.PackageDependencies.length) :
    RemainingIn (lists.set i dl1) G ≤ RemainingIn lists G := by
  induction lists generalizing i with
  | nil => simp at hi
  | cons d rest ih =>
    cases i with
    | zero =>
      simp only [List.getElem?_cons_zero, Option.some.injEq] at hi
      subst hi
      simp only [List.set_cons_zero, RemainingIn_cons, howner]
      split <;> omega
    | succ i =>
      simp only [List.getElem?_cons_succ] at hi
      simp only [List.set_cons_succ, RemainingIn_cons]
      have := ih i hi
      omega

theorem TMap_Remove_length_le {K V : Type} [DecidableEq K] (m : List (K × V)) (k : K) :
    (TMap.Remove m k).length ≤ m.length := by
  induction m with
  | nil => simp [TMap.Remove]
  | cons e rest ih =>
    obtain ⟨k0, w⟩ := e
    by_cases h : k0 = k
    · simp only [TMap.Remove, h, if_true, List.length_cons]
      omega
    · simp only [TMap.Remove, h, if_false, List.length_cons]
      omega

theorem ReadySettled_of_view {s s1 : FAssetGenerationProcessor} (h : s.ReadySettled)
    (hq : s1.GeneratorsReadyToAdvance = s.GeneratorsReadyToAdvance)
    (hd : s1.DependencyLists = s.DependencyLists)
    (hlen : s.Generators.length ≤ s1.Generators.length)
    (ht : ∀ G st r, EEvent.AdvanceGenerationState G st r ∈ s1.Trace →
      EEvent.AdvanceGenerationState G st r ∈ s.Trace) : s1.ReadySettled := by
  refine ⟨?_, ?_, ?_, ?_⟩
  · intro G hG
    rw [hq] at hG
    exact lt_of_lt_of_le (h.Ready G hG) hlen
  · intro dl hdl
    rw [hd] at hdl
    exact lt_of_lt_of_le (h.Owners dl hdl) hlen
  · intro G hG
    rw [hq] at hG
    simp only [FAssetGenerationProcessor.Remaining, hd]
    exact h.Settled G hG
  · intro G st r hmem
    exact h.Advanced G st r (ht G st r hmem)

theorem ReadySettled_Create (MaxAssets : Nat) (Packages : List FName) :
    (FAssetGenerationProcessor.Create MaxAssets Packages).ReadySettled := by
  refine ⟨?_, ?_, ?_, ?_⟩ <;> simp [FAssetGenerationProcessor.Create]

theorem record_lists (t : FAssetGenerationProcessor) (a b : List FDependencyList)
    (dl : FDependencyList) (dep : FAssetDependency)
    (h : t.DependencyLists = a ++ dl :: b) :
    (RefreshGeneratorDependencies.record t a.length dep).DependencyLists
      = a ++ { dl with
          PackageDependencies := TMap.Add dl.PackageDependencies dep.PackageName dep.State }
        :: b := by
  simp only [RefreshGeneratorDependencies.record, h]
  rw [List.getElem?_append_right (le_refl _)]
  simp

theorem RefreshPending_record (G : Nat) (s t : FAssetGenerationProcessor)
    (hsQ : ∀ G1, G1 ∈ s.GeneratorsReadyToAdvance → G1 < G)
    (dep : FAssetDependency) (h : RefreshPending G s t) :
    RefreshPending G s (RefreshGeneratorDependencies.record t s.DependencyLists.length dep) := by
  obtain ⟨hrs, hstore, hgrown, ⟨deps, extra, hl, hex⟩, ⟨extraQ, hq, hexQ⟩⟩ := h
  have hl1 := record_lists t _ _ _ dep hl
  refine ⟨⟨?_, ?_, ?_, ?_⟩, hstore, hgrown, ⟨_, extra, hl1, hex⟩, ⟨extraQ, hq, hexQ⟩⟩
  · exact hrs.Ready
  · intro dl hdl
    rw [hl1] at hdl
    simp only [List.mem_append, List.mem_cons] at hdl
    rcases hdl with hdl | hdl | hdl
    · exact hrs.Owners dl (by rw [hl]; simp [hdl])
    · subst hdl
      exact hstore
    · exact hrs.Owners dl (by rw [hl]; simp [hdl])
  · intro G1 hG1
    have hG1' : G1 ∈ t.GeneratorsReadyToAdvance := hG1
    have hne : G ≠ G1 := by
      rw [hq] at hG1'
      rcases List.mem_append.mp hG1' with h1 | h1
      · exact Nat.ne_of_gt (hsQ G1 h1)
      · exact Nat.ne_of_lt (hexQ G1 h1)
    have hold := hrs.Settled G1 hG1'
    simp only [FAssetGenerationProcessor.Remaining, hl, hl1, RemainingIn_append,
      RemainingIn_cons, if_neg hne] at hold ⊢
    exact hold
  · exact hrs.Advanced

theorem RefreshPending_dependency (G : Nat) (s t t1 : FAssetGenerationProcessor)
    (addPackage : FName → FAssetGenerationProcessor →
      Except EAbort (EAddPackageResult × FAssetGenerationProcessor))
    (hadd : AddPackageSettles addPackage)
    (hsQ : ∀ G1, G1 ∈ s.GeneratorsReadyToAdvance → G1 < G)
    (dep : FAssetDependency) (h : RefreshPending G s t)
    (hcall : RefreshGeneratorDependencies.dependency addPackage s.DependencyLists.length t dep
      = .ok t1) : RefreshPending G s t1 := by
  unfold RefreshGeneratorDependencies.dependency at hcall
  split at hcall
  · split at hcall
    · simp at hcall
    · split at hcall
      · simp only [Except.ok.injEq] at hcall
        subst hcall
        exact RefreshPending_record G s t hsQ dep h
      · simp only [Except.ok.injEq] at hcall
        subst hcall
        exact h
  · split at hcall
    · simp at hcall
    · rename_i r t2 hadd2
      obtain ⟨hrs2, hstore2, ⟨ex, hex, hexO⟩, ⟨exQ, hexQ, hexQO⟩⟩ := hadd _ _ _ _ hadd2 h.Settled
      obtain ⟨hrs, hstore, hgrown, ⟨deps, extra, hl, hexl⟩, ⟨extraQ, hq, hexq⟩⟩ := h
      have h2 : RefreshPending G s t2 := by
        refine ⟨hrs2, lt_of_lt_of_le hstore hstore2, le_trans hgrown hstore2,
          ⟨deps, extra ++ ex, ?_, ?_⟩, ⟨extraQ ++ exQ, ?_, ?_⟩⟩
        · rw [hex, hl]
          simp
        · intro dl hdl
          rcases List.mem_append.mp hdl with h1 | h1
          · exact hexl dl h1
          · exact lt_of_lt_of_le hstore (hexO dl h1)
        · rw [hexQ, hq]
          simp
        · intro G1 hG1
          rcases List.mem_append.mp hG1 with h1 | h1
          · exact hexq G1 h1
          · exact lt_of_lt_of_le hstore (hexQO G1 h1)
      split at hcall
      · simp only [Except.ok.injEq] at hcall
        subst hcall
        exact RefreshPending_record G s t2 hsQ dep h2
      · simp only [Except.ok.injEq] at hcall
        subst hcall
        exact h2

theorem RefreshPending_loop (G : Nat) (s : FAssetGenerationProcessor)
    (addPackage : FName → FAssetGenerationProcessor →
      Except EAbort (EAddPackageResult × FAssetGenerationProcessor))
    (hadd : AddPackageSettles addPackage)
    (hsQ : ∀ G1, G1 ∈ s.GeneratorsReadyToAdvance → G1 < G)
    (deps : List FAssetDependency) (t t1 : FAssetGenerationProcessor)
    (h : RefreshPending G s t)
    (hcall : RefreshGeneratorDependencies.loop addPackage s.DependencyLists.length deps t
      = .ok t1) : RefreshPending G s t1 := by
  induction deps generalizing t with
  | nil =>
    simp only [RefreshGeneratorDependencies.loop, Except.ok.injEq] at hcall
    subst hcall
    exact h
  | cons d rest ih =>
    simp only [RefreshGeneratorDependencies.loop] at hcall
    split at hcall
    · simp at hcall
    · rename_i t2 hd
      exact ih t2 (RefreshPending_dependency G s t t2 addPackage hadd hsQ d h hd) hcall

theorem RefreshGeneratorDependencies_body_settles (env : FEnvironment)
    (addPackage : FName → FAssetGenerationProcessor →
      Except EAbort (EAddPackageResult × FAssetGenerationProcessor))
    (hadd : AddPackageSettles addPackage) (G : Nat) (s s1 : FAssetGenerationProcessor)
    (hs : s.ReadySettled) (hG : G < s.Generators.length)
    (hsO : ∀ dl, dl ∈ s.DependencyLists → dl.AssetTypeGenerator < G)
    (hsQ : ∀ G1, G1 ∈ s.GeneratorsReadyToAdvance → G1 < G)
    (hcall : RefreshGeneratorDependencies.body env addPackage G s = .ok s1) :
    s1.ReadySettled ∧ FreshOnly G s s1 := by
  unfold RefreshGeneratorDependencies.body at hcall
  split at hcall
  · simp at hcall
  · simp only at hcall
    split at hcall
    · simp at hcall
    · rename_i t hloop
      have h0 : RefreshPending G s
          { s with
            DependencyLists := s.DependencyLists ++
              [{ AssetTypeGenerator := G, PackageDependencies := [] }] } := by
        refine ⟨⟨hs.Ready, ?_, ?_, hs.Advanced⟩, hG, le_refl _, ⟨[], [], rfl, by simp⟩,
          ⟨[], by simp⟩⟩
        · intro dl hdl
          simp only [List.mem_append, List.mem_singleton] at hdl
          rcases hdl with hdl | hdl
          · exact hs.Owners dl hdl
          · subst hdl
            exact hG
        · intro G1 hG1
          have := hs.Settled G1 hG1
          simp only [FAssetGenerationProcessor.Remaining, RemainingIn_append, RemainingIn_cons,
            List.length_nil, ite_self] at this ⊢
          simpa [RemainingIn] using this
      obtain ⟨hrs, hstore, hgrown, ⟨deps, extra, hl, hexl⟩, ⟨extraQ, hq, hexq⟩⟩ :=
        RefreshPending_loop G s addPackage hadd hsQ _ _ t h0 hloop
      have hget : t.DependencyLists[s.DependencyLists.length]?
          = some { AssetTypeGenerator := G, PackageDependencies := deps } := by
        rw [hl, List.getElem?_append_right (le_refl _)]
        simp
      rw [hget] at hcall
      simp only at hcall
      have hfresh : FreshOnly G s t := by
        refine ⟨hgrown, ?_, ?_⟩
        · exact ⟨_, hl, fun dl hdl => by
            rcases List.mem_cons.mp hdl with h1 | h1
            · subst h1
              exact le_refl _
            · exact Nat.le_of_lt (hexl dl h1)⟩
        · exact ⟨extraQ, hq, fun G1 h1 => Nat.le_of_lt (hexq G1 h1)⟩
      split at hcall
      · rename_i hempty
        simp only [Except.ok.injEq] at hcall
        subst hcall
        have hdeps : deps = [] := List.length_eq_zero.mp hempty
        subst hdeps
        refine ⟨⟨?_, hrs.Owners, ?_, hrs.Advanced⟩, ⟨hgrown, hfresh.Lists, ?_⟩⟩
        · intro G1 hG1
          simp only [List.mem_append, List.mem_singleton] at hG1
          rcases hG1 with h1 | h1
          · exact hrs.Ready G1 h1
          · subst h1
            exact hstore
        · intro G1 hG1
          simp only [List.mem_append, List.mem_singleton] at hG1
          rcases hG1 with h1 | h1
          · exact hrs.Settled G1 h1
          · subst h1
            simp only [FAssetGenerationProcessor.Remaining, hl, RemainingIn_append,
              RemainingIn_cons, List.length_nil, ite_self]
            rw [RemainingIn_of_ne _ _ (fun dl hdl => Nat.ne_of_lt (hsO dl hdl)),
              RemainingIn_of_ne _ _ (fun dl hdl => Nat.ne_of_gt (hexl dl hdl))]
        · exact ⟨extraQ ++ [G], by simp [hq], by
            intro G1 hG1
            rcases List.mem_append.mp hG1 with h1 | h1
            · exact Nat.le_of_lt (hexq G1 h1)
            · simp only [List.mem_singleton] at h1
              subst h1
              exact le_refl _⟩
      · simp only [Except.ok.injEq] at hcall
        subst hcall
        exact ⟨hrs, hfresh⟩

theorem AddPackage_settles (env : FEnvironment) (fuel : Nat) :
    AddPackageSettles (AddPackage env fuel) := by
  induction fuel with
  | zero =>
    intro PackageName s r s1 h
    simp [AddPackage] at h
  | succ fuel ih =>
    intro PackageName s r s1 h hs
    have hrefl : FreshOnly s.Generators.length s s := ⟨le_refl _, ⟨[], by simp⟩, ⟨[], by simp⟩⟩
    unfold AddPackage at h
    split at h
    · simp only [Except.ok.injEq, Prod.mk.injEq] at h
      rw [← h.2]
      exact ⟨hs, hrefl⟩
    · split at h
      · simp only [Except.ok.injEq, Prod.mk.injEq] at h
        rw [← h.2]
        exact ⟨hs, hrefl⟩
      · split at h
        · simp at h
        · rename_i NewGenerator hfile
          simp only [InitializeAssetGeneratorInternal.body, List.getElem?_concat_length] at h
          split at h
          · simp at h
          · rename_i s2 hbody
            simp only [Except.ok.injEq, Prod.mk.injEq] at h
            rw [← h.2]
            have hs0 : FAssetGenerationProcessor.ReadySettled
                { s with
                  Generators := s.Generators ++ [NewGenerator]
                  Trace := s.Trace ++
                    [.GeneratorConstructed s.Generators.length NewGenerator.PackageName]
                  AssetGenerators := TMap.Add s.AssetGenerators NewGenerator.PackageName
                    s.Generators.length } :=
              ReadySettled_of_view hs rfl rfl (by simp) (by
                intro G st r hmem
                simpa using hmem)
            obtain ⟨hrs, hst, hl, hq⟩ := RefreshGeneratorDependencies_body_settles env _ ih
              s.Generators.length _ s2 hs0 (by simp) hs.Owners hs.Ready hbody
            refine ⟨hrs, ⟨?_, hl, hq⟩⟩
            simp only [List.length_append, List.length_singleton] at hst
            omega
        · split at h
          · simp only [Except.ok.injEq, Prod.mk.injEq] at h
            rw [← h.2]
            exact ⟨ReadySettled_of_view hs rfl rfl (le_refl _) (fun _ _ _ h => h),
              ⟨le_refl _, ⟨[], by simp [MarkExternalPackageDependencySatisfied]⟩,
                ⟨[], by simp [MarkExternalPackageDependencySatisfied]⟩⟩⟩
          · split at h
            · simp only [Except.ok.injEq, Prod.mk.injEq] at h
              rw [← h.2]
              exact ⟨ReadySettled_of_view hs rfl rfl (le_refl _) (fun _ _ _ h => h),
                ⟨le_refl _, ⟨[], by simp [MarkExternalPackageDependencySatisfied]⟩,
                  ⟨[], by simp [MarkExternalPackageDependencySatisfied]⟩⟩⟩
            · simp only [Except.ok.injEq, Prod.mk.injEq] at h
              rw [← h.2]
              exact ⟨ReadySettled_of_view hs rfl rfl (le_refl _) (fun _ _ _ h => h),
                ⟨le_refl _, ⟨[], by simp [MarkPackageAsNotFound]⟩,
                  ⟨[], by simp [MarkPackageAsNotFound]⟩⟩⟩

theorem GatherNewAssetsForGeneration_loop_settles (env : FEnvironment) (fuel n : Nat)
    (s s1 : FAssetGenerationProcessor) (b : Bool) (hs : s.ReadySettled)
    (h : GatherNewAssetsForGeneration.loop env fuel n s = .ok (b, s1)) : s1.ReadySettled := by
  induction n generalizing s with
  | zero =>
    unfold GatherNewAssetsForGeneration.loop at h
    split at h
    · simp only [Except.ok.injEq, Prod.mk.injEq] at h
      rw [← h.2]
      exact hs
    · simp at h
  | succ n ih =>
    unfold GatherNewAssetsForGeneration.loop at h
    split at h
    · simp only [Except.ok.injEq, Prod.mk.injEq] at h
      rw [← h.2]
      exact hs
    · simp only at h
      have hs0 : FAssetGenerationProcessor.ReadySettled
          { s with NextPackageToGenerateIndex := s.NextPackageToGenerateIndex + 1 } :=
        ReadySettled_of_view hs rfl rfl (le_refl _) (fun _ _ _ h => h)
      split at h
      · exact ih _ hs0 h
      · split at h
        · simp at h
        · rename_i r s2 hadd
          have hs2 := (AddPackage_settles env fuel _ _ _ _ hadd hs0).1
          split at h
          · exact ih _ hs2 h
          · simp only [Except.ok.injEq, Prod.mk.injEq] at h
            rw [← h.2]
            exact hs2

theorem OnGeneratorStageAdvanced_dependents_settles (PackageName : FName)
    (CurrentStageIndex Generator : Nat) (i : Nat) (s s1 : FAssetGenerationProcessor)
    (hs : s.ReadySettled) (hG : Generator ∈ s.GeneratorsReadyToAdvance)
    (h : OnGeneratorStageAdvanced.dependents PackageName CurrentStageIndex Generator i s
      = .ok s1) :
    s1.ReadySettled ∧ s1.Trace = s.Trace ∧ s1.Generators = s.Generators := by
  induction i generalizing s with
  | zero =>
    simp only [OnGeneratorStageAdvanced.dependents, Except.ok.injEq] at h
    subst h
    exact ⟨hs, rfl, rfl⟩
  | succ i ih =>
    unfold OnGeneratorStageAdvanced.dependents at h
    split at h
    · simp at h
    · rename_i Dependents hb
      split at h
      · simp at h
      · rename_i DependencyList hd
        split at h
        · simp at h
        · rename_i dl hdl
          split at h
          · simp at h
          · rename_i DependencyStage hst
            split at h
            · simp only at h
              have hs1 : FAssetGenerationProcessor.ReadySettled
                  { s with
                    DependencyLists := s.DependencyLists.set DependencyList
                      { dl with
                        PackageDependencies :=
                          TMap.Remove dl.PackageDependencies PackageName } } := by
                refine ⟨hs.Ready, ?_, ?_, hs.Advanced⟩
                · intro d hd'
                  rcases List.mem_or_eq_of_mem_set hd' with h1 | h1
                  · exact hs.Owners d h1
                  · subst h1
                    exact hs.Owners dl (List.getElem?_mem hdl)
                · intro G1 hG1
                  have := hs.Settled G1 hG1
                  have hle := RemainingIn_set_le s.DependencyLists DependencyList dl
                    { dl with
                      PackageDependencies := TMap.Remove dl.PackageDependencies PackageName }
                    G1 hdl rfl (TMap_Remove_length_le _ _)
                  simp only [FAssetGenerationProcessor.Remaining] at this ⊢
                  omega
              split at h
              · have hs2 : FAssetGenerationProcessor.ReadySettled
                    { s with
                      DependencyLists := s.DependencyLists.set DependencyList
                        { dl with
                          PackageDependencies :=
                            TMap.Remove dl.PackageDependencies PackageName }
                      GeneratorsReadyToAdvance := s.GeneratorsReadyToAdvance ++ [Generator]
                      PendingDependencies :=
                        TMap.Add s.PendingDependencies PackageName (Dependents.eraseIdx i) } := by
                  refine ⟨?_, hs1.Owners, ?_, hs1.Advanced⟩
                  · intro G1 hG1
                    simp only [List.mem_append, List.mem_singleton] at hG1
                    rcases hG1 with h1 | h1
                    · exact hs1.Ready G1 h1
                    · subst h1
                      exact hs1.Ready _ hG
                  · intro G1 hG1
                    simp only [List.mem_append, List.mem_singleton] at hG1
                    rcases hG1 with h1 | h1
                    · exact hs1.Settled G1 h1
                    · subst h1
                      exact hs1.Settled _ hG
                obtain ⟨a, b, c⟩ := ih _ hs2 (by simp [hG]) h
                exact ⟨a, b, c⟩
              · obtain ⟨a, b, c⟩ := ih _ hs1 hG h
                exact ⟨a, b, c⟩
            · exact ih _ hs hG h

theorem OnGeneratorStageAdvanced_settles (env : FEnvironment) (fuel Generator : Nat)
    (s s1 : FAssetGenerationProcessor) (g : UAssetTypeGenerator)
    (hs : s.ReadySettled) (hG : Generator ∈ s.GeneratorsReadyToAdvance)
    (hg : s.Generators[Generator]? = some g) (hfin : g.CurrentStage = .FINISHED)
    (h : OnGeneratorStageAdvanced env fuel Generator s = .ok s1) : s1.ReadySettled := by
  unfold OnGeneratorStageAdvanced at h
  rw [hg] at h
  simp only at h
  split at h
  · simp at h
  · rename_i s2 hnotify
    have hs0 : FAssetGenerationProcessor.ReadySettled
        { s with Trace := s.Trace ++ [.OnGeneratorStageAdvanced Generator] } :=
      ReadySettled_of_view hs rfl rfl (le_refl _) (by
        intro G st r hmem
        simpa using hmem)
    have hs2 : s2.ReadySettled ∧ s2.Generators = s.Generators := by
      unfold OnGeneratorStageAdvanced.notify at hnotify
      split at hnotify
      · simp only [Except.ok.injEq] at hnotify
        subst hnotify
        exact ⟨hs0, rfl⟩
      · split at hnotify
        · simp at hnotify
        · rename_i s3 hloop
          obtain ⟨hs3, _, hgen3⟩ :=
            OnGeneratorStageAdvanced_dependents_settles _ _ _ _ _ _ hs0 hG hloop
          split at hnotify
          · simp at hnotify
          · split at hnotify
            · simp only [Except.ok.injEq] at hnotify
              subst hnotify
              exact ⟨ReadySettled_of_view hs3 rfl rfl (le_refl _) (fun _ _ _ h => h), hgen3⟩
            · simp only [Except.ok.injEq] at hnotify
              subst hnotify
              exact ⟨hs3, hgen3⟩
    simp only [hfin, ne_eq, not_true_eq_false, if_false] at h
    unfold CleanupAssetGenerator at h
    split at h
    · simp at h
    · split at h
      · simp at h
      · simp only [Except.ok.injEq] at h
        subst h
        exact ReadySettled_of_view hs2.1 rfl rfl (le_refl _) (by
          intro G st r hmem
          simpa using hmem)

theorem TickAssetGeneration_advanceOne_settles (env : FEnvironment) (fuel i : Nat)
    (s s1 : FAssetGenerationProcessor) (hs : s.ReadySettled)
    (h : TickAssetGeneration.advanceOne env fuel i s = .ok s1) : s1.ReadySettled := by
  unfold TickAssetGeneration.advanceOne at h
  split at h
  · simp at h
  · rename_i Generator hq
    split at h
    · simp at h
    · rename_i g hg
      split at h
      · simp at h
      · rename_i st g1 hadv
        have hmem : Generator ∈ s.GeneratorsReadyToAdvance := List.getElem?_mem hq
        have hlt : Generator < s.Generators.length := (List.getElem?_eq_some.mp hg).1
        have hs0 : FAssetGenerationProcessor.ReadySettled
            { s with
              Generators := s.Generators.set Generator g1
              Trace := s.Trace ++
                [.AdvanceGenerationState Generator g.CurrentStage (s.Remaining Generator)] } := by
          refine ⟨?_, ?_, hs.Settled, ?_⟩
          · intro G1 hG1
            simp only [List.length_set]
            exact hs.Ready G1 hG1
          · intro dl hdl
            simp only [List.length_set]
            exact hs.Owners dl hdl
          · intro G1 st1 r hmem1
            simp only [List.mem_append, List.mem_singleton, EEvent.AdvanceGenerationState.injEq]
              at hmem1
            rcases hmem1 with h1 | ⟨_, _, h1⟩
            · exact hs.Advanced G1 st1 r h1
            · rw [h1]
              exact hs.Settled Generator hmem
        exact OnGeneratorStageAdvanced_settles env fuel Generator _ s1 g1 hs0 hmem
          (by simp [List.getElem?_set_self, hlt])
          (AdvanceGenerationState_FINISHED env g g1 st hadv).2.1 h

theorem TickAssetGeneration_advance_settles (env : FEnvironment) (fuel n i : Nat)
    (s s1 : FAssetGenerationProcessor) (hs : s.ReadySettled)
    (h : TickAssetGeneration.advance env fuel n i s = .ok s1) : s1.ReadySettled := by
  induction n generalizing s i with
  | zero =>
    simp only [TickAssetGeneration.advance, Except.ok.injEq] at h
    subst h
    exact hs
  | succ n ih =>
    simp only [TickAssetGeneration.advance] at h
    split at h
    · simp at h
    · rename_i s2 hone
      exact ih _ _ (TickAssetGeneration_advanceOne_settles env _ _ _ _ hs hone) h

theorem TickAssetGeneration_advancePhase_settles (env : FEnvironment) (fuel : Nat)
    (s s1 : FAssetGenerationProcessor) (hs : s.ReadySettled)
    (h : TickAssetGeneration.advancePhase env fuel s = .ok s1) : s1.ReadySettled := by
  unfold TickAssetGeneration.advancePhase at h
  simp only at h
  split at h
  · simp at h
  · rename_i s2 hloop
    simp only [Except.ok.injEq] at h
    subst h
    have hs2 := TickAssetGeneration_advance_settles env _ _ _ _ _ hs hloop
    exact ⟨fun G hG => hs2.Ready G (List.mem_of_mem_drop hG), hs2.Owners,
      fun G hG => hs2.Settled G (List.mem_of_mem_drop hG), hs2.Advanced⟩

theorem TickAssetGeneration_settles (env : FEnvironment) (fuel : Nat)
    (s s1 : FAssetGenerationProcessor) (hs : s.ReadySettled)
    (h : TickAssetGeneration env fuel s = .ok s1) : s1.ReadySettled := by
  unfold TickAssetGeneration at h
  split at h
  · simp at h
  · split at h
    · split at h
      · simp at h
      · rename_i s2 hg
        simp only [Except.ok.injEq] at h
        subst h
        exact ReadySettled_of_view (GatherNewAssetsForGeneration_loop_settles env _ _ _ _ _ hs hg)
          rfl rfl (le_refl _) (fun _ _ _ h => h)
      · rename_i s2 hg
        exact TickAssetGeneration_advancePhase_settles env _ _ _
          (GatherNewAssetsForGeneration_loop_settles env _ _ _ _ _ hs hg) h
    · exact TickAssetGeneration_advancePhase_settles env _ _ _ hs h

theorem Tick_settles (env : FEnvironment) (fuel : Nat) (s s1 : FAssetGenerationProcessor)
    (hs : s.ReadySettled) (h : Tick env fuel s = .ok s1) : s1.ReadySettled := by
  unfold Tick at h
  simp only at h
  have key : ∀ s0 : FAssetGenerationProcessor, s0.ReadySettled →
      (if (!s0.bGenerationFinished) = true then TickAssetGeneration env fuel s0 else .ok s0)
        = .ok s1 → s1.ReadySettled := by
    intro s0 h0 h'
    split at h'
    · exact TickAssetGeneration_settles env _ _ _ h0 h'
    · simp only [Except.ok.injEq] at h'
      rw [← h']
      exact h0
  by_cases hf : s.bIsFirstTick = true
  · simp only [hf, if_true] at h
    exact key { s with bIsFirstTick := false }
      (ReadySettled_of_view hs rfl rfl (le_refl _) (fun _ _ _ h => h)) h
  · simp only [hf] at h
    exact key _ hs h

theorem Ticks_settles (env : FEnvironment) (fuel n : Nat) (s s1 : FAssetGenerationProcessor)
    (hs : s.ReadySettled) (h : Ticks env fuel n s = .ok s1) : s1.ReadySettled := by
  induction n generalizing s with
  | zero =>
    simp only [Ticks, Except.ok.injEq] at h
    subst h
    exact hs
  | succ n ih =>
    simp only [Ticks] at h
    split at h
    · simp at h
    · rename_i s2 ht
      exact ih _ (Tick_settles env _ _ _ hs ht) h

/-! ## The dependency scenario -/

/-- The run of the dependency scenario (`Pkg1` depends on `Pkg2` at `DATA_POPULATION`, root
list `[Pkg1, Pkg2]`): the state after the first tick, and what the trace of any run of ticks
that returns holds. -/
theorem DependencyEnvironment_run (Pkg1 Pkg2 : FName) (hne : Pkg1 ≠ Pkg2)
    (MaxAssets fuel : Nat) (hmax : 1 ≤ MaxAssets)
    (hfuel : (DependencyEnvironment Pkg1 Pkg2).Fuel ≤ fuel) :
    (∃ s1, Tick (DependencyEnvironment Pkg1 Pkg2) fuel
          (FAssetGenerationProcessor.Create MaxAssets [Pkg1, Pkg2]) = .ok s1
      ∧ s1.GeneratorNames = [Pkg1, Pkg2]
      ∧ s1.Generators[1]?.map (fun g => g.CurrentStage) = some .FINISHED
      ∧ Pkg2 ∈ s1.AlreadyGeneratedPackages
      ∧ s1.AssetGenerators = [(Pkg1, 0)]
      ∧ s1.Generators[0]?.map (fun g => g.CurrentStage) = some .CONSTRUCTION)
    ∧ ∀ n s, Ticks (DependencyEnvironment Pkg1 Pkg2) fuel n
          (FAssetGenerationProcessor.Create MaxAssets [Pkg1, Pkg2]) = .ok s →
        (∀ G st r, EEvent.AdvanceGenerationState G st r ∈ s.Trace → r = 0)
        ∧ (∀ st r, EEvent.AdvanceGenerationState 0 st r ∉ s.Trace)
        ∧ (∀ st r, EEvent.AdvanceGenerationState 0 st r ∈ s.Trace →
            ∃ k sk, k < n ∧ Ticks (DependencyEnvironment Pkg1 Pkg2) fuel k
                (FAssetGenerationProcessor.Create MaxAssets [Pkg1, Pkg2]) = .ok sk
              ∧ sk.Generators[1]?.map (fun g => g.CurrentStage) = some .FINISHED) := by
  have hne' : Pkg2 ≠ Pkg1 := Ne.symm hne
  obtain ⟨k, rfl⟩ : ∃ k, fuel = k + 3 := ⟨fuel - 3, by
    have : (DependencyEnvironment Pkg1 Pkg2).Fuel = 3 := rfl
    omega⟩
  have hmin : min 1 MaxAssets = 1 := by omega
  have run1 : Tick (DependencyEnvironment Pkg1 Pkg2) (k + 3)
      (FAssetGenerationProcessor.Create MaxAssets [Pkg1, Pkg2]) = .ok
        { MaxAssetsToAdvancePerTick := MaxAssets
          PackagesToGenerate := [Pkg1, Pkg2]
          NextPackageToGenerateIndex := 1
          bGenerationFinished := false
          bIsFirstTick := false
          AssetGenerators := [(Pkg1, 0)]
          PendingDependencies := []
          GeneratorsReadyToAdvance := [1]
          AlreadyGeneratedPackages := [Pkg2]
          ExternalPackagesResolved := []
          KnownMissingPackages := []
          Generators := [FreshGenerator Pkg1,
            { FreshGenerator Pkg2 with
              CurrentStage := .FINISHED
              Calls := [.CreateAssetPackage, .PromptForCheckoutAndSave false,
                .PopulateAssetWithData, .PromptForCheckoutAndSave true,
                .FinalizeAssetCDO, .PromptForCheckoutAndSave true] }]
          DependencyLists := [⟨0, []⟩, ⟨1, []⟩]
          Trace := [.GeneratorConstructed 0 Pkg1, .GeneratorConstructed 1 Pkg2,
            .AdvanceGenerationState 1 .CONSTRUCTION 0, .OnGeneratorStageAdvanced 1,
            .CleanupAssetGenerator 1] } := by
    simp [Tick, TickAssetGeneration, FAssetGenerationProcessor.Create,
      GatherNewAssetsForGeneration, GatherNewAssetsForGeneration.loop, TSet.Contains, AddPackage,
      TMap.Contains, TMap.Find, InitializeFromFile, DependencyEnvironment, DumpEnvironment,
      DumpOf, InitializeAssetGeneratorInternal.body, RefreshGeneratorDependencies.body,
      RefreshGeneratorDependencies.loop, RefreshGeneratorDependencies.dependency, TMap.Add,
      hne, hne', RefreshGeneratorDependencies.record, EAssetGenerationStage.toIndex,
      TickAssetGeneration.advancePhase, TickAssetGeneration.advance,
      TickAssetGeneration.advanceOne, AdvanceGenerationState,
      AdvanceGenerationState.construction, AdvanceGenerationState.dataPopulation,
      AdvanceGenerationState.cdoFinalization, OnGeneratorStageAdvanced,
      OnGeneratorStageAdvanced.notify, OnGeneratorStageAdvanced.dependents, TMap.Remove,
      CleanupAssetGenerator, TSet.Add, FAssetGenerationProcessor.Remaining, RemainingIn, hmin,
      FreshGenerator]
  have run2 : Tick (DependencyEnvironment Pkg1 Pkg2) (k + 3)
        { MaxAssetsToAdvancePerTick := MaxAssets
          PackagesToGenerate := [Pkg1, Pkg2]
          NextPackageToGenerateIndex := 1
          bGenerationFinished := false
          bIsFirstTick := false
          AssetGenerators := [(Pkg1, 0)]
          PendingDependencies := []
          GeneratorsReadyToAdvance := [1]
          AlreadyGeneratedPackages := [Pkg2]
          ExternalPackagesResolved := []
          KnownMissingPackages := []
          Generators := [FreshGenerator Pkg1,
            { FreshGenerator Pkg2 with
              CurrentStage := .FINISHED
              Calls := [.CreateAssetPackage, .PromptForCheckoutAndSave false,
                .PopulateAssetWithData, .PromptForCheckoutAndSave true,
                .FinalizeAssetCDO, .PromptForCheckoutAndSave true] }]
          DependencyLists := [⟨0, []⟩, ⟨1, []⟩]
          Trace := [.GeneratorConstructed 0 Pkg1, .GeneratorConstructed 1 Pkg2,
            .AdvanceGenerationState 1 .CONSTRUCTION 0, .OnGeneratorStageAdvanced 1,
            .CleanupAssetGenerator 1] } = .ok
        { MaxAssetsToAdvancePerTick := MaxAssets
          PackagesToGenerate := [Pkg1, Pkg2]
          NextPackageToGenerateIndex := 1
          bGenerationFinished := false
          bIsFirstTick := false
          AssetGenerators := [(Pkg1, 0)]
          PendingDependencies := []
          GeneratorsReadyToAdvance := []
          AlreadyGeneratedPackages := [Pkg2]
          ExternalPackagesResolved := []
          KnownMissingPackages := []
          Generators := [FreshGenerator Pkg1,
            { FreshGenerator Pkg2 with
              CurrentStage := .FINISHED
              Calls := [.CreateAssetPackage, .PromptForCheckoutAndSave false,
                .PopulateAssetWithData, .PromptForCheckoutAndSave true,
                .FinalizeAssetCDO, .PromptForCheckoutAndSave true] }]
          DependencyLists := [⟨0, []⟩, ⟨1, []⟩]
          Trace := [.GeneratorConstructed 0 Pkg1, .GeneratorConstructed 1 Pkg2,
            .AdvanceGenerationState 1 .CONSTRUCTION 0, .OnGeneratorStageAdvanced 1,
            .CleanupAssetGenerator 1, .AdvanceGenerationState 1 .FINISHED 0,
            .OnGeneratorStageAdvanced 1, .CleanupAssetGenerator 1] } := by
    simp [Tick, TickAssetGeneration, TSet.Contains, TMap.Contains, TMap.Find,
      EAssetGenerationStage.toIndex, TickAssetGeneration.advancePhase,
      TickAssetGeneration.advance, TickAssetGeneration.advanceOne, AdvanceGenerationState,
      OnGeneratorStageAdvanced, OnGeneratorStageAdvanced.notify, TMap.Remove,
      CleanupAssetGenerator, TSet.Add, FAssetGenerationProcessor.Remaining, RemainingIn, hmin,
      FreshGenerator, hne', hne]
  have run3 : Tick (DependencyEnvironment Pkg1 Pkg2) (k + 3)
        { MaxAssetsToAdvancePerTick := MaxAssets
          PackagesToGenerate := [Pkg1, Pkg2]
          NextPackageToGenerateIndex := 1
          bGenerationFinished := false
          bIsFirstTick := false
          AssetGenerators := [(Pkg1, 0)]
          PendingDependencies := []
          GeneratorsReadyToAdvance := []
          AlreadyGeneratedPackages := [Pkg2]
          ExternalPackagesResolved := []
          KnownMissingPackages := []
          Generators := [FreshGenerator Pkg1,
            { FreshGenerator Pkg2 with
              CurrentStage := .FINISHED
              Calls := [.CreateAssetPackage, .PromptForCheckoutAndSave false,
                .PopulateAssetWithData, .PromptForCheckoutAndSave true,
                .FinalizeAssetCDO, .PromptForCheckoutAndSave true] }]
          DependencyLists := [⟨0, []⟩, ⟨1, []⟩]
          Trace := [.GeneratorConstructed 0 Pkg1, .GeneratorConstructed 1 Pkg2,
            .AdvanceGenerationState 1 .CONSTRUCTION 0, .OnGeneratorStageAdvanced 1,
            .CleanupAssetGenerator 1, .AdvanceGenerationState 1 .FINISHED 0,
            .OnGeneratorStageAdvanced 1, .CleanupAssetGenerator 1] }
        = .error .cyclicDependencies := by
    simp [Tick, TickAssetGeneration]
  refine ⟨⟨_, run1, ?_, ?_, ?_, ?_, ?_⟩, ?_⟩
  · simp [FAssetGenerationProcessor.GeneratorNames, FreshGenerator]
  · simp
  · simp
  · rfl
  · simp [FreshGenerator]
  · intro n s hrun
    have hnever : (∀ G st r, EEvent.AdvanceGenerationState G st r ∈ s.Trace → r = 0)
        ∧ (∀ st r, EEvent.AdvanceGenerationState 0 st r ∉ s.Trace) := by
      match n, hrun with
      | 0, hrun =>
        simp only [Ticks, Except.ok.injEq] at hrun
        subst hrun
        simp [FAssetGenerationProcessor.Create]
      | 1, hrun =>
        simp only [Ticks, run1, Except.ok.injEq] at hrun
        subst hrun
        refine ⟨fun G st r h => ?_, fun st r => by simp⟩
        simp only [List.mem_cons, EEvent.AdvanceGenerationState.injEq, reduceCtorEq,
          List.mem_singleton, false_or, or_false, List.not_mem_nil] at h
        exact h.2.2
      | 2, hrun =>
        simp only [Ticks, run1, run2, Except.ok.injEq] at hrun
        subst hrun
        refine ⟨fun G st r h => ?_, fun st r => by simp⟩
        simp only [List.mem_cons, EEvent.AdvanceGenerationState.injEq, reduceCtorEq,
          List.mem_singleton, false_or, or_false, List.not_mem_nil] at h
        rcases h with h | h
        · exact h.2.2
        · exact h.2.2
      | n + 3, hrun =>
        simp [Ticks, run1, run2, run3] at hrun
    exact ⟨hnever.1, hnever.2, fun st r hmem => absurd hmem (hnever.2 st r)⟩

/-! ## Root discovery -/

theorem AddPackage_cursor (env : FEnvironment) (fuel : Nat) (PackageName : FName)
    (s s1 : FAssetGenerationProcessor) (r : EAddPackageResult)
    (h : AddPackage env fuel PackageName s = .ok (r, s1)) :
    s1.PackagesToGenerate = s.PackagesToGenerate
      ∧ s1.NextPackageToGenerateIndex = s.NextPackageToGenerateIndex
      ∧ s1.AlreadyGeneratedPackages = s.AlreadyGeneratedPackages := by
  have hsteps := AddPackage_steps env _ _ _ _ _ h
  exact ⟨(Steps_frameTick env hsteps).Packages,
    (Steps_frameNotify env (Steps_mono env (Nat.zero_le 1) hsteps)).Next,
    (Steps_frameAdd env hsteps).Generated⟩

theorem GatherNewAssetsForGeneration_loop_run (env : FEnvironment) (fuel n : Nat)
    (s s1 : FAssetGenerationProcessor) (b : Bool)
    (h : GatherNewAssetsForGeneration.loop env fuel n s = .ok (b, s1)) :
    s1.PackagesToGenerate = s.PackagesToGenerate
      ∧ s1.AlreadyGeneratedPackages = s.AlreadyGeneratedPackages
      ∧ s.NextPackageToGenerateIndex ≤ s1.NextPackageToGenerateIndex
      ∧ (s.NextPackageToGenerateIndex ≤ s.PackagesToGenerate.length →
          s1.NextPackageToGenerateIndex ≤ s.PackagesToGenerate.length)
      ∧ (b = false → s.PackagesToGenerate.length ≤ s1.NextPackageToGenerateIndex)
      ∧ (b = true → ∃ i PackageToGenerate t,
          s.PackagesToGenerate[i]? = some PackageToGenerate
          ∧ s.NextPackageToGenerateIndex ≤ i ∧ s1.NextPackageToGenerateIndex = i + 1
          ∧ PackageToGenerate ∉ s.AlreadyGeneratedPackages
          ∧ t.NextPackageToGenerateIndex = i + 1
          ∧ AddPackage env fuel PackageToGenerate t = .ok (.PACKAGE_WILL_BE_GENERATED, s1))
      ∧ (∀ j PackageToGenerate, s.NextPackageToGenerateIndex ≤ j →
          j + (if b then 1 else 0) < s1.NextPackageToGenerateIndex →
          s.PackagesToGenerate[j]? = some PackageToGenerate →
          PackageToGenerate ∈ s.AlreadyGeneratedPackages
            ∨ ∃ t r t1, t.NextPackageToGenerateIndex = j + 1
              ∧ AddPackage env fuel PackageToGenerate t = .ok (r, t1)
              ∧ r ≠ .PACKAGE_WILL_BE_GENERATED) := by
  induction n generalizing s with
  | zero =>
    unfold GatherNewAssetsForGeneration.loop at h
    split at h
    · rename_i hnone
      simp only [Except.ok.injEq, Prod.mk.injEq] at h
      obtain ⟨hb, hs⟩ := h
      subst hb hs
      refine ⟨rfl, rfl, le_refl _, fun hle => hle, fun _ => ?_, fun hb => by simp at hb, ?_⟩
      · exact List.getElem?_eq_none_iff.mp hnone
      · intro j _ h1 h2
        simp at h2
        omega
    · simp at h
  | succ n ih =>
    unfold GatherNewAssetsForGeneration.loop at h
    split at h
    · rename_i hnone
      simp only [Except.ok.injEq, Prod.mk.injEq] at h
      obtain ⟨hb, hs⟩ := h
      subst hb hs
      refine ⟨rfl, rfl, le_refl _, fun hle => hle, fun _ => ?_, fun hb => by simp at hb, ?_⟩
      · exact List.getElem?_eq_none_iff.mp hnone
      · intro j _ h1 h2
        simp at h2
        omega
    · rename_i PackageToGenerate hsome
      have hlt : s.NextPackageToGenerateIndex < s.PackagesToGenerate.length :=
        (List.getElem?_eq_some.mp hsome).1
      simp only at h
      split at h
      · rename_i hgen
        have hgen1 : PackageToGenerate ∈ s.AlreadyGeneratedPackages := by
          simpa [TSet.Contains] using hgen
        obtain ⟨a1, a2, a3, a4, a5, a6, a7⟩ := ih _ h
        simp only at a1 a2 a3 a4 a5 a6 a7
        refine ⟨a1, a2, by omega, fun _ => a4 (by omega), a5, ?_, ?_⟩
        · intro hb
          obtain ⟨i, name, t, c1, c2, c3, c4, c5, c6⟩ := a6 hb
          exact ⟨i, name, t, c1, by omega, c3, c4, c5, c6⟩
        · intro j name h1 h2 h3
          by_cases hj : j = s.NextPackageToGenerateIndex
          · subst hj
            rw [hsome] at h3
            simp only [Option.some.injEq] at h3
            subst h3
            exact Or.inl hgen1
          · exact a7 j name (by omega) h2 h3
      · rename_i hgen
        have hgen1 : PackageToGenerate ∉ s.AlreadyGeneratedPackages := by
          simpa [TSet.Contains] using hgen
        split at h
        · simp at h
        · rename_i r t1 hadd
          obtain ⟨p1, p2, p3⟩ := AddPackage_cursor env _ _ _ _ _ hadd
          simp only at p1 p2 p3
          split at h
          · rename_i hr
            obtain ⟨a1, a2, a3, a4, a5, a6, a7⟩ := ih _ h
            rw [p1] at a1 a4 a5 a6 a7
            rw [p2] at a3 a4 a6 a7
            rw [p3] at a2 a6 a7
            refine ⟨a1, a2, by omega, fun _ => a4 (by omega), a5, ?_, ?_⟩
            · intro hb
              obtain ⟨i, name, t, c1, c2, c3, c4, c5, c6⟩ := a6 hb
              exact ⟨i, name, t, c1, by omega, c3, c4, c5, c6⟩
            · intro j name h1 h2 h3
              by_cases hj : j = s.NextPackageToGenerateIndex
              · subst hj
                rw [hsome] at h3
                simp only [Option.some.injEq] at h3
                subst h3
                exact Or.inr ⟨_, r, t1, rfl, hadd, hr⟩
              · exact a7 j name (by omega) h2 h3
          · rename_i hr
            have hr1 : r = .PACKAGE_WILL_BE_GENERATED := by
              simpa using hr
            subst hr1
            simp only [Except.ok.injEq, Prod.mk.injEq] at h
            obtain ⟨hb, hs⟩ := h
            subst hb hs
            refine ⟨p1, p3, by omega, fun _ => by omega, fun hb => by simp at hb, ?_, ?_⟩
            · intro _
              exact ⟨s.NextPackageToGenerateIndex, PackageToGenerate, _, hsome, le_refl _, p2,
                hgen1, rfl, hadd⟩
            · intro j _ h1 h2
              simp only [if_true] at h2
              omega

theorem TickAssetGeneration_advanceOne_cursor (env : FEnvironment) (fuel i : Nat)
    (s s1 : FAssetGenerationProcessor)
    (h : TickAssetGeneration.advanceOne env fuel i s = .ok s1) :
    s1.NextPackageToGenerateIndex = s.NextPackageToGenerateIndex := by
  unfold TickAssetGeneration.advanceOne at h
  split at h
  · simp at h
  · split at h
    · simp at h
    · split at h
      · simp at h
      · exact (Steps_frameNotify env (OnGeneratorStageAdvanced_steps env _ _ _ _ h)).Next

theorem TickAssetGeneration_advance_cursor (env : FEnvironment) (fuel n i : Nat)
    (s s1 : FAssetGenerationProcessor)
    (h : TickAssetGeneration.advance env fuel n i s = .ok s1) :
    s1.NextPackageToGenerateIndex = s.NextPackageToGenerateIndex := by
  induction n generalizing i s with
  | zero =>
    simp only [TickAssetGeneration.advance, Except.ok.injEq] at h
    subst h
    rfl
  | succ n ih =>
    simp only [TickAssetGeneration.advance] at h
    split at h
    · simp at h
    · rename_i s2 hone
      rw [ih _ _ h, TickAssetGeneration_advanceOne_cursor env _ _ _ _ hone]

theorem TickAssetGeneration_advancePhase_cursor (env : FEnvironment) (fuel : Nat)
    (s s1 : FAssetGenerationProcessor)
    (h : TickAssetGeneration.advancePhase env fuel s = .ok s1) :
    s1.NextPackageToGenerateIndex = s.NextPackageToGenerateIndex := by
  unfold TickAssetGeneration.advancePhase at h
  simp only at h
  split at h
  · simp at h
  · rename_i s2 hloop
    simp only [Except.ok.injEq] at h
    subst h
    exact TickAssetGeneration_advance_cursor env _ _ _ s s2 hloop

/-! ## Dump files that yield no generator -/

theorem InitializeFromFile_of_unusable (env : FEnvironment) (PackageName : FName)
    (h : env.DumpUnusable PackageName) : InitializeFromFile env PackageName = .ok none := by
  unfold InitializeFromFile
  rcases h with h | h | ⟨root, h, hclass⟩
  · rw [h]
  · rw [h]
  · rw [h]
    simp only [hclass]

/-! ## Existing dependency lists are kept by `AddPackage` -/

theorem ListsKept_of_eq {s s1 : FAssetGenerationProcessor} (n : Nat)
    (hL : s1.DependencyLists = s.DependencyLists)
    (hP : s1.PendingDependencies = s.PendingDependencies) : ListsKept n s s1 :=
  ⟨fun _ _ => by rw [hL], by rw [hL], fun _ _ _ => by rw [hP]⟩

theorem ListsKept_trans {n : Nat} {s s1 s2 : FAssetGenerationProcessor}
    (h1 : ListsKept n s s1) (h2 : ListsKept n s1 s2) : ListsKept n s s2 :=
  ⟨fun i hi => (h2.Kept i hi).trans (h1.Kept i hi), le_trans h1.Length h2.Length,
    fun k i hi => (h2.Buckets k i hi).trans (h1.Buckets k i hi)⟩

theorem ListsKept_mono {n m : Nat} {s s1 : FAssetGenerationProcessor} (hm : m ≤ n)
    (h : ListsKept n s s1) : ListsKept m s s1 :=
  ⟨fun i hi => h.Kept i (by omega), h.Length, fun k i hi => h.Buckets k i (by omega)⟩

theorem ListsKept_record (n : Nat) (s : FAssetGenerationProcessor) (DependencyList : Nat)
    (AssetDependency : FAssetDependency) (hn : n ≤ DependencyList) :
    ListsKept n s (RefreshGeneratorDependencies.record s DependencyList AssetDependency) := by
  refine ⟨fun i hi => ?_, ?_, fun k i hi => ?_⟩
  · simp only [RefreshGeneratorDependencies.record]
    split
    · rfl
    · rw [List.getElem?_set_ne (by omega)]
  · simp only [RefreshGeneratorDependencies.record]
    split
    · exact le_refl _
    · simp
  · simp only [RefreshGeneratorDependencies.record]
    by_cases hk : k = AssetDependency.PackageName
    · subst hk
      rw [TMap_Find_Add_self]
      have hne : i ≠ DependencyList := by omega
      cases hfind : TMap.Find s.PendingDependencies AssetDependency.PackageName with
      | none => simp [hne]
      | some b => simp [hne]
    · rw [TMap_Find_Add_ne _ _ _ _ hk]

theorem RefreshGeneratorDependencies_dependency_keeps
    (addPackage : FName → FAssetGenerationProcessor →
      Except EAbort (EAddPackageResult × FAssetGenerationProcessor))
    (hadd : AddPackageKeeps addPackage) (n DependencyList : Nat)
    (s s1 : FAssetGenerationProcessor) (AssetDependency : FAssetDependency)
    (hn : n ≤ DependencyList) (hlen : n ≤ s.DependencyLists.length)
    (h : RefreshGeneratorDependencies.dependency addPackage DependencyList s AssetDependency
      = .ok s1) : ListsKept n s s1 := by
  unfold RefreshGeneratorDependencies.dependency at h
  split at h
  · split at h
    · simp at h
    · split at h
      · simp only [Except.ok.injEq] at h
        subst h
        exact ListsKept_record n s _ _ hn
      · simp only [Except.ok.injEq] at h
        subst h
        exact ListsKept_of_eq n rfl rfl
  · split at h
    · simp at h
    · rename_i r s2 hcall
      have hkeep := ListsKept_mono hlen (hadd _ _ _ _ hcall)
      split at h
      · simp only [Except.ok.injEq] at h
        subst h
        exact ListsKept_trans hkeep (ListsKept_record n s2 _ _ hn)
      · simp only [Except.ok.injEq] at h
        subst h
        exact hkeep

theorem RefreshGeneratorDependencies_loop_keeps
    (addPackage : FName → FAssetGenerationProcessor →
      Except EAbort (EAddPackageResult × FAssetGenerationProcessor))
    (hadd : AddPackageKeeps addPackage) (n DependencyList : Nat)
    (deps : List FAssetDependency) (s s1 : FAssetGenerationProcessor)
    (hn : n ≤ DependencyList) (hlen : n ≤ s.DependencyLists.length)
    (h : RefreshGeneratorDependencies.loop addPackage DependencyList deps s = .ok s1) :
    ListsKept n s s1 := by
  induction deps generalizing s with
  | nil =>
    simp only [RefreshGeneratorDependencies.loop, Except.ok.injEq] at h
    subst h
    exact ListsKept_of_eq n rfl rfl
  | cons d rest ih =>
    simp only [RefreshGeneratorDependencies.loop] at h
    split at h
    · simp at h
    · rename_i s2 hd
      have h1 := RefreshGeneratorDependencies_dependency_keeps addPackage hadd n _ _ _ _ hn hlen hd
      exact ListsKept_trans h1 (ih s2 (le_trans hlen h1.Length) h)

theorem RefreshGeneratorDependencies_body_keeps (env : FEnvironment)
    (addPackage : FName → FAssetGenerationProcessor →
      Except EAbort (EAddPackageResult × FAssetGenerationProcessor))
    (hadd : AddPackageKeeps addPackage) (Generator : Nat)
    (s s1 : FAssetGenerationProcessor)
    (h : RefreshGeneratorDependencies.body env addPackage Generator s = .ok s1) :
    ListsKept s.DependencyLists.length s s1 := by
  unfold RefreshGeneratorDependencies.body at h
  split at h
  · simp at h
  · simp only at h
    split at h
    · simp at h
    · rename_i s2 hloop
      have h0 : ListsKept s.DependencyLists.length s
          { s with DependencyLists := s.DependencyLists ++
            [{ AssetTypeGenerator := Generator, PackageDependencies := [] }] } :=
        ⟨fun i hi => by simp [List.getElem?_append_left hi], by simp, fun _ _ _ => Iff.rfl⟩
      have h1 := RefreshGeneratorDependencies_loop_keeps addPackage hadd
        s.DependencyLists.length _ _ _ _ (le_refl _) (by simp) hloop
      have h2 := ListsKept_trans h0 h1
      split at h
      · simp at h
      · split at h
        · simp only [Except.ok.injEq] at h
          subst h
          exact ListsKept_trans h2 (ListsKept_of_eq _ rfl rfl)
        · simp only [Except.ok.injEq] at h
          subst h
          exact h2

theorem AddPackage_keeps (env : FEnvironment) (fuel : Nat) :
    AddPackageKeeps (AddPackage env fuel) := by
  induction fuel with
  | zero =>
    intro PackageName s r s1 h
    simp [AddPackage] at h
  | succ fuel ih =>
    intro PackageName s r s1 h
    unfold AddPackage at h
    split at h
    · simp only [Except.ok.injEq, Prod.mk.injEq] at h
      rw [← h.2]
      exact ListsKept_of_eq _ rfl rfl
    · split at h
      · simp only [Except.ok.injEq, Prod.mk.injEq] at h
        rw [← h.2]
        exact ListsKept_of_eq _ rfl rfl
      · split at h
        · simp at h
        · simp only [InitializeAssetGeneratorInternal.body, List.getElem?_concat_length] at h
          split at h
          · simp at h
          · rename_i s2 hbody
            simp only [Except.ok.injEq, Prod.mk.injEq] at h
            rw [← h.2]
            have hb := RefreshGeneratorDependencies_body_keeps env _ ih _ _ _ hbody
            exact ⟨hb.Kept, hb.Length, hb.Buckets⟩
        · split at h
          · simp only [Except.ok.injEq, Prod.mk.injEq] at h
            rw [← h.2]
            exact ListsKept_of_eq _ rfl rfl
          · split at h
            · simp only [Except.ok.injEq, Prod.mk.injEq] at h
              rw [← h.2]
              exact ListsKept_of_eq _ rfl rfl
            · simp only [Except.ok.injEq, Prod.mk.injEq] at h
              rw [← h.2]
              exact ListsKept_of_eq _ rfl rfl

/-! ## The notification loop and the dependency lists -/

theorem List_take_eraseIdx {α : Type} (l : List α) (i : Nat) :
    (l.eraseIdx i).take i = l.take i := by
  induction l generalizing i with
  | nil => simp
  | cons a rest ih =>
    cases i with
    | zero => simp
    | succ i => simp [List.eraseIdx, ih]

theorem List_mem_take_succ {α : Type} (l : List α) (i : Nat) (a : α) :
    a ∈ l.take (i + 1) ↔ a ∈ l.take i ∨ l[i]? = some a := by
  rw [List.take_succ, List.mem_append]
  cases l[i]? with
  | none => simp
  | some b => simp [eq_comm]

theorem OnGeneratorStageAdvanced_dependents_lists (PackageName : FName)
    (CurrentStageIndex Generator : Nat) (i : Nat) (s s1 : FAssetGenerationProcessor)
    (Dependents : List Nat)
    (hb : TMap.Find s.PendingDependencies PackageName = some Dependents)
    (h : OnGeneratorStageAdvanced.dependents PackageName CurrentStageIndex Generator i s
      = .ok s1) :
    ∀ DependencyList dl, s.DependencyLists[DependencyList]? = some dl →
      ∃ dl1, s1.DependencyLists[DependencyList]? = some dl1
        ∧ dl1.AssetTypeGenerator = dl.AssetTypeGenerator
        ∧ (∀ DependencyStage, TMap.Find dl.PackageDependencies PackageName = some DependencyStage →
            DependencyList ∈ Dependents.take i →
            CurrentStageIndex > DependencyStage.toIndex →
            dl1.PackageDependencies = TMap.Remove dl.PackageDependencies PackageName)
        ∧ ((DependencyList ∉ Dependents.take i
              ∨ ∀ DependencyStage,
                  TMap.Find dl.PackageDependencies PackageName = some DependencyStage →
                  ¬ CurrentStageIndex > DependencyStage.toIndex) → dl1 = dl) := by
  induction i generalizing s Dependents with
  | zero =>
    simp only [OnGeneratorStageAdvanced.dependents, Except.ok.injEq] at h
    subst h
    intro DL dl hdl
    exact ⟨dl, hdl, rfl, fun _ _ hmem => by simp at hmem, fun _ => rfl⟩
  | succ i ih =>
    unfold OnGeneratorStageAdvanced.dependents at h
    rw [hb] at h
    simp only at h
    split at h
    · simp at h
    · rename_i DLi hDLi
      split at h
      · simp at h
      · rename_i dli hdli
        split at h
        · simp at h
        · rename_i sti hsti
          -- the facts shared by the three continuations
          have other : ∀ (t : FAssetGenerationProcessor) (Deps1 : List Nat),
              OnGeneratorStageAdvanced.dependents PackageName CurrentStageIndex Generator i t
                = .ok s1 →
              Deps1.take i = Dependents.take i →
              TMap.Find t.PendingDependencies PackageName = some Deps1 →
              ∀ DL dl, DL ≠ DLi → s.DependencyLists[DL]? = some dl →
                t.DependencyLists[DL]? = some dl →
                ∃ dl1, s1.DependencyLists[DL]? = some dl1
                  ∧ dl1.AssetTypeGenerator = dl.AssetTypeGenerator
                  ∧ (∀ st, TMap.Find dl.PackageDependencies PackageName = some st →
                      DL ∈ Dependents.take (i + 1) → CurrentStageIndex > st.toIndex →
                      dl1.PackageDependencies = TMap.Remove dl.PackageDependencies PackageName)
                  ∧ ((DL ∉ Dependents.take (i + 1)
                        ∨ ∀ st, TMap.Find dl.PackageDependencies PackageName = some st →
                            ¬ CurrentStageIndex > st.toIndex) → dl1 = dl) := by
            intro t Deps1 hrun htake hfind DL dl hne _ hdl
            obtain ⟨dl1, a1, a2, a3, a4⟩ := ih t Deps1 hfind hrun DL dl hdl
            rw [htake] at a3 a4
            have hmem : DL ∈ Dependents.take (i + 1) ↔ DL ∈ Dependents.take i := by
              rw [List_mem_take_succ, hDLi]
              simp [Ne.symm hne]
            refine ⟨dl1, a1, a2, fun st h1 h2 h3 => a3 st h1 (hmem.mp h2) h3, fun h1 => a4 ?_⟩
            rcases h1 with h1 | h1
            · exact Or.inl (fun hm => h1 (hmem.mpr hm))
            · exact Or.inr h1
          have hin : DLi ∈ Dependents.take (i + 1) := by
            rw [List_mem_take_succ]
            exact Or.inr hDLi
          split at h
          · rename_i hgt
            -- the dependency is removed
            have removed : ∀ (t : FAssetGenerationProcessor) (Deps1 : List Nat),
                OnGeneratorStageAdvanced.dependents PackageName CurrentStageIndex Generator i t
                  = .ok s1 →
                TMap.Find t.PendingDependencies PackageName = some Deps1 →
                t.DependencyLists[DLi]? = some { dli with
                  PackageDependencies := TMap.Remove dli.PackageDependencies PackageName } →
                ∃ dl1, s1.DependencyLists[DLi]? = some dl1
                  ∧ dl1.AssetTypeGenerator = dli.AssetTypeGenerator
                  ∧ dl1.PackageDependencies
                      = TMap.Remove dli.PackageDependencies PackageName := by
              intro t Deps1 hrun hfind hdl
              obtain ⟨dl1, a1, a2, _, a4⟩ := ih t Deps1 hfind hrun DLi _ hdl
              have := a4 (Or.inr (fun st hst => by
                simp only [TMap_Find_Remove_self] at hst
                exact absurd hst (by simp)))
              subst this
              exact ⟨_, a1, rfl, rfl⟩
            have hlt : DLi < s.DependencyLists.length := (List.getElem?_eq_some.mp hdli).1
            split at h
            · -- the dependent has no dependency left
              intro DL dl hdl
              by_cases hDL : DL = DLi
              · subst hDL
                rw [hdli] at hdl
                simp only [Option.some.injEq] at hdl
                subst hdl
                obtain ⟨dl1, a1, a2, a3⟩ := removed _ (Dependents.eraseIdx i) h
                  (TMap_Find_Add_self _ _ _) (List.getElem?_set_self hlt)
                refine ⟨dl1, a1, a2, fun _ _ _ _ => a3, fun h1 => ?_⟩
                rcases h1 with h1 | h1
                · exact absurd hin h1
                · exact absurd hgt (h1 _ hsti)
              · exact other _ (Dependents.eraseIdx i) h (List_take_eraseIdx _ _)
                  (TMap_Find_Add_self _ _ _) DL dl hDL hdl
                  ((List.getElem?_set_ne (Ne.symm hDL)).trans hdl)
            · intro DL dl hdl
              by_cases hDL : DL = DLi
              · subst hDL
                rw [hdli] at hdl
                simp only [Option.some.injEq] at hdl
                subst hdl
                obtain ⟨dl1, a1, a2, a3⟩ := removed _ Dependents h hb
                  (List.getElem?_set_self hlt)
                refine ⟨dl1, a1, a2, fun _ _ _ _ => a3, fun h1 => ?_⟩
                rcases h1 with h1 | h1
                · exact absurd hin h1
                · exact absurd hgt (h1 _ hsti)
              · exact other _ Dependents h rfl hb DL dl hDL hdl
                  ((List.getElem?_set_ne (Ne.symm hDL)).trans hdl)
          · rename_i hgt
            intro DL dl hdl
            by_cases hDL : DL = DLi
            · subst hDL
              rw [hdli] at hdl
              simp only [Option.some.injEq] at hdl
              subst hdl
              obtain ⟨dl1, a1, a2, _, a4⟩ := ih s Dependents hb h DL _ hdli
              have hsame := a4 (Or.inr (fun st hst => by
                rw [hsti] at hst
                simp only [Option.some.injEq] at hst
                subst hst
                exact hgt))
              subst hsame
              refine ⟨_, a1, rfl, fun st hst _ hc => ?_, fun _ => rfl⟩
              rw [hsti] at hst
              simp only [Option.some.injEq] at hst
              subst hst
              exact absurd hc hgt
            · exact other s Dependents h rfl hb DL dl hDL hdl hdl

theorem OnGeneratorStageAdvanced_notify_lists (PackageName : FName)
    (CurrentStageIndex Generator : Nat) (s s1 : FAssetGenerationProcessor)
    (h : OnGeneratorStageAdvanced.notify PackageName CurrentStageIndex Generator s = .ok s1) :
    ∀ DependencyList dl, s.DependencyLists[DependencyList]? = some dl →
      ∃ dl1, s1.DependencyLists[DependencyList]? = some dl1
        ∧ dl1.AssetTypeGenerator = dl.AssetTypeGenerator
        ∧ (∀ Dependents DependencyStage,
            TMap.Find s.PendingDependencies PackageName = some Dependents →
            DependencyList ∈ Dependents →
            TMap.Find dl.PackageDependencies PackageName = some DependencyStage →
            CurrentStageIndex > DependencyStage.toIndex →
            dl1.PackageDependencies = TMap.Remove dl.PackageDependencies PackageName)
        ∧ (((∀ Dependents, TMap.Find s.PendingDependencies PackageName = some Dependents →
                DependencyList ∉ Dependents)
              ∨ ∀ DependencyStage,
                  TMap.Find dl.PackageDependencies PackageName = some DependencyStage →
                  ¬ CurrentStageIndex > DependencyStage.toIndex) → dl1 = dl) := by
  unfold OnGeneratorStageAdvanced.notify at h
  split at h
  · rename_i hnone
    simp only [Except.ok.injEq] at h
    subst h
    intro DL dl hdl
    exact ⟨dl, hdl, rfl, fun Deps _ hD => by rw [hnone] at hD; simp at hD, fun _ => rfl⟩
  · rename_i Dependents hb
    split at h
    · simp at h
    · rename_i s2 hloop
      have key := OnGeneratorStageAdvanced_dependents_lists _ _ _ _ _ _ _ hb hloop
      rw [List.take_length] at key
      have hlists : s1.DependencyLists = s2.DependencyLists := by
        split at h
        · simp at h
        · split at h
          · simp only [Except.ok.injEq] at h
            subst h
            rfl
          · simp only [Except.ok.injEq] at h
            subst h
            rfl
      intro DL dl hdl
      obtain ⟨dl1, a1, a2, a3, a4⟩ := key DL dl hdl
      refine ⟨dl1, by rw [hlists]; exact a1, a2, fun Deps st hD hmem hst hc => ?_, fun h1 => a4 ?_⟩
      · rw [hb] at hD
        simp only [Option.some.injEq] at hD
        subst hD
        exact a3 st hst hmem hc
      · rcases h1 with h1 | h1
        · exact Or.inl (h1 _ hb)
        · exact Or.inr h1

theorem OnGeneratorStageAdvanced_lists (env : FEnvironment) (fuel Generator : Nat)
    (s s1 : FAssetGenerationProcessor) (g : UAssetTypeGenerator)
    (hg : s.Generators[Generator]? = some g)
    (h : OnGeneratorStageAdvanced env fuel Generator s = .ok s1) :
    ∃ s0, OnGeneratorStageAdvanced.notify g.PackageName g.CurrentStage.toIndex Generator
          { s with Trace := s.Trace ++ [.OnGeneratorStageAdvanced Generator] } = .ok s0
      ∧ ∀ i, i < s0.DependencyLists.length → s1.DependencyLists[i]? = s0.DependencyLists[i]? := by
  unfold OnGeneratorStageAdvanced at h
  rw [hg] at h
  simp only at h
  split at h
  · simp at h
  · rename_i s0 hnotify
    refine ⟨s0, hnotify, ?_⟩
    split at h
    · exact (RefreshGeneratorDependencies_body_keeps env _ (AddPackage_keeps env fuel) _ _ _ h).Kept
    · unfold CleanupAssetGenerator at h
      split at h
      · simp at h
      · split at h
        · simp at h
        · simp only [Except.ok.injEq] at h
          subst h
          intro i _
          rfl

/-! ## What the notification loop appends to the ready queue -/

theorem OnGeneratorStageAdvanced_dependents_ready (PackageName : FName)
    (CurrentStageIndex Generator : Nat) (i : Nat) (s s1 : FAssetGenerationProcessor)
    (h : OnGeneratorStageAdvanced.dependents PackageName CurrentStageIndex Generator i s
      = .ok s1) :
    ∃ k, s1.GeneratorsReadyToAdvance
      = s.GeneratorsReadyToAdvance ++ List.replicate k Generator := by
  induction i generalizing s with
  | zero =>
    simp only [OnGeneratorStageAdvanced.dependents, Except.ok.injEq] at h
    subst h
    exact ⟨0, by simp⟩
  | succ i ih =>
    unfold OnGeneratorStageAdvanced.dependents at h
    split at h
    · simp at h
    · split at h
      · simp at h
      · split at h
        · simp at h
        · split at h
          · simp at h
          · split at h
            · simp only at h
              split at h
              · obtain ⟨k, hk⟩ := ih _ h
                refine ⟨k + 1, ?_⟩
                rw [hk, List.replicate_succ, List.append_assoc]
                rfl
              · obtain ⟨k, hk⟩ := ih _ h
                exact ⟨k, hk⟩
            · exact ih _ h

theorem OnGeneratorStageAdvanced_notify_ready (PackageName : FName)
    (CurrentStageIndex Generator : Nat) (s s1 : FAssetGenerationProcessor)
    (h : OnGeneratorStageAdvanced.notify PackageName CurrentStageIndex Generator s = .ok s1) :
    ∃ k, s1.GeneratorsReadyToAdvance
      = s.GeneratorsReadyToAdvance ++ List.replicate k Generator := by
  unfold OnGeneratorStageAdvanced.notify at h
  split at h
  · simp only [Except.ok.injEq] at h
    subst h
    exact ⟨0, by simp⟩
  · split at h
    · simp at h
    · rename_i s2 hloop
      obtain ⟨k, hk⟩ := OnGeneratorStageAdvanced_dependents_ready _ _ _ _ _ _ hloop
      split at h
      · simp at h
      · split at h
        · simp only [Except.ok.injEq] at h
          subst h
          exact ⟨k, hk⟩
        · simp only [Except.ok.injEq] at h
          subst h
          exact ⟨k, hk⟩

/-! ## Which dependencies a refresh records -/

theorem FAssetTypeGeneratorRegistry_scan_mem (l : List UClass) (k i : Nat) (c : UClass) :
    (i, c) ∈ FAssetTypeGeneratorRegistry.scan k l
      ↔ k ≤ i ∧ l[i - k]? = some c ∧ c.IsRegistered := by
  induction l generalizing k with
  | nil => simp [FAssetTypeGeneratorRegistry.scan]
  | cons a rest ih =>
    have hrest : (i, c) ∈ FAssetTypeGeneratorRegistry.scan (k + 1) rest
        ↔ k < i ∧ (a :: rest)[i - k]? = some c ∧ c.IsRegistered := by
      rw [ih]
      constructor
      · rintro ⟨h1, h2, h3⟩
        refine ⟨h1, ?_, h3⟩
        obtain ⟨m, rfl⟩ : ∃ m, i = k + 1 + m := ⟨i - (k + 1), by omega⟩
        have e1 : k + 1 + m - (k + 1) = m := by omega
        have e2 : k + 1 + m - k = m + 1 := by omega
        rw [e1] at h2
        rw [e2]
        simpa using h2
      · rintro ⟨h1, h2, h3⟩
        refine ⟨h1, ?_, h3⟩
        obtain ⟨m, rfl⟩ : ∃ m, i = k + 1 + m := ⟨i - (k + 1), by omega⟩
        have e1 : k + 1 + m - (k + 1) = m := by omega
        have e2 : k + 1 + m - k = m + 1 := by omega
        rw [e2] at h2
        rw [e1]
        simpa using h2
    have hhead : ∀ (hreg : ¬ a.IsRegistered),
        ((i, c) ∈ FAssetTypeGeneratorRegistry.scan (k + 1) rest
          ↔ k ≤ i ∧ (a :: rest)[i - k]? = some c ∧ c.IsRegistered) := by
      intro hreg
      rw [hrest]
      constructor
      · rintro ⟨h1, h2, h3⟩
        exact ⟨by omega, h2, h3⟩
      · rintro ⟨h1, h2, h3⟩
        refine ⟨?_, h2, h3⟩
        by_contra hlt
        have hik : i - k = 0 := by omega
        rw [hik] at h2
        simp only [List.getElem?_cons_zero, Option.some.injEq] at h2
        subst h2
        exact hreg h3
    unfold FAssetTypeGeneratorRegistry.scan
    by_cases h1 : a.CLASS_Abstract = true
    · rw [if_pos h1]
      exact hhead (fun hreg => by rw [hreg.1] at h1; exact absurd h1 (by decide))
    · rw [if_neg h1]
      by_cases h2 : (!a.CLASS_Native) = true
      · rw [if_pos h2]
        exact hhead (fun hreg => by rw [hreg.2.1] at h2; exact absurd h2 (by decide))
      · rw [if_neg h2]
        by_cases h3 : a.AssetClass ≠ NAME_None
        · rw [if_pos h3, List.mem_cons, hrest]
          have hreg : a.IsRegistered := by
            refine ⟨by simpa using h1, by simpa using h2, h3⟩
          constructor
          · rintro (h | ⟨h4, h5, h6⟩)
            · simp only [Prod.mk.injEq] at h
              obtain ⟨rfl, rfl⟩ := h
              exact ⟨le_refl _, by simp, hreg⟩
            · exact ⟨by omega, h5, h6⟩
          · rintro ⟨h4, h5, h6⟩
            by_cases hik : i = k
            · subst hik
              left
              simp only [Nat.sub_self, List.getElem?_cons_zero, Option.some.injEq] at h5
              rw [h5]
            · exact Or.inr ⟨by omega, h5, h6⟩
        · rw [if_neg h3]
          exact hhead (fun hreg => h3 hreg.2.2)

theorem TMap_Find_foldl_last {K X V : Type} [DecidableEq K]
    (f : List (K × V) → X → List (K × V)) (hits : X → Prop) (val : X → V) (C : K)
    (hf : ∀ m x, (hits x → TMap.Find (f m x) C = some (val x))
      ∧ (¬ hits x → TMap.Find (f m x) C = TMap.Find m C))
    (L : List X) (m : List (K × V)) :
    ((∃ x, x ∈ L ∧ hits x) → ∃ x, x ∈ L ∧ hits x ∧ TMap.Find (L.foldl f m) C = some (val x))
      ∧ ((∀ x, x ∈ L → ¬ hits x) → TMap.Find (L.foldl f m) C = TMap.Find m C) := by
  induction L generalizing m with
  | nil =>
    simp
  | cons a rest ih =>
    simp only [List.foldl_cons]
    obtain ⟨ih1, ih2⟩ := ih (f m a)
    constructor
    · rintro ⟨x, hx, hhit⟩
      by_cases hrest : ∃ y, y ∈ rest ∧ hits y
      · obtain ⟨y, hy, hhy, hfind⟩ := ih1 hrest
        exact ⟨y, List.mem_cons_of_mem _ hy, hhy, hfind⟩
      · have hnone : ∀ y, y ∈ rest → ¬ hits y := fun y hy hh => hrest ⟨y, hy, hh⟩
        rcases List.mem_cons.mp hx with rfl | hx
        · exact ⟨x, List.mem_cons_self _ _, hhit, by rw [ih2 hnone, (hf m x).1 hhit]⟩
        · exact absurd hhit (hnone x hx)
    · intro hall
      rw [ih2 (fun y hy => hall y (List.mem_cons_of_mem _ hy)),
        (hf m a).2 (hall a (List.mem_cons_self _ _))]

theorem FAssetTypeGeneratorRegistry_registerAdditional_find (m : List (FName × Nat))
    (Generator : Nat × UClass) (C : FName) :
    (C ∈ Generator.2.AdditionallyHandledAssetClasses →
        TMap.Find (FAssetTypeGeneratorRegistry.registerAdditional m Generator) C
          = some Generator.1)
      ∧ (¬ C ∈ Generator.2.AdditionallyHandledAssetClasses →
        TMap.Find (FAssetTypeGeneratorRegistry.registerAdditional m Generator) C
          = TMap.Find m C) := by
  have key := TMap_Find_foldl_last
    (fun (m : List (FName × Nat)) (AssetClass : FName) => TMap.Add m AssetClass Generator.1)
    (fun AssetClass => AssetClass = C) (fun _ => Generator.1) C
    (fun m x => ⟨fun hx => by rw [hx]; exact TMap_Find_Add_self _ _ _,
      fun hx => TMap_Find_Add_ne _ _ _ _ (Ne.symm hx)⟩)
    Generator.2.AdditionallyHandledAssetClasses m
  constructor
  · intro hmem
    obtain ⟨x, _, _, hfind⟩ := key.1 ⟨C, hmem, rfl⟩
    exact hfind
  · intro hmem
    exact key.2 (fun x hx hxC => hmem (hxC ▸ hx))

theorem FAssetTypeGeneratorRegistry_registerPrimary_find (m : List (FName × Nat))
    (Generator : Nat × UClass) (C : FName) :
    (Generator.2.AssetClass = C →
        TMap.Find (FAssetTypeGeneratorRegistry.registerPrimary m Generator) C
          = some Generator.1)
      ∧ (¬ Generator.2.AssetClass = C →
        TMap.Find (FAssetTypeGeneratorRegistry.registerPrimary m Generator) C
          = TMap.Find m C) :=
  ⟨fun h => by rw [← h]; exact TMap_Find_Add_self _ _ _,
    fun h => TMap_Find_Add_ne _ _ _ _ (Ne.symm h)⟩

/-! ## The enumeration generator -/

theorem IsEnumerationUpToDate_names_iff (host : FEnumHost) (Enum : UUserDefinedEnum) (i : Nat)
    (Names : List FEnumNamePair) :
    IsEnumerationUpToDate.names host Enum i Names = true
      ↔ ∀ (j : Nat) (p : FEnumNamePair), Names[j]? = some p →
          ∃ ExistingName, Enum.Names[i + j]? = some (ExistingName, host.GetIntegerField p.Value)
            ∧ FString.ToLower host ExistingName = FString.ToLower host p.Name := by
  induction Names generalizing i with
  | nil => simp [IsEnumerationUpToDate.names]
  | cons a rest ih =>
    unfold IsEnumerationUpToDate.names
    cases hE : Enum.Names[i]? with
    | none =>
      simp only [Bool.false_eq_true, false_iff]
      intro hall
      obtain ⟨_, this, _⟩ := hall 0 a (by simp)
      rw [Nat.add_zero, hE] at this
      simp at this
    | some e =>
      obtain ⟨ExistingName, ExistingValue⟩ := e
      simp only
      by_cases hne : FString.NotEqual host ExistingName a.Name = true
          ∨ ExistingValue ≠ host.GetIntegerField a.Value
      · rw [if_pos hne]
        simp only [Bool.false_eq_true, false_iff]
        intro hall
        obtain ⟨ExistingName1, this, hfold⟩ := hall 0 a (by simp)
        rw [Nat.add_zero, hE] at this
        simp only [Option.some.injEq, Prod.mk.injEq] at this
        rcases hne with hne | hne
        · rw [← this.1] at hfold
          simp [FString.NotEqual, hfold] at hne
        · exact hne this.2
      · rw [if_neg hne, ih]
        have heq : FString.ToLower host ExistingName = FString.ToLower host a.Name
            ∧ ExistingValue = host.GetIntegerField a.Value := by
          constructor
          · by_contra hc
            exact hne (Or.inl (by simp [FString.NotEqual, hc]))
          · by_contra hc
            exact hne (Or.inr hc)
        constructor
        · intro hall j p hj
          cases j with
          | zero =>
            simp only [List.getElem?_cons_zero, Option.some.injEq] at hj
            subst hj
            exact ⟨ExistingName, by rw [Nat.add_zero, hE, heq.2], heq.1⟩
          | succ j =>
            simp only [List.getElem?_cons_succ] at hj
            have := hall j p hj
            rw [show i + (j + 1) = i + 1 + j by omega]
            exact this
        · intro hall j p hj
          have := hall (j + 1) p (by simpa using hj)
          rw [show i + (j + 1) = i + 1 + j by omega] at this
          exact this

theorem IsEnumerationUpToDate_displayNames_iff (host : FEnumHost) (Enum : UUserDefinedEnum)
    (DisplayNames : List FEnumDisplayNamePair) :
    IsEnumerationUpToDate.displayNames host Enum DisplayNames = true
      ↔ ∀ p, p ∈ DisplayNames →
          ∃ ExistingDisplayName,
            FNameMap.Find host Enum.DisplayNameMap p.Name = some ExistingDisplayName
            ∧ FString.ToLower host ExistingDisplayName
                = FString.ToLower host p.DisplayName := by
  induction DisplayNames with
  | nil => simp [IsEnumerationUpToDate.displayNames]
  | cons a rest ih =>
    unfold IsEnumerationUpToDate.displayNames
    cases hF : FNameMap.Find host Enum.DisplayNameMap a.Name with
    | none =>
      simp only [Bool.false_eq_true, false_iff]
      intro hall
      obtain ⟨_, this, _⟩ := hall a (List.mem_cons_self _ _)
      rw [hF] at this
      simp at this
    | some ExistingDisplayName =>
      simp only
      by_cases hne : FString.NotEqual host ExistingDisplayName a.DisplayName = true
      · rw [if_pos hne]
        simp only [Bool.false_eq_true, false_iff]
        intro hall
        obtain ⟨ExistingDisplayName1, this, hfold⟩ := hall a (List.mem_cons_self _ _)
        rw [hF] at this
        simp only [Option.some.injEq] at this
        rw [← this] at hfold
        simp [FString.NotEqual, hfold] at hne
      · rw [if_neg hne, ih]
        have heq : FString.ToLower host ExistingDisplayName
            = FString.ToLower host a.DisplayName := by
          by_contra hc
          exact hne (by simp [FString.NotEqual, hc])
        constructor
        · intro hall p hp
          rcases List.mem_cons.mp hp with rfl | hp
          · exact ⟨ExistingDisplayName, hF, heq⟩
          · exact hall p hp
        · intro hall p hp
          exact hall p (List.mem_cons_of_mem _ hp)

theorem PopulateEnumWithData_ResultEnumNames_eq (host : FEnumHost) (n : Nat)
    (Names : List FEnumNamePair) :
    PopulateEnumWithData.ResultEnumNames host n Names
      = (Names.take n).map (fun p => (FNameToString p.Name, host.GetIntegerField p.Value)) := by
  induction Names generalizing n with
  | nil => cases n <;> simp [PopulateEnumWithData.ResultEnumNames]
  | cons a rest ih =>
    cases n with
    | zero => simp [PopulateEnumWithData.ResultEnumNames]
    | succ n => simp [PopulateEnumWithData.ResultEnumNames, ih]

theorem PopulateEnumWithData_displayNames_eq (host : FEnumHost) (Enum : UUserDefinedEnum)
    (DisplayNames : List FEnumDisplayNamePair) :
    PopulateEnumWithData.displayNames host Enum DisplayNames
      = { Enum with
          DisplayNameMap :=
            DisplayNames.foldl (fun m p => FNameMap.Add host m p.Name p.DisplayName)
              Enum.DisplayNameMap
          Calls := Enum.Calls
            ++ DisplayNames.map
                (fun p => EEnumCall.DisplayNameMapAdd (FNameToString p.Name) p.DisplayName) } := by
  induction DisplayNames generalizing Enum with
  | nil => simp [PopulateEnumWithData.displayNames]
  | cons a rest ih =>
    simp only [PopulateEnumWithData.displayNames, ih, List.foldl_cons, List.map_cons,
      List.append_assoc, List.singleton_append]

theorem List_foldl_max_ge (l : List (FString × Int)) (a : Int) :
    a ≤ l.foldl (fun MaxValue e => max MaxValue e.2) a := by
  induction l generalizing a with
  | nil => simp
  | cons b rest ih =>
    simp only [List.foldl_cons]
    exact le_trans (le_max_left _ _) (ih _)

theorem GetMaxEnumValue_SetEnums (Enum : UUserDefinedEnum) (InNames : List (FString × Int)) :
    (Enum.SetEnums InNames).Names
        = InNames ++ [(Enum.MaxEnumItem, (Enum.SetEnums InNames).GetMaxEnumValue)] := by
  cases InNames with
  | nil => simp [UUserDefinedEnum.SetEnums, UUserDefinedEnum.GetMaxEnumValue]
  | cons a rest =>
    have hmax : max (rest.foldl (fun MaxValue e => max MaxValue e.2) a.2)
        (rest.foldl (fun MaxValue e => max MaxValue e.2) a.2 + 1)
        = rest.foldl (fun MaxValue e => max MaxValue e.2) a.2 + 1 := by
      apply max_eq_right
      omega
    simp [UUserDefinedEnum.SetEnums, UUserDefinedEnum.GetMaxEnumValue, List.foldl_append, hmax]

theorem PopulateEnumWithData_eq (host : FEnumHost) (AssetData : FEnumAssetData)
    (Enum : UUserDefinedEnum) (LastNamePair : FEnumNamePair)
    (hlast : AssetData.Names.getLast? = some LastNamePair) :
    PopulateEnumWithData host AssetData Enum
      = if (!FString.EndsWith host LastNamePair.Name "_MAX") = true then
          .error .lastNameWithoutMax
        else if host.GetIntegerField LastNamePair.Value
            ≠ (Enum.SetEnums
                (AssetData.Names.dropLast.map
                  (fun p => (FNameToString p.Name, host.GetIntegerField p.Value)))).GetMaxEnumValue
          then .error .maxValueMismatch
        else .ok (PopulateEnumWithData.displayNames host
          (Enum.SetEnums
            (AssetData.Names.dropLast.map
              (fun p => (FNameToString p.Name, host.GetIntegerField p.Value))))
          AssetData.DisplayNameMap) := by
  have hres : PopulateEnumWithData.ResultEnumNames host (AssetData.Names.length - 1)
        AssetData.Names
      = AssetData.Names.dropLast.map
          (fun p => (FNameToString p.Name, host.GetIntegerField p.Value)) := by
    rw [PopulateEnumWithData_ResultEnumNames_eq, List.dropLast_eq_take]
  unfold PopulateEnumWithData
  rw [hlast]
  simp only [hres]

theorem PopulateEnumWithData_ok (host : FEnumHost) (AssetData : FEnumAssetData)
    (Enum : UUserDefinedEnum) (LastNamePair : FEnumNamePair)
    (hlast : AssetData.Names.getLast? = some LastNamePair)
    (hend : FString.EndsWith host LastNamePair.Name "_MAX" = true)
    (hmax : host.GetIntegerField LastNamePair.Value
      = (Enum.SetEnums
          (AssetData.Names.dropLast.map
            (fun p => (FNameToString p.Name, host.GetIntegerField p.Value)))).GetMaxEnumValue) :
    ∃ Enum1, PopulateEnumWithData host AssetData Enum = .ok Enum1
      ∧ Enum1.MaxEnumItem = Enum.MaxEnumItem
      ∧ Enum1.Calls
          = Enum.Calls
            ++ EEnumCall.SetEnums
                (AssetData.Names.dropLast.map
                  (fun p => (FNameToString p.Name, host.GetIntegerField p.Value)))
              :: AssetData.DisplayNameMap.map
                  (fun p => EEnumCall.DisplayNameMapAdd (FNameToString p.Name) p.DisplayName)
      ∧ Enum1.Names
          = AssetData.Names.dropLast.map
              (fun p => (FNameToString p.Name, host.GetIntegerField p.Value))
            ++ [(Enum.MaxEnumItem, host.GetIntegerField LastNamePair.Value)]
      ∧ Enum1.DisplayNameMap
          = AssetData.DisplayNameMap.foldl
              (fun m p => FNameMap.Add host m p.Name p.DisplayName)
              Enum.DisplayNameMap := by
  rw [PopulateEnumWithData_eq host AssetData Enum LastNamePair hlast, hend, if_neg (by decide),
    if_neg (not_not.mpr hmax), PopulateEnumWithData_displayNames_eq]
  refine ⟨_, rfl, rfl, ?_, ?_, ?_⟩
  · simp only [UUserDefinedEnum.SetEnums, List.append_assoc, List.singleton_append]
  · simp only
    rw [GetMaxEnumValue_SetEnums, ← hmax]
  · simp only [UUserDefinedEnum.SetEnums]

theorem PopulateEnumWithData_of_ok (host : FEnumHost) (AssetData : FEnumAssetData)
    (Enum Enum1 : UUserDefinedEnum)
    (h : PopulateEnumWithData host AssetData Enum = .ok Enum1) :
    ∃ LastNamePair, AssetData.Names.getLast? = some LastNamePair
      ∧ FString.EndsWith host LastNamePair.Name "_MAX" = true
      ∧ host.GetIntegerField LastNamePair.Value
        = (Enum.SetEnums
            (AssetData.Names.dropLast.map
              (fun p => (FNameToString p.Name, host.GetIntegerField p.Value)))).GetMaxEnumValue := by
  cases hlast : AssetData.Names.getLast? with
  | none => simp [PopulateEnumWithData, hlast] at h
  | some LastNamePair =>
    rw [PopulateEnumWithData_eq host AssetData Enum LastNamePair hlast] at h
    refine ⟨LastNamePair, rfl, ?_, ?_⟩
    · by_contra hend
      rw [if_pos (by simpa using hend)] at h
      simp at h
    · by_contra hmax
      split at h
      · simp at h
      · simp at h

theorem ResultEnumNames_of_int32 (host : FEnumHost) (Names : List FEnumNamePair)
    (h : ∀ p, p ∈ Names → p.Name ≠ "" ∧ -2147483648 ≤ p.Value ∧ p.Value ≤ 2147483647) :
    Names.map (fun p => (FNameToString p.Name, host.GetIntegerField p.Value))
      = Names.map (fun p => (p.Name, p.Value)) := by
  apply List.map_congr_left
  intro p hp
  obtain ⟨h1, h2, h3⟩ := h p hp
  simp only [FNameToString, if_neg h1, host.GetIntegerField_exact p.Value h2 h3]

theorem EndsWith_A_MAX (host : FEnumHost) : FString.EndsWith host "A_MAX" "_MAX" = true := by
  simp [FString.EndsWith, FString.ToLower, List.isSuffixOf]

theorem FNameToString_idem (Name : FString) :
    FNameToString (FNameToString Name) = FNameToString Name := by
  unfold FNameToString
  by_cases h : Name = ""
  · simp [h]
  · simp [h]

theorem FNameKey_FNameToString (host : FEnumHost) (Name : FString) :
    FNameKey host (FNameToString Name) = FNameKey host Name := by
  unfold FNameKey
  rw [FNameToString_idem]

theorem FNameMap_Find_congr (host : FEnumHost) (m : List (FString × FString))
    (A B : FString) (h : FNameKey host A = FNameKey host B) :
    FNameMap.Find host m A = FNameMap.Find host m B := by
  induction m with
  | nil => rfl
  | cons e rest ih =>
    obtain ⟨k, v⟩ := e
    simp only [FNameMap.Find, h, ih]

theorem FNameMap_Add_of_not_mem (host : FEnumHost) (m : List (FString × FString))
    (Name v : FString) (h : FNameKey host Name ∉ m.map (fun e => FNameKey host e.1)) :
    FNameMap.Add host m Name v = m ++ [(FNameToString Name, v)] := by
  induction m with
  | nil => simp [FNameMap.Add]
  | cons e rest ih =>
    obtain ⟨k0, w⟩ := e
    simp only [List.map_cons, List.mem_cons, not_or] at h
    have hne : ¬ FNameKey host k0 = FNameKey host Name := fun hk => h.1 hk.symm
    simp only [FNameMap.Add, if_neg hne, List.cons_append, List.cons.injEq, true_and]
    exact ih h.2

theorem FNameMap_foldl_Add_nodup (host : FEnumHost) (L : List FEnumDisplayNamePair)
    (m : List (FString × FString))
    (hL : (L.map (fun p => FNameKey host p.Name)).Nodup)
    (hm : ∀ p, p ∈ L → FNameKey host p.Name ∉ m.map (fun e => FNameKey host e.1)) :
    L.foldl (fun m p => FNameMap.Add host m p.Name p.DisplayName) m
      = m ++ L.map (fun p => (FNameToString p.Name, p.DisplayName)) := by
  induction L generalizing m with
  | nil => simp
  | cons a rest ih =>
    simp only [List.map_cons, List.nodup_cons] at hL
    simp only [List.foldl_cons, List.map_cons]
    rw [FNameMap_Add_of_not_mem _ _ _ _ (hm a (List.mem_cons_self _ _)), ih _ hL.2]
    · simp
    · intro x hx
      simp only [List.map_append, List.map_cons, List.map_nil, List.mem_append,
        List.mem_singleton, not_or, FNameKey_FNameToString]
      refine ⟨hm x (List.mem_cons_of_mem _ hx), fun hk => hL.1 ?_⟩
      rw [← hk]
      exact List.mem_map_of_mem (fun p : FEnumDisplayNamePair => FNameKey host p.Name) hx

theorem FNameMap_Find_of_mem_nodup (host : FEnumHost) (m : List (FString × FString))
    (k v : FString) (hm : (m.map (fun e => FNameKey host e.1)).Nodup) (h : (k, v) ∈ m) :
    FNameMap.Find host m k = some v := by
  induction m with
  | nil => simp at h
  | cons e rest ih =>
    obtain ⟨k0, w⟩ := e
    simp only [List.map_cons, List.nodup_cons] at hm
    rcases List.mem_cons.mp h with heq | hmem
    · simp only [Prod.mk.injEq] at heq
      obtain ⟨rfl, rfl⟩ := heq
      simp [FNameMap.Find]
    · have hne : ¬ FNameKey host k0 = FNameKey host k := by
        intro hk
        apply hm.1
        rw [hk]
        exact List.mem_map_of_mem (fun e : FString × FString => FNameKey host e.1) hmem
      simp only [FNameMap.Find, if_neg hne]
      exact ih hm.2 hmem

theorem IsEnumerationUpToDate_of_populated (host : FEnumHost) (AssetData : FEnumAssetData)
    (Enum Enum1 : UUserDefinedEnum) (LastNamePair : FEnumNamePair)
    (hempty : Enum.DisplayNameMap = [])
    (hpop : PopulateEnumWithData host AssetData Enum = .ok Enum1)
    (hlast : AssetData.Names.getLast? = some LastNamePair)
    (hname : FString.ToLower host Enum.MaxEnumItem = FString.ToLower host LastNamePair.Name)
    (hentries : ∀ p, p ∈ AssetData.Names.dropLast → p.Name ≠ "")
    (hnodup : (AssetData.DisplayNameMap.map (fun p => FNameKey host p.Name)).Nodup) :
    IsEnumerationUpToDate host AssetData Enum1 = true := by
  obtain ⟨Last1, hlast1, hend, hmax⟩ := PopulateEnumWithData_of_ok _ _ _ _ hpop
  rw [hlast] at hlast1
  simp only [Option.some.injEq] at hlast1
  subst hlast1
  obtain ⟨Enum2, h1, _, _, hnames, hdisplay⟩ :=
    PopulateEnumWithData_ok host AssetData Enum LastNamePair hlast hend hmax
  rw [hpop] at h1
  simp only [Except.ok.injEq] at h1
  subst h1
  -- the entries are the dump entries
  have hsplit : AssetData.Names = AssetData.Names.dropLast ++ [LastNamePair] := by
    have hne : AssetData.Names ≠ [] := by
      intro hnil
      rw [hnil] at hlast
      simp at hlast
    have := List.dropLast_append_getLast hne
    rw [List.getLast?_eq_getLast _ hne] at hlast
    simp only [Option.some.injEq] at hlast
    rw [hlast] at this
    exact this.symm
  have hfront : AssetData.Names.dropLast.map
        (fun p => (FNameToString p.Name, host.GetIntegerField p.Value))
      = AssetData.Names.dropLast.map (fun p => (p.Name, host.GetIntegerField p.Value)) := by
    apply List.map_congr_left
    intro p hp
    simp only [FNameToString, if_neg (hentries p hp)]
  have hlen : Enum1.Names.length = AssetData.Names.length := by
    rw [hnames]
    conv_rhs => rw [hsplit]
    simp
  -- the display names are the dump display names
  have hmap : Enum1.DisplayNameMap
      = AssetData.DisplayNameMap.map (fun p => (FNameToString p.Name, p.DisplayName)) := by
    rw [hdisplay, hempty, FNameMap_foldl_Add_nodup host _ _ hnodup (fun _ _ => by simp)]
    simp
  have hnames_ok : IsEnumerationUpToDate.names host Enum1 0 AssetData.Names = true := by
    rw [IsEnumerationUpToDate_names_iff]
    intro j p hj
    rw [Nat.zero_add, hnames, hfront]
    rw [hsplit] at hj
    by_cases hjl : j < AssetData.Names.dropLast.length
    · rw [List.getElem?_append_left hjl] at hj
      rw [List.getElem?_append_left (by simpa using hjl), List.getElem?_map, hj]
      exact ⟨p.Name, rfl, rfl⟩
    · rw [List.getElem?_append_right (by omega)] at hj
      rw [List.getElem?_append_right (by simp only [List.length_map]; omega)]
      simp only [List.length_map]
      cases hk : j - AssetData.Names.dropLast.length with
      | zero =>
        rw [hk] at hj
        simp only [List.getElem?_cons_zero, Option.some.injEq] at hj
        subst hj
        exact ⟨Enum.MaxEnumItem, by simp, hname⟩
      | succ k =>
        rw [hk] at hj
        simp at hj
  have hdisplay_ok :
      IsEnumerationUpToDate.displayNames host Enum1 AssetData.DisplayNameMap = true := by
    rw [IsEnumerationUpToDate_displayNames_iff]
    intro p hp
    refine ⟨p.DisplayName, ?_, rfl⟩
    rw [← FNameMap_Find_congr host _ _ _ (FNameKey_FNameToString host p.Name)]
    apply FNameMap_Find_of_mem_nodup
    · rw [hmap]
      simpa [List.map_map, Function.comp_def, FNameKey_FNameToString] using hnodup
    · rw [hmap]
      exact List.mem_map_of_mem
        (fun p : FEnumDisplayNamePair => (FNameToString p.Name, p.DisplayName)) hp
  unfold IsEnumerationUpToDate
  rw [if_neg (by simp [hlen, hmap]), hnames_ok, hdisplay_ok]
  rfl

theorem CreateAssetPackage_EnumADump (host : FEnumHost) :
    CreateAssetPackage host EnumADump "A_MAX"
      = .ok { MaxEnumItem := "A_MAX", Names := [("A", 0), ("A_MAX", 1)],
              DisplayNameMap := [], Calls := [.SetEnums [], .SetEnums [("A", 0)]] } := by
  have h0 := host.GetIntegerField_exact 0 (by decide) (by decide)
  have h1 := host.GetIntegerField_exact 1 (by decide) (by decide)
  have hA : FNameToString "A" = "A" := by decide
  simp [CreateAssetPackage, PopulateEnumWithData, EnumADump, EndsWith_A_MAX,
    PopulateEnumWithData.ResultEnumNames, UUserDefinedEnum.SetEnums,
    UUserDefinedEnum.GetMaxEnumValue, h0, h1, hA, PopulateEnumWithData.displayNames]

theorem TickAssetGeneration_cursor (env : FEnvironment) (fuel : Nat)
    (s s1 : FAssetGenerationProcessor) (h : TickAssetGeneration env fuel s = .ok s1) :
    s1.PackagesToGenerate = s.PackagesToGenerate
      ∧ s.NextPackageToGenerateIndex ≤ s1.NextPackageToGenerateIndex
      ∧ (s.NextPackageToGenerateIndex ≤ s.PackagesToGenerate.length →
          s1.NextPackageToGenerateIndex ≤ s.PackagesToGenerate.length) := by
  have hpk := (Steps_frameTick env (TickAssetGeneration_steps env _ _ _ h)).Packages
  refine ⟨hpk, ?_⟩
  unfold TickAssetGeneration at h
  split at h
  · simp at h
  · split at h
    · split at h
      · simp at h
      · rename_i s2 hg
        simp only [Except.ok.injEq] at h
        subst h
        obtain ⟨_, _, a3, a4, _⟩ := GatherNewAssetsForGeneration_loop_run env _ _ _ _ _ hg
        exact ⟨a3, a4⟩
      · rename_i s2 hg
        obtain ⟨_, _, a3, a4, _⟩ := GatherNewAssetsForGeneration_loop_run env _ _ _ _ _ hg
        have hc := TickAssetGeneration_advancePhase_cursor env _ _ _ h
        rw [hc]
        exact ⟨a3, a4⟩
    · have hc := TickAssetGeneration_advancePhase_cursor env _ _ _ h
      rw [hc]
      exact ⟨le_refl _, fun hle => hle⟩

theorem RefreshGeneratorDependencies_body_not_cyclic (env : FEnvironment)
    (addPackage : FName → FAssetGenerationProcessor →
      Except EAbort (EAddPackageResult × FAssetGenerationProcessor))
    (hadd : ∀ P s, addPackage P s ≠ .error .cyclicDependencies)
    (G : Nat) (s : FAssetGenerationProcessor) :
    RefreshGeneratorDependencies.body env addPackage G s ≠ .error .cyclicDependencies := by
  have hdep : ∀ DL s d,
      RefreshGeneratorDependencies.dependency addPackage DL s d ≠ .error .cyclicDependencies := by
    intro DL s d h
    unfold RefreshGeneratorDependencies.dependency at h
    split at h
    · split at h
      · simp at h
      · split at h <;> simp at h
    · split at h
      · rename_i e he
        simp only [Except.error.injEq] at h
        subst h
        exact hadd _ _ he
      · split at h <;> simp at h
  have hloop : ∀ DL deps s,
      RefreshGeneratorDependencies.loop addPackage DL deps s ≠ .error .cyclicDependencies := by
    intro DL deps
    induction deps with
    | nil => intro s h; simp [RefreshGeneratorDependencies.loop] at h
    | cons d rest ih =>
      intro s h
      simp only [RefreshGeneratorDependencies.loop] at h
      split at h
      · rename_i e he
        simp only [Except.error.injEq] at h
        subst h
        exact hdep _ _ _ he
      · exact ih _ h
  intro h
  unfold RefreshGeneratorDependencies.body at h
  split at h
  · simp at h
  · simp only at h
    split at h
    · rename_i e he
      simp only [Except.error.injEq] at h
      subst h
      exact hloop _ _ _ he
    · split at h
      · simp at h
      · split at h <;> simp at h

theorem AddPackage_not_cyclic (env : FEnvironment) (fuel : Nat) (PackageName : FName)
    (s : FAssetGenerationProcessor) :
    AddPackage env fuel PackageName s ≠ .error .cyclicDependencies := by
  induction fuel generalizing PackageName s with
  | zero => simp [AddPackage]
  | succ fuel ih =>
    intro h
    simp only [AddPackage] at h
    split at h
    · simp at h
    · split at h
      · simp at h
      · split at h
        · rename_i e he
          simp only [Except.error.injEq] at h
          subst h
          unfold InitializeFromFile at he
          repeat' split at he
          all_goals simp at he
        · split at h
          · rename_i e he
            simp only [Except.error.injEq] at h
            subst h
            unfold InitializeAssetGeneratorInternal.body at he
            split at he
            · simp at he
            · exact RefreshGeneratorDependencies_body_not_cyclic env _ ih _ _ he
          · simp at h
        · split at h
          · simp at h
          · split at h <;> simp at h

theorem OnGeneratorStageAdvanced_dependents_not_cyclic (PackageName : FName) (c G : Nat)
    (i : Nat) (s : FAssetGenerationProcessor) :
    OnGeneratorStageAdvanced.dependents PackageName c G i s ≠ .error .cyclicDependencies := by
  induction i generalizing s with
  | zero => simp [OnGeneratorStageAdvanced.dependents]
  | succ i ih =>
    intro h
    simp only [OnGeneratorStageAdvanced.dependents] at h
    repeat' split at h
    all_goals first
      | exact ih _ h
      | simp at h

theorem OnGeneratorStageAdvanced_not_cyclic (env : FEnvironment) (fuel G : Nat)
    (s : FAssetGenerationProcessor) :
    OnGeneratorStageAdvanced env fuel G s ≠ .error .cyclicDependencies := by
  intro h
  unfold OnGeneratorStageAdvanced at h
  split at h
  · simp at h
  · split at h
    · rename_i e he
      simp only [Except.error.injEq] at h
      subst h
      unfold OnGeneratorStageAdvanced.notify at he
      split at he
      · simp at he
      · split at he
        · rename_i e1 he1
          simp only [Except.error.injEq] at he
          subst he
          exact OnGeneratorStageAdvanced_dependents_not_cyclic _ _ _ _ _ he1
        · split at he
          · simp at he
          · split at he <;> simp at he
    · split at h
      · exact RefreshGeneratorDependencies_body_not_cyclic env _
          (AddPackage_not_cyclic env fuel) _ _ h
      · unfold CleanupAssetGenerator at h
        split at h
        · simp at h
        · split at h <;> simp at h

theorem TickAssetGeneration_advancePhase_not_cyclic (env : FEnvironment) (fuel : Nat)
    (s : FAssetGenerationProcessor) :
    TickAssetGeneration.advancePhase env fuel s ≠ .error .cyclicDependencies := by
  have hone : ∀ i s, TickAssetGeneration.advanceOne env fuel i s ≠ .error .cyclicDependencies := by
    intro i s h
    unfold TickAssetGeneration.advanceOne at h
    split at h
    · simp at h
    · split at h
      · simp at h
      · split at h
        · rename_i e he
          simp only [Except.error.injEq] at h
          subst h
          unfold AdvanceGenerationState at he
          split at he
          · rename_i e1 he1
            simp only [Except.error.injEq] at he
            subst he
            split at he1
            · unfold AdvanceGenerationState.construction at he1
              repeat' split at he1
              all_goals simp at he1
            · simp at he1
          · simp at he
        · exact OnGeneratorStageAdvanced_not_cyclic env fuel _ _ h
  have hadv : ∀ n i s, TickAssetGeneration.advance env fuel n i s ≠ .error .cyclicDependencies := by
    intro n
    induction n with
    | zero => intro i s h; simp [TickAssetGeneration.advance] at h
    | succ n ih =>
      intro i s h
      simp only [TickAssetGeneration.advance] at h
      split at h
      · rename_i e he
        simp only [Except.error.injEq] at h
        subst h
        exact hone _ _ he
      · exact ih _ _ h
  intro h
  unfold TickAssetGeneration.advancePhase at h
  simp only at h
  split at h
  · rename_i e he
    simp only [Except.error.injEq] at h
    subst h
    exact hadv _ _ _ he
  · simp at h

theorem GatherNewAssetsForGeneration_not_cyclic (env : FEnvironment) (fuel : Nat)
    (s : FAssetGenerationProcessor) :
    GatherNewAssetsForGeneration env fuel s ≠ .error .cyclicDependencies := by
  have hloop : ∀ n s,
      GatherNewAssetsForGeneration.loop env fuel n s ≠ .error .cyclicDependencies := by
    intro n
    induction n with
    | zero =>
      intro s h
      simp only [GatherNewAssetsForGeneration.loop] at h
      split at h <;> simp at h
    | succ n ih =>
      intro s h
      simp only [GatherNewAssetsForGeneration.loop] at h
      split at h
      · simp at h
      · split at h
        · exact ih _ h
        · split at h
          · rename_i e he
            simp only [Except.error.injEq] at h
            subst h
            exact AddPackage_not_cyclic env fuel _ _ he
          · split at h
            · exact ih _ h
            · simp at h
  exact hloop _ _

/-! ## Termination of `AddPackage` and `RefreshGeneratorDependencies` -/

theorem Steps_untouchedPackages_le (env : FEnvironment) {s s1 : FAssetGenerationProcessor}
    (h : Steps env 0 s s1) : env.UntouchedPackages s1 ≤ env.UntouchedPackages s :=
  filter_length_le_of_imp _ _ _ (fun k hk => Steps_isUntouched env h k hk)

theorem UntouchedPackages_le (env : FEnvironment) (s : FAssetGenerationProcessor) :
    env.UntouchedPackages s ≤ env.DumpedPackages.length :=
  List.length_filter_le _ _

theorem RefreshGeneratorDependencies_loop_bounded (env : FEnvironment)
    (addPackage : FName → FAssetGenerationProcessor →
      Except EAbort (EAddPackageResult × FAssetGenerationProcessor)) (bound : Nat)
    (hsound : AddPackageSound env addPackage)
    (hadd : ∀ P s, env.UntouchedPackages s < bound → addPackage P s ≠ .error .fuelExhausted)
    (DependencyList : Nat) (deps : List FAssetDependency) (s : FAssetGenerationProcessor)
    (hb : env.UntouchedPackages s < bound) :
    RefreshGeneratorDependencies.loop addPackage DependencyList deps s
      ≠ .error .fuelExhausted := by
  induction deps generalizing s with
  | nil => simp [RefreshGeneratorDependencies.loop]
  | cons d rest ih =>
    intro h
    simp only [RefreshGeneratorDependencies.loop] at h
    split at h
    · rename_i e he
      simp only [Except.error.injEq] at h
      subst h
      unfold RefreshGeneratorDependencies.dependency at he
      split at he
      · split at he
        · simp at he
        · split at he <;> simp at he
      · split at he
        · rename_i e1 he1
          simp only [Except.error.injEq] at he
          subst he
          exact hadd _ _ hb he1
        · split at he <;> simp at he
    · rename_i s2 h2
      have hsteps :=
        RefreshGeneratorDependencies_dependency_steps env addPackage hsound _ _ _ _ h2
      exact ih s2 (lt_of_le_of_lt (Steps_untouchedPackages_le env hsteps) hb) h

theorem RefreshGeneratorDependencies_body_bounded (env : FEnvironment)
    (addPackage : FName → FAssetGenerationProcessor →
      Except EAbort (EAddPackageResult × FAssetGenerationProcessor)) (bound : Nat)
    (hsound : AddPackageSound env addPackage)
    (hadd : ∀ P s, env.UntouchedPackages s < bound → addPackage P s ≠ .error .fuelExhausted)
    (Generator : Nat) (s : FAssetGenerationProcessor)
    (hb : env.UntouchedPackages s < bound) :
    RefreshGeneratorDependencies.body env addPackage Generator s ≠ .error .fuelExhausted := by
  intro h
  unfold RefreshGeneratorDependencies.body at h
  split at h
  · simp at h
  · simp only at h
    split at h
    · rename_i e he
      simp only [Except.error.injEq] at h
      subst h
      refine RefreshGeneratorDependencies_loop_bounded env addPackage bound hsound hadd _ _ _
        ?_ he
      exact hb
    · split at h
      · simp at h
      · split at h <;> simp at h

theorem AddPackage_bounded (env : FEnvironment) (fuel : Nat) (PackageName : FName)
    (s : FAssetGenerationProcessor) (hb : env.UntouchedPackages s < fuel) :
    AddPackage env fuel PackageName s ≠ .error .fuelExhausted := by
  induction fuel generalizing PackageName s with
  | zero => omega
  | succ fuel ih =>
    intro h
    simp only [AddPackage] at h
    split at h
    · simp at h
    · rename_i hterm
      split at h
      · simp at h
      · rename_i hflight
        split at h
        · rename_i e he
          simp only [Except.error.injEq] at h
          subst h
          unfold InitializeFromFile at he
          repeat' split at he
          all_goals simp at he
        · rename_i g hinit
          obtain ⟨hname, _, f, hfile⟩ := InitializeFromFile_some env PackageName g hinit
          split at h
          · rename_i e he
            simp only [Except.error.injEq] at h
            subst h
            simp only [InitializeAssetGeneratorInternal.body, List.getElem?_concat_length]
              at he
            have hun : s.IsUntouched PackageName = true := by
              simp only [FAssetGenerationProcessor.IsUntouched, Bool.and_eq_true,
                Bool.not_eq_true']
              exact ⟨by simpa using hterm, by simpa using hflight⟩
            refine RefreshGeneratorDependencies_body_bounded env (AddPackage env fuel) fuel
              (AddPackage_sound env fuel) (fun P s hs => ih P s hs) _ _ ?_ he
            refine lt_of_lt_of_le (filter_length_lt_of_imp _ _ _ ?_ PackageName ?_ hun ?_)
              (Nat.lt_succ_iff.mp hb)
            · intro k hk
              rw [IsUntouched_iff] at hk ⊢
              refine ⟨hk.1, fun hF => hk.2 ?_⟩
              exact (TMap_mem_Keys_Add _ _ _ _).mpr (Or.inr hF)
            · unfold FEnvironment.DumpedPackages
              rw [List.mem_dedup, TMap_mem_Keys_iff]
              exact ⟨f, hfile⟩
            · rw [IsUntouched_iff]
              intro hc
              exact hc.2 ((TMap_mem_Keys_Add _ _ _ _).mpr (Or.inl hname.symm))
          · simp at h
        · split at h
          · simp at h
          · split at h <;> simp at h

theorem RefreshGeneratorDependencies_loop_fuel
    (addPackage addPackage1 : FName → FAssetGenerationProcessor →
      Except EAbort (EAddPackageResult × FAssetGenerationProcessor))
    (hadd : ∀ P s, addPackage P s ≠ .error .fuelExhausted → addPackage1 P s = addPackage P s)
    (DependencyList : Nat) (deps : List FAssetDependency) (s : FAssetGenerationProcessor)
    (h : RefreshGeneratorDependencies.loop addPackage DependencyList deps s
      ≠ .error .fuelExhausted) :
    RefreshGeneratorDependencies.loop addPackage1 DependencyList deps s
      = RefreshGeneratorDependencies.loop addPackage DependencyList deps s := by
  induction deps generalizing s with
  | nil => rfl
  | cons d rest ih =>
    have hdep : RefreshGeneratorDependencies.dependency addPackage DependencyList s d
          ≠ .error .fuelExhausted →
        RefreshGeneratorDependencies.dependency addPackage1 DependencyList s d
          = RefreshGeneratorDependencies.dependency addPackage DependencyList s d := by
      intro hne
      unfold RefreshGeneratorDependencies.dependency at hne ⊢
      split
      · rfl
      · rename_i hfind
        simp only [hfind] at hne
        have hcall : addPackage d.PackageName s ≠ .error .fuelExhausted := by
          intro hc
          rw [hc] at hne
          exact hne rfl
        rw [hadd _ _ hcall]
    simp only [RefreshGeneratorDependencies.loop] at h ⊢
    have hne : RefreshGeneratorDependencies.dependency addPackage DependencyList s d
        ≠ .error .fuelExhausted := by
      intro hc
      rw [hc] at h
      exact h rfl
    rw [hdep hne]
    split
    · rfl
    · rename_i s2 h2
      rw [h2] at h
      exact ih s2 h

theorem RefreshGeneratorDependencies_body_fuel (env : FEnvironment)
    (addPackage addPackage1 : FName → FAssetGenerationProcessor →
      Except EAbort (EAddPackageResult × FAssetGenerationProcessor))
    (hadd : ∀ P s, addPackage P s ≠ .error .fuelExhausted → addPackage1 P s = addPackage P s)
    (Generator : Nat) (s : FAssetGenerationProcessor)
    (h : RefreshGeneratorDependencies.body env addPackage Generator s
      ≠ .error .fuelExhausted) :
    RefreshGeneratorDependencies.body env addPackage1 Generator s
      = RefreshGeneratorDependencies.body env addPackage Generator s := by
  unfold RefreshGeneratorDependencies.body at h ⊢
  split
  · rfl
  · rename_i g hg
    simp only [hg] at h ⊢
    have hne : RefreshGeneratorDependencies.loop addPackage s.DependencyLists.length
        (env.PopulateStageDependencies g)
        { s with
          DependencyLists := s.DependencyLists ++
            [{ AssetTypeGenerator := Generator, PackageDependencies := [] }] }
        ≠ .error .fuelExhausted := by
      intro hc
      rw [hc] at h
      exact h rfl
    rw [RefreshGeneratorDependencies_loop_fuel addPackage addPackage1 hadd _ _ _ hne]

theorem AddPackage_succ (env : FEnvironment) (fuel : Nat) (PackageName : FName)
    (s : FAssetGenerationProcessor) :
    AddPackage env (fuel + 1) PackageName s
      = if TSet.Contains s.ExternalPackagesResolved PackageName
            || TSet.Contains s.AlreadyGeneratedPackages PackageName
            || TSet.Contains s.KnownMissingPackages PackageName then
          .ok (.PACKAGE_EXISTS, s)
        else if TMap.Contains s.AssetGenerators PackageName then
          .ok (.PACKAGE_WILL_BE_GENERATED, s)
        else
          match InitializeFromFile env PackageName with
          | .error e => .error e
          | .ok (some NewGenerator) =>
            match InitializeAssetGeneratorInternal.body env (AddPackage env fuel)
                s.Generators.length
                { s with
                  Generators := s.Generators ++ [NewGenerator]
                  Trace := s.Trace ++
                    [.GeneratorConstructed s.Generators.length NewGenerator.PackageName] } with
            | .error e => .error e
            | .ok s1 => .ok (.PACKAGE_WILL_BE_GENERATED, s1)
          | .ok none =>
            if env.FindPackage PackageName then
              .ok (.PACKAGE_EXISTS, MarkExternalPackageDependencySatisfied s PackageName)
            else if env.DoesPackageExist PackageName then
              .ok (.PACKAGE_EXISTS, MarkExternalPackageDependencySatisfied s PackageName)
            else
              .ok (.PACKAGE_NOT_FOUND, MarkPackageAsNotFound s PackageName) := rfl

theorem AddPackage_fuel_succ (env : FEnvironment) (fuel : Nat) (PackageName : FName)
    (s : FAssetGenerationProcessor)
    (h : AddPackage env fuel PackageName s ≠ .error .fuelExhausted) :
    AddPackage env (fuel + 1) PackageName s = AddPackage env fuel PackageName s := by
  induction fuel generalizing PackageName s with
  | zero => exact absurd rfl h
  | succ fuel ih =>
    rw [AddPackage_succ env fuel] at h
    rw [AddPackage_succ env (fuel + 1), AddPackage_succ env fuel]
    by_cases hterm : (TSet.Contains s.ExternalPackagesResolved PackageName
        || TSet.Contains s.AlreadyGeneratedPackages PackageName
        || TSet.Contains s.KnownMissingPackages PackageName) = true
    · rw [if_pos hterm, if_pos hterm]
    · rw [if_neg hterm] at h
      rw [if_neg hterm, if_neg hterm]
      by_cases hflight : TMap.Contains s.AssetGenerators PackageName = true
      · rw [if_pos hflight, if_pos hflight]
      · rw [if_neg hflight] at h
        rw [if_neg hflight, if_neg hflight]
        cases hinit : InitializeFromFile env PackageName with
        | error e => rfl
        | ok o =>
          cases o with
          | none => rfl
          | some g =>
            simp only [hinit] at h
            simp only [InitializeAssetGeneratorInternal.body, List.getElem?_concat_length]
              at h ⊢
            have hne : RefreshGeneratorDependencies.body env (AddPackage env fuel)
                s.Generators.length
                { s with
                  Generators := s.Generators ++ [g]
                  Trace := s.Trace ++ [.GeneratorConstructed s.Generators.length g.PackageName]
                  AssetGenerators :=
                    TMap.Add s.AssetGenerators g.PackageName s.Generators.length }
                ≠ .error .fuelExhausted := by
              intro hc
              rw [hc] at h
              exact h rfl
            rw [RefreshGeneratorDependencies_body_fuel env (AddPackage env fuel)
              (AddPackage env (fuel + 1)) (fun P s hs => ih P s hs) _ _ hne]

theorem AddPackage_fuel_le (env : FEnvironment) (fuel fuel1 : Nat) (hle : fuel ≤ fuel1)
    (PackageName : FName) (s : FAssetGenerationProcessor)
    (h : AddPackage env fuel PackageName s ≠ .error .fuelExhausted) :
    AddPackage env fuel1 PackageName s = AddPackage env fuel PackageName s := by
  induction hle with
  | refl => rfl
  | step hle ih =>
    rw [AddPackage_fuel_succ env _ PackageName s (by rw [ih]; exact h), ih]

/-! ## The ledger and the ready queue refer to in-flight generators -/

theorem LedgerBound_of_view {s s1 : FAssetGenerationProcessor} (h : s.LedgerBound)
    (hp : s1.PendingDependencies = s.PendingDependencies)
    (hl : s1.DependencyLists = s.DependencyLists)
    (hb : ∀ k v, TMap.Find s.AssetGenerators k = some v →
      TMap.Find s1.AssetGenerators k = some v) : s1.LedgerBound := by
  refine ⟨?_, ?_⟩
  · intro P hP
    rw [hp] at hP
    have := h.Keys P hP
    unfold FAssetGenerationProcessor.IsInFlight at this ⊢
    rw [TMap_mem_Keys_iff] at this ⊢
    obtain ⟨v, hv⟩ := this
    exact ⟨v, hb _ _ hv⟩
  · intro dl hdl hne
    rw [hl] at hdl
    obtain ⟨P, hP⟩ := h.Owners dl hdl hne
    exact ⟨P, hb _ _ hP⟩

theorem QueueBound_of_view {s s1 : FAssetGenerationProcessor} (h : s.QueueBound)
    (hq : s1.GeneratorsReadyToAdvance = s.GeneratorsReadyToAdvance)
    (hb : ∀ k v, TMap.Find s.AssetGenerators k = some v →
      TMap.Find s1.AssetGenerators k = some v) : s1.QueueBound := by
  refine ⟨by rw [hq]; exact h.Nodup, ?_⟩
  intro G hG
  rw [hq] at hG
  obtain ⟨P, hP⟩ := h.Bound G hG
  exact ⟨P, hb _ _ hP⟩

theorem record_ledgerBound (t : FAssetGenerationProcessor) (DependencyList : Nat)
    (dep : FAssetDependency) (G : Nat) (ht : t.LedgerBound)
    (hflight : t.IsInFlight dep.PackageName) (hG : t.IsBound G)
    (hDL : ∀ dl, t.DependencyLists[DependencyList]? = some dl → dl.AssetTypeGenerator = G) :
    (RefreshGeneratorDependencies.record t DependencyList dep).LedgerBound := by
  refine ⟨?_, ?_⟩
  · intro P hP
    simp only [RefreshGeneratorDependencies.record] at hP
    rcases (TMap_mem_Keys_Add _ _ _ _).mp hP with h1 | h1
    · subst h1
      exact hflight
    · exact ht.Keys P h1
  · intro dl hdl hne
    simp only [RefreshGeneratorDependencies.record] at hdl
    split at hdl
    · exact ht.Owners dl hdl hne
    · rename_i dl0 hdl0
      rcases List.mem_or_eq_of_mem_set hdl with h1 | h1
      · exact ht.Owners dl h1 hne
      · subst h1
        have := hDL dl0 hdl0
        simp only
        rw [this]
        exact hG

theorem RefreshGeneratorDependencies_dependency_binds (env : FEnvironment)
    (addPackage : FName → FAssetGenerationProcessor →
      Except EAbort (EAddPackageResult × FAssetGenerationProcessor))
    (hsound : AddPackageSound env addPackage) (hsettles : AddPackageSettles addPackage)
    (hbinds : AddPackageBinds addPackage) (DependencyList G : Nat)
    (t t1 : FAssetGenerationProcessor) (dep : FAssetDependency)
    (hcall : RefreshGeneratorDependencies.dependency addPackage DependencyList t dep = .ok t1)
    (hrs : t.ReadySettled) (hl : t.LedgerBound) (hq : t.QueueBound) (hG : t.IsBound G)
    (hDL : ∃ dl, t.DependencyLists[DependencyList]? = some dl ∧ dl.AssetTypeGenerator = G) :
    t1.LedgerBound ∧ t1.QueueBound ∧ t1.IsBound G := by
  have hDLof : ∀ (u : FAssetGenerationProcessor),
      (∃ dl, u.DependencyLists[DependencyList]? = some dl ∧ dl.AssetTypeGenerator = G) →
      ∀ dl, u.DependencyLists[DependencyList]? = some dl → dl.AssetTypeGenerator = G := by
    intro u ⟨dl0, h0, h1⟩ dl hdl
    rw [h0] at hdl
    cases hdl
    exact h1
  unfold RefreshGeneratorDependencies.dependency at hcall
  split at hcall
  · rename_i v hfind
    split at hcall
    · simp at hcall
    · split at hcall
      · simp only [Except.ok.injEq] at hcall
        subst hcall
        exact ⟨record_ledgerBound t _ dep G hl
          ((TMap_mem_Keys_iff _ _).mpr ⟨v, hfind⟩) hG (hDLof t hDL), ⟨hq.Nodup, hq.Bound⟩, hG⟩
      · simp only [Except.ok.injEq] at hcall
        subst hcall
        exact ⟨hl, hq, hG⟩
  · split at hcall
    · simp at hcall
    · rename_i r t2 hadd2
      obtain ⟨hl2, hq2⟩ := hbinds _ _ _ _ hadd2 hrs hl hq
      obtain ⟨hsteps, hwbg⟩ := hsound _ _ _ _ hadd2
      have hG2 : t2.IsBound G := by
        obtain ⟨P, hP⟩ := hG
        exact ⟨P, (Steps_frameAdd env hsteps).Bindings _ _ hP⟩
      have hDL2 : ∃ dl, t2.DependencyLists[DependencyList]? = some dl
          ∧ dl.AssetTypeGenerator = G := by
        obtain ⟨dl, h0, h1⟩ := hDL
        obtain ⟨ex, hex, _⟩ := (hsettles _ _ _ _ hadd2 hrs).2.Lists
        refine ⟨dl, ?_, h1⟩
        rw [hex, List.getElem?_append_left (List.getElem?_eq_some.mp h0).1]
        exact h0
      split at hcall
      · rename_i hr
        simp only [Except.ok.injEq] at hcall
        subst hcall
        exact ⟨record_ledgerBound t2 _ dep G hl2 (hwbg hr) hG2 (hDLof t2 hDL2),
          ⟨hq2.Nodup, hq2.Bound⟩, hG2⟩
      · simp only [Except.ok.injEq] at hcall
        subst hcall
        exact ⟨hl2, hq2, hG2⟩

theorem RefreshGeneratorDependencies_loop_binds (env : FEnvironment)
    (addPackage : FName → FAssetGenerationProcessor →
      Except EAbort (EAddPackageResult × FAssetGenerationProcessor))
    (hsound : AddPackageSound env addPackage) (hsettles : AddPackageSettles addPackage)
    (hbinds : AddPackageBinds addPackage) (G : Nat) (s : FAssetGenerationProcessor)
    (hsQ : ∀ G1, G1 ∈ s.GeneratorsReadyToAdvance → G1 < G)
    (deps : List FAssetDependency) (t t1 : FAssetGenerationProcessor)
    (hcall : RefreshGeneratorDependencies.loop addPackage s.DependencyLists.length deps t
      = .ok t1)
    (h : RefreshPending G s t) (hl : t.LedgerBound) (hq : t.QueueBound) (hG : t.IsBound G) :
    t1.LedgerBound ∧ t1.QueueBound ∧ t1.IsBound G := by
  induction deps generalizing t with
  | nil =>
    simp only [RefreshGeneratorDependencies.loop, Except.ok.injEq] at hcall
    subst hcall
    exact ⟨hl, hq, hG⟩
  | cons d rest ih =>
    simp only [RefreshGeneratorDependencies.loop] at hcall
    split at hcall
    · simp at hcall
    · rename_i t2 hd
      have hDL : ∃ dl, t.DependencyLists[s.DependencyLists.length]? = some dl
          ∧ dl.AssetTypeGenerator = G := by
        obtain ⟨deps0, extra, hlists, _⟩ := h.Lists
        refine ⟨{ AssetTypeGenerator := G, PackageDependencies := deps0 }, ?_, rfl⟩
        rw [hlists, List.getElem?_append_right (le_refl _)]
        simp
      obtain ⟨hl2, hq2, hG2⟩ := RefreshGeneratorDependencies_dependency_binds env addPackage
        hsound hsettles hbinds _ G t t2 d hd h.Settled hl hq hG hDL
      exact ih t2 hcall (RefreshPending_dependency G s t t2 addPackage hsettles hsQ d h hd)
        hl2 hq2 hG2

theorem RefreshGeneratorDependencies_body_binds (env : FEnvironment)
    (addPackage : FName → FAssetGenerationProcessor →
      Except EAbort (EAddPackageResult × FAssetGenerationProcessor))
    (hsound : AddPackageSound env addPackage) (hsettles : AddPackageSettles addPackage)
    (hbinds : AddPackageBinds addPackage) (G : Nat) (s s1 : FAssetGenerationProcessor)
    (hcall : RefreshGeneratorDependencies.body env addPackage G s = .ok s1)
    (hs : s.ReadySettled) (hG : G < s.Generators.length)
    (hsQ : ∀ G1, G1 ∈ s.GeneratorsReadyToAdvance → G1 < G)
    (hl : s.LedgerBound) (hq : s.QueueBound) (hb : s.IsBound G) :
    s1.LedgerBound ∧ s1.QueueBound := by
  unfold RefreshGeneratorDependencies.body at hcall
  split at hcall
  · simp at hcall
  · simp only at hcall
    split at hcall
    · simp at hcall
    · rename_i t hloop
      have h0 : RefreshPending G s
          { s with
            DependencyLists := s.DependencyLists ++
              [{ AssetTypeGenerator := G, PackageDependencies := [] }] } := by
        refine ⟨⟨hs.Ready, ?_, ?_, hs.Advanced⟩, hG, le_refl _, ⟨[], [], rfl, by simp⟩,
          ⟨[], by simp⟩⟩
        · intro dl hdl
          simp only [List.mem_append, List.mem_singleton] at hdl
          rcases hdl with hdl | hdl
          · exact hs.Owners dl hdl
          · subst hdl
            exact hG
        · intro G1 hG1
          have := hs.Settled G1 hG1
          simp only [FAssetGenerationProcessor.Remaining, RemainingIn_append, RemainingIn_cons,
            List.length_nil, ite_self] at this ⊢
          simpa [RemainingIn] using this
      have hl0 : FAssetGenerationProcessor.LedgerBound
          { s with
            DependencyLists := s.DependencyLists ++
              [{ AssetTypeGenerator := G, PackageDependencies := [] }] } := by
        refine ⟨hl.Keys, ?_⟩
        intro dl hdl hne
        simp only [List.mem_append, List.mem_singleton] at hdl
        rcases hdl with hdl | hdl
        · exact hl.Owners dl hdl hne
        · subst hdl
          exact absurd rfl hne
      obtain ⟨hlt, hqt, hGt⟩ := RefreshGeneratorDependencies_loop_binds env addPackage hsound
        hsettles hbinds G s hsQ _ _ t hloop h0 hl0 ⟨hq.Nodup, hq.Bound⟩ hb
      obtain ⟨_, _, _, _, ⟨extraQ, hready, hexq⟩⟩ :=
        RefreshPending_loop G s addPackage hsettles hsQ _ _ t h0 hloop
      split at hcall
      · simp at hcall
      · split at hcall
        · simp only [Except.ok.injEq] at hcall
          subst hcall
          refine ⟨⟨hlt.Keys, hlt.Owners⟩, ⟨?_, ?_⟩⟩
          · have hnot : G ∉ t.GeneratorsReadyToAdvance := by
              intro hmem
              rw [hready] at hmem
              rcases List.mem_append.mp hmem with h1 | h1
              · exact Nat.lt_irrefl _ (hsQ G h1)
              · exact Nat.lt_irrefl _ (hexq G h1)
            exact List.Nodup.append hqt.Nodup (List.nodup_singleton G)
              (by
                intro a ha hb1
                simp only [List.mem_singleton] at hb1
                subst hb1
                exact hnot ha)
          · intro G1 hG1
            simp only [List.mem_append, List.mem_singleton] at hG1
            rcases hG1 with h1 | h1
            · exact hqt.Bound G1 h1
            · subst h1
              exact hGt
        · simp only [Except.ok.injEq] at hcall
          subst hcall
          exact ⟨hlt, hqt⟩

theorem AddPackage_binds (env : FEnvironment) (fuel : Nat) :
    AddPackageBinds (AddPackage env fuel) := by
  induction fuel with
  | zero =>
    intro PackageName s r s1 h
    simp [AddPackage] at h
  | succ fuel ih =>
    intro PackageName s r s1 h hs hl hq
    rw [AddPackage_succ] at h
    split at h
    · simp only [Except.ok.injEq, Prod.mk.injEq] at h
      rw [← h.2]
      exact ⟨hl, hq⟩
    · split at h
      · simp only [Except.ok.injEq, Prod.mk.injEq] at h
        rw [← h.2]
        exact ⟨hl, hq⟩
      · rename_i hterm hflight
        split at h
        · simp at h
        · rename_i g hfile
          simp only [InitializeAssetGeneratorInternal.body, List.getElem?_concat_length] at h
          split at h
          · simp at h
          · rename_i s2 hbody
            simp only [Except.ok.injEq, Prod.mk.injEq] at h
            rw [← h.2]
            have hs0 : FAssetGenerationProcessor.ReadySettled
                { s with
                  Generators := s.Generators ++ [g]
                  Trace := s.Trace ++
                    [.GeneratorConstructed s.Generators.length g.PackageName]
                  AssetGenerators := TMap.Add s.AssetGenerators g.PackageName
                    s.Generators.length } :=
              ReadySettled_of_view hs rfl rfl (by simp) (by
                intro G st r hmem
                simpa using hmem)
            obtain ⟨hname, _, _⟩ := InitializeFromFile_some env PackageName g hfile
            have hkeep : ∀ k v, TMap.Find s.AssetGenerators k = some v →
                TMap.Find (TMap.Add s.AssetGenerators g.PackageName s.Generators.length) k
                  = some v := by
              intro k v hk
              have hne : k ≠ g.PackageName := by
                intro hc
                subst hc
                rw [hname] at hk
                have : TMap.Contains s.AssetGenerators PackageName = true := by
                  simp [TMap.Contains, hk]
                exact hflight this
              rw [TMap_Find_Add_ne _ _ _ _ hne]
              exact hk
            exact RefreshGeneratorDependencies_body_binds env _ (AddPackage_sound env fuel)
              (AddPackage_settles env fuel) ih s.Generators.length _ s2 hbody hs0 (by simp)
              hs.Ready (LedgerBound_of_view hl rfl rfl hkeep) (QueueBound_of_view hq rfl hkeep)
              ⟨g.PackageName, TMap_Find_Add_self _ _ _⟩
        · split at h
          · simp only [Except.ok.injEq, Prod.mk.injEq] at h
            rw [← h.2]
            exact ⟨LedgerBound_of_view hl rfl rfl (fun _ _ h => h),
              QueueBound_of_view hq rfl (fun _ _ h => h)⟩
          · split at h
            · simp only [Except.ok.injEq, Prod.mk.injEq] at h
              rw [← h.2]
              exact ⟨LedgerBound_of_view hl rfl rfl (fun _ _ h => h),
                QueueBound_of_view hq rfl (fun _ _ h => h)⟩
            · simp only [Except.ok.injEq, Prod.mk.injEq] at h
              rw [← h.2]
              exact ⟨LedgerBound_of_view hl rfl rfl (fun _ _ h => h),
                QueueBound_of_view hq rfl (fun _ _ h => h)⟩

theorem AddPackage_not_generated (env : FEnvironment) (fuel : Nat) (PackageName : FName)
    (s s1 : FAssetGenerationProcessor) (r : EAddPackageResult)
    (h : AddPackage env fuel PackageName s = .ok (r, s1))
    (hr : r ≠ .PACKAGE_WILL_BE_GENERATED) :
    s1.AssetGenerators = s.AssetGenerators := by
  cases fuel with
  | zero => simp [AddPackage] at h
  | succ fuel =>
    rw [AddPackage_succ] at h
    split at h
    · simp only [Except.ok.injEq, Prod.mk.injEq] at h
      rw [← h.2]
    · split at h
      · simp only [Except.ok.injEq, Prod.mk.injEq] at h
        exact absurd h.1.symm hr
      · split at h
        · simp at h
        · split at h
          · simp at h
          · simp only [Except.ok.injEq, Prod.mk.injEq] at h
            exact absurd h.1.symm hr
        · split at h
          · simp only [Except.ok.injEq, Prod.mk.injEq] at h
            rw [← h.2]
            rfl
          · split at h
            · simp only [Except.ok.injEq, Prod.mk.injEq] at h
              rw [← h.2]
              rfl
            · simp only [Except.ok.injEq, Prod.mk.injEq] at h
              rw [← h.2]
              rfl

theorem GatherNewAssetsForGeneration_loop_binds (env : FEnvironment) (fuel n : Nat)
    (s s1 : FAssetGenerationProcessor) (b : Bool)
    (h : GatherNewAssetsForGeneration.loop env fuel n s = .ok (b, s1))
    (hs : s.ReadySettled) (hl : s.LedgerBound) (hq : s.QueueBound) :
    s1.LedgerBound ∧ s1.QueueBound
      ∧ (b = false → s1.AssetGenerators = s.AssetGenerators) := by
  induction n generalizing s with
  | zero =>
    unfold GatherNewAssetsForGeneration.loop at h
    split at h
    · simp only [Except.ok.injEq, Prod.mk.injEq] at h
      rw [← h.2]
      exact ⟨hl, hq, fun _ => rfl⟩
    · simp at h
  | succ n ih =>
    unfold GatherNewAssetsForGeneration.loop at h
    split at h
    · simp only [Except.ok.injEq, Prod.mk.injEq] at h
      rw [← h.2]
      exact ⟨hl, hq, fun _ => rfl⟩
    · simp only at h
      have hs0 : FAssetGenerationProcessor.ReadySettled
          { s with NextPackageToGenerateIndex := s.NextPackageToGenerateIndex + 1 } :=
        ReadySettled_of_view hs rfl rfl (le_refl _) (fun _ _ _ h => h)
      have hl0 : FAssetGenerationProcessor.LedgerBound
          { s with NextPackageToGenerateIndex := s.NextPackageToGenerateIndex + 1 } :=
        ⟨hl.Keys, hl.Owners⟩
      have hq0 : FAssetGenerationProcessor.QueueBound
          { s with NextPackageToGenerateIndex := s.NextPackageToGenerateIndex + 1 } :=
        ⟨hq.Nodup, hq.Bound⟩
      split at h
      · have key := ih _ h hs0 hl0 hq0
        exact key
      · split at h
        · simp at h
        · rename_i r s2 hadd
          have hs2 := (AddPackage_settles env fuel _ _ _ _ hadd hs0).1
          obtain ⟨hl2, hq2⟩ := AddPackage_binds env fuel _ _ _ _ hadd hs0 hl0 hq0
          split at h
          · rename_i hr
            obtain ⟨a1, a2, a3⟩ := ih _ h hs2 hl2 hq2
            refine ⟨a1, a2, fun hb => ?_⟩
            rw [a3 hb, AddPackage_not_generated env fuel _ _ _ _ hadd hr]
          · simp only [Except.ok.injEq, Prod.mk.injEq] at h
            rw [← h.2]
            refine ⟨hl2, hq2, fun hb => ?_⟩
            rw [← h.1] at hb
            simp at hb

/-! ## The frame of the notification loop -/

theorem FrameLedger_refl (s : FAssetGenerationProcessor) : FrameLedger s s :=
  ⟨rfl, rfl, rfl, rfl, rfl, rfl, rfl, rfl, rfl, rfl, rfl, rfl,
    fun _ dl1 h => ⟨dl1, h, rfl, le_refl _⟩, fun _ h => h, fun _ => rfl⟩

theorem FrameLedger_trans {s s1 s2 : FAssetGenerationProcessor} (h1 : FrameLedger s s1)
    (h2 : FrameLedger s1 s2) : FrameLedger s s2 := by
  refine ⟨h2.AssetGenerators.trans h1.AssetGenerators, h2.Generated.trans h1.Generated,
    h2.External.trans h1.External, h2.Missing.trans h1.Missing,
    h2.Generators.trans h1.Generators, h2.Trace.trans h1.Trace, h2.Next.trans h1.Next,
    h2.Finished.trans h1.Finished, h2.FirstTick.trans h1.FirstTick,
    h2.Packages.trans h1.Packages, h2.MaxAssets.trans h1.MaxAssets,
    h2.Length.trans h1.Length, ?_, fun k hk => h1.Keys k (h2.Keys k hk), ?_⟩
  · intro i dl2 hdl2
    obtain ⟨dl1, a1, a2, a3⟩ := h2.Lists i dl2 hdl2
    obtain ⟨dl, b1, b2, b3⟩ := h1.Lists i dl1 a1
    exact ⟨dl, b1, a2.trans b2, le_trans a3 b3⟩
  · intro hall
    rw [h2.Quiet ?_, h1.Quiet hall]
    intro dl1 hdl1
    obtain ⟨i, hi⟩ := List.getElem?_of_mem hdl1
    obtain ⟨dl, b1, _, b3⟩ := h1.Lists i dl1 hi
    have := hall dl (List.getElem?_mem b1)
    rw [this] at b3
    exact List.length_eq_zero.mp (Nat.le_zero.mp b3)

theorem OnGeneratorStageAdvanced_dependents_frame (PackageName : FName)
    (CurrentStageIndex Generator : Nat) (i : Nat) (s s1 : FAssetGenerationProcessor)
    (h : OnGeneratorStageAdvanced.dependents PackageName CurrentStageIndex Generator i s
      = .ok s1) : FrameLedger s s1 := by
  induction i generalizing s with
  | zero =>
    simp only [OnGeneratorStageAdvanced.dependents, Except.ok.injEq] at h
    subst h
    exact FrameLedger_refl s
  | succ i ih =>
    simp only [OnGeneratorStageAdvanced.dependents] at h
    split at h
    · simp at h
    · rename_i Dependents hbucket
      split at h
      · simp at h
      · rename_i DependencyList hDL
        split at h
        · simp at h
        · rename_i dl hdl
          split at h
          · simp at h
          · rename_i DependencyStage hst
            have hlt : DependencyList < s.DependencyLists.length :=
              (List.getElem?_eq_some.mp hdl).1
            have hne : dl.PackageDependencies ≠ [] := by
              intro hc
              rw [hc] at hst
              simp [TMap.Find] at hst
            have hlists : ∀ (j : Nat) (dl1 : FDependencyList),
                (s.DependencyLists.set DependencyList
                  { dl with
                    PackageDependencies :=
                      TMap.Remove dl.PackageDependencies PackageName })[j]? = some dl1 →
                ∃ dl0 : FDependencyList, s.DependencyLists[j]? = some dl0
                  ∧ dl1.AssetTypeGenerator = dl0.AssetTypeGenerator
                  ∧ dl1.PackageDependencies.length ≤ dl0.PackageDependencies.length := by
              intro j dl1 hj
              by_cases hjd : DependencyList = j
              · subst hjd
                rw [List.getElem?_set_self hlt] at hj
                cases hj
                exact ⟨dl, hdl, rfl, TMap_Remove_length_le _ _⟩
              · rw [List.getElem?_set_ne hjd] at hj
                exact ⟨dl1, hj, rfl, le_refl _⟩
            have hquiet : ∀ (q : List Nat),
                (∀ dl0, dl0 ∈ s.DependencyLists → dl0.PackageDependencies = []) →
                q = s.GeneratorsReadyToAdvance :=
              fun q hall => absurd (hall dl (List.getElem?_mem hdl)) hne
            split at h
            · split at h
              · refine FrameLedger_trans ?_ (ih _ h)
                refine ⟨rfl, rfl, rfl, rfl, rfl, rfl, rfl, rfl, rfl, rfl, rfl, by simp,
                  hlists, ?_, hquiet _⟩
                intro k hk
                rcases (TMap_mem_Keys_Add _ _ _ _).mp hk with h1 | h1
                · subst h1
                  exact (TMap_mem_Keys_iff _ _).mpr ⟨_, hbucket⟩
                · exact h1
              · refine FrameLedger_trans ?_ (ih _ h)
                exact ⟨rfl, rfl, rfl, rfl, rfl, rfl, rfl, rfl, rfl, rfl, rfl, by simp,
                  hlists, fun _ hk => hk, hquiet _⟩
            · exact ih _ h

theorem OnGeneratorStageAdvanced_notify_frame (PackageName : FName)
    (CurrentStageIndex Generator : Nat) (s s1 : FAssetGenerationProcessor)
    (h : OnGeneratorStageAdvanced.notify PackageName CurrentStageIndex Generator s = .ok s1) :
    FrameLedger s s1 := by
  unfold OnGeneratorStageAdvanced.notify at h
  split at h
  · simp only [Except.ok.injEq] at h
    subst h
    exact FrameLedger_refl s
  · split at h
    · simp at h
    · rename_i s2 hloop
      have h2 := OnGeneratorStageAdvanced_dependents_frame _ _ _ _ _ _ hloop
      split at h
      · simp at h
      · split at h
        · simp only [Except.ok.injEq] at h
          subst h
          refine FrameLedger_trans h2 ?_
          refine ⟨rfl, rfl, rfl, rfl, rfl, rfl, rfl, rfl, rfl, rfl, rfl, rfl,
            fun _ dl1 h => ⟨dl1, h, rfl, le_refl _⟩, ?_, fun _ => rfl⟩
          intro k hk
          exact ((TMap_mem_Keys_Remove _ _ _).mp hk).2
        · simp only [Except.ok.injEq] at h
          subst h
          exact h2

/-! ## The ready queue of a tick-driven run -/

theorem RemainingIn_eq_zero (Lists : List FDependencyList) (G : Nat)
    (h : RemainingIn Lists G = 0) (dl : FDependencyList) (hdl : dl ∈ Lists)
    (hG : dl.AssetTypeGenerator = G) : dl.PackageDependencies = [] := by
  induction Lists with
  | nil => simp at hdl
  | cons a rest ih =>
    rw [show a :: rest = [a] ++ rest from rfl, RemainingIn_append] at h
    have h1 : RemainingIn [a] G = 0 := by omega
    have h2 : RemainingIn rest G = 0 := by omega
    rcases List.mem_cons.mp hdl with hd | hd
    · subst hd
      simp only [RemainingIn, List.filter, hG, decide_True, List.map_cons, List.map_nil,
        List.sum_cons, List.sum_nil, add_zero] at h1
      exact List.length_eq_zero.mp h1
    · exact ih h2 hd

theorem Nodup_getElem?_inj {α : Type} (l : List α) (h : l.Nodup) (a b : Nat) (x : α)
    (ha : l[a]? = some x) (hb : l[b]? = some x) : a = b := by
  obtain ⟨ha1, ha2⟩ := List.getElem?_eq_some.mp ha
  obtain ⟨hb1, hb2⟩ := List.getElem?_eq_some.mp hb
  exact (List.Nodup.getElem_inj_iff h).mp (ha2.trans hb2.symm)

theorem Consistent_name_ne (s : FAssetGenerationProcessor) (hs : s.Consistent) (G H : Nat)
    (g : UAssetTypeGenerator) (hg : s.Generators[G]? = some g) (P : FName)
    (hP : TMap.Find s.AssetGenerators P = some H) (hne : H ≠ G) : P ≠ g.PackageName := by
  intro hc
  have h1 := hs.Bound P H hP
  have h2 : s.GeneratorNames[G]? = some g.PackageName := by
    simp [FAssetGenerationProcessor.GeneratorNames, hg]
  rw [hc] at h1
  exact hne (Nodup_getElem?_inj _ hs.Unique _ _ _ h1 h2)

theorem TickAssetGeneration_advanceOne_scheduled (env : FEnvironment) (fuel i : Nat)
    (s s1 : FAssetGenerationProcessor)
    (h : TickAssetGeneration.advanceOne env fuel i s = .ok s1) (hs : s.Scheduled i) :
    s1.Scheduled (i + 1) ∧ s1.bGenerationFinished = s.bGenerationFinished := by
  have hcons :=
    Steps_consistent env (TickAssetGeneration_advanceOne_steps env _ _ _ _ h) hs.Consistent
  have hset := TickAssetGeneration_advanceOne_settles env _ _ _ _ hs.Settled h
  unfold TickAssetGeneration.advanceOne at h
  split at h
  · simp at h
  rename_i G hq
  split at h
  · simp at h
  rename_i g hg
  split at h
  · simp at h
  rename_i st g1 hadv
  obtain ⟨_, hfin, hname⟩ := AdvanceGenerationState_FINISHED env g g1 st hadv
  have hlt : G < s.Generators.length := (List.getElem?_eq_some.mp hg).1
  have hGmem : G ∈ s.GeneratorsReadyToAdvance := List.getElem?_mem hq
  unfold OnGeneratorStageAdvanced at h
  simp only [List.getElem?_set_self hlt] at h
  split at h
  · simp at h
  rename_i s2 hnotify
  have hf := OnGeneratorStageAdvanced_notify_frame _ _ _ _ _ hnotify
  obtain ⟨k, hready⟩ := OnGeneratorStageAdvanced_notify_ready _ _ _ _ _ hnotify
  have hAG : s2.AssetGenerators = s.AssetGenerators := hf.AssetGenerators
  have hGen : s2.Generators = s.Generators.set G g1 := hf.Generators
  have hReady : s2.GeneratorsReadyToAdvance
      = s.GeneratorsReadyToAdvance ++ List.replicate k G := hready
  have hLists : ∀ (j : Nat) (dl1 : FDependencyList), s2.DependencyLists[j]? = some dl1 →
      ∃ dl : FDependencyList, s.DependencyLists[j]? = some dl
        ∧ dl1.AssetTypeGenerator = dl.AssetTypeGenerator
        ∧ dl1.PackageDependencies.length ≤ dl.PackageDependencies.length := hf.Lists
  have hKeys : ∀ k, k ∈ TMap.Keys s2.PendingDependencies →
      k ∈ TMap.Keys s.PendingDependencies := hf.Keys
  have hQuiet : (∀ dl, dl ∈ s.DependencyLists → dl.PackageDependencies = []) →
      s2.GeneratorsReadyToAdvance = s.GeneratorsReadyToAdvance := hf.Quiet
  have hFin : s2.bGenerationFinished = s.bGenerationFinished := hf.Finished
  simp only [hfin, ne_eq, not_true_eq_false, if_false] at h
  unfold CleanupAssetGenerator at h
  split at h
  · simp at h
  rename_i g2 hg2
  have hg21 : g2 = g1 := by
    rw [hGen, List.getElem?_set_self hlt] at hg2
    cases hg2
    rfl
  subst hg21
  split at h
  · simp at h
  rename_i hpending
  simp only [Except.ok.injEq] at h
  subst h
  have hnone : TMap.Find s2.PendingDependencies g2.PackageName = none := by
    cases hc : TMap.Find s2.PendingDependencies g2.PackageName with
    | none => rfl
    | some b => simp [hc] at hpending
  -- a binding of another generator survives the retirement
  have hkeep : ∀ P H, TMap.Find s.AssetGenerators P = some H → H ≠ G →
      TMap.Find (TMap.Remove s2.AssetGenerators g2.PackageName) P = some H := by
    intro P H hP hne
    have := Consistent_name_ne s hs.Consistent G H g hg P hP hne
    rw [hAG, TMap_Find_Remove_ne _ _ _ (by rw [hname]; exact this)]
    exact hP
  -- the lists of the advanced generator are empty
  have hGempty : ∀ dl, dl ∈ s.DependencyLists → dl.AssetTypeGenerator = G →
      dl.PackageDependencies = [] :=
    fun dl hdl hG => RemainingIn_eq_zero _ G (hs.Settled.Settled G hGmem) dl hdl hG
  refine ⟨⟨hcons, hset, ⟨?_, ?_⟩, ?_⟩, hFin⟩
  · intro P hP
    have hP2 : P ∈ TMap.Keys s2.PendingDependencies := hP
    have hne : P ≠ g2.PackageName := by
      intro hc
      rw [TMap_mem_Keys_iff, hc, hnone] at hP2
      obtain ⟨v, hv⟩ := hP2
      cases hv
    have := hs.Ledger.Keys P (hKeys P hP2)
    unfold FAssetGenerationProcessor.IsInFlight at this ⊢
    simp only
    rw [TMap_mem_Keys_Remove, hAG]
    exact ⟨hne, this⟩
  · intro dl1 hdl1 hne1
    have hdl1' : dl1 ∈ s2.DependencyLists := hdl1
    obtain ⟨j, hj⟩ := List.getElem?_of_mem hdl1'
    obtain ⟨dl, a1, a2, a3⟩ := hLists j dl1 hj
    have hdlne : dl.PackageDependencies ≠ [] := by
      intro hc
      rw [hc] at a3
      exact hne1 (List.length_eq_zero.mp (Nat.le_zero.mp a3))
    obtain ⟨P, hP⟩ := hs.Ledger.Owners dl (List.getElem?_mem a1) hdlne
    have hHG : dl.AssetTypeGenerator ≠ G := fun hc => hdlne (hGempty dl (List.getElem?_mem a1) hc)
    rw [a2]
    exact ⟨P, hkeep P _ hP hHG⟩
  · by_cases hstuck : s.IsStuck
    · obtain ⟨H, ⟨P, hP⟩, hH⟩ := hstuck
      have hHG : H ≠ G := fun hc => hH (hc ▸ hGmem)
      refine Or.inl ⟨H, ⟨P, hkeep P H hP hHG⟩, ?_⟩
      intro hmem
      have hmem2 : H ∈ s2.GeneratorsReadyToAdvance := hmem
      rw [hReady] at hmem2
      rcases List.mem_append.mp hmem2 with h1 | h1
      · exact hH h1
      · exact hHG (List.eq_of_mem_replicate h1)
    · obtain ⟨hnd, hbound⟩ := hs.Queue.resolve_left hstuck
      have hall : ∀ dl, dl ∈ s.DependencyLists → dl.PackageDependencies = [] := by
        intro dl hdl
        by_contra hne
        obtain ⟨P, hP⟩ := hs.Ledger.Owners dl hdl hne
        by_cases hmem : dl.AssetTypeGenerator ∈ s.GeneratorsReadyToAdvance
        · exact hne (RemainingIn_eq_zero _ _ (hs.Settled.Settled _ hmem) dl hdl rfl)
        · exact hstuck ⟨_, ⟨P, hP⟩, hmem⟩
      have hsame := hQuiet hall
      refine Or.inr ⟨?_, ?_⟩
      · show s2.GeneratorsReadyToAdvance.Nodup
        rw [hsame]
        exact hnd
      · intro j H hij hj
        have hj2 : s2.GeneratorsReadyToAdvance[j]? = some H := hj
        rw [hsame] at hj2
        obtain ⟨P, hP⟩ := hbound j H (by omega) hj2
        have hHG : H ≠ G := by
          intro hc
          subst hc
          have := Nodup_getElem?_inj _ hnd _ _ _ hj2 hq
          omega
        exact ⟨P, hkeep P H hP hHG⟩

theorem TickAssetGeneration_advance_scheduled (env : FEnvironment) (fuel n i : Nat)
    (s s1 : FAssetGenerationProcessor)
    (h : TickAssetGeneration.advance env fuel n i s = .ok s1) (hs : s.Scheduled i) :
    s1.Scheduled (i + n) ∧ s1.bGenerationFinished = s.bGenerationFinished := by
  induction n generalizing s i with
  | zero =>
    simp only [TickAssetGeneration.advance, Except.ok.injEq] at h
    subst h
    exact ⟨hs, rfl⟩
  | succ n ih =>
    simp only [TickAssetGeneration.advance] at h
    split at h
    · simp at h
    · rename_i s2 hone
      obtain ⟨h2, hf2⟩ := TickAssetGeneration_advanceOne_scheduled env _ _ _ _ hone hs
      obtain ⟨h1, hf1⟩ := ih _ _ h h2
      refine ⟨?_, hf1.trans hf2⟩
      rw [show i + (n + 1) = i + 1 + n by omega]
      exact h1

theorem TickAssetGeneration_advancePhase_scheduled (env : FEnvironment) (fuel : Nat)
    (s s1 : FAssetGenerationProcessor)
    (h : TickAssetGeneration.advancePhase env fuel s = .ok s1) (hs : s.Scheduled 0) :
    s1.Scheduled 0 ∧ s1.bGenerationFinished = s.bGenerationFinished := by
  have hcons :=
    Steps_consistent env (TickAssetGeneration_advancePhase_steps env _ _ _ h) hs.Consistent
  have hset := TickAssetGeneration_advancePhase_settles env _ _ _ hs.Settled h
  unfold TickAssetGeneration.advancePhase at h
  simp only at h
  split at h
  · simp at h
  · rename_i s2 hloop
    simp only [Except.ok.injEq] at h
    subst h
    obtain ⟨h2, hf2⟩ := TickAssetGeneration_advance_scheduled env _ _ _ _ _ hloop hs
    refine ⟨⟨hcons, hset, ⟨h2.Ledger.Keys, h2.Ledger.Owners⟩, ?_⟩, hf2⟩
    rcases h2.Queue with ⟨H, hb, hH⟩ | ⟨hnd, hbound⟩
    · exact Or.inl ⟨H, hb, fun hmem => hH (List.mem_of_mem_drop hmem)⟩
    · refine Or.inr ⟨List.Nodup.sublist (List.drop_sublist _ _) hnd, ?_⟩
      intro j G _ hj
      simp only [List.getElem?_drop] at hj
      exact hbound _ G (by omega) hj

theorem Scheduled_queueBound (s : FAssetGenerationProcessor) (hs : s.Scheduled 0)
    (hempty : s.AssetGenerators = []) :
    s.QueueBound ∧ s.GeneratorsReadyToAdvance = [] ∧ s.PendingDependencies = [] := by
  have hnb : ∀ G, ¬ s.IsBound G := by
    intro G ⟨P, hP⟩
    rw [hempty] at hP
    simp [TMap.Find] at hP
  have hq : s.GeneratorsReadyToAdvance.Nodup
      ∧ ∀ (j G : Nat), 0 ≤ j → s.GeneratorsReadyToAdvance[j]? = some G → s.IsBound G := by
    rcases hs.Queue with ⟨H, hb, _⟩ | hq
    · exact absurd hb (hnb H)
    · exact hq
  have hready : s.GeneratorsReadyToAdvance = [] := by
    cases hr : s.GeneratorsReadyToAdvance with
    | nil => rfl
    | cons G rest =>
      exact absurd (hq.2 0 G (le_refl _) (by rw [hr]; simp)) (hnb G)
  have hpending : s.PendingDependencies = [] := by
    cases hp : s.PendingDependencies with
    | nil => rfl
    | cons e rest =>
      have := hs.Ledger.Keys e.1 (by rw [hp]; simp [TMap.Keys])
      unfold FAssetGenerationProcessor.IsInFlight at this
      rw [hempty] at this
      simp [TMap.Keys] at this
  refine ⟨⟨hq.1, ?_⟩, hready, hpending⟩
  intro G hG
  rw [hready] at hG
  simp at hG

theorem GatherNewAssetsForGeneration_loop_flag (env : FEnvironment) (fuel n : Nat)
    (s s1 : FAssetGenerationProcessor) (b : Bool)
    (h : GatherNewAssetsForGeneration.loop env fuel n s = .ok (b, s1)) :
    s1.bGenerationFinished = s.bGenerationFinished := by
  induction n generalizing s with
  | zero =>
    unfold GatherNewAssetsForGeneration.loop at h
    split at h
    · simp only [Except.ok.injEq, Prod.mk.injEq] at h
      rw [← h.2]
    · simp at h
  | succ n ih =>
    unfold GatherNewAssetsForGeneration.loop at h
    split at h
    · simp only [Except.ok.injEq, Prod.mk.injEq] at h
      rw [← h.2]
    · simp only at h
      split at h
      · have key := ih _ h
        exact key
      · split at h
        · simp at h
        · rename_i r s2 hadd
          have hf : s2.bGenerationFinished = s.bGenerationFinished :=
            (Steps_frameNotify env (Steps_mono env (Nat.zero_le 1)
              (AddPackage_steps env _ _ _ _ _ hadd))).Finished
          split at h
          · exact (ih _ h).trans hf
          · simp only [Except.ok.injEq, Prod.mk.injEq] at h
            rw [← h.2]
            exact hf

theorem TickAssetGeneration_scheduled (env : FEnvironment) (fuel : Nat)
    (s s1 : FAssetGenerationProcessor)
    (h : TickAssetGeneration env fuel s = .ok s1) (hs : s.Scheduled 0)
    (hnext : s.NextPackageToGenerateIndex ≤ s.PackagesToGenerate.length)
    (hflag : s.bGenerationFinished = false) :
    s1.Scheduled 0
      ∧ (s1.bGenerationFinished = true → s1.AssetGenerators = []
          ∧ s1.NextPackageToGenerateIndex = s1.PackagesToGenerate.length) := by
  have hcons := Steps_consistent env (TickAssetGeneration_steps env _ _ _ h) hs.Consistent
  have hset := TickAssetGeneration_settles env _ _ _ hs.Settled h
  unfold TickAssetGeneration at h
  split at h
  · simp at h
  · split at h
    · rename_i hlen
      have hempty : s.AssetGenerators = [] := List.length_eq_zero.mp hlen
      obtain ⟨hq, _, _⟩ := Scheduled_queueBound s hs hempty
      split at h
      · simp at h
      · rename_i s2 hg
        simp only [Except.ok.injEq] at h
        subst h
        obtain ⟨hl2, hq2, hag⟩ :=
          GatherNewAssetsForGeneration_loop_binds env _ _ _ _ _ hg hs.Settled hs.Ledger hq
        obtain ⟨hpk, _, _, a4, a5, _⟩ := GatherNewAssetsForGeneration_loop_run env _ _ _ _ _ hg
        refine ⟨⟨hcons, hset, ⟨hl2.Keys, hl2.Owners⟩,
          Or.inr ⟨hq2.Nodup, fun j G _ hj => hq2.Bound G (List.getElem?_mem hj)⟩⟩, fun _ => ?_⟩
        refine ⟨(hag rfl).trans hempty, ?_⟩
        have h1 := a4 hnext
        have h2 := a5 rfl
        show s2.NextPackageToGenerateIndex = s2.PackagesToGenerate.length
        rw [hpk]
        omega
      · rename_i s2 hg
        obtain ⟨hl2, hq2, _⟩ :=
          GatherNewAssetsForGeneration_loop_binds env _ _ _ _ _ hg hs.Settled hs.Ledger hq
        have hs2 : s2.Scheduled 0 :=
          ⟨Steps_consistent env (GatherNewAssetsForGeneration_loop_steps env _ _ _ _ _ hg)
              hs.Consistent,
            GatherNewAssetsForGeneration_loop_settles env _ _ _ _ _ hs.Settled hg, hl2,
            Or.inr ⟨hq2.Nodup, fun j G _ hj => hq2.Bound G (List.getElem?_mem hj)⟩⟩
        obtain ⟨h1, hf1⟩ := TickAssetGeneration_advancePhase_scheduled env _ _ _ h hs2
        have hf2 : s2.bGenerationFinished = s.bGenerationFinished :=
          GatherNewAssetsForGeneration_loop_flag env _ _ _ _ _ hg
        refine ⟨h1, fun hc => ?_⟩
        rw [hf1, hf2, hflag] at hc
        cases hc
    · obtain ⟨h1, hf1⟩ := TickAssetGeneration_advancePhase_scheduled env _ _ _ h hs
      refine ⟨h1, fun hc => ?_⟩
      rw [hf1, hflag] at hc
      cases hc

theorem Steps_firstTick (env : FEnvironment) {l : Nat} {s s1 : FAssetGenerationProcessor}
    (h : Steps env l s s1) (hs : s.bIsFirstTick = false) : s1.bIsFirstTick = false := by
  induction h with
  | refl => exact hs
  | tail _ hstep ih =>
    cases hstep <;> first
      | exact ih
      | rfl

theorem Tick_scheduled (env : FEnvironment) (fuel : Nat) (s s1 : FAssetGenerationProcessor)
    (h : Tick env fuel s = .ok s1) (hs : s.Scheduled 0)
    (hnext : s.NextPackageToGenerateIndex ≤ s.PackagesToGenerate.length)
    (hfin : s.bGenerationFinished = true → s.AssetGenerators = []
      ∧ s.NextPackageToGenerateIndex = s.PackagesToGenerate.length) :
    s1.Scheduled 0
      ∧ s1.NextPackageToGenerateIndex ≤ s1.PackagesToGenerate.length
      ∧ (s1.bGenerationFinished = true → s1.AssetGenerators = []
          ∧ s1.NextPackageToGenerateIndex = s1.PackagesToGenerate.length)
      ∧ s1.bIsFirstTick = false := by
  unfold Tick at h
  simp only at h
  have key : ∀ s0 : FAssetGenerationProcessor, s0.Scheduled 0 →
      s0.NextPackageToGenerateIndex ≤ s0.PackagesToGenerate.length →
      (s0.bGenerationFinished = true → s0.AssetGenerators = []
        ∧ s0.NextPackageToGenerateIndex = s0.PackagesToGenerate.length) →
      s0.bIsFirstTick = false →
      (if (!s0.bGenerationFinished) = true then TickAssetGeneration env fuel s0 else .ok s0)
        = .ok s1 →
      s1.Scheduled 0
        ∧ s1.NextPackageToGenerateIndex ≤ s1.PackagesToGenerate.length
        ∧ (s1.bGenerationFinished = true → s1.AssetGenerators = []
            ∧ s1.NextPackageToGenerateIndex = s1.PackagesToGenerate.length)
        ∧ s1.bIsFirstTick = false := by
    intro s0 h0 hn0 hf0 hft0 h'
    split at h'
    · rename_i hflag
      have hflag0 : s0.bGenerationFinished = false := by simpa using hflag
      obtain ⟨a1, a2⟩ := TickAssetGeneration_scheduled env _ _ _ h' h0 hn0 hflag0
      obtain ⟨c1, _, c3⟩ := TickAssetGeneration_cursor env _ _ _ h'
      refine ⟨a1, ?_, a2, Steps_firstTick env (TickAssetGeneration_steps env _ _ _ h') hft0⟩
      rw [c1]
      exact c3 hn0
    · simp only [Except.ok.injEq] at h'
      subst h'
      exact ⟨h0, hn0, hf0, hft0⟩
  by_cases hf : s.bIsFirstTick = true
  · simp only [hf, if_true] at h
    exact key { s with bIsFirstTick := false }
      ⟨Consistent_of_view hs.Consistent rfl rfl rfl rfl rfl rfl,
        ReadySettled_of_view hs.Settled rfl rfl (le_refl _) (fun _ _ _ h => h),
        ⟨hs.Ledger.Keys, hs.Ledger.Owners⟩, hs.Queue⟩ hnext hfin rfl h
  · simp only [hf] at h
    exact key s hs hnext hfin (by simpa using hf) h

theorem Ticks_scheduled (env : FEnvironment) (fuel n : Nat) (s s1 : FAssetGenerationProcessor)
    (h : Ticks env fuel n s = .ok s1) (hs : s.Scheduled 0)
    (hnext : s.NextPackageToGenerateIndex ≤ s.PackagesToGenerate.length)
    (hfin : s.bGenerationFinished = true → s.AssetGenerators = []
      ∧ s.NextPackageToGenerateIndex = s.PackagesToGenerate.length)
    (hft : s.bGenerationFinished = true → s.bIsFirstTick = false) :
    s1.Scheduled 0
      ∧ (s1.bGenerationFinished = true → s1.AssetGenerators = []
          ∧ s1.NextPackageToGenerateIndex = s1.PackagesToGenerate.length
          ∧ s1.bIsFirstTick = false) := by
  induction n generalizing s with
  | zero =>
    simp only [Ticks, Except.ok.injEq] at h
    subst h
    exact ⟨hs, fun hc => ⟨(hfin hc).1, (hfin hc).2, hft hc⟩⟩
  | succ n ih =>
    simp only [Ticks] at h
    split at h
    · simp at h
    · rename_i s2 ht
      obtain ⟨a1, a2, a3, a4⟩ := Tick_scheduled env _ _ _ ht hs hnext hfin
      exact ih _ h a1 a2 a3 (fun _ => a4)

theorem Scheduled_Create (MaxAssets : Nat) (Packages : List FName) :
    (FAssetGenerationProcessor.Create MaxAssets Packages).Scheduled 0 := by
  refine ⟨Consistent_Create _ _, ReadySettled_Create _ _, ⟨?_, ?_⟩, Or.inr ⟨?_, ?_⟩⟩
  · intro P hP
    simp [FAssetGenerationProcessor.Create, TMap.Keys] at hP
  · intro dl hdl
    simp [FAssetGenerationProcessor.Create] at hdl
  · simp [FAssetGenerationProcessor.Create]
  · intro j G _ hj
    simp [FAssetGenerationProcessor.Create] at hj

theorem Ticks_of_finished (env : FEnvironment) (fuel n : Nat) (s : FAssetGenerationProcessor)
    (hfin : s.bGenerationFinished = true) (hft : s.bIsFirstTick = false) :
    Ticks env fuel n s = .ok s := by
  induction n with
  | zero => rfl
  | succ n ih =>
    have ht : Tick env fuel s = .ok s := by
      unfold Tick
      simp [hfin, hft]
    simp only [Ticks, ht]
    exact ih

/-! ## The two exits of `OnGeneratorStageAdvanced` -/

theorem RefreshGeneratorDependencies_body_terminal (env : FEnvironment)
    (addPackage : FName → FAssetGenerationProcessor →
      Except EAbort (EAddPackageResult × FAssetGenerationProcessor))
    (hadd : ∀ P t r t1, addPackage P t = .ok (r, t1) →
      t1.ExternalPackagesResolved = t.ExternalPackagesResolved
        ∧ t1.KnownMissingPackages = t.KnownMissingPackages)
    (G : Nat) (s s1 : FAssetGenerationProcessor)
    (h : RefreshGeneratorDependencies.body env addPackage G s = .ok s1) :
    s1.ExternalPackagesResolved = s.ExternalPackagesResolved
      ∧ s1.KnownMissingPackages = s.KnownMissingPackages := by
  have hdep : ∀ DL t d t1,
      RefreshGeneratorDependencies.dependency addPackage DL t d = .ok t1 →
      t1.ExternalPackagesResolved = t.ExternalPackagesResolved
        ∧ t1.KnownMissingPackages = t.KnownMissingPackages := by
    intro DL t d t1 hd
    unfold RefreshGeneratorDependencies.dependency at hd
    split at hd
    · split at hd
      · simp at hd
      · split at hd
        · simp only [Except.ok.injEq] at hd
          subst hd
          exact ⟨rfl, rfl⟩
        · simp only [Except.ok.injEq] at hd
          subst hd
          exact ⟨rfl, rfl⟩
    · split at hd
      · simp at hd
      · rename_i r t2 hcall
        have h2 := hadd _ _ _ _ hcall
        split at hd
        · simp only [Except.ok.injEq] at hd
          subst hd
          exact h2
        · simp only [Except.ok.injEq] at hd
          subst hd
          exact h2
  have hloop : ∀ DL deps t t1,
      RefreshGeneratorDependencies.loop addPackage DL deps t = .ok t1 →
      t1.ExternalPackagesResolved = t.ExternalPackagesResolved
        ∧ t1.KnownMissingPackages = t.KnownMissingPackages := by
    intro DL deps
    induction deps with
    | nil =>
      intro t t1 hl
      simp only [RefreshGeneratorDependencies.loop, Except.ok.injEq] at hl
      subst hl
      exact ⟨rfl, rfl⟩
    | cons d rest ih =>
      intro t t1 hl
      simp only [RefreshGeneratorDependencies.loop] at hl
      split at hl
      · simp at hl
      · rename_i t2 hd
        obtain ⟨a1, a2⟩ := hdep _ _ _ _ hd
        obtain ⟨b1, b2⟩ := ih _ _ hl
        exact ⟨b1.trans a1, b2.trans a2⟩
  unfold RefreshGeneratorDependencies.body at h
  split at h
  · simp at h
  · simp only at h
    split at h
    · simp at h
    · rename_i t hl
      obtain ⟨a1, a2⟩ := hloop _ _ _ _ hl
      split at h
      · simp at h
      · split at h
        · simp only [Except.ok.injEq] at h
          subst h
          exact ⟨a1, a2⟩
        · simp only [Except.ok.injEq] at h
          subst h
          exact ⟨a1, a2⟩

/-! ## When a refresh queues its generator -/

theorem AddPackage_terminal (env : FEnvironment) (fuel : Nat) (PackageName : FName)
    (s s1 : FAssetGenerationProcessor) (r : EAddPackageResult)
    (h : AddPackage env fuel PackageName s = .ok (r, s1))
    (hr : r ≠ .PACKAGE_WILL_BE_GENERATED) : s1.IsTerminal PackageName := by
  cases fuel with
  | zero => simp [AddPackage] at h
  | succ fuel =>
    rw [AddPackage_succ] at h
    split at h
    · rename_i hterm
      simp only [Except.ok.injEq, Prod.mk.injEq] at h
      rw [← h.2]
      simp only [Bool.or_eq_true, TSet_Contains_iff] at hterm
      unfold FAssetGenerationProcessor.IsTerminal
      tauto
    · split at h
      · simp only [Except.ok.injEq, Prod.mk.injEq] at h
        exact absurd h.1.symm hr
      · split at h
        · simp at h
        · split at h
          · simp at h
          · simp only [Except.ok.injEq, Prod.mk.injEq] at h
            exact absurd h.1.symm hr
        · split at h
          · simp only [Except.ok.injEq, Prod.mk.injEq] at h
            rw [← h.2]
            exact Or.inl ((TSet_mem_Add _ _ _).mpr (Or.inl rfl))
          · split at h
            · simp only [Except.ok.injEq, Prod.mk.injEq] at h
              rw [← h.2]
              exact Or.inl ((TSet_mem_Add _ _ _).mpr (Or.inl rfl))
            · simp only [Except.ok.injEq, Prod.mk.injEq] at h
              rw [← h.2]
              exact Or.inr (Or.inr ((TSet_mem_Add _ _ _).mpr (Or.inl rfl)))

theorem RefreshGeneratorDependencies_loop_recorded (env : FEnvironment)
    (addPackage : FName → FAssetGenerationProcessor →
      Except EAbort (EAddPackageResult × FAssetGenerationProcessor))
    (hsound : AddPackageSound env addPackage) (hkeeps : AddPackageKeeps addPackage)
    (hterm : ∀ P t r t1, addPackage P t = .ok (r, t1) → r ≠ .PACKAGE_WILL_BE_GENERATED →
      t1.IsTerminal P)
    (DependencyList : Nat) (deps : List FAssetDependency)
    (t t1 : FAssetGenerationProcessor) (dl0 : FDependencyList)
    (h : RefreshGeneratorDependencies.loop addPackage DependencyList deps t = .ok t1)
    (hdl0 : t.DependencyLists[DependencyList]? = some dl0) :
    ∃ dl1 : FDependencyList, t1.DependencyLists[DependencyList]? = some dl1
      ∧ dl1.AssetTypeGenerator = dl0.AssetTypeGenerator
      ∧ (∀ k, k ∈ TMap.Keys dl0.PackageDependencies → k ∈ TMap.Keys dl1.PackageDependencies)
      ∧ (∀ k, k ∈ TMap.Keys dl1.PackageDependencies →
          k ∈ TMap.Keys dl0.PackageDependencies
            ∨ ((∃ d, d ∈ deps ∧ d.PackageName = k) ∧ t1.IsInFlight k))
      ∧ (∀ d, d ∈ deps → d.PackageName ∈ TMap.Keys dl1.PackageDependencies
          ∨ t1.IsSatisfied d.PackageName d.State) := by
  induction deps generalizing t dl0 with
  | nil =>
    simp only [RefreshGeneratorDependencies.loop, Except.ok.injEq] at h
    subst h
    exact ⟨dl0, hdl0, rfl, fun _ hk => hk, fun _ hk => Or.inl hk, fun d hd => by simp at hd⟩
  | cons d rest ih =>
    simp only [RefreshGeneratorDependencies.loop] at h
    split at h
    · simp at h
    · rename_i t2 hd
      have hlt : DependencyList < t.DependencyLists.length := (List.getElem?_eq_some.mp hdl0).1
      -- the effect of recording `d` in a state whose list is `dl0`
      have hrec : ∀ u : FAssetGenerationProcessor, u.DependencyLists[DependencyList]? = some dl0 →
          (RefreshGeneratorDependencies.record u DependencyList d).DependencyLists[DependencyList]?
            = some { dl0 with
                PackageDependencies :=
                  TMap.Add dl0.PackageDependencies d.PackageName d.State } := by
        intro u hu
        simp only [RefreshGeneratorDependencies.record, hu]
        rw [List.getElem?_set_self (List.getElem?_eq_some.mp hu).1]
      have step : ∃ dl2 : FDependencyList, t2.DependencyLists[DependencyList]? = some dl2
          ∧ dl2.AssetTypeGenerator = dl0.AssetTypeGenerator
          ∧ (∀ k, k ∈ TMap.Keys dl0.PackageDependencies →
              k ∈ TMap.Keys dl2.PackageDependencies)
          ∧ (∀ k, k ∈ TMap.Keys dl2.PackageDependencies →
              k ∈ TMap.Keys dl0.PackageDependencies
                ∨ (k = d.PackageName ∧ t2.IsInFlight k))
          ∧ (d.PackageName ∈ TMap.Keys dl2.PackageDependencies
              ∨ t2.IsSatisfied d.PackageName d.State) := by
        unfold RefreshGeneratorDependencies.dependency at hd
        split at hd
        · rename_i v hfind
          split at hd
          · simp at hd
          · rename_i dg hdg
            split at hd
            · simp only [Except.ok.injEq] at hd
              subst hd
              refine ⟨_, hrec t hdl0, rfl, ?_, ?_, Or.inl ?_⟩
              · intro k hk
                exact (TMap_mem_Keys_Add _ _ _ _).mpr (Or.inr hk)
              · intro k hk
                rcases (TMap_mem_Keys_Add _ _ _ _).mp hk with h1 | h1
                · exact Or.inr ⟨h1, by
                    rw [h1]
                    exact (TMap_mem_Keys_iff _ _).mpr ⟨v, hfind⟩⟩
                · exact Or.inl h1
              · exact (TMap_mem_Keys_Add _ _ _ _).mpr (Or.inl rfl)
            · rename_i hge
              simp only [Except.ok.injEq] at hd
              subst hd
              exact ⟨dl0, hdl0, rfl, fun _ hk => hk, fun _ hk => Or.inl hk,
                Or.inr (Or.inr ⟨v, dg, hfind, hdg, by omega⟩)⟩
        · split at hd
          · simp at hd
          · rename_i r t3 hcall
            have hk3 : t3.DependencyLists[DependencyList]? = some dl0 := by
              rw [(hkeeps _ _ _ _ hcall).Kept DependencyList hlt]
              exact hdl0
            split at hd
            · rename_i hr
              simp only [Except.ok.injEq] at hd
              subst hd
              refine ⟨_, hrec t3 hk3, rfl, ?_, ?_, Or.inl ?_⟩
              · intro k hk
                exact (TMap_mem_Keys_Add _ _ _ _).mpr (Or.inr hk)
              · intro k hk
                rcases (TMap_mem_Keys_Add _ _ _ _).mp hk with h1 | h1
                · exact Or.inr ⟨h1, by
                    rw [h1]
                    exact (hsound _ _ _ _ hcall).2 hr⟩
                · exact Or.inl h1
              · exact (TMap_mem_Keys_Add _ _ _ _).mpr (Or.inl rfl)
            · rename_i hr
              simp only [Except.ok.injEq] at hd
              subst hd
              exact ⟨dl0, hk3, rfl, fun _ hk => hk, fun _ hk => Or.inl hk,
                Or.inr (Or.inl (hterm _ _ _ _ hcall hr))⟩
      obtain ⟨dl2, h2, o2, a2, b2, c2⟩ := step
      obtain ⟨dl1, h1, o1, a1, b1, c1⟩ := ih t2 dl2 h h2
      have hsteps := RefreshGeneratorDependencies_loop_steps env addPackage hsound _ _ _ _ h
      refine ⟨dl1, h1, o1.trans o2, fun k hk => a1 k (a2 k hk), ?_, ?_⟩
      · intro k hk
        rcases b1 k hk with h3 | ⟨⟨d1, hd1, hn1⟩, hf1⟩
        · rcases b2 k h3 with h4 | ⟨h4, hf4⟩
          · exact Or.inl h4
          · exact Or.inr ⟨⟨d, List.mem_cons_self _ _, h4.symm⟩,
              Steps_isInFlight env hsteps k hf4⟩
        · exact Or.inr ⟨⟨d1, List.mem_cons_of_mem _ hd1, hn1⟩, hf1⟩
      · intro d1 hd1
        rcases List.mem_cons.mp hd1 with h3 | h3
        · subst h3
          rcases c2 with h4 | h4
          · exact Or.inl (a1 _ h4)
          · exact Or.inr (FrameTick_isSatisfied (Steps_frameTick env hsteps) _ _ h4)
        · exact c1 d1 h3

/-! ## The asset dump tree -/

theorem FAssetDumpTreeNode_induction (P : FAssetDumpTreeNode → Prop)
    (h : ∀ RootDirectory bIsLeafNode DiskPackagePath PackageName NodeName bIsChecked
      bIsOverridingParentState bChildrenNodesInitialized Children,
      (∀ ChildNode, ChildNode ∈ Children → P ChildNode) →
      P (.mk RootDirectory bIsLeafNode DiskPackagePath PackageName NodeName bIsChecked
        bIsOverridingParentState bChildrenNodesInitialized Children))
    (node : FAssetDumpTreeNode) : P node :=
  @FAssetDumpTreeNode.rec P (fun l => ∀ ChildNode, ChildNode ∈ l → P ChildNode)
    (fun a1 a2 a3 a4 a5 a6 a7 a8 Children ih => h a1 a2 a3 a4 a5 a6 a7 a8 Children ih)
    (fun ChildNode hmem => by simp at hmem)
    (fun head tail ih1 ih2 ChildNode hmem => by
      rcases List.mem_cons.mp hmem with h1 | h1
      · rw [h1]
        exact ih1
      · exact ih2 ChildNode h1)
    node

theorem Subtree_children_mem (l : List FAssetDumpTreeNode) (n : FAssetDumpTreeNode) :
    n ∈ FAssetDumpTreeNode.Subtree.children l ↔ ∃ c, c ∈ l ∧ n ∈ c.Subtree := by
  induction l with
  | nil => simp [FAssetDumpTreeNode.Subtree.children]
  | cons c rest ih =>
    simp only [FAssetDumpTreeNode.Subtree.children, List.mem_append, ih, List.mem_cons]
    constructor
    · rintro (h | ⟨c1, h1, h2⟩)
      · exact ⟨c, Or.inl rfl, h⟩
      · exact ⟨c1, Or.inr h1, h2⟩
    · rintro ⟨c1, h1 | h1, h2⟩
      · subst h1
        exact Or.inl h2
      · exact Or.inr ⟨c1, h1, h2⟩

theorem UpdateSelectedState_children_eq (b : Bool) (l : List FAssetDumpTreeNode) :
    FAssetDumpTreeNode.UpdateSelectedState.children b l
      = l.map (FAssetDumpTreeNode.UpdateSelectedState (some b) b true) := by
  induction l with
  | nil => rfl
  | cons c rest ih => simp [FAssetDumpTreeNode.UpdateSelectedState.children, ih]

theorem UpdateSelectedState_by_parent (b : Bool) (node : FAssetDumpTreeNode) :
    ∀ (p : Option Bool) (n : FAssetDumpTreeNode),
      n ∈ (node.UpdateSelectedState p b true).Subtree →
      n.bIsChecked = b ∧ n.bIsOverridingParentState = false := by
  refine FAssetDumpTreeNode_induction
    (fun node => ∀ (p : Option Bool) (n : FAssetDumpTreeNode),
      n ∈ (node.UpdateSelectedState p b true).Subtree →
      n.bIsChecked = b ∧ n.bIsOverridingParentState = false) ?_ node
  intro a1 a2 a3 a4 a5 a6 a7 a8 Children ih p n hn
  simp only [FAssetDumpTreeNode.UpdateSelectedState, FAssetDumpTreeNode.Subtree,
    List.mem_cons] at hn
  rcases hn with h1 | h1
  · subst h1
    exact ⟨rfl, rfl⟩
  · rw [Subtree_children_mem, UpdateSelectedState_children_eq] at h1
    obtain ⟨c1, hc1, hn1⟩ := h1
    obtain ⟨c, hc, rfl⟩ := List.mem_map.mp hc1
    exact ih c hc (some b) n hn1

theorem Height_children_le (l : List FAssetDumpTreeNode) (c : FAssetDumpTreeNode)
    (hc : c ∈ l) : c.Height + 1 ≤ FAssetDumpTreeNode.Height.children l := by
  induction l with
  | nil => simp at hc
  | cons a rest ih =>
    simp only [FAssetDumpTreeNode.Height.children]
    rcases List.mem_cons.mp hc with h1 | h1
    · subst h1
      exact le_max_left _ _
    · exact le_trans (ih h1) (le_max_right _ _)

theorem ChildrenInitialized_children_mem (l : List FAssetDumpTreeNode)
    (h : FAssetDumpTreeNode.ChildrenInitialized.children l = true) (c : FAssetDumpTreeNode)
    (hc : c ∈ l) : c.ChildrenInitialized = true := by
  induction l with
  | nil => simp at hc
  | cons a rest ih =>
    simp only [FAssetDumpTreeNode.ChildrenInitialized.children, Bool.and_eq_true] at h
    rcases List.mem_cons.mp hc with h1 | h1
    · subst h1
      exact h.1
    · exact ih h.2 h1

theorem PopulateGeneratedPackages_children_eq
    (populate : FAssetDumpTreeNode → List FString → Option (FAssetDumpTreeNode × List FString))
    (l : List FAssetDumpTreeNode) (Out : List FString)
    (h : ∀ c, c ∈ l → ∀ Out1, populate c Out1 = some (c, Out1 ++ c.CheckedPackages)) :
    FAssetDumpTreeNode.PopulateGeneratedPackages.children populate l Out
      = some (l, Out ++ ((FAssetDumpTreeNode.Leaves.children l).filter
          (fun n => n.bIsChecked)).map (fun n => n.PackageName)) := by
  induction l generalizing Out with
  | nil => simp [FAssetDumpTreeNode.PopulateGeneratedPackages.children,
      FAssetDumpTreeNode.Leaves.children]
  | cons c rest ih =>
    have h1 := h c (List.mem_cons_self _ _) Out
    have h2 := ih (Out ++ c.CheckedPackages) (fun c1 hc1 => h c1 (List.mem_cons_of_mem _ hc1))
    simp only [FAssetDumpTreeNode.PopulateGeneratedPackages.children, h1, h2]
    simp only [FAssetDumpTreeNode.Leaves.children, FAssetDumpTreeNode.CheckedPackages,
      List.filter_append, List.map_append, List.append_assoc]

theorem PopulateGeneratedPackages_eq (host : FPlatformFile) (fuel : Nat) :
    ∀ (node : FAssetDumpTreeNode) (Out : List FString), node.ChildrenInitialized = true →
      node.Height < fuel →
      node.PopulateGeneratedPackages host fuel Out = some (node, Out ++ node.CheckedPackages) := by
  induction fuel with
  | zero =>
    intro node Out _ hfuel
    omega
  | succ fuel ih =>
    intro node Out hinit hfuel
    obtain ⟨a1, bIsLeafNode, a3, a4, a5, bIsChecked, a7, bInit, Children⟩ := node
    cases bIsLeafNode with
    | true =>
      cases bIsChecked <;>
        simp [FAssetDumpTreeNode.PopulateGeneratedPackages, FAssetDumpTreeNode.bIsLeafNode,
          FAssetDumpTreeNode.bIsChecked, FAssetDumpTreeNode.CheckedPackages,
          FAssetDumpTreeNode.Leaves, FAssetDumpTreeNode.PackageName]
    | false =>
      simp only [FAssetDumpTreeNode.ChildrenInitialized, Bool.false_or, Bool.and_eq_true]
        at hinit
      obtain ⟨hi1, hi2⟩ := hinit
      subst hi1
      simp only [FAssetDumpTreeNode.Height, Bool.false_eq_true, if_false] at hfuel
      have hch := PopulateGeneratedPackages_children_eq
        (FAssetDumpTreeNode.PopulateGeneratedPackages host fuel) Children Out
        (fun c hc Out1 => ih c Out1 (ChildrenInitialized_children_mem _ hi2 c hc)
          (by have := Height_children_le _ c hc; omega))
      simp [FAssetDumpTreeNode.PopulateGeneratedPackages, FAssetDumpTreeNode.bIsLeafNode,
        FAssetDumpTreeNode.bChildrenNodesInitialized, FAssetDumpTreeNode.Children, hch,
        FAssetDumpTreeNode.CheckedPackages, FAssetDumpTreeNode.Leaves,
        FAssetDumpTreeNode.RootDirectory, FAssetDumpTreeNode.DiskPackagePath,
        FAssetDumpTreeNode.PackageName, FAssetDumpTreeNode.NodeName,
        FAssetDumpTreeNode.bIsChecked, FAssetDumpTreeNode.bIsOverridingParentState]

/-! ## The claims -/

/-- C1 (code defect): on a freshly built generator (stage `CONSTRUCTION`) one call of
`AdvanceGenerationState` runs the construction, the data population and the finalization
block and returns `FINISHED`, which is not the successor `DATA_POPULATION` of the stage
before the call; called at `DATA_POPULATION` it returns `FINISHED` as well, not
`CDO_FINALIZATION`. -/
theorem AdvanceGenerationState_runs_all_blocks :
    AdvanceGenerationState (DumpEnvironment [] (fun _ => [])) (FreshGenerator 1)
      = .ok (.FINISHED,
          { FreshGenerator 1 with
            CurrentStage := .FINISHED
            Calls := [.CreateAssetPackage, .PromptForCheckoutAndSave false,
              .PopulateAssetWithData, .PromptForCheckoutAndSave true,
              .FinalizeAssetCDO, .PromptForCheckoutAndSave true] })
    ∧ (FreshGenerator 1).CurrentStage.next = .DATA_POPULATION
    ∧ AdvanceGenerationState (DumpEnvironment [] (fun _ => []))
        { FreshGenerator 1 with CurrentStage := .DATA_POPULATION }
      = .ok (.FINISHED,
          { FreshGenerator 1 with
            CurrentStage := .FINISHED
            Calls := [.PopulateAssetWithData, .PromptForCheckoutAndSave true,
              .FinalizeAssetCDO, .PromptForCheckoutAndSave true] })
    ∧ EAssetGenerationStage.DATA_POPULATION.next = .CDO_FINALIZATION :=
  ⟨rfl, rfl, rfl, rfl⟩

/-- C2 (code defect): an acyclic dump set that ends on the fatal path. `Pkg1` (name 1)
declares a dependency on `Pkg2` (name 2) at `DATA_POPULATION`, `Pkg2` declares none, the
root list is `[1, 2]` and 4 generators may advance per tick. The first two ticks return
without signalling completion; afterwards `Pkg1` is still in flight and in no terminal set,
the ready queue is empty, and the third tick aborts with the cyclic-dependency error. -/
theorem acyclic_run_takes_fatal_path :
    ∃ s2, Ticks (DependencyEnvironment 1 2) (DependencyEnvironment 1 2).Fuel 2
        (FAssetGenerationProcessor.Create 4 [1, 2]) = .ok s2
      ∧ s2.bGenerationFinished = false
      ∧ s2.AssetGenerators = [(1, 0)]
      ∧ s2.AlreadyGeneratedPackages = [2]
      ∧ s2.ExternalPackagesResolved = [] ∧ s2.KnownMissingPackages = []
      ∧ s2.GeneratorsReadyToAdvance = []
      ∧ Tick (DependencyEnvironment 1 2) (DependencyEnvironment 1 2).Fuel s2
          = .error .cyclicDependencies
      ∧ Ticks (DependencyEnvironment 1 2) (DependencyEnvironment 1 2).Fuel 3
          (FAssetGenerationProcessor.Create 4 [1, 2]) = .error .cyclicDependencies :=
  ⟨_, rfl, rfl, rfl, rfl, rfl, rfl, rfl, rfl, rfl⟩

/-- C3: for the dump set where `A` declares a dependency on `B` at `DATA_POPULATION` and `B`
declares one on `A` at `DATA_POPULATION`, with root list `[A]`, the first tick returns
without signalling completion, leaving both generators in flight and the ready queue empty,
and the second tick takes the fatal cyclic-dependency path; so does every run of two or
more ticks. -/
theorem cycle_is_fatal_on_second_tick (A B : FName) (hAB : A ≠ B) (MaxAssets fuel : Nat)
    (hfuel : (CycleEnvironment A B).Fuel ≤ fuel) :
    (∃ s1, Tick (CycleEnvironment A B) fuel (FAssetGenerationProcessor.Create MaxAssets [A])
        = .ok s1
      ∧ s1.bGenerationFinished = false
      ∧ s1.IsInFlight A ∧ s1.IsInFlight B
      ∧ s1.GeneratorsReadyToAdvance = []
      ∧ Tick (CycleEnvironment A B) fuel s1 = .error .cyclicDependencies)
    ∧ ∀ n, 2 ≤ n →
        Ticks (CycleEnvironment A B) fuel n (FAssetGenerationProcessor.Create MaxAssets [A])
          = .error .cyclicDependencies := by
  have hBA : B ≠ A := Ne.symm hAB
  obtain ⟨k, rfl⟩ : ∃ k, fuel = k + 3 := ⟨fuel - 3, by
    have : (CycleEnvironment A B).Fuel = 3 := rfl
    omega⟩
  constructor
  · simp [Tick, TickAssetGeneration, FAssetGenerationProcessor.Create,
      GatherNewAssetsForGeneration, GatherNewAssetsForGeneration.loop, TSet.Contains, AddPackage,
      TMap.Contains, TMap.Find, InitializeFromFile, CycleEnvironment, DumpEnvironment, DumpOf,
      InitializeAssetGeneratorInternal.body, RefreshGeneratorDependencies.body,
      RefreshGeneratorDependencies.loop, RefreshGeneratorDependencies.dependency, TMap.Add,
      hAB, hBA, RefreshGeneratorDependencies.record, EAssetGenerationStage.toIndex,
      TickAssetGeneration.advancePhase, TickAssetGeneration.advance,
      FAssetGenerationProcessor.IsInFlight, TMap.Keys]
  · intro n hn
    obtain ⟨m, rfl⟩ : ∃ m, n = m + 2 := ⟨n - 2, by omega⟩
    simp [Ticks, Tick, TickAssetGeneration, FAssetGenerationProcessor.Create,
      GatherNewAssetsForGeneration, GatherNewAssetsForGeneration.loop, TSet.Contains, AddPackage,
      TMap.Contains, TMap.Find, InitializeFromFile, CycleEnvironment, DumpEnvironment, DumpOf,
      InitializeAssetGeneratorInternal.body, RefreshGeneratorDependencies.body,
      RefreshGeneratorDependencies.loop, RefreshGeneratorDependencies.dependency, TMap.Add,
      hAB, hBA, RefreshGeneratorDependencies.record, EAssetGenerationStage.toIndex,
      TickAssetGeneration.advancePhase, TickAssetGeneration.advance]

/-- Witness for C3: packages 1 and 2, 4 generators per tick. -/
theorem cycle_is_fatal_on_second_tick_witness :
    (1 : FName) ≠ 2 ∧ (CycleEnvironment 1 2).Fuel ≤ 3
    ∧ Ticks (CycleEnvironment 1 2) 3 2 (FAssetGenerationProcessor.Create 4 [1])
        = .error .cyclicDependencies :=
  ⟨by decide, by decide,
    (cycle_is_fatal_on_second_tick 1 2 (by decide) 4 3 (by decide)).2 2 (le_refl _)⟩

/-- C4: (1) in every run of ticks from a freshly created processor, every recorded call of
`AdvanceGenerationState` was made on a generator none of whose dependency lists held a
dependency at the time of the call. (2) In the dump set where `Pkg1` declares a dependency
on `Pkg2` at `DATA_POPULATION` and `Pkg2` declares none, with root list `[Pkg1, Pkg2]` and
at least one generator advanced per tick: the first tick leaves the generator of `Pkg2`
(object 1) at `FINISHED` and the generator of `Pkg1` (object 0) waiting at `CONSTRUCTION`;
and after any number of ticks that return, a call of `AdvanceGenerationState` on the
generator of `Pkg1` can only occur in a tick that comes after a tick at whose end the
generator of `Pkg2` is `FINISHED` (in this run the generator of `Pkg1` is in fact never
advanced). -/
theorem advance_waits_for_dependencies :
    (∀ (env : FEnvironment) (MaxAssets fuel n : Nat) (PackagesToGenerate : List FName)
        (s : FAssetGenerationProcessor),
        Ticks env fuel n (FAssetGenerationProcessor.Create MaxAssets PackagesToGenerate)
          = .ok s →
        ∀ G st r, EEvent.AdvanceGenerationState G st r ∈ s.Trace → r = 0)
    ∧ ∀ (Pkg1 Pkg2 : FName) (MaxAssets fuel : Nat), Pkg1 ≠ Pkg2 → 1 ≤ MaxAssets →
        (DependencyEnvironment Pkg1 Pkg2).Fuel ≤ fuel →
        (∃ s1, Tick (DependencyEnvironment Pkg1 Pkg2) fuel
              (FAssetGenerationProcessor.Create MaxAssets [Pkg1, Pkg2]) = .ok s1
          ∧ s1.GeneratorNames = [Pkg1, Pkg2]
          ∧ s1.Generators[1]?.map (fun g => g.CurrentStage) = some .FINISHED
          ∧ Pkg2 ∈ s1.AlreadyGeneratedPackages
          ∧ s1.AssetGenerators = [(Pkg1, 0)]
          ∧ s1.Generators[0]?.map (fun g => g.CurrentStage) = some .CONSTRUCTION)
        ∧ ∀ n s, Ticks (DependencyEnvironment Pkg1 Pkg2) fuel n
              (FAssetGenerationProcessor.Create MaxAssets [Pkg1, Pkg2]) = .ok s →
            (∀ G st r, EEvent.AdvanceGenerationState G st r ∈ s.Trace → r = 0)
            ∧ (∀ st r, EEvent.AdvanceGenerationState 0 st r ∉ s.Trace)
            ∧ (∀ st r, EEvent.AdvanceGenerationState 0 st r ∈ s.Trace →
                ∃ k sk, k < n ∧ Ticks (DependencyEnvironment Pkg1 Pkg2) fuel k
                    (FAssetGenerationProcessor.Create MaxAssets [Pkg1, Pkg2]) = .ok sk
                  ∧ sk.Generators[1]?.map (fun g => g.CurrentStage) = some .FINISHED) :=
  ⟨fun env MaxAssets fuel n roots s h =>
      (Ticks_settles env fuel n _ s (ReadySettled_Create MaxAssets roots) h).Advanced,
    fun Pkg1 Pkg2 MaxAssets fuel hne hmax hfuel =>
      DependencyEnvironment_run Pkg1 Pkg2 hne MaxAssets fuel hmax hfuel⟩

/-- Witness for C4: packages 1 and 2, 4 generators per tick, a run of two ticks. -/
theorem advance_waits_for_dependencies_witness :
    (1 : FName) ≠ 2 ∧ 1 ≤ 4 ∧ (DependencyEnvironment 1 2).Fuel ≤ 3
    ∧ ∃ s, Ticks (DependencyEnvironment 1 2) 3 2 (FAssetGenerationProcessor.Create 4 [1, 2])
          = .ok s
        ∧ (∀ G st r, EEvent.AdvanceGenerationState G st r ∈ s.Trace → r = 0)
        ∧ EEvent.AdvanceGenerationState 1 .CONSTRUCTION 0 ∈ s.Trace
        ∧ ∀ st r, EEvent.AdvanceGenerationState 0 st r ∉ s.Trace :=
  ⟨by decide, by decide, by decide, _, rfl,
    advance_waits_for_dependencies.1 (DependencyEnvironment 1 2) 4 3 2 [1, 2] _ rfl,
    by decide,
    ((advance_waits_for_dependencies.2 1 2 4 3 (by decide) (by decide) (by decide)).2
      2 _ rfl).2.1⟩

/-- C5: with enough nesting fuel, `AddPackage` returns by the first rule that applies:
(1) `PACKAGE_EXISTS`, state unchanged, if the name is in a terminal set;
(2) `PACKAGE_WILL_BE_GENERATED`, state unchanged, if a generator for it is in flight;
(3) `PACKAGE_WILL_BE_GENERATED` if `InitializeFromFile` builds a generator, which is then
stored and bound to the name in the in-flight map (here the dump files of the dependencies
must be well-formed and the in-flight bindings valid, so that the nested calls return);
(4) `PACKAGE_EXISTS` after adding the name to the externally resolved set if the host has
the package in memory or on disk; (5) otherwise `PACKAGE_NOT_FOUND` after adding the name to
the known-missing set; (6) in particular for a name with no dump file and no external
package. -/
theorem AddPackage_rules (env : FEnvironment) (fuel : Nat) (hfuel : env.Fuel ≤ fuel)
    (PackageName : FName) (s : FAssetGenerationProcessor) :
    (s.IsTerminal PackageName →
        AddPackage env fuel PackageName s = .ok (.PACKAGE_EXISTS, s))
    ∧ (¬ s.IsTerminal PackageName → s.IsInFlight PackageName →
        AddPackage env fuel PackageName s = .ok (.PACKAGE_WILL_BE_GENERATED, s))
    ∧ (¬ s.IsTerminal PackageName → ¬ s.IsInFlight PackageName →
        env.DumpsConsistent → s.BindingsValid →
        ∀ g, InitializeFromFile env PackageName = .ok (some g) →
        ∃ s1, AddPackage env fuel PackageName s = .ok (.PACKAGE_WILL_BE_GENERATED, s1)
          ∧ TMap.Find s1.AssetGenerators PackageName = some s.Generators.length
          ∧ s1.Generators[s.Generators.length]? = some g
          ∧ ¬ s1.IsTerminal PackageName)
    ∧ (¬ s.IsTerminal PackageName → ¬ s.IsInFlight PackageName →
        InitializeFromFile env PackageName = .ok none →
        env.FindPackage PackageName = true ∨ env.DoesPackageExist PackageName = true →
        AddPackage env fuel PackageName s
            = .ok (.PACKAGE_EXISTS, MarkExternalPackageDependencySatisfied s PackageName)
          ∧ PackageName ∈
            (MarkExternalPackageDependencySatisfied s PackageName).ExternalPackagesResolved)
    ∧ (¬ s.IsTerminal PackageName → ¬ s.IsInFlight PackageName →
        InitializeFromFile env PackageName = .ok none →
        env.FindPackage PackageName = false → env.DoesPackageExist PackageName = false →
        AddPackage env fuel PackageName s
            = .ok (.PACKAGE_NOT_FOUND, MarkPackageAsNotFound s PackageName)
          ∧ PackageName ∈ (MarkPackageAsNotFound s PackageName).KnownMissingPackages)
    ∧ (¬ s.IsTerminal PackageName → ¬ s.IsInFlight PackageName →
        TMap.Find env.DumpFiles PackageName = none →
        env.FindPackage PackageName = false → env.DoesPackageExist PackageName = false →
        AddPackage env fuel PackageName s
            = .ok (.PACKAGE_NOT_FOUND, MarkPackageAsNotFound s PackageName)
          ∧ PackageName ∈ (MarkPackageAsNotFound s PackageName).KnownMissingPackages) := by
  obtain ⟨f, rfl⟩ : ∃ f, fuel = f + 1 := ⟨fuel - 1, by
    have : 1 ≤ env.Fuel := Nat.succ_le_succ (Nat.zero_le _)
    omega⟩
  have hterm : ∀ {b : Bool}, (¬ s.IsTerminal PackageName ↔ b = false) →
      (TSet.Contains s.ExternalPackagesResolved PackageName
        || TSet.Contains s.AlreadyGeneratedPackages PackageName
        || TSet.Contains s.KnownMissingPackages PackageName) = b := by
    intro b hb
    cases b with
    | false =>
      have hT := hb.mpr rfl
      rw [Bool.eq_false_iff]
      intro hc
      simp only [Bool.or_eq_true, TSet_Contains_iff] at hc
      exact hT (by unfold FAssetGenerationProcessor.IsTerminal; tauto)
    | true =>
      have hT : s.IsTerminal PackageName := by
        by_contra hc
        exact absurd (hb.mp hc) (by simp)
      simp only [Bool.or_eq_true, TSet_Contains_iff]
      unfold FAssetGenerationProcessor.IsTerminal at hT
      tauto
  have hnt : ¬ s.IsTerminal PackageName → (TSet.Contains s.ExternalPackagesResolved PackageName
        || TSet.Contains s.AlreadyGeneratedPackages PackageName
        || TSet.Contains s.KnownMissingPackages PackageName) = false :=
    fun h => hterm ⟨fun _ => rfl, fun _ => h⟩
  have hnf : ¬ s.IsInFlight PackageName → TMap.Contains s.AssetGenerators PackageName = false := by
    intro h
    rw [Bool.eq_false_iff, Ne, TMap_Contains_iff]
    exact h
  have rule5 : ¬ s.IsTerminal PackageName → ¬ s.IsInFlight PackageName →
      InitializeFromFile env PackageName = .ok none →
      env.FindPackage PackageName = false → env.DoesPackageExist PackageName = false →
      AddPackage env (f + 1) PackageName s
          = .ok (.PACKAGE_NOT_FOUND, MarkPackageAsNotFound s PackageName)
        ∧ PackageName ∈ (MarkPackageAsNotFound s PackageName).KnownMissingPackages := by
    intro hT hF hfile h1 h2
    refine ⟨by simp [AddPackage, hnt hT, hnf hF, hfile, h1, h2], ?_⟩
    exact (TSet_mem_Add _ _ _).mpr (Or.inl rfl)
  refine ⟨?_, ?_, ?_, ?_, rule5, ?_⟩
  · intro hT
    have := hterm (b := true) ⟨fun h => absurd hT h, fun h => by simp at h⟩
    simp [AddPackage, this]
  · intro hT hF
    simp [AddPackage, hnt hT, (TMap_Contains_iff _ _).mpr hF]
  · intro hT hF hd hs g hfile
    obtain ⟨r, s1, hcall⟩ := AddPackage_returns env hd (f + 1) hfuel PackageName s hs
    have hsound := AddPackage_sound env (f + 1) PackageName s r s1 hcall
    obtain ⟨hname, _, _⟩ := InitializeFromFile_some env PackageName g hfile
    have hcall' := hcall
    simp only [AddPackage, hnt hT, hnf hF, hfile, Bool.false_eq_true, if_false,
      InitializeAssetGeneratorInternal.body, List.getElem?_concat_length] at hcall'
    split at hcall'
    · simp at hcall'
    · rename_i s2 hbody
      simp only [Except.ok.injEq, Prod.mk.injEq] at hcall'
      obtain ⟨hr, hs2⟩ := hcall'
      subst hr hs2
      have hrest := RefreshGeneratorDependencies_body_steps env _ (AddPackage_sound env f)
        _ _ _ hbody
      refine ⟨s2, hcall, ?_, ?_, ?_⟩
      · have := (Steps_frameAdd env hrest).Bindings PackageName s.Generators.length
          (by rw [hname]; exact TMap_Find_Add_self _ _ _)
        exact this
      · obtain ⟨extra, he⟩ := Steps_generators_prefix env (Steps_mono env (by omega) hrest)
        rw [he]
        simp only [List.append_assoc, List.singleton_append]
        rw [List.getElem?_append_right (le_refl _)]
        simp
      · intro hT2
        refine hT ((Steps_frameAdd env hrest).Terminal PackageName ?_ hT2)
        rw [← hname]
        exact (TMap_mem_Keys_Add _ _ _ _).mpr (Or.inl rfl)
  · intro hT hF hfile hhost
    refine ⟨?_, (TSet_mem_Add _ _ _).mpr (Or.inl rfl)⟩
    rcases hhost with h | h
    · simp [AddPackage, hnt hT, hnf hF, hfile, h]
    · by_cases h1 : env.FindPackage PackageName = true
      · simp [AddPackage, hnt hT, hnf hF, hfile, h1]
      · simp [AddPackage, hnt hT, hnf hF, hfile, h1, h]
  · intro hT hF hnone h1 h2
    exact rule5 hT hF (by simp [InitializeFromFile, hnone]) h1 h2

/-- Witness for C5: package 5 has no dump file in the dependency scenario and does not
exist outside, so `AddPackage` reports `PACKAGE_NOT_FOUND` and records it as missing;
package 1 has a dump file, so a generator is built and registered for it. -/
theorem AddPackage_rules_witness :
    (DependencyEnvironment 1 2).Fuel ≤ 3
    ∧ (AddPackage (DependencyEnvironment 1 2) 3 5 (FAssetGenerationProcessor.Create 4 [5])
          = .ok (.PACKAGE_NOT_FOUND,
              MarkPackageAsNotFound (FAssetGenerationProcessor.Create 4 [5]) 5)
        ∧ (5 : FName) ∈
          (MarkPackageAsNotFound (FAssetGenerationProcessor.Create 4 [5]) 5).KnownMissingPackages)
    ∧ ∃ s1, AddPackage (DependencyEnvironment 1 2) 3 1 (FAssetGenerationProcessor.Create 4 [5])
          = .ok (.PACKAGE_WILL_BE_GENERATED, s1)
        ∧ TMap.Find s1.AssetGenerators 1 = some 0
        ∧ s1.Generators[0]? = some (FreshGenerator 1)
        ∧ ¬ s1.IsTerminal 1 :=
  ⟨by decide,
    (AddPackage_rules (DependencyEnvironment 1 2) 3 (by decide) 5
      (FAssetGenerationProcessor.Create 4 [5])).2.2.2.2.2
      (by simp [FAssetGenerationProcessor.IsTerminal, FAssetGenerationProcessor.Create])
      (by simp [FAssetGenerationProcessor.IsInFlight, FAssetGenerationProcessor.Create,
        TMap.Keys])
      rfl rfl rfl,
    (AddPackage_rules (DependencyEnvironment 1 2) 3 (by decide) 1
      (FAssetGenerationProcessor.Create 4 [5])).2.2.1
      (by simp [FAssetGenerationProcessor.IsTerminal, FAssetGenerationProcessor.Create])
      (by simp [FAssetGenerationProcessor.IsInFlight, FAssetGenerationProcessor.Create,
        TMap.Keys])
      (DumpEnvironment_consistent [1, 2] _) (BindingsValid_Create 4 [5]) (FreshGenerator 1)
      rfl⟩

/-- C6: a second call of `AddPackage` for the same name, made on the state the first call
returned, returns without changing the state at all (object stores and trace included, so
no generator is constructed, and the in-flight map, the terminal sets, the ledger and the
ready queue are unchanged); it reports `PACKAGE_WILL_BE_GENERATED` if the first call did and
`PACKAGE_EXISTS` otherwise. Hence in every reachable state the trace holds at most one
construction event, and the store at most one generator object, per package name. -/
theorem AddPackage_idempotent (env : FEnvironment) (fuel fuel1 : Nat) (PackageName : FName)
    (s s1 : FAssetGenerationProcessor) (r : EAddPackageResult)
    (h : AddPackage env fuel PackageName s = .ok (r, s1)) :
    AddPackage env (fuel1 + 1) PackageName s1
        = .ok (if r = .PACKAGE_WILL_BE_GENERATED then .PACKAGE_WILL_BE_GENERATED
            else .PACKAGE_EXISTS, s1)
    ∧ ∀ s2, Reachable env s2 → ∀ k, s2.ConstructedNames.count k ≤ 1
        ∧ s2.GeneratorNames.count k ≤ 1 := by
  constructor
  · cases fuel with
    | zero => simp [AddPackage] at h
    | succ fuel =>
      have hsound := AddPackage_sound env (fuel + 1) PackageName s r s1 h
      unfold AddPackage at h
      split at h
      · rename_i hterm
        simp only [Except.ok.injEq, Prod.mk.injEq] at h
        obtain ⟨hr, hs⟩ := h
        subst hr hs
        simp [AddPackage, hterm]
      · rename_i hterm
        split at h
        · rename_i hflight
          simp only [Except.ok.injEq, Prod.mk.injEq] at h
          obtain ⟨hr, hs⟩ := h
          subst hr hs
          simp [AddPackage, hterm, hflight]
        · rename_i hflight
          have hT : ¬ s.IsTerminal PackageName := by
            simp only [Bool.or_eq_true, TSet_Contains_iff, not_or] at hterm
            unfold FAssetGenerationProcessor.IsTerminal
            tauto
          split at h
          · simp at h
          · rename_i NewGenerator hfile
            have hname : NewGenerator.PackageName = PackageName := by
              unfold InitializeFromFile at hfile
              split at hfile <;> try simp at hfile
              split at hfile <;> try simp at hfile
              split at hfile <;> try simp at hfile
              rename_i hn
              rw [← hfile]
              exact hn
            simp only [InitializeAssetGeneratorInternal.body, List.getElem?_concat_length] at h
            split at h
            · simp at h
            · rename_i s2 hbody
              simp only [Except.ok.injEq, Prod.mk.injEq] at h
              obtain ⟨hr, hs⟩ := h
              subst hr hs
              have hrest := RefreshGeneratorDependencies_body_steps env _
                (AddPackage_sound env fuel) _ _ _ hbody
              have hfl : s2.IsInFlight PackageName := hsound.2 rfl
              have hnt : ¬ s2.IsTerminal PackageName := by
                intro hT2
                refine hT ((Steps_frameAdd env hrest).Terminal PackageName ?_ hT2)
                rw [← hname]
                exact (TMap_mem_Keys_Add _ _ _ _).mpr (Or.inl rfl)
              have hnt' : (TSet.Contains s2.ExternalPackagesResolved PackageName
                  || TSet.Contains s2.AlreadyGeneratedPackages PackageName
                  || TSet.Contains s2.KnownMissingPackages PackageName) = false := by
                rw [Bool.eq_false_iff]
                intro hc
                simp only [Bool.or_eq_true, TSet_Contains_iff] at hc
                exact hnt (by unfold FAssetGenerationProcessor.IsTerminal; tauto)
              simp [AddPackage, hnt', (TMap_Contains_iff _ _).mpr hfl]
          · split at h
            · simp only [Except.ok.injEq, Prod.mk.injEq] at h
              obtain ⟨hr, hs⟩ := h
              subst hr hs
              simp [AddPackage, MarkExternalPackageDependencySatisfied, TSet.Contains,
                TSet_mem_Add]
            · split at h
              · simp only [Except.ok.injEq, Prod.mk.injEq] at h
                obtain ⟨hr, hs⟩ := h
                subst hr hs
                simp [AddPackage, MarkExternalPackageDependencySatisfied, TSet.Contains,
                  TSet_mem_Add]
              · simp only [Except.ok.injEq, Prod.mk.injEq] at h
                obtain ⟨hr, hs⟩ := h
                subst hr hs
                simp [AddPackage, MarkPackageAsNotFound, TSet.Contains, TSet_mem_Add]
  · intro s2 hs2 k
    have hc := Reachable_consistent env hs2
    rw [hc.Constructed]
    exact ⟨List.nodup_iff_count_le_one.mp hc.Unique k, List.nodup_iff_count_le_one.mp hc.Unique k⟩

/-- Witness for C6: the root of the dependency scenario is added twice to a fresh processor. -/
theorem AddPackage_idempotent_witness :
    ∃ s1, AddPackage (DependencyEnvironment 1 2) 3 1 (FAssetGenerationProcessor.Create 4 [1])
          = .ok (.PACKAGE_WILL_BE_GENERATED, s1)
      ∧ s1.GeneratorNames = [1, 2]
      ∧ AddPackage (DependencyEnvironment 1 2) 3 1 s1 = .ok (.PACKAGE_WILL_BE_GENERATED, s1) :=
  ⟨_, rfl, rfl, (AddPackage_idempotent (DependencyEnvironment 1 2) 3 2 1
    (FAssetGenerationProcessor.Create 4 [1]) _ .PACKAGE_WILL_BE_GENERATED rfl).1⟩

/-- C7: in every state reachable from a freshly created processor, and in every state
reachable from there, the key set of the in-flight map and the generated, externally
resolved and known-missing sets are pairwise disjoint, and a name that is in one of the
three terminal sets stays in it (so, by disjointness, it never enters another one and never
returns to the in-flight map). -/
theorem terminal_sets_disjoint_and_permanent (env : FEnvironment)
    (s s1 : FAssetGenerationProcessor) (hs : Reachable env s) (hs1 : ReachableFrom env s s1) :
    (∀ k, s1.IsInFlight k → k ∉ s1.AlreadyGeneratedPackages ∧ k ∉ s1.ExternalPackagesResolved
        ∧ k ∉ s1.KnownMissingPackages)
    ∧ (∀ k, k ∈ s1.AlreadyGeneratedPackages → k ∉ s1.ExternalPackagesResolved
        ∧ k ∉ s1.KnownMissingPackages)
    ∧ (∀ k, k ∈ s1.ExternalPackagesResolved → k ∉ s1.KnownMissingPackages)
    ∧ (∀ k, k ∈ s.AlreadyGeneratedPackages → k ∈ s1.AlreadyGeneratedPackages)
    ∧ (∀ k, k ∈ s.ExternalPackagesResolved → k ∈ s1.ExternalPackagesResolved)
    ∧ (∀ k, k ∈ s.KnownMissingPackages → k ∈ s1.KnownMissingPackages) := by
  obtain ⟨m, roots, hr⟩ := hs
  have hc : s1.Consistent := Reachable_consistent env ⟨m, roots, ReachableFrom_trans env hr hs1⟩
  have hf := Steps_frameTick env (ReachableFrom_steps env hs1)
  refine ⟨fun k hk => ⟨fun h => hc.FlightTerminal k hk (Or.inr (Or.inl h)),
      fun h => hc.FlightTerminal k hk (Or.inl h),
      fun h => hc.FlightTerminal k hk (Or.inr (Or.inr h))⟩,
    fun k hk => ⟨hc.GeneratedExternal k hk, hc.GeneratedMissing k hk⟩, hc.ExternalMissing,
    hf.Generated, hf.External, hf.Missing⟩

/-- Witness for C7: the state after the first tick of the dependency scenario, and the state
one tick later. -/
theorem terminal_sets_disjoint_and_permanent_witness :
    ∃ s s1, Tick (DependencyEnvironment 1 2) 3 (FAssetGenerationProcessor.Create 4 [1, 2]) = .ok s
      ∧ Tick (DependencyEnvironment 1 2) 3 s = .ok s1
      ∧ s.AlreadyGeneratedPackages = [2] ∧ s1.AssetGenerators = [(1, 0)]
      ∧ (2 ∈ s.AlreadyGeneratedPackages → 2 ∈ s1.AlreadyGeneratedPackages)
      ∧ (s1.IsInFlight 1 → 1 ∉ s1.AlreadyGeneratedPackages ∧ 1 ∉ s1.ExternalPackagesResolved
        ∧ 1 ∉ s1.KnownMissingPackages) :=
  ⟨_, _, rfl, rfl, rfl, rfl,
    (terminal_sets_disjoint_and_permanent (DependencyEnvironment 1 2) _ _
      ⟨4, [1, 2], .tick _ _ 3 .start rfl⟩ (.tick _ _ 3 .start rfl)).2.2.2.1 2,
    (terminal_sets_disjoint_and_permanent (DependencyEnvironment 1 2) _ _
      ⟨4, [1, 2], .tick _ _ 3 .start rfl⟩ (.tick _ _ 3 .start rfl)).1 1⟩

/-- C8: (1) a call of `AdvanceGenerationState` that returns leaves the generator at a stage
that is not earlier than before, returns that stage, and keeps the package name; (2) on a
`FINISHED` generator it changes nothing and returns `FINISHED`; (3) `AddPackage`,
`RefreshGeneratorDependencies`, `OnGeneratorStageAdvanced`, `CleanupAssetGenerator` and
`GatherNewAssetsForGeneration` leave every existing generator object as it is; (4) between a
state and any state reachable from it the stage of a generator object never decreases;
(5) consequently a satisfied dependency condition (the package is in a terminal set, or its
in-flight generator is strictly past the required stage) stays satisfied. -/
theorem stage_never_regresses (env : FEnvironment) :
    (∀ g g1 Stage, AdvanceGenerationState env g = .ok (Stage, g1) →
        g.CurrentStage.toIndex ≤ g1.CurrentStage.toIndex ∧ Stage = g1.CurrentStage
          ∧ g1.PackageName = g.PackageName)
    ∧ (∀ g, g.CurrentStage = .FINISHED → AdvanceGenerationState env g = .ok (.FINISHED, g))
    ∧ (∀ fuel PackageName s r s1, AddPackage env fuel PackageName s = .ok (r, s1) →
        ∃ extra, s1.Generators = s.Generators ++ extra)
    ∧ (∀ fuel Generator s s1, RefreshGeneratorDependencies env fuel Generator s = .ok s1 →
        ∃ extra, s1.Generators = s.Generators ++ extra)
    ∧ (∀ fuel Generator s s1, OnGeneratorStageAdvanced env fuel Generator s = .ok s1 →
        ∃ extra, s1.Generators = s.Generators ++ extra)
    ∧ (∀ Generator s s1, CleanupAssetGenerator Generator s = .ok s1 →
        s1.Generators = s.Generators)
    ∧ (∀ fuel s s1 b, GatherNewAssetsForGeneration env fuel s = .ok (b, s1) →
        ∃ extra, s1.Generators = s.Generators ++ extra)
    ∧ (∀ s s1, ReachableFrom env s s1 → ∀ (i : Nat) (g : UAssetTypeGenerator),
        s.Generators[i]? = some g →
        ∃ g1 : UAssetTypeGenerator, s1.Generators[i]? = some g1
          ∧ g1.PackageName = g.PackageName
          ∧ g.CurrentStage.toIndex ≤ g1.CurrentStage.toIndex)
    ∧ (∀ s s1, ReachableFrom env s s1 → ∀ PackageName State,
        s.IsSatisfied PackageName State → s1.IsSatisfied PackageName State) := by
  refine ⟨?_, AdvanceGenerationState_of_FINISHED env, ?_, ?_, ?_, ?_, ?_, ?_, ?_⟩
  · intro g g1 Stage h
    obtain ⟨h1, h2, h3⟩ := AdvanceGenerationState_FINISHED env g g1 Stage h
    refine ⟨?_, h1.trans h2.symm, h3⟩
    rw [h2]
    cases g.CurrentStage <;> simp [EAssetGenerationStage.toIndex]
  · intro fuel n s r s1 h
    exact Steps_generators_prefix env (Steps_mono env (by omega) (AddPackage_steps env _ _ _ _ _ h))
  · intro fuel G s s1 h
    exact Steps_generators_prefix env
      (Steps_mono env (by omega) (RefreshGeneratorDependencies_steps env _ _ _ _ h))
  · intro fuel G s s1 h
    exact Steps_generators_prefix env (OnGeneratorStageAdvanced_steps2 env _ _ _ _ h)
  · intro G s s1 h
    unfold CleanupAssetGenerator at h
    split at h
    · simp at h
    · split at h
      · simp at h
      · simp only [Except.ok.injEq] at h
        rw [← h]
  · intro fuel s s1 b h
    exact Steps_generators_prefix env (GatherNewAssetsForGeneration_loop_steps env _ _ _ _ _ h)
  · intro s s1 h
    exact (Steps_frameTick env (ReachableFrom_steps env h)).Generators
  · intro s s1 h
    exact FrameTick_isSatisfied (Steps_frameTick env (ReachableFrom_steps env h))

/-- Witness for C8: over the first tick of the dependency scenario the generator of `Pkg1`
keeps its stage and `Pkg2`, generated in that tick, is a satisfied dependency afterwards. -/
theorem stage_never_regresses_witness :
    ∃ s1, Tick (DependencyEnvironment 1 2) 3 (FAssetGenerationProcessor.Create 4 [1, 2]) = .ok s1
      ∧ s1.IsSatisfied 2 .DATA_POPULATION
      ∧ ∀ s2, Tick (DependencyEnvironment 1 2) 3 s1 = .ok s2 →
          s2.IsSatisfied 2 .DATA_POPULATION :=
  ⟨_, rfl, Or.inl (Or.inr (Or.inl (by decide))), fun s2 h =>
    (stage_never_regresses (DependencyEnvironment 1 2)).2.2.2.2.2.2.2.2 _ s2
      (.tick _ _ 3 .start h) 2 .DATA_POPULATION (Or.inl (Or.inr (Or.inl (by decide))))⟩

/-- C9 (code defect): in the dependency scenario (`Pkg1` = 1 depends on `Pkg2` = 2 at
`DATA_POPULATION`, root list `[1, 2]`, 4 generators per tick) the generator of `Pkg2`
(object 1) is advanced and retired in the first tick, and in the second tick
`AdvanceGenerationState` is called on it again although its stage is `FINISHED`, followed by
a second `CleanupAssetGenerator`. -/
theorem finished_generator_is_advanced_and_retired_again :
    ∃ s2, Ticks (DependencyEnvironment 1 2) (DependencyEnvironment 1 2).Fuel 2
        (FAssetGenerationProcessor.Create 4 [1, 2]) = .ok s2
      ∧ s2.Trace = [.GeneratorConstructed 0 1, .GeneratorConstructed 1 2,
          .AdvanceGenerationState 1 .CONSTRUCTION 0, .OnGeneratorStageAdvanced 1,
          .CleanupAssetGenerator 1, .AdvanceGenerationState 1 .FINISHED 0,
          .OnGeneratorStageAdvanced 1, .CleanupAssetGenerator 1]
      ∧ s2.Trace.count (.CleanupAssetGenerator 1) = 2 :=
  ⟨_, rfl, rfl, by decide⟩

/-- C10: let a tick reach its advance phase in state `s0` (directly, when generators are in
flight, or after `GatherNewAssetsForGeneration` found a root to generate) and return `s1`,
and let `k` be the minimum of the queue length of `s0` and `MaxAssetsToAdvancePerTick`.
Then the tick is that advance phase; the calls of `AdvanceGenerationState` and
`OnGeneratorStageAdvanced` it records are exactly those for the first `k` queue entries, in
queue order, each advance directly followed by its notification; these are `k` generators;
and the queue of `s1` is the queue of `s0` without its first `k` entries, followed by the
entries appended during the tick. -/
theorem advance_phase_is_fifo (env : FEnvironment) (fuel : Nat)
    (s s0 s1 : FAssetGenerationProcessor)
    (hreach : (s.AssetGenerators.length ≠ 0 ∧ s0 = s)
      ∨ (s.AssetGenerators.length = 0
        ∧ GatherNewAssetsForGeneration env fuel s = .ok (true, s0)))
    (h : TickAssetGeneration env fuel s = .ok s1) :
    TickAssetGeneration env fuel s = TickAssetGeneration.advancePhase env fuel s0
    ∧ ∃ appended events,
        s1.GeneratorsReadyToAdvance
            = s0.GeneratorsReadyToAdvance.drop
                (min s0.GeneratorsReadyToAdvance.length s0.MaxAssetsToAdvancePerTick)
              ++ appended
        ∧ s1.Trace = s0.Trace ++ events
        ∧ events.filterMap EEvent.AdvanceCall
            = AdvanceCallsFor (s0.GeneratorsReadyToAdvance.take
                (min s0.GeneratorsReadyToAdvance.length s0.MaxAssetsToAdvancePerTick))
        ∧ (s0.GeneratorsReadyToAdvance.take
              (min s0.GeneratorsReadyToAdvance.length s0.MaxAssetsToAdvancePerTick)).length
            = min s0.GeneratorsReadyToAdvance.length s0.MaxAssetsToAdvancePerTick := by
  have hphase : TickAssetGeneration env fuel s
      = TickAssetGeneration.advancePhase env fuel s0 := by
    rcases hreach with ⟨hne, rfl⟩ | ⟨hz, hg⟩
    · unfold TickAssetGeneration at h ⊢
      split at h
      · simp at h
      · rename_i hfatal
        rw [if_neg hfatal, if_neg hne]
    · unfold TickAssetGeneration
      have : ¬ (s.GeneratorsReadyToAdvance.length = 0 ∧ s.AssetGenerators.length ≠ 0) :=
        fun hc => hc.2 hz
      rw [if_neg this, if_pos hz, hg]
  refine ⟨hphase, ?_⟩
  rw [hphase] at h
  obtain ⟨appended, events, hq, ht, hc⟩ :=
    TickAssetGeneration_advancePhase_effect env fuel s0 s1 h
  exact ⟨appended, events, hq, ht, hc, by simp⟩

/-- Witness for C10: the first tick of the dependency scenario, whose advance phase starts
with the generator of `Pkg2` alone in the queue. -/
theorem advance_phase_is_fifo_witness :
    ∃ s0 s1, GatherNewAssetsForGeneration (DependencyEnvironment 1 2) 3
          (FAssetGenerationProcessor.Create 4 [1, 2]) = .ok (true, s0)
      ∧ TickAssetGeneration (DependencyEnvironment 1 2) 3
          (FAssetGenerationProcessor.Create 4 [1, 2]) = .ok s1
      ∧ s0.GeneratorsReadyToAdvance = [1]
      ∧ s1.GeneratorsReadyToAdvance = [1]
      ∧ ∃ appended events,
          s1.GeneratorsReadyToAdvance
              = s0.GeneratorsReadyToAdvance.drop
                  (min s0.GeneratorsReadyToAdvance.length s0.MaxAssetsToAdvancePerTick)
                ++ appended
          ∧ s1.Trace = s0.Trace ++ events
          ∧ events.filterMap EEvent.AdvanceCall
              = AdvanceCallsFor (s0.GeneratorsReadyToAdvance.take
                  (min s0.GeneratorsReadyToAdvance.length s0.MaxAssetsToAdvancePerTick))
          ∧ (s0.GeneratorsReadyToAdvance.take
                (min s0.GeneratorsReadyToAdvance.length s0.MaxAssetsToAdvancePerTick)).length
              = min s0.GeneratorsReadyToAdvance.length s0.MaxAssetsToAdvancePerTick :=
  ⟨_, _, rfl, rfl, rfl, rfl,
    (advance_phase_is_fifo (DependencyEnvironment 1 2) 3
      (FAssetGenerationProcessor.Create 4 [1, 2]) _ _ (Or.inr ⟨rfl, rfl⟩) rfl).2⟩

/-- C13 (counterexample): package 1 exists on disk, and its dump file cannot be loaded, or is
not valid JSON, or names an asset class without a generator. For each of the three dump
files `AddPackage` returns `PACKAGE_EXISTS` and records the package as externally resolved;
the known-missing set stays empty. -/
theorem unusable_dump_of_existing_package_is_not_missing :
    ((ExistingPackageEnvironment 1 .unreadable).DumpUnusable 1
      ∧ ∃ s1, AddPackage (ExistingPackageEnvironment 1 .unreadable) 1 1
            (FAssetGenerationProcessor.Create 4 [1]) = .ok (.PACKAGE_EXISTS, s1)
          ∧ s1.ExternalPackagesResolved = [1] ∧ s1.KnownMissingPackages = []
          ∧ (1 : FName) ∉ s1.KnownMissingPackages)
    ∧ ((ExistingPackageEnvironment 1 .invalidJson).DumpUnusable 1
      ∧ ∃ s1, AddPackage (ExistingPackageEnvironment 1 .invalidJson) 1 1
            (FAssetGenerationProcessor.Create 4 [1]) = .ok (.PACKAGE_EXISTS, s1)
          ∧ s1.ExternalPackagesResolved = [1] ∧ s1.KnownMissingPackages = []
          ∧ (1 : FName) ∉ s1.KnownMissingPackages)
    ∧ (ExistingPackageEnvironment 1
          (.json { PackageName := 1, AssetName := 1, AssetClass := 7 })).DumpUnusable 1
      ∧ ∃ s1, AddPackage (ExistingPackageEnvironment 1
              (.json { PackageName := 1, AssetName := 1, AssetClass := 7 })) 1 1
            (FAssetGenerationProcessor.Create 4 [1]) = .ok (.PACKAGE_EXISTS, s1)
          ∧ s1.ExternalPackagesResolved = [1] ∧ s1.KnownMissingPackages = []
          ∧ (1 : FName) ∉ s1.KnownMissingPackages :=
  ⟨⟨Or.inl rfl, _, rfl, rfl, rfl, by decide⟩,
    ⟨Or.inr (Or.inl rfl), _, rfl, rfl, rfl, by decide⟩,
    Or.inr (Or.inr ⟨_, rfl, rfl⟩), _, rfl, rfl, rfl, by decide⟩

/-- C13 (amended): for a package whose dump file is present but cannot be loaded or parsed,
or names an asset class without a generator, `AddPackage` returns for every positive nesting
bound, builds and registers no generator, and returns `PACKAGE_WILL_BE_GENERATED` only if
the package was in flight before. If the package is in a terminal set already, the state is
unchanged. If it is neither in a terminal set nor in flight, the host probes decide: found
in memory or on disk, the result is `PACKAGE_EXISTS` and the package is recorded as
externally resolved, with the known-missing set unchanged; found by neither probe, the
result is `PACKAGE_NOT_FOUND` and the package is recorded as known-missing. -/
theorem unusable_dump_falls_through_to_probes (env : FEnvironment) (fuel : Nat)
    (PackageName : FName) (s : FAssetGenerationProcessor)
    (hdump : env.DumpUnusable PackageName) :
    ∃ r s1, AddPackage env (fuel + 1) PackageName s = .ok (r, s1)
      ∧ s1.Generators = s.Generators ∧ s1.AssetGenerators = s.AssetGenerators
      ∧ s1.Trace = s.Trace
      ∧ (¬ s.IsInFlight PackageName → r ≠ .PACKAGE_WILL_BE_GENERATED)
      ∧ (s.IsTerminal PackageName → r = .PACKAGE_EXISTS ∧ s1 = s)
      ∧ (¬ s.IsTerminal PackageName → ¬ s.IsInFlight PackageName →
          ((env.FindPackage PackageName = true ∨ env.DoesPackageExist PackageName = true) →
            r = .PACKAGE_EXISTS ∧ s1 = MarkExternalPackageDependencySatisfied s PackageName
              ∧ PackageName ∈ s1.ExternalPackagesResolved
              ∧ s1.KnownMissingPackages = s.KnownMissingPackages)
          ∧ (env.FindPackage PackageName = false ∧ env.DoesPackageExist PackageName = false →
            r = .PACKAGE_NOT_FOUND ∧ s1 = MarkPackageAsNotFound s PackageName
              ∧ PackageName ∈ s1.KnownMissingPackages)) := by
  have hfile := InitializeFromFile_of_unusable env PackageName hdump
  by_cases hT : s.IsTerminal PackageName
  · have hcond : (TSet.Contains s.ExternalPackagesResolved PackageName
        || TSet.Contains s.AlreadyGeneratedPackages PackageName
        || TSet.Contains s.KnownMissingPackages PackageName) = true := by
      simpa [TSet.Contains, FAssetGenerationProcessor.IsTerminal, or_assoc] using hT
    refine ⟨.PACKAGE_EXISTS, s, ?_, rfl, rfl, rfl, fun _ => by decide, fun _ => ⟨rfl, rfl⟩,
      fun h => absurd hT h⟩
    simp [AddPackage, hcond]
  · have hcond : ¬ (TSet.Contains s.ExternalPackagesResolved PackageName
        || TSet.Contains s.AlreadyGeneratedPackages PackageName
        || TSet.Contains s.KnownMissingPackages PackageName) = true := by
      simpa [TSet.Contains, FAssetGenerationProcessor.IsTerminal, or_assoc] using hT
    by_cases hF : s.IsInFlight PackageName
    · have hflight : TMap.Contains s.AssetGenerators PackageName = true :=
        (TMap_Contains_iff _ _).mpr hF
      refine ⟨.PACKAGE_WILL_BE_GENERATED, s, ?_, rfl, rfl, rfl, fun h => absurd hF h,
        fun h => absurd h hT, fun _ h => absurd hF h⟩
      simp [AddPackage, hcond, hflight]
    · have hflight : ¬ TMap.Contains s.AssetGenerators PackageName = true :=
        fun h => hF ((TMap_Contains_iff _ _).mp h)
      by_cases hfind : env.FindPackage PackageName = true
      · refine ⟨.PACKAGE_EXISTS, MarkExternalPackageDependencySatisfied s PackageName, ?_,
          rfl, rfl, rfl, fun _ => by decide, fun h => absurd h hT, fun _ _ =>
            ⟨fun _ => ⟨rfl, rfl, (TSet_mem_Add _ _ _).mpr (Or.inl rfl), rfl⟩, fun h => ?_⟩⟩
        · simp [AddPackage, hcond, hflight, hfile, hfind]
        · rw [hfind] at h
          exact absurd h.1 (by decide)
      · by_cases hdisk : env.DoesPackageExist PackageName = true
        · refine ⟨.PACKAGE_EXISTS, MarkExternalPackageDependencySatisfied s PackageName, ?_,
            rfl, rfl, rfl, fun _ => by decide, fun h => absurd h hT, fun _ _ =>
              ⟨fun _ => ⟨rfl, rfl, (TSet_mem_Add _ _ _).mpr (Or.inl rfl), rfl⟩, fun h => ?_⟩⟩
          · simp [AddPackage, hcond, hflight, hfile, hfind, hdisk]
          · rw [hdisk] at h
            exact absurd h.2 (by decide)
        · refine ⟨.PACKAGE_NOT_FOUND, MarkPackageAsNotFound s PackageName, ?_,
            rfl, rfl, rfl, fun _ => by decide, fun h => absurd h hT, fun _ _ =>
              ⟨fun h => ?_, fun _ => ⟨rfl, rfl, (TSet_mem_Add _ _ _).mpr (Or.inl rfl)⟩⟩⟩
          · simp [AddPackage, hcond, hflight, hfile, hfind, hdisk]
          · rcases h with h | h
            · exact absurd h hfind
            · exact absurd h hdisk

/-- Witness for C13: an unreadable dump file for package 1, which exists on disk (recorded
as externally resolved), and an unreadable dump file for package 2 in a host without any
package (recorded as known-missing). -/
theorem unusable_dump_falls_through_to_probes_witness :
    (ExistingPackageEnvironment 1 .unreadable).DumpUnusable 1
    ∧ (DumpEnvironment [(2, .unreadable)] (fun _ => [])).DumpUnusable 2
    ∧ (∃ r s1, AddPackage (ExistingPackageEnvironment 1 .unreadable) 1 1
          (FAssetGenerationProcessor.Create 4 [1]) = .ok (r, s1)
        ∧ s1.Generators = [] ∧ s1.AssetGenerators = [])
    ∧ ∃ r s1, AddPackage (DumpEnvironment [(2, .unreadable)] (fun _ => [])) 1 2
          (FAssetGenerationProcessor.Create 4 [2]) = .ok (r, s1)
        ∧ s1.Generators = [] ∧ s1.AssetGenerators = [] :=
  ⟨Or.inl rfl, Or.inl rfl,
    (unusable_dump_falls_through_to_probes (ExistingPackageEnvironment 1 .unreadable) 0 1
      (FAssetGenerationProcessor.Create 4 [1]) (Or.inl rfl)).imp fun _ h =>
        h.imp fun _ h1 => ⟨h1.1, h1.2.1, h1.2.2.1⟩,
    (unusable_dump_falls_through_to_probes (DumpEnvironment [(2, .unreadable)] (fun _ => [])) 0
      2 (FAssetGenerationProcessor.Create 4 [2]) (Or.inl rfl)).imp fun _ h =>
        h.imp fun _ h1 => ⟨h1.1, h1.2.1, h1.2.2.1⟩⟩

/-- C19: dependency satisfaction is strictly past. Let `OnGeneratorStageAdvanced` be called
for the generator object of package `P`, now at stage `c`, and return. Every dependency list
of the state before the call is still in the store, with the same owner, and its entries for
packages other than `P` are as before. For a dependent, that is a list in the ledger bucket
of `P`, with an entry `(P, st)`: the entry is removed if and only if `c > st` (and then the
remaining map is the old one without the key `P`); if `st >= c` the list is unchanged. A list
that is not in the bucket of `P` is unchanged. -/
theorem dependency_removed_iff_strictly_past (env : FEnvironment) (fuel Generator : Nat)
    (s s1 : FAssetGenerationProcessor) (g : UAssetTypeGenerator)
    (hg : s.Generators[Generator]? = some g)
    (h : OnGeneratorStageAdvanced env fuel Generator s = .ok s1) :
    ∀ DependencyList dl, s.DependencyLists[DependencyList]? = some dl →
      ∃ dl1, s1.DependencyLists[DependencyList]? = some dl1
        ∧ dl1.AssetTypeGenerator = dl.AssetTypeGenerator
        ∧ (∀ Q, Q ≠ g.PackageName →
            TMap.Find dl1.PackageDependencies Q = TMap.Find dl.PackageDependencies Q)
        ∧ (∀ Dependents DependencyStage,
            TMap.Find s.PendingDependencies g.PackageName = some Dependents →
            DependencyList ∈ Dependents →
            TMap.Find dl.PackageDependencies g.PackageName = some DependencyStage →
            (TMap.Find dl1.PackageDependencies g.PackageName = none
                ↔ g.CurrentStage.toIndex > DependencyStage.toIndex)
            ∧ (g.CurrentStage.toIndex > DependencyStage.toIndex →
                dl1.PackageDependencies = TMap.Remove dl.PackageDependencies g.PackageName)
            ∧ (DependencyStage.toIndex ≥ g.CurrentStage.toIndex → dl1 = dl))
        ∧ ((∀ Dependents, TMap.Find s.PendingDependencies g.PackageName = some Dependents →
              DependencyList ∉ Dependents) → dl1 = dl) := by
  obtain ⟨s0, hnotify, hkept⟩ := OnGeneratorStageAdvanced_lists env fuel Generator s s1 g hg h
  intro DL dl hdl
  obtain ⟨dl1, a1, a2, a3, a4⟩ :=
    OnGeneratorStageAdvanced_notify_lists _ _ _ _ _ hnotify DL dl hdl
  have hlt : DL < s0.DependencyLists.length := (List.getElem?_eq_some.mp a1).1
  have hcases : dl1 = dl
      ∨ dl1.PackageDependencies = TMap.Remove dl.PackageDependencies g.PackageName := by
    by_cases hc : ∃ Deps st, TMap.Find s.PendingDependencies g.PackageName = some Deps
        ∧ DL ∈ Deps ∧ TMap.Find dl.PackageDependencies g.PackageName = some st
        ∧ g.CurrentStage.toIndex > st.toIndex
    · obtain ⟨Deps, st, c1, c2, c3, c4⟩ := hc
      exact Or.inr (a3 Deps st c1 c2 c3 c4)
    · left
      by_cases hmem : ∀ Deps, TMap.Find s.PendingDependencies g.PackageName = some Deps →
          DL ∉ Deps
      · exact a4 (Or.inl hmem)
      · push_neg at hmem
        obtain ⟨Deps, c1, c2⟩ := hmem
        exact a4 (Or.inr (fun st hst hgt => hc ⟨Deps, st, c1, c2, hst, hgt⟩))
  refine ⟨dl1, (hkept DL hlt).trans a1, a2, fun Q hQ => ?_, fun Deps st hD hmem hst => ?_,
    fun hno => a4 (Or.inl hno)⟩
  · rcases hcases with h1 | h1
    · rw [h1]
    · rw [h1, TMap_Find_Remove_ne _ _ _ hQ]
  · refine ⟨⟨fun hnone => ?_, fun hgt => ?_⟩, fun hgt => a3 Deps st hD hmem hst hgt,
      fun hge => a4 (Or.inr (fun st1 hst1 hgt => ?_))⟩
    · by_contra hle
      have hsame := a4 (Or.inr (fun st1 hst1 hgt => by
        rw [hst] at hst1
        simp only [Option.some.injEq] at hst1
        subst hst1
        exact hle hgt))
      rw [hsame, hst] at hnone
      simp at hnone
    · rw [a3 Deps st hD hmem hst hgt, TMap_Find_Remove_self]
    · rw [hst] at hst1
      simp only [Option.some.injEq] at hst1
      subst hst1
      omega

/-- Witness for C19: the dependency scenario after discovery, where the list of `Pkg1`
(list 0) waits for `Pkg2` at `DATA_POPULATION`. With the generator of `Pkg2` (object 1) at
`FINISHED` the entry is removed; with that generator at `DATA_POPULATION` it stays. -/
theorem dependency_removed_iff_strictly_past_witness :
    GatherNewAssetsForGeneration (DependencyEnvironment 1 2) 3
        (FAssetGenerationProcessor.Create 4 [1, 2]) = .ok (true, DiscoveredScenario)
    ∧ (∃ s1, OnGeneratorStageAdvanced (DependencyEnvironment 1 2) 3 1
          (AdvancedScenario .FINISHED) = .ok s1
        ∧ s1.DependencyLists[0]? = some { AssetTypeGenerator := 0, PackageDependencies := [] }
        ∧ ∃ dl1, s1.DependencyLists[0]? = some dl1
            ∧ (TMap.Find dl1.PackageDependencies 2 = none
                ↔ EAssetGenerationStage.FINISHED.toIndex
                    > EAssetGenerationStage.DATA_POPULATION.toIndex))
    ∧ ∃ s1, OnGeneratorStageAdvanced (DependencyEnvironment 1 2) 3 1
          (AdvancedScenario .DATA_POPULATION) = .ok s1
        ∧ s1.DependencyLists[0]?
            = some { AssetTypeGenerator := 0, PackageDependencies := [(2, .DATA_POPULATION)] } :=
  ⟨rfl,
    ⟨_, rfl, rfl,
      (dependency_removed_iff_strictly_past (DependencyEnvironment 1 2) 3 1
        (AdvancedScenario .FINISHED) _ { FreshGenerator 2 with CurrentStage := .FINISHED }
        rfl rfl 0 _ rfl).imp
        fun _ hx => ⟨hx.1, (hx.2.2.2.1 [0] .DATA_POPULATION rfl (by decide) rfl).1⟩⟩,
    ⟨_, rfl, rfl⟩⟩

/-- C18 (code defect): the notification loop of `OnGeneratorStageAdvanced` (lines 66-93)
appends to the ready queue nothing but copies of `Generator`, the generator that has just
advanced. In the dependency scenario after discovery, with the generator of `Pkg2`
(object 1) advanced to `FINISHED`: the list of the dependent `Pkg1` (list 0, owned by
generator 0) loses its only entry, and the entry appended to the ready queue is generator 1,
not the dependent generator 0, which is not in the queue afterwards; the same holds after the
whole call of `OnGeneratorStageAdvanced`. -/
theorem fan_out_queues_the_advanced_generator :
    (∀ (PackageName : FName) (CurrentStageIndex Generator : Nat)
        (s s1 : FAssetGenerationProcessor),
        OnGeneratorStageAdvanced.notify PackageName CurrentStageIndex Generator s = .ok s1 →
        ∃ k, s1.GeneratorsReadyToAdvance
          = s.GeneratorsReadyToAdvance ++ List.replicate k Generator)
    ∧ (AdvancedScenario .FINISHED).DependencyLists[0]?
        = some { AssetTypeGenerator := 0, PackageDependencies := [(2, .DATA_POPULATION)] }
    ∧ (AdvancedScenario .FINISHED).GeneratorsReadyToAdvance = [1]
    ∧ (∃ s1, OnGeneratorStageAdvanced.notify 2 EAssetGenerationStage.FINISHED.toIndex 1
          (AdvancedScenario .FINISHED) = .ok s1
        ∧ s1.DependencyLists[0]? = some { AssetTypeGenerator := 0, PackageDependencies := [] }
        ∧ s1.GeneratorsReadyToAdvance = [1, 1]
        ∧ (0 : Nat) ∉ s1.GeneratorsReadyToAdvance)
    ∧ ∃ s1, OnGeneratorStageAdvanced (DependencyEnvironment 1 2) 3 1
          (AdvancedScenario .FINISHED) = .ok s1
        ∧ s1.DependencyLists[0]? = some { AssetTypeGenerator := 0, PackageDependencies := [] }
        ∧ s1.GeneratorsReadyToAdvance = [1, 1]
        ∧ s1.AssetGenerators = [(1, 0)] :=
  ⟨OnGeneratorStageAdvanced_notify_ready, rfl, rfl, ⟨_, rfl, rfl, rfl, by decide⟩,
    ⟨_, rfl, rfl, rfl, rfl⟩⟩

/-- Witness for C18: the notification for the generator of `Pkg2` in the dependency
scenario. -/
theorem fan_out_queues_the_advanced_generator_witness :
    ∃ s1, OnGeneratorStageAdvanced.notify 2 3 1 (AdvancedScenario .FINISHED) = .ok s1
      ∧ ∃ k, s1.GeneratorsReadyToAdvance
          = (AdvancedScenario .FINISHED).GeneratorsReadyToAdvance ++ List.replicate k 1 :=
  ⟨_, rfl, fan_out_queues_the_advanced_generator.1 2 3 1 (AdvancedScenario .FINISHED) _ rfl⟩

/-- C12: in the registry built from any list of derived generator classes, (1) an asset
class `C` that is the primary class (`GetAssetClass`) of some registered class is mapped by
`FindGeneratorForClass` to a registered class whose primary class is `C`, whatever the
additionally handled classes of the other generators are; (2) an asset class that is the
primary class of no registered class but is listed as additionally handled by one is mapped
to a registered class that lists it; (3) an asset class that no registered class has as its
primary class or lists as additionally handled is mapped to no generator. A class is
registered when it is native, not abstract and its primary class is not `NAME_None`. -/
theorem primary_asset_class_wins (AssetGeneratorClasses : List UClass) (C : FName) :
    ((∃ (i : Nat) (c : UClass), AssetGeneratorClasses[i]? = some c ∧ c.IsRegistered ∧ c.AssetClass = C) →
      ∃ (i : Nat) (c : UClass), FindGeneratorForClass AssetGeneratorClasses C = some i
        ∧ AssetGeneratorClasses[i]? = some c ∧ c.IsRegistered ∧ c.AssetClass = C)
    ∧ ((∀ (i : Nat) (c : UClass), AssetGeneratorClasses[i]? = some c → c.IsRegistered → c.AssetClass ≠ C) →
      (∃ (i : Nat) (c : UClass), AssetGeneratorClasses[i]? = some c ∧ c.IsRegistered
        ∧ C ∈ c.AdditionallyHandledAssetClasses) →
      ∃ (i : Nat) (c : UClass), FindGeneratorForClass AssetGeneratorClasses C = some i
        ∧ AssetGeneratorClasses[i]? = some c ∧ c.IsRegistered
        ∧ C ∈ c.AdditionallyHandledAssetClasses)
    ∧ ((∀ (i : Nat) (c : UClass), AssetGeneratorClasses[i]? = some c → c.IsRegistered →
          c.AssetClass ≠ C ∧ C ∉ c.AdditionallyHandledAssetClasses) →
      FindGeneratorForClass AssetGeneratorClasses C = none) := by
  have hmem : ∀ (i : Nat) (c : UClass), (i, c) ∈ FAssetTypeGeneratorRegistry.scan 0 AssetGeneratorClasses
      ↔ AssetGeneratorClasses[i]? = some c ∧ c.IsRegistered := by
    intro i c
    rw [FAssetTypeGeneratorRegistry_scan_mem]
    simp
  have hprimary := fun m => TMap_Find_foldl_last FAssetTypeGeneratorRegistry.registerPrimary
    (fun (x : Nat × UClass) => x.2.AssetClass = C) (fun x => x.1) C
    (fun m x => FAssetTypeGeneratorRegistry_registerPrimary_find m x C)
    (FAssetTypeGeneratorRegistry.scan 0 AssetGeneratorClasses) m
  have hadditional := TMap_Find_foldl_last FAssetTypeGeneratorRegistry.registerAdditional
    (fun (x : Nat × UClass) => C ∈ x.2.AdditionallyHandledAssetClasses) (fun x => x.1) C
    (fun m x => FAssetTypeGeneratorRegistry_registerAdditional_find m x C)
    (FAssetTypeGeneratorRegistry.scan 0 AssetGeneratorClasses) []
  unfold FindGeneratorForClass FAssetTypeGeneratorRegistry.Create
  simp only
  refine ⟨?_, ?_, ?_⟩
  · rintro ⟨i, c, hi, hreg, hC⟩
    obtain ⟨x, hx, hxC, hfind⟩ := (hprimary _).1 ⟨(i, c), (hmem i c).mpr ⟨hi, hreg⟩, hC⟩
    obtain ⟨hxi, hxreg⟩ := (hmem x.1 x.2).mp hx
    exact ⟨x.1, x.2, hfind, hxi, hxreg, hxC⟩
  · intro hno ⟨i, c, hi, hreg, hC⟩
    rw [(hprimary _).2 (fun x hx => hno x.1 x.2 ((hmem x.1 x.2).mp hx).1 ((hmem x.1 x.2).mp hx).2)]
    obtain ⟨x, hx, hxC, hfind⟩ := hadditional.1 ⟨(i, c), (hmem i c).mpr ⟨hi, hreg⟩, hC⟩
    obtain ⟨hxi, hxreg⟩ := (hmem x.1 x.2).mp hx
    exact ⟨x.1, x.2, hfind, hxi, hxreg, hxC⟩
  · intro hno
    rw [(hprimary _).2 (fun x hx =>
        (hno x.1 x.2 ((hmem x.1 x.2).mp hx).1 ((hmem x.1 x.2).mp hx).2).1),
      hadditional.2 (fun x hx =>
        (hno x.1 x.2 ((hmem x.1 x.2).mp hx).1 ((hmem x.1 x.2).mp hx).2).2)]
    rfl

/-- Witness for C12: two native generator classes, class 0 with primary asset class 5 that
also lists 7 and 9, and class 1 with primary asset class 7 that also lists 5. The asset
classes 5 and 7 go to the class that has them as primary class, 9 to the class that lists
it, and 8 to none. -/
theorem primary_asset_class_wins_witness :
    FindGeneratorForClass ExampleGeneratorClasses 5 = some 0
    ∧ FindGeneratorForClass ExampleGeneratorClasses 9 = some 0
    ∧ (∃ (i : Nat) (c : UClass), FindGeneratorForClass ExampleGeneratorClasses 7 = some i
        ∧ ExampleGeneratorClasses[i]? = some c ∧ c.IsRegistered ∧ c.AssetClass = 7)
    ∧ FindGeneratorForClass ExampleGeneratorClasses 7 = some 1
    ∧ FindGeneratorForClass ExampleGeneratorClasses 8 = none :=
  ⟨by decide, by decide,
    (primary_asset_class_wins ExampleGeneratorClasses 7).1
      ⟨1, _, rfl, ⟨rfl, rfl, by decide⟩, rfl⟩,
    by decide, by decide⟩

/-- C14 (counterexample): `IsEnumerationUpToDate` does not compare for equality. Against the
dump `Names = [{A, 0}, {A_MAX, 1}]` with the display name `Alpha` for `A`, an existing
enumeration with the entries `a` and `A_MAX` and the display name `ALPHA` for `a` is reported
up to date, although the name `a` and the text `ALPHA` are not those of the dump. Against
the dump `Names = [{A, 4294967296}, {A_MAX, 4294967297}]`, an existing enumeration with
exactly these names and values is reported stale: the values of the dump are read as
`int32`. -/
theorem IsEnumerationUpToDate_is_not_equality :
    IsEnumerationUpToDate EditorHost EnumAlphaDump
        { MaxEnumItem := "A_MAX", Names := [("a", 0), ("A_MAX", 1)],
          DisplayNameMap := [("a", "ALPHA")], Calls := [] } = true
    ∧ EnumAlphaDump.Names.map (fun p => (p.Name, p.Value)) = [("A", 0), ("A_MAX", 1)]
    ∧ ("a" : FString) ≠ "A"
    ∧ EnumAlphaDump.DisplayNameMap.map (fun p => (p.Name, p.DisplayName)) = [("A", "Alpha")]
    ∧ ("ALPHA" : FString) ≠ "Alpha"
    ∧ IsEnumerationUpToDate EditorHost EnumWideValueDump
        { MaxEnumItem := "A_MAX", Names := [("A", 4294967296), ("A_MAX", 4294967297)],
          DisplayNameMap := [], Calls := [] } = false
    ∧ EnumWideValueDump.Names.map (fun p => (p.Name, p.Value))
        = [("A", 4294967296), ("A_MAX", 4294967297)]
    ∧ EnumWideValueDump.DisplayNameMap = [] :=
  ⟨rfl, rfl, by decide, rfl, by decide, rfl, rfl, rfl⟩

/-- C14 (amended): `IsEnumerationUpToDate` returns true exactly when (1) the existing
enumeration has as many entries as the dump array `Names` and its display-name map has as
many entries as the dump array `DisplayNameMap`, (2) at every index the name of the entry of
the existing enumeration agrees up to case with the name of the dump entry at that index, and
its value is the `int32` read from the value of that dump entry, and (3) for every entry of
the dump array `DisplayNameMap` the existing display-name map holds, under the name of the
entry, a text that agrees up to case with the display name of the entry. -/
theorem IsEnumerationUpToDate_iff (host : FEnumHost) (AssetData : FEnumAssetData)
    (Enum : UUserDefinedEnum) :
    IsEnumerationUpToDate host AssetData Enum = true
      ↔ (Enum.Names.length = AssetData.Names.length
          ∧ Enum.DisplayNameMap.length = AssetData.DisplayNameMap.length)
        ∧ (∀ (i : Nat) (p : FEnumNamePair), AssetData.Names[i]? = some p →
            ∃ ExistingName,
              Enum.Names[i]? = some (ExistingName, host.GetIntegerField p.Value)
              ∧ FString.ToLower host ExistingName = FString.ToLower host p.Name)
        ∧ ∀ p, p ∈ AssetData.DisplayNameMap →
            ∃ ExistingDisplayName,
              FNameMap.Find host Enum.DisplayNameMap p.Name = some ExistingDisplayName
              ∧ FString.ToLower host ExistingDisplayName
                  = FString.ToLower host p.DisplayName := by
  unfold IsEnumerationUpToDate
  by_cases hcount : Enum.Names.length ≠ AssetData.Names.length
      ∨ Enum.DisplayNameMap.length ≠ AssetData.DisplayNameMap.length
  · rw [if_pos hcount]
    simp only [Bool.false_eq_true, false_iff]
    rintro ⟨⟨h1, h2⟩, _⟩
    rcases hcount with h | h
    · exact h h1
    · exact h h2
  · rw [if_neg hcount]
    have hc : Enum.Names.length = AssetData.Names.length
        ∧ Enum.DisplayNameMap.length = AssetData.DisplayNameMap.length := by
      constructor
      · by_contra hx
        exact hcount (Or.inl hx)
      · by_contra hx
        exact hcount (Or.inr hx)
    have hn := IsEnumerationUpToDate_names_iff host Enum 0 AssetData.Names
    simp only [Nat.zero_add] at hn
    by_cases hnames : IsEnumerationUpToDate.names host Enum 0 AssetData.Names = true
    · simp only [hnames, Bool.not_true, Bool.false_eq_true, if_false]
      rw [IsEnumerationUpToDate_displayNames_iff]
      exact ⟨fun h => ⟨hc, hn.mp hnames, h⟩, fun h => h.2.2⟩
    · have hfalse : IsEnumerationUpToDate.names host Enum 0 AssetData.Names = false := by
        simpa using hnames
      simp only [hfalse, Bool.not_false, if_true, Bool.false_eq_true, false_iff]
      rintro ⟨_, h2, _⟩
      exact hnames (hn.mpr h2)

/-- C15 (counterexample): the name `a_max` does not end with `_MAX`, yet the dump
`Names = [{A, 0}, {a_max, 1}]` passes the assertion of line 40, which ignores case, and the
new enumeration is populated. For the dump `Names = [{A, 4294967296}, {A_MAX, 4294967297}]`
the pair handed to the host is not `("A", 4294967296)`: the value is read as an `int32`; the
value of the last entry, read the same way, is then not the maximal value of the enumeration
and the assertion of line 51 fails. -/
theorem PopulateEnumWithData_ignores_case_and_narrows :
    ("_MAX" : FString).data.isSuffixOf ("a_max" : FString).data = false
    ∧ EnumLowerCaseMaxDump.Names.getLast? = some { Name := "a_max", Value := 1 }
    ∧ CreateAssetPackage EditorHost EnumLowerCaseMaxDump "A_MAX"
        = .ok { MaxEnumItem := "A_MAX", Names := [("A", 0), ("A_MAX", 1)],
                DisplayNameMap := [], Calls := [.SetEnums [], .SetEnums [("A", 0)]] }
    ∧ EnumWideValueDump.Names.dropLast.map (fun p => (p.Name, p.Value))
        = [("A", 4294967296)]
    ∧ PopulateEnumWithData.ResultEnumNames EditorHost (EnumWideValueDump.Names.length - 1)
          EnumWideValueDump.Names
        ≠ [("A", 4294967296)]
    ∧ CreateAssetPackage EditorHost EnumWideValueDump "A_MAX" = .error .maxValueMismatch :=
  ⟨by decide, rfl, rfl, rfl, by decide, rfl⟩

/-- C15 (amended): let the dump array `Names` be non-empty with last entry `LastNamePair`.
(1) If the name of the last entry does not end, up to case, with `_MAX`,
`PopulateEnumWithData` fails the assertion of line 40. (2) Otherwise it hands the host
(`SetEnums`) the entries of `Names` except the last, in the order of the dump, as pairs of
the name made from the field `Name` and the `int32` read from the field `Value`; if the
`int32` read from the value of the last entry is not the maximal value of the enumeration
after that call, it fails the assertion of line 51. (3) If both assertions hold it returns:
the calls made on the enumeration are this one `SetEnums` followed by one
`DisplayNameMap.Add` per entry of the dump array `DisplayNameMap`, in order; the entries of
the enumeration are the pairs handed over followed by the `_MAX` entry of the host, whose
value is the `int32` read from the value of the last dump entry. (4) The values handed over
are in the range of `int32`, and when the entries of `Names` except the last have non-empty
names and values in that range, the pairs handed over are exactly their names and values.
(5) For the dump `Names = [{A, 0}, {A_MAX, 1}]` and no existing package,
`CreateAssetPackage` returns an enumeration that was handed the single pair `("A", 0)`. -/
theorem PopulateEnumWithData_hands_over_all_but_last (host : FEnumHost)
    (AssetData : FEnumAssetData) (Enum : UUserDefinedEnum) (LastNamePair : FEnumNamePair)
    (hlast : AssetData.Names.getLast? = some LastNamePair) :
    (FString.EndsWith host LastNamePair.Name "_MAX" = false →
      PopulateEnumWithData host AssetData Enum = .error .lastNameWithoutMax)
    ∧ (FString.EndsWith host LastNamePair.Name "_MAX" = true →
      host.GetIntegerField LastNamePair.Value
        ≠ (Enum.SetEnums
            (AssetData.Names.dropLast.map
              (fun p => (FNameToString p.Name, host.GetIntegerField p.Value)))).GetMaxEnumValue →
      PopulateEnumWithData host AssetData Enum = .error .maxValueMismatch)
    ∧ (FString.EndsWith host LastNamePair.Name "_MAX" = true →
      host.GetIntegerField LastNamePair.Value
        = (Enum.SetEnums
            (AssetData.Names.dropLast.map
              (fun p => (FNameToString p.Name, host.GetIntegerField p.Value)))).GetMaxEnumValue →
      ∃ Enum1, PopulateEnumWithData host AssetData Enum = .ok Enum1
        ∧ Enum1.Calls
            = Enum.Calls
              ++ EEnumCall.SetEnums
                  (AssetData.Names.dropLast.map
                    (fun p => (FNameToString p.Name, host.GetIntegerField p.Value)))
                :: AssetData.DisplayNameMap.map
                    (fun p => EEnumCall.DisplayNameMapAdd (FNameToString p.Name) p.DisplayName)
        ∧ Enum1.Names
            = AssetData.Names.dropLast.map
                (fun p => (FNameToString p.Name, host.GetIntegerField p.Value))
              ++ [(Enum.MaxEnumItem, host.GetIntegerField LastNamePair.Value)]
        ∧ Enum1.DisplayNameMap
            = AssetData.DisplayNameMap.foldl
                (fun m p => FNameMap.Add host m p.Name p.DisplayName)
                Enum.DisplayNameMap)
    ∧ ((∀ e, e ∈ AssetData.Names.dropLast.map
            (fun p => (FNameToString p.Name, host.GetIntegerField p.Value)) →
          -2147483648 ≤ e.2 ∧ e.2 ≤ 2147483647)
      ∧ ((∀ p, p ∈ AssetData.Names.dropLast →
            p.Name ≠ "" ∧ -2147483648 ≤ p.Value ∧ p.Value ≤ 2147483647) →
          AssetData.Names.dropLast.map
              (fun p => (FNameToString p.Name, host.GetIntegerField p.Value))
            = AssetData.Names.dropLast.map (fun p => (p.Name, p.Value))))
    ∧ CreateAssetPackage host EnumADump "A_MAX"
        = .ok { MaxEnumItem := "A_MAX", Names := [("A", 0), ("A_MAX", 1)],
                DisplayNameMap := [], Calls := [.SetEnums [], .SetEnums [("A", 0)]] } := by
  refine ⟨fun hend => ?_, fun hend hne => ?_, fun hend heq => ?_, ⟨?_, ?_⟩, ?_⟩
  · rw [PopulateEnumWithData_eq host AssetData Enum LastNamePair hlast, hend]
    rfl
  · rw [PopulateEnumWithData_eq host AssetData Enum LastNamePair hlast, hend,
      if_neg (by decide), if_pos hne]
  · obtain ⟨Enum1, h1, _, h2, h3, h4⟩ :=
      PopulateEnumWithData_ok host AssetData Enum LastNamePair hlast hend heq
    exact ⟨Enum1, h1, h2, h3, h4⟩
  · intro e he
    obtain ⟨p, _, rfl⟩ := List.mem_map.mp he
    exact host.GetIntegerField_int32 p.Value
  · exact ResultEnumNames_of_int32 host _
  · exact CreateAssetPackage_EnumADump host

/-- Witness for C15: the dump `Names = [{A, 0}, {A_MAX, 1}]` populates a new enumeration
whose `_MAX` entry the host names `A_MAX`. -/
theorem PopulateEnumWithData_hands_over_all_but_last_witness :
    EnumADump.Names.getLast? = some { Name := "A_MAX", Value := 1 }
    ∧ ∃ Enum1, PopulateEnumWithData EditorHost EnumADump
          { MaxEnumItem := "A_MAX", Names := [], DisplayNameMap := [], Calls := [] } = .ok Enum1
        ∧ Enum1.Calls = [.SetEnums [("A", 0)]]
        ∧ Enum1.Names = [("A", 0), ("A_MAX", 1)]
        ∧ Enum1.DisplayNameMap = [] :=
  ⟨rfl,
    (PopulateEnumWithData_hands_over_all_but_last EditorHost EnumADump
      { MaxEnumItem := "A_MAX", Names := [], DisplayNameMap := [], Calls := [] }
      { Name := "A_MAX", Value := 1 } rfl).2.2.1 (by decide) (by decide)⟩

/-- C16: (1) when the existing enumeration matches the dump (`IsEnumerationUpToDate` returns
true), `OnExistingPackageLoaded` returns it as it is: the entries, the display-name map and
the record of calls are unchanged, so no wipe and no repopulation took place. (2) When it
does not match, the result is that of `PopulateEnumWithData` on the wiped enumeration:
`SetEnums` was called with no pairs, which leaves the `_MAX` entry of the host alone, and the
display-name map was emptied. (3) In that case, if the dump passes the two assertions of
`PopulateEnumWithData`, the call returns, and whenever it returns the entries are made of the
dump entries except the last (the name made from the field `Name`, the `int32` read from the
field `Value`) followed by the `_MAX` entry of the host, the display-name map is built from
the empty map by adding the dump entries in order, and the calls made are the two wiping
calls followed by the calls of `PopulateEnumWithData`; nothing of the old entries and display
names is left. -/
theorem OnExistingPackageLoaded_rewrites_only_stale (host : FEnumHost)
    (AssetData : FEnumAssetData) (ExistingEnum : UUserDefinedEnum) :
    (IsEnumerationUpToDate host AssetData ExistingEnum = true →
      OnExistingPackageLoaded host AssetData (some ExistingEnum) = .ok ExistingEnum)
    ∧ (IsEnumerationUpToDate host AssetData ExistingEnum = false →
      OnExistingPackageLoaded host AssetData (some ExistingEnum)
        = PopulateEnumWithData host AssetData
            { MaxEnumItem := ExistingEnum.MaxEnumItem
              Names := [(ExistingEnum.MaxEnumItem, 0)]
              DisplayNameMap := []
              Calls := ExistingEnum.Calls ++ [.SetEnums [], .DisplayNameMapEmpty] })
    ∧ (IsEnumerationUpToDate host AssetData ExistingEnum = false →
      (∀ LastNamePair, AssetData.Names.getLast? = some LastNamePair →
        FString.EndsWith host LastNamePair.Name "_MAX" = true →
        host.GetIntegerField LastNamePair.Value
          = (ExistingEnum.SetEnums
              (AssetData.Names.dropLast.map
                (fun p => (FNameToString p.Name, host.GetIntegerField p.Value)))).GetMaxEnumValue →
        ∃ Enum1, OnExistingPackageLoaded host AssetData (some ExistingEnum) = .ok Enum1)
      ∧ ∀ Enum1, OnExistingPackageLoaded host AssetData (some ExistingEnum) = .ok Enum1 →
        ∃ LastNamePair, AssetData.Names.getLast? = some LastNamePair
          ∧ Enum1.Names
              = AssetData.Names.dropLast.map
                  (fun p => (FNameToString p.Name, host.GetIntegerField p.Value))
                ++ [(ExistingEnum.MaxEnumItem, host.GetIntegerField LastNamePair.Value)]
          ∧ Enum1.DisplayNameMap
              = AssetData.DisplayNameMap.foldl
                  (fun m p => FNameMap.Add host m p.Name p.DisplayName) []
          ∧ Enum1.Calls
              = ExistingEnum.Calls
                ++ [.SetEnums [], .DisplayNameMapEmpty,
                    .SetEnums (AssetData.Names.dropLast.map
                      (fun p => (FNameToString p.Name, host.GetIntegerField p.Value)))]
                ++ AssetData.DisplayNameMap.map
                    (fun p =>
                      EEnumCall.DisplayNameMapAdd (FNameToString p.Name) p.DisplayName)) := by
  have hstale : IsEnumerationUpToDate host AssetData ExistingEnum = false →
      OnExistingPackageLoaded host AssetData (some ExistingEnum)
        = PopulateEnumWithData host AssetData
            { MaxEnumItem := ExistingEnum.MaxEnumItem
              Names := [(ExistingEnum.MaxEnumItem, 0)]
              DisplayNameMap := []
              Calls := ExistingEnum.Calls ++ [.SetEnums [], .DisplayNameMapEmpty] } := by
    intro h
    simp [OnExistingPackageLoaded, h, UUserDefinedEnum.SetEnums]
  have hmaxeq : ∀ (E : UUserDefinedEnum) (L : List (FString × Int)),
      E.MaxEnumItem = ExistingEnum.MaxEnumItem →
      (E.SetEnums L).GetMaxEnumValue = (ExistingEnum.SetEnums L).GetMaxEnumValue := by
    intro E L hE
    simp [UUserDefinedEnum.SetEnums, UUserDefinedEnum.GetMaxEnumValue, hE]
  refine ⟨fun h => ?_, hstale, fun h => ⟨fun LastNamePair hlast hend hmax => ?_,
    fun Enum1 hret => ?_⟩⟩
  · simp [OnExistingPackageLoaded, h]
  · rw [hstale h]
    obtain ⟨Enum1, h1, _⟩ := PopulateEnumWithData_ok host AssetData
      { MaxEnumItem := ExistingEnum.MaxEnumItem
        Names := [(ExistingEnum.MaxEnumItem, 0)]
        DisplayNameMap := []
        Calls := ExistingEnum.Calls ++ [.SetEnums [], .DisplayNameMapEmpty] }
      LastNamePair hlast hend (hmax.trans (hmaxeq _ _ rfl).symm)
    exact ⟨Enum1, h1⟩
  · rw [hstale h] at hret
    obtain ⟨LastNamePair, hlast, hend, hmax⟩ := PopulateEnumWithData_of_ok _ _ _ _ hret
    obtain ⟨Enum2, h1, _, h2, h3, h4⟩ :=
      PopulateEnumWithData_ok host AssetData _ LastNamePair hlast hend hmax
    rw [hret] at h1
    simp only [Except.ok.injEq] at h1
    subst h1
    refine ⟨LastNamePair, hlast, h3, h4, ?_⟩
    rw [h2]
    simp

/-- Witness for C16: an enumeration that matches the dump `Names = [{A, 0}, {A_MAX, 1}]` is
returned unchanged, and one with a different value for `A` is rewritten from the dump. -/
theorem OnExistingPackageLoaded_rewrites_only_stale_witness :
    OnExistingPackageLoaded EditorHost EnumADump
        (some { MaxEnumItem := "A_MAX", Names := [("A", 0), ("A_MAX", 1)],
                DisplayNameMap := [], Calls := [] })
      = .ok { MaxEnumItem := "A_MAX", Names := [("A", 0), ("A_MAX", 1)],
              DisplayNameMap := [], Calls := [] }
    ∧ ∃ Enum1, OnExistingPackageLoaded EditorHost EnumADump
          (some { MaxEnumItem := "A_MAX", Names := [("A", 5), ("B", 2), ("A_MAX", 6)],
                  DisplayNameMap := [("B", "Second")], Calls := [] })
        = .ok Enum1 :=
  ⟨(OnExistingPackageLoaded_rewrites_only_stale EditorHost EnumADump
      { MaxEnumItem := "A_MAX", Names := [("A", 0), ("A_MAX", 1)],
        DisplayNameMap := [], Calls := [] }).1 (by decide),
    ((OnExistingPackageLoaded_rewrites_only_stale EditorHost EnumADump
      { MaxEnumItem := "A_MAX", Names := [("A", 5), ("B", 2), ("A_MAX", 6)],
        DisplayNameMap := [("B", "Second")], Calls := [] }).2.2
        (by decide)).1
      { Name := "A_MAX", Value := 1 } rfl (by decide) (by decide)⟩

/-- C17 (counterexample): the dump `Names = [{A, 0}, {A_MAX, 1}]` whose array
`DisplayNameMap` names the entry `A` twice passes the assertions of `PopulateEnumWithData`.
The populated enumeration holds one display name, the dump two, so `IsEnumerationUpToDate`
returns false against the same dump, and a second run wipes and populates the enumeration
again. The same happens when the two entries of `DisplayNameMap` are named `A` and `a`, which
are one name for the host. -/
theorem duplicate_display_name_is_never_up_to_date :
    (∃ Enum1, CreateAssetPackage EditorHost EnumDuplicateDisplayNameDump "A_MAX" = .ok Enum1
      ∧ Enum1.Names = [("A", 0), ("A_MAX", 1)]
      ∧ Enum1.DisplayNameMap = [("A", "First")]
      ∧ Enum1.DisplayNameMap.length ≠ EnumDuplicateDisplayNameDump.DisplayNameMap.length
      ∧ IsEnumerationUpToDate EditorHost EnumDuplicateDisplayNameDump Enum1 = false
      ∧ ∃ Enum2, OnExistingPackageLoaded EditorHost EnumDuplicateDisplayNameDump (some Enum1)
            = .ok Enum2
          ∧ Enum2.Calls
              = Enum1.Calls
                ++ [.SetEnums [], .DisplayNameMapEmpty, .SetEnums [("A", 0)],
                    .DisplayNameMapAdd "A" "First", .DisplayNameMapAdd "A" "First"])
    ∧ ∃ Enum1, CreateAssetPackage EditorHost EnumCaseDuplicateDisplayNameDump "A_MAX"
          = .ok Enum1
      ∧ Enum1.Names = [("A", 0), ("A_MAX", 1)]
      ∧ Enum1.DisplayNameMap = [("a", "First")]
      ∧ Enum1.DisplayNameMap.length ≠ EnumCaseDuplicateDisplayNameDump.DisplayNameMap.length
      ∧ IsEnumerationUpToDate EditorHost EnumCaseDuplicateDisplayNameDump Enum1 = false
      ∧ ∃ Enum2, OnExistingPackageLoaded EditorHost EnumCaseDuplicateDisplayNameDump
            (some Enum1) = .ok Enum2
          ∧ Enum2.Calls
              = Enum1.Calls
                ++ [.SetEnums [], .DisplayNameMapEmpty, .SetEnums [("A", 0)],
                    .DisplayNameMapAdd "A" "First", .DisplayNameMapAdd "a" "First"] :=
  ⟨⟨_, rfl, rfl, rfl, by decide, rfl, _, rfl, rfl⟩,
    ⟨_, rfl, rfl, rfl, by decide, rfl, _, rfl, rfl⟩⟩

/-- C17 (amended): populate-then-check round trip. Let an enumeration with an empty
display-name map be populated by `PopulateEnumWithData` from a dump that passes the two
assertions (the call returns). If the name of the last entry of the dump array `Names`
agrees up to case with the name the host gives to the `_MAX` entry, the other entries of
`Names` have non-empty names, and the entries of the dump array `DisplayNameMap` have
pairwise different names (as names of the host, which ignore case), then
`IsEnumerationUpToDate` returns true for the populated enumeration against the same dump,
and `OnExistingPackageLoaded` returns it unchanged. -/
theorem populate_then_check_round_trip (host : FEnumHost) (AssetData : FEnumAssetData)
    (Enum Enum1 : UUserDefinedEnum) (LastNamePair : FEnumNamePair)
    (hempty : Enum.DisplayNameMap = [])
    (hpop : PopulateEnumWithData host AssetData Enum = .ok Enum1)
    (hlast : AssetData.Names.getLast? = some LastNamePair)
    (hname : FString.ToLower host Enum.MaxEnumItem = FString.ToLower host LastNamePair.Name)
    (hentries : ∀ p, p ∈ AssetData.Names.dropLast → p.Name ≠ "")
    (hnodup : (AssetData.DisplayNameMap.map (fun p => FNameKey host p.Name)).Nodup) :
    IsEnumerationUpToDate host AssetData Enum1 = true
      ∧ OnExistingPackageLoaded host AssetData (some Enum1) = .ok Enum1 := by
  have h := IsEnumerationUpToDate_of_populated host AssetData Enum Enum1 LastNamePair hempty
    hpop hlast hname hentries hnodup
  exact ⟨h, by simp [OnExistingPackageLoaded, h]⟩

/-- Witness for C17: the dump `Names = [{A, 0}, {A_MAX, 1}]` with the display name `Alpha` for
`A`, populated into a new enumeration whose `_MAX` entry the host names `a_Max`. -/
theorem populate_then_check_round_trip_witness :
    ∃ Enum1, PopulateEnumWithData EditorHost EnumAlphaDump
          { MaxEnumItem := "a_Max", Names := [("a_Max", 0)], DisplayNameMap := [],
            Calls := [] } = .ok Enum1
      ∧ Enum1.Names = [("A", 0), ("a_Max", 1)]
      ∧ Enum1.DisplayNameMap = [("A", "Alpha")]
      ∧ IsEnumerationUpToDate EditorHost EnumAlphaDump Enum1 = true :=
  ⟨_, rfl, rfl, rfl,
    (populate_then_check_round_trip EditorHost EnumAlphaDump
      { MaxEnumItem := "a_Max", Names := [("a_Max", 0)], DisplayNameMap := [], Calls := [] }
      _ { Name := "A_MAX", Value := 1 } rfl rfl rfl (by decide) (by decide) (by decide)).1⟩

/-- C22 (code defect): the ledger is not kept consistent. `RefreshGeneratorDependencies`
pushes the dependency list into the bucket of the package at every recorded dependency
(lines 29 and 45) without looking whether it is there already: in the repeated-dependency
scenario (`Pkg1` declares `Pkg2` twice) the state `AddPackage` returns for `Pkg1` is reachable
and holds list 0 twice in the bucket of `Pkg2`, while the remaining map of list 0 has the one
key `Pkg2`. When the generator of `Pkg2` then advances, the first visit of list 0 removes the
key and the second visit fails the `FindChecked` lookup of line 72: the first tick of the run
aborts there. -/
theorem repeated_dependency_fails_FindChecked :
    (∃ r s, AddPackage (RepeatedDependencyEnvironment 1 2) 3 1
          (FAssetGenerationProcessor.Create 4 [1]) = .ok (r, s)
        ∧ Reachable (RepeatedDependencyEnvironment 1 2) s
        ∧ TMap.Find s.PendingDependencies 2 = some [0, 0]
        ∧ s.DependencyLists[0]?
            = some { AssetTypeGenerator := 0, PackageDependencies := [(2, .DATA_POPULATION)] }
        ∧ s.GeneratorsReadyToAdvance = [1]
        ∧ ∃ g1, AdvanceGenerationState (RepeatedDependencyEnvironment 1 2) (FreshGenerator 2)
              = .ok (.FINISHED, g1)
            ∧ OnGeneratorStageAdvanced (RepeatedDependencyEnvironment 1 2) 3 1
                { s with Generators := s.Generators.set 1 g1 } = .error .findCheckedFailed)
    ∧ Tick (RepeatedDependencyEnvironment 1 2) 3 (FAssetGenerationProcessor.Create 4 [1])
        = .error .findCheckedFailed :=
  ⟨⟨_, _, rfl, ⟨4, [1], .addPackage _ _ 3 1 _ .start rfl⟩, rfl, rfl, rfl, _, rfl, rfl⟩, rfl⟩

/-- C23 (code defect): the retirement assertion fails in a run whose declared dependencies all
require `DATA_POPULATION`. In the two-dependencies scenario (`Pkg1` waits for `Pkg2` and for
`Pkg3`) discovery leaves list 0 in the buckets of `Pkg2` and `Pkg3`. When the generator of
`Pkg2` (object 1) has advanced to `FINISHED`, the notification removes `Pkg2` from the
remaining map of list 0, but line 84 takes the list out of the bucket only when that map has
become empty: the map still holds `Pkg3`, so list 0 stays in the bucket of `Pkg2`, the bucket
is kept, and `CleanupAssetGenerator` is entered with a bucket for `Pkg2` in the ledger. Its
`check` fails, and so does the first tick of the run. -/
theorem retirement_check_fails_with_two_dependencies :
    (∀ g d, d ∈ (TwoDependenciesEnvironment 1 2 3).PopulateStageDependencies g →
        d.State.toIndex < EAssetGenerationStage.FINISHED.toIndex)
    ∧ (∃ r s, AddPackage (TwoDependenciesEnvironment 1 2 3) 4 1
          (FAssetGenerationProcessor.Create 4 [1]) = .ok (r, s)
        ∧ s.PendingDependencies = [(2, [0]), (3, [0])]
        ∧ s.GeneratorsReadyToAdvance = [1, 2]
        ∧ ∃ g1 s1, AdvanceGenerationState (TwoDependenciesEnvironment 1 2 3) (FreshGenerator 2)
              = .ok (.FINISHED, g1)
            ∧ OnGeneratorStageAdvanced.notify 2 EAssetGenerationStage.FINISHED.toIndex 1
                { s with Generators := s.Generators.set 1 g1 } = .ok s1
            ∧ s1.DependencyLists[0]?
                = some { AssetTypeGenerator := 0,
                         PackageDependencies := [(3, .DATA_POPULATION)] }
            ∧ TMap.Find s1.PendingDependencies 2 = some [0]
            ∧ CleanupAssetGenerator 1 s1 = .error .dependentsStillWaiting)
    ∧ Tick (TwoDependenciesEnvironment 1 2 3) 4 (FAssetGenerationProcessor.Create 4 [1])
        = .error .dependentsStillWaiting := by
  refine ⟨?_, ⟨_, _, rfl, rfl, rfl, _, _, rfl, rfl, rfl, rfl, rfl⟩, rfl⟩
  intro g d hd
  simp only [TwoDependenciesEnvironment, DumpEnvironment] at hd
  split at hd
  · simp only [List.mem_cons, List.mem_singleton, List.not_mem_nil, or_false] at hd
    rcases hd with h | h <;> subst h <;> decide
  · simp at hd

/-- C25: `TickAssetGeneration` ends on the fatal cyclic-dependency path exactly when, at the
start of the tick, the ready queue is empty and at least one generator is in flight. The check
is the first statement of the tick: in such a state the tick is fatal for every host, every
dump set and every nesting bound, so no `AddPackage` call and no `AdvanceGenerationState` call
precedes it, and it returns no state in which a generator has advanced or a package was
added. -/
theorem cyclic_path_iff_ready_empty_and_in_flight (env : FEnvironment) (fuel : Nat)
    (s : FAssetGenerationProcessor) :
    (TickAssetGeneration env fuel s = .error .cyclicDependencies
      ↔ s.GeneratorsReadyToAdvance.length = 0 ∧ s.AssetGenerators.length ≠ 0)
    ∧ (s.GeneratorsReadyToAdvance.length = 0 ∧ s.AssetGenerators.length ≠ 0 →
        (∀ env1 fuel1, TickAssetGeneration env1 fuel1 s = .error .cyclicDependencies)
        ∧ ∀ s1, TickAssetGeneration env fuel s ≠ .ok s1) := by
  have hfatal : s.GeneratorsReadyToAdvance.length = 0 ∧ s.AssetGenerators.length ≠ 0 →
      ∀ env1 fuel1, TickAssetGeneration env1 fuel1 s = .error .cyclicDependencies := by
    intro hc env1 fuel1
    unfold TickAssetGeneration
    rw [if_pos hc]
  refine ⟨⟨?_, fun hc => hfatal hc env fuel⟩, fun hc => ⟨hfatal hc, ?_⟩⟩
  · intro h
    by_contra hc
    unfold TickAssetGeneration at h
    rw [if_neg hc] at h
    split at h
    · split at h
      · rename_i e he
        simp only [Except.error.injEq] at h
        subst h
        exact GatherNewAssetsForGeneration_not_cyclic env fuel s he
      · simp at h
      · exact TickAssetGeneration_advancePhase_not_cyclic env fuel _ h
    · exact TickAssetGeneration_advancePhase_not_cyclic env fuel _ h
  · intro s1 h
    rw [hfatal hc env fuel] at h
    simp at h

/-- Witness for C25: the cycle scenario after its first tick, and a fresh processor, whose
first tick is not fatal. -/
theorem cyclic_path_iff_ready_empty_and_in_flight_witness :
    (∃ s, Tick (CycleEnvironment 1 2) 3 (FAssetGenerationProcessor.Create 4 [1]) = .ok s
      ∧ (s.GeneratorsReadyToAdvance.length = 0 ∧ s.AssetGenerators.length ≠ 0)
      ∧ (∀ env1 fuel1, TickAssetGeneration env1 fuel1 s = .error .cyclicDependencies)
      ∧ ∀ s1, TickAssetGeneration (CycleEnvironment 1 2) 3 s ≠ .ok s1)
    ∧ TickAssetGeneration (CycleEnvironment 1 2) 3 (FAssetGenerationProcessor.Create 4 [1])
        ≠ .error .cyclicDependencies :=
  ⟨⟨_, rfl, ⟨rfl, by decide⟩,
      (cyclic_path_iff_ready_empty_and_in_flight (CycleEnvironment 1 2) 3 _).2
        ⟨rfl, by decide⟩⟩,
    fun h => absurd
      (((cyclic_path_iff_ready_empty_and_in_flight (CycleEnvironment 1 2) 3 _).1.mp h).2)
      (by decide)⟩

/-- C26: `AddPackage` and `RefreshGeneratorDependencies` terminate for every finite dump set
and every dependency declaration, cyclic and self-dependent ones included. With a nesting
bound above the number of distinct package names that have a dump file, neither call ever
runs into the bound, in any scheduler state, and any larger bound gives the same result: the
nesting depth of `AddPackage` never exceeds that number. When the dump files carry the package
names of their paths and the in-flight map refers to objects of the store, both calls return a
result. A call for a package name that is already in the in-flight map or in a terminal set
returns the state as it is, without nesting. -/
theorem AddPackage_and_refresh_terminate (env : FEnvironment) (s : FAssetGenerationProcessor)
    (fuel : Nat) (hfuel : env.DumpedPackages.length < fuel) :
    (∀ PackageName, AddPackage env fuel PackageName s ≠ .error .fuelExhausted)
    ∧ (∀ Generator, RefreshGeneratorDependencies env fuel Generator s ≠ .error .fuelExhausted)
    ∧ (∀ fuel1 PackageName, fuel ≤ fuel1 →
        AddPackage env fuel1 PackageName s = AddPackage env fuel PackageName s)
    ∧ (∀ fuel1 Generator, fuel ≤ fuel1 →
        RefreshGeneratorDependencies env fuel1 Generator s
          = RefreshGeneratorDependencies env fuel Generator s)
    ∧ (env.DumpsConsistent → s.BindingsValid →
        (∀ PackageName, ∃ r s1, AddPackage env fuel PackageName s = .ok (r, s1))
        ∧ ∀ Generator, Generator < s.Generators.length →
            ∃ s1, RefreshGeneratorDependencies env fuel Generator s = .ok s1)
    ∧ (∀ PackageName, s.IsUntouched PackageName = false →
        ∃ r, ∀ fuel0, AddPackage env (fuel0 + 1) PackageName s = .ok (r, s)) := by
  have hb : env.UntouchedPackages s < fuel := lt_of_le_of_lt (UntouchedPackages_le env s) hfuel
  have hA : ∀ PackageName, AddPackage env fuel PackageName s ≠ .error .fuelExhausted :=
    fun P => AddPackage_bounded env fuel P s hb
  have hR : ∀ Generator,
      RefreshGeneratorDependencies env fuel Generator s ≠ .error .fuelExhausted :=
    fun G => RefreshGeneratorDependencies_body_bounded env (AddPackage env fuel) fuel
      (AddPackage_sound env fuel) (fun P s hs => AddPackage_bounded env fuel P s hs) G s hb
  have hAf : ∀ fuel1 PackageName, fuel ≤ fuel1 →
      AddPackage env fuel1 PackageName s = AddPackage env fuel PackageName s :=
    fun fuel1 P hle => AddPackage_fuel_le env fuel fuel1 hle P s (hA P)
  have hRf : ∀ fuel1 Generator, fuel ≤ fuel1 →
      RefreshGeneratorDependencies env fuel1 Generator s
        = RefreshGeneratorDependencies env fuel Generator s :=
    fun fuel1 G hle => RefreshGeneratorDependencies_body_fuel env (AddPackage env fuel)
      (AddPackage env fuel1) (fun P s hs => AddPackage_fuel_le env fuel fuel1 hle P s hs) G s
      (hR G)
  refine ⟨hA, hR, hAf, hRf, ?_, ?_⟩
  · intro hd hs
    refine ⟨fun P => ?_, fun G hG => ?_⟩
    · obtain ⟨r, s1, h⟩ := AddPackage_returns env hd (max fuel env.Fuel) (le_max_right _ _) P s hs
      exact ⟨r, s1, by rw [← hAf _ P (le_max_left _ _)]; exact h⟩
    · obtain ⟨s1, h⟩ := RefreshGeneratorDependencies_body_total env
        (AddPackage env (max fuel env.Fuel)) (max fuel env.Fuel)
        (AddPackage_sound env _) (AddPackage_total env hd _) G s hG hs
        (lt_of_lt_of_le (Untouched_lt_Fuel env s) (le_max_right _ _))
      exact ⟨s1, by rw [← hRf _ G (le_max_left _ _)]; exact h⟩
  · intro P hP
    simp only [FAssetGenerationProcessor.IsUntouched, Bool.and_eq_false_iff,
      Bool.not_eq_false', Bool.not_eq_false] at hP
    by_cases hterm : (TSet.Contains s.ExternalPackagesResolved P
        || TSet.Contains s.AlreadyGeneratedPackages P
        || TSet.Contains s.KnownMissingPackages P) = true
    · refine ⟨.PACKAGE_EXISTS, fun fuel0 => ?_⟩
      rw [AddPackage_succ, if_pos hterm]
    · have hflight : TMap.Contains s.AssetGenerators P = true := by
        rcases hP with h | h
        · exact absurd h hterm
        · exact h
      refine ⟨.PACKAGE_WILL_BE_GENERATED, fun fuel0 => ?_⟩
      rw [AddPackage_succ, if_neg hterm, if_pos hflight]

/-- Witness for C26: the self-dependency scenario (one dump file, whose generator declares a
dependency on its own package) and the cycle scenario. -/
theorem AddPackage_and_refresh_terminate_witness :
    ((SelfDependencyEnvironment 1).DumpedPackages.length < 2
      ∧ AddPackage (SelfDependencyEnvironment 1) 2 1 (FAssetGenerationProcessor.Create 4 [1])
          ≠ .error .fuelExhausted
      ∧ (∃ r s1, AddPackage (SelfDependencyEnvironment 1) 2 1
          (FAssetGenerationProcessor.Create 4 [1]) = .ok (r, s1))
      ∧ ∃ s1, AddPackage (SelfDependencyEnvironment 1) 2 1
          (FAssetGenerationProcessor.Create 4 [1]) = .ok (.PACKAGE_WILL_BE_GENERATED, s1)
          ∧ s1.PendingDependencies = [(1, [0])])
    ∧ (CycleEnvironment 1 2).DumpedPackages.length < 3
    ∧ ∃ r s1, AddPackage (CycleEnvironment 1 2) 3 1 (FAssetGenerationProcessor.Create 4 [1])
        = .ok (r, s1) :=
  ⟨⟨by decide,
      (AddPackage_and_refresh_terminate (SelfDependencyEnvironment 1)
        (FAssetGenerationProcessor.Create 4 [1]) 2 (by decide)).1 1,
      ((AddPackage_and_refresh_terminate (SelfDependencyEnvironment 1)
        (FAssetGenerationProcessor.Create 4 [1]) 2 (by decide)).2.2.2.2.1
          (DumpEnvironment_consistent [1] _) (BindingsValid_Create 4 [1])).1 1,
      ⟨_, rfl, rfl⟩⟩,
    by decide,
    ((AddPackage_and_refresh_terminate (CycleEnvironment 1 2)
      (FAssetGenerationProcessor.Create 4 [1]) 3 (by decide)).2.2.2.2.1
        (DumpEnvironment_consistent [1, 2] _) (BindingsValid_Create 4 [1])).1 1⟩

/-- C27: in a run of ticks from a freshly created processor, whenever the generation-finished
flag is set (a tick has signalled completion), the in-flight generator map, the ready queue
and the ledger of pending dependencies are all empty and the next-root index equals the length
of the root list. From then on every tick returns the state as it is, for every host and every
nesting bound: no generator is advanced and `AddPackage` is not called again. -/
theorem completion_leaves_nothing_pending (env : FEnvironment) (fuel n : Nat)
    (MaxAssetsToAdvancePerTick : Nat) (PackagesToGenerate : List FName)
    (s : FAssetGenerationProcessor)
    (hrun : Ticks env fuel n
      (FAssetGenerationProcessor.Create MaxAssetsToAdvancePerTick PackagesToGenerate) = .ok s)
    (hfin : s.bGenerationFinished = true) :
    s.AssetGenerators = [] ∧ s.GeneratorsReadyToAdvance = [] ∧ s.PendingDependencies = []
      ∧ s.NextPackageToGenerateIndex = s.PackagesToGenerate.length
      ∧ (∀ env1 fuel1, Tick env1 fuel1 s = .ok s)
      ∧ ∀ env1 fuel1 m, Ticks env1 fuel1 m s = .ok s := by
  obtain ⟨hs, hdone⟩ := Ticks_scheduled env fuel n _ s hrun (Scheduled_Create _ _)
    (by simp [FAssetGenerationProcessor.Create])
    (by simp [FAssetGenerationProcessor.Create])
    (by simp [FAssetGenerationProcessor.Create])
  obtain ⟨hempty, hnext, hft⟩ := hdone hfin
  obtain ⟨_, hready, hpending⟩ := Scheduled_queueBound s hs hempty
  refine ⟨hempty, hready, hpending, hnext, fun env1 fuel1 => ?_,
    fun env1 fuel1 m => Ticks_of_finished env1 fuel1 m s hfin hft⟩
  unfold Tick
  simp [hfin, hft]

/-- Witness for C27: the missing-dependency scenario with the root list `[1, 2]` completes in
two ticks. -/
theorem completion_leaves_nothing_pending_witness :
    ∃ s, Ticks (MissingDependencyEnvironment 1 2) 2 2
        (FAssetGenerationProcessor.Create 4 [1, 2]) = .ok s
      ∧ s.bGenerationFinished = true
      ∧ s.AlreadyGeneratedPackages = [1] ∧ s.KnownMissingPackages = [2]
      ∧ s.AssetGenerators = [] ∧ s.GeneratorsReadyToAdvance = [] ∧ s.PendingDependencies = []
      ∧ s.NextPackageToGenerateIndex = s.PackagesToGenerate.length
      ∧ (∀ env1 fuel1, Tick env1 fuel1 s = .ok s)
      ∧ ∀ env1 fuel1 m, Ticks env1 fuel1 m s = .ok s :=
  ⟨_, rfl, rfl, rfl, rfl,
    completion_leaves_nothing_pending (MissingDependencyEnvironment 1 2) 2 2 4 [1, 2] _ rfl rfl⟩

/-- C24: a call of `OnGeneratorStageAdvanced(G)` that returns first runs the notification loop,
which leaves the in-flight map and the three terminal sets as they were. If `G` is at
`FINISHED`, `CleanupAssetGenerator` follows (its assertion passed: the ledger holds no bucket
for the package): the package name is removed from the in-flight map and added to the
generated set, the externally resolved and known-missing sets are unchanged, and the
dependency lists, the ledger and the ready queue stay as the notification left them, so
dependencies are not recomputed. If `G` is at any other stage,
`RefreshGeneratorDependencies(G)` follows: every binding of the in-flight map is kept, so `G`
stays in flight, and the generated set is unchanged. The refresh changes the externally
resolved and known-missing sets through its `AddPackage` calls only: with an `AddPackage` that
leaves the two sets alone, the body of the refresh leaves them alone. -/
theorem stage_advanced_retires_or_refreshes (env : FEnvironment) (fuel Generator : Nat)
    (s s1 : FAssetGenerationProcessor) (g : UAssetTypeGenerator)
    (hg : s.Generators[Generator]? = some g)
    (hcall : OnGeneratorStageAdvanced env fuel Generator s = .ok s1) :
    (∃ s0, OnGeneratorStageAdvanced.notify g.PackageName g.CurrentStage.toIndex Generator
          { s with Trace := s.Trace ++ [.OnGeneratorStageAdvanced Generator] } = .ok s0
      ∧ s0.AssetGenerators = s.AssetGenerators
      ∧ s0.AlreadyGeneratedPackages = s.AlreadyGeneratedPackages
      ∧ s0.ExternalPackagesResolved = s.ExternalPackagesResolved
      ∧ s0.KnownMissingPackages = s.KnownMissingPackages
      ∧ (g.CurrentStage = .FINISHED →
          CleanupAssetGenerator Generator s0 = .ok s1
          ∧ TMap.Find s0.PendingDependencies g.PackageName = none
          ∧ s1.AssetGenerators = TMap.Remove s.AssetGenerators g.PackageName
          ∧ ¬ s1.IsInFlight g.PackageName
          ∧ s1.AlreadyGeneratedPackages = TSet.Add s.AlreadyGeneratedPackages g.PackageName
          ∧ g.PackageName ∈ s1.AlreadyGeneratedPackages
          ∧ s1.ExternalPackagesResolved = s.ExternalPackagesResolved
          ∧ s1.KnownMissingPackages = s.KnownMissingPackages
          ∧ s1.DependencyLists = s0.DependencyLists
          ∧ s1.PendingDependencies = s0.PendingDependencies
          ∧ s1.GeneratorsReadyToAdvance = s0.GeneratorsReadyToAdvance
          ∧ s1.Generators = s.Generators)
      ∧ (g.CurrentStage ≠ .FINISHED →
          RefreshGeneratorDependencies env fuel Generator s0 = .ok s1
          ∧ (∀ k v, TMap.Find s.AssetGenerators k = some v →
              TMap.Find s1.AssetGenerators k = some v)
          ∧ (s.IsInFlight g.PackageName → s1.IsInFlight g.PackageName)
          ∧ s1.AlreadyGeneratedPackages = s.AlreadyGeneratedPackages))
    ∧ ∀ (addPackage : FName → FAssetGenerationProcessor →
          Except EAbort (EAddPackageResult × FAssetGenerationProcessor)),
        (∀ P t r t1, addPackage P t = .ok (r, t1) →
          t1.ExternalPackagesResolved = t.ExternalPackagesResolved
            ∧ t1.KnownMissingPackages = t.KnownMissingPackages) →
        ∀ t t1, RefreshGeneratorDependencies.body env addPackage Generator t = .ok t1 →
          t1.ExternalPackagesResolved = t.ExternalPackagesResolved
            ∧ t1.KnownMissingPackages = t.KnownMissingPackages := by
  refine ⟨?_, fun addPackage hadd t t1 h =>
    RefreshGeneratorDependencies_body_terminal env addPackage hadd Generator t t1 h⟩
  unfold OnGeneratorStageAdvanced at hcall
  rw [hg] at hcall
  simp only at hcall
  split at hcall
  · simp at hcall
  · rename_i s0 hnotify
    have hf := OnGeneratorStageAdvanced_notify_frame _ _ _ _ _ hnotify
    have hAG : s0.AssetGenerators = s.AssetGenerators := hf.AssetGenerators
    have hGd : s0.AlreadyGeneratedPackages = s.AlreadyGeneratedPackages := hf.Generated
    have hGen : s0.Generators = s.Generators := hf.Generators
    refine ⟨s0, hnotify, hAG, hGd, hf.External, hf.Missing, ?_, ?_⟩
    · intro hfin
      simp only [hfin, ne_eq, not_true_eq_false, if_false] at hcall
      have hclean := hcall
      unfold CleanupAssetGenerator at hcall
      rw [hGen, hg] at hcall
      simp only at hcall
      split at hcall
      · simp at hcall
      · rename_i hpending
        simp only [Except.ok.injEq] at hcall
        subst hcall
        have hnone : TMap.Find s0.PendingDependencies g.PackageName = none := by
          cases hc : TMap.Find s0.PendingDependencies g.PackageName with
          | none => rfl
          | some b => simp [hc] at hpending
        refine ⟨hclean, hnone, by rw [← hAG], ?_, by rw [← hGd], ?_, hf.External, hf.Missing,
          rfl, rfl, rfl, rfl⟩
        · unfold FAssetGenerationProcessor.IsInFlight
          simp only
          rw [TMap_mem_Keys_Remove]
          exact fun hc => hc.1 rfl
        · simp only
          rw [TSet_mem_Add]
          exact Or.inl rfl
    · intro hne
      rw [if_pos hne] at hcall
      have hsteps := RefreshGeneratorDependencies_steps env _ _ _ _ hcall
      have hfa := Steps_frameAdd env hsteps
      have hb : ∀ k v, TMap.Find s.AssetGenerators k = some v →
          TMap.Find s1.AssetGenerators k = some v := by
        intro k v hk
        rw [← hAG] at hk
        exact hfa.Bindings k v hk
      refine ⟨hcall, hb, ?_, hfa.Generated.trans hGd⟩
      intro hflight
      unfold FAssetGenerationProcessor.IsInFlight at hflight ⊢
      rw [TMap_mem_Keys_iff] at hflight ⊢
      obtain ⟨v, hv⟩ := hflight
      exact ⟨v, hb _ _ hv⟩

/-- Witness for C24: the dependency scenario after discovery, where the generator of `Pkg2`
(object 1) has been advanced to `FINISHED`. -/
theorem stage_advanced_retires_or_refreshes_witness :
    ∃ s1, OnGeneratorStageAdvanced (DependencyEnvironment 1 2) 3 1
        (AdvancedScenario .FINISHED) = .ok s1
      ∧ s1.AssetGenerators = [(1, 0)] ∧ s1.AlreadyGeneratedPackages = [2]
      ∧ ∃ s0, OnGeneratorStageAdvanced.notify 2 EAssetGenerationStage.FINISHED.toIndex 1
            { AdvancedScenario .FINISHED with
              Trace := (AdvancedScenario .FINISHED).Trace ++ [.OnGeneratorStageAdvanced 1] }
            = .ok s0
          ∧ CleanupAssetGenerator 1 s0 = .ok s1
          ∧ s1.DependencyLists = s0.DependencyLists :=
  ⟨_, rfl, rfl, rfl,
    by
      obtain ⟨s0, h0, _, _, _, _, hfin, _⟩ :=
        (stage_advanced_retires_or_refreshes (DependencyEnvironment 1 2) 3 1
          (AdvancedScenario .FINISHED) _ { FreshGenerator 2 with CurrentStage := .FINISHED }
          rfl rfl).1
      obtain ⟨c1, _, _, _, _, _, _, _, c9, _⟩ := hfin rfl
      exact ⟨s0, h0, c1, c9⟩⟩

/-- C21: a call of `RefreshGeneratorDependencies(G)` that returns has run the loop over the
declared dependencies of `G` on a fresh dependency list and ends with the test of lines 53-58
on that list. The remaining map of the list holds exactly what the loop recorded: each of its
keys is the package of a declared dependency and is in flight, and every declared dependency
was either recorded or needs no waiting (its package is in a terminal set, or in flight past
the required stage). When nothing was recorded `G` is appended to the ready queue, and when
something was recorded the queue stays as the loop left it. So a generator without declared
dependencies, or whose declared dependencies all end outside the in-flight map (in a
consistent state: all in terminal sets), is on the ready queue on return. For a refresh that
starts with `G` newer than every queued generator (as in `AddPackage`), `G` is on the ready
queue on return exactly when nothing was recorded. -/
theorem refresh_queues_iff_nothing_recorded (env : FEnvironment) (fuel Generator : Nat)
    (s s1 : FAssetGenerationProcessor) (g : UAssetTypeGenerator)
    (hg : s.Generators[Generator]? = some g)
    (hcall : RefreshGeneratorDependencies env fuel Generator s = .ok s1) :
    ∃ (t : FAssetGenerationProcessor) (dl : FDependencyList),
      RefreshGeneratorDependencies.loop (AddPackage env fuel) s.DependencyLists.length
          (env.PopulateStageDependencies g)
          { s with
            DependencyLists := s.DependencyLists ++
              [{ AssetTypeGenerator := Generator, PackageDependencies := [] }] } = .ok t
      ∧ s1.DependencyLists[s.DependencyLists.length]? = some dl
      ∧ dl.AssetTypeGenerator = Generator
      ∧ (∀ k, k ∈ TMap.Keys dl.PackageDependencies →
          (∃ d, d ∈ env.PopulateStageDependencies g ∧ d.PackageName = k) ∧ s1.IsInFlight k)
      ∧ (∀ d, d ∈ env.PopulateStageDependencies g →
          d.PackageName ∈ TMap.Keys dl.PackageDependencies
            ∨ s1.IsSatisfied d.PackageName d.State)
      ∧ (dl.PackageDependencies = [] →
          s1.GeneratorsReadyToAdvance = t.GeneratorsReadyToAdvance ++ [Generator]
            ∧ Generator ∈ s1.GeneratorsReadyToAdvance)
      ∧ (dl.PackageDependencies ≠ [] →
          s1.GeneratorsReadyToAdvance = t.GeneratorsReadyToAdvance)
      ∧ (env.PopulateStageDependencies g = [] → Generator ∈ s1.GeneratorsReadyToAdvance)
      ∧ ((∀ d, d ∈ env.PopulateStageDependencies g → ¬ s1.IsInFlight d.PackageName) →
          Generator ∈ s1.GeneratorsReadyToAdvance)
      ∧ (s.Consistent →
          (∀ d, d ∈ env.PopulateStageDependencies g → s1.IsTerminal d.PackageName) →
          Generator ∈ s1.GeneratorsReadyToAdvance)
      ∧ (s.ReadySettled → (∀ G1, G1 ∈ s.GeneratorsReadyToAdvance → G1 < Generator) →
          (Generator ∈ s1.GeneratorsReadyToAdvance ↔ dl.PackageDependencies = [])) := by
  have hcons1 : s.Consistent → s1.Consistent := fun hc =>
    Steps_consistent env (RefreshGeneratorDependencies_steps env _ _ _ _ hcall) hc
  have hlt : Generator < s.Generators.length := (List.getElem?_eq_some.mp hg).1
  unfold RefreshGeneratorDependencies RefreshGeneratorDependencies.body at hcall
  rw [hg] at hcall
  simp only at hcall
  split at hcall
  · simp at hcall
  · rename_i t hloop
    obtain ⟨dl, hdl, hown, _, hB, hC⟩ := RefreshGeneratorDependencies_loop_recorded env
      (AddPackage env fuel) (AddPackage_sound env fuel) (AddPackage_keeps env fuel)
      (fun P t r t1 h hr => AddPackage_terminal env fuel P t t1 r h hr)
      s.DependencyLists.length (env.PopulateStageDependencies g) _ t
      { AssetTypeGenerator := Generator, PackageDependencies := [] } hloop
      (by rw [List.getElem?_append_right (le_refl _)]; simp)
    rw [hdl] at hcall
    simp only at hcall
    have hfresh : s.ReadySettled → (∀ G1, G1 ∈ s.GeneratorsReadyToAdvance → G1 < Generator) →
        Generator ∉ t.GeneratorsReadyToAdvance := by
      intro hs hsQ hmem
      have h0 : RefreshPending Generator s
          { s with
            DependencyLists := s.DependencyLists ++
              [{ AssetTypeGenerator := Generator, PackageDependencies := [] }] } := by
        refine ⟨⟨hs.Ready, ?_, ?_, hs.Advanced⟩, hlt, le_refl _, ⟨[], [], rfl, by simp⟩,
          ⟨[], by simp⟩⟩
        · intro dl1 hdl1
          simp only [List.mem_append, List.mem_singleton] at hdl1
          rcases hdl1 with hdl1 | hdl1
          · exact hs.Owners dl1 hdl1
          · subst hdl1
            exact hlt
        · intro G1 hG1
          have := hs.Settled G1 hG1
          simp only [FAssetGenerationProcessor.Remaining, RemainingIn_append, RemainingIn_cons,
            List.length_nil, ite_self] at this ⊢
          simpa [RemainingIn] using this
      obtain ⟨_, _, _, _, ⟨extraQ, hready, hexq⟩⟩ :=
        RefreshPending_loop Generator s (AddPackage env fuel) (AddPackage_settles env fuel) hsQ
          _ _ t h0 hloop
      rw [hready] at hmem
      rcases List.mem_append.mp hmem with h1 | h1
      · exact Nat.lt_irrefl _ (hsQ _ h1)
      · exact Nat.lt_irrefl _ (hexq _ h1)
    have hkeys : ∀ k, k ∈ TMap.Keys dl.PackageDependencies →
        (∃ d, d ∈ env.PopulateStageDependencies g ∧ d.PackageName = k) ∧ t.IsInFlight k := by
      intro k hk
      rcases hB k hk with h1 | h1
      · simp [TMap.Keys] at h1
      · exact h1
    have hempty : (∀ d, d ∈ env.PopulateStageDependencies g → ¬ t.IsInFlight d.PackageName) →
        dl.PackageDependencies = [] := by
      intro hall
      cases hd : dl.PackageDependencies with
      | nil => rfl
      | cons e rest =>
        obtain ⟨⟨d, hd1, hd2⟩, hf⟩ := hkeys e.1 (by rw [hd]; simp [TMap.Keys])
        rw [← hd2] at hf
        exact absurd hf (hall d hd1)
    split at hcall
    · rename_i hzero
      have hnil : dl.PackageDependencies = [] := List.length_eq_zero.mp hzero
      simp only [Except.ok.injEq] at hcall
      subst hcall
      have hon : Generator ∈ t.GeneratorsReadyToAdvance ++ [Generator] := by simp
      exact ⟨t, dl, hloop, hdl, hown, hkeys, hC, fun _ => ⟨rfl, hon⟩,
        fun hne => absurd hnil hne, fun _ => hon, fun _ => hon, fun _ _ => hon,
        fun _ _ => ⟨fun _ => hnil, fun _ => hon⟩⟩
    · rename_i hzero
      have hne : dl.PackageDependencies ≠ [] := fun hc => hzero (by rw [hc]; rfl)
      simp only [Except.ok.injEq] at hcall
      subst hcall
      refine ⟨t, dl, hloop, hdl, hown, hkeys, hC, fun hc => absurd hc hne, fun _ => rfl, ?_, ?_,
        ?_, ?_⟩
      · intro hnone
        rw [hnone] at hkeys
        exact absurd (hempty (fun d hd => by rw [hnone] at hd; simp at hd)) hne
      · intro hall
        exact absurd (hempty hall) hne
      · intro hc hall
        refine absurd (hempty (fun d hd hf => ?_)) hne
        exact (hcons1 hc).FlightTerminal _ hf (hall d hd)
      · intro hs hsQ
        exact ⟨fun hmem => absurd hmem (hfresh hs hsQ), fun hc => absurd hc hne⟩

/-- Witness for C21: the refresh of the registered generator of `Pkg2` in the dependency
scenario, which declares no dependency. -/
theorem refresh_queues_iff_nothing_recorded_witness :
    ∃ s1, RefreshGeneratorDependencies (DependencyEnvironment 1 2) 3 0 (RegisteredScenario 2)
        = .ok s1
      ∧ s1.GeneratorsReadyToAdvance = [0]
      ∧ ∃ (t : FAssetGenerationProcessor) (dl : FDependencyList),
          s1.DependencyLists[(RegisteredScenario 2).DependencyLists.length]? = some dl
          ∧ dl.AssetTypeGenerator = 0
          ∧ (dl.PackageDependencies = [] →
              s1.GeneratorsReadyToAdvance = t.GeneratorsReadyToAdvance ++ [0]
                ∧ 0 ∈ s1.GeneratorsReadyToAdvance) :=
  ⟨_, rfl, rfl, by
    obtain ⟨t, dl, _, h2, h3, _, _, h6, _⟩ :=
      refresh_queues_iff_nothing_recorded (DependencyEnvironment 1 2) 3 0 (RegisteredScenario 2)
        _ (FreshGenerator 2) rfl rfl
    exact ⟨t, dl, h2, h3, h6⟩⟩

/-- C28: after `UpdateSelectedState(b, setByParent)` on a node, the node and every node of its
subtree (the children created so far) have the checked state `b`, and every strict descendant
has its override flag cleared. The override flag of the node itself is false when
`setByParent` is true; otherwise it is true exactly when `b` differs from the checked state of
its parent, where a node without a live parent is compared against unchecked. The call
changes nothing else: the other fields of the node are kept and its children are the former
children, each updated with `setByParent = true`. -/
theorem UpdateSelectedState_sets_the_subtree (ParentNodePinned : Option Bool)
    (bIsCheckedNew bIsSetByParent : Bool) (node : FAssetDumpTreeNode) :
    (∀ n, n ∈ (node.UpdateSelectedState ParentNodePinned bIsCheckedNew bIsSetByParent).Subtree →
        n.bIsChecked = bIsCheckedNew)
    ∧ (∀ n,
        n ∈ (node.UpdateSelectedState ParentNodePinned bIsCheckedNew bIsSetByParent).Descendants →
        n.bIsOverridingParentState = false)
    ∧ (bIsSetByParent = true →
        (node.UpdateSelectedState ParentNodePinned bIsCheckedNew bIsSetByParent
          ).bIsOverridingParentState = false)
    ∧ (bIsSetByParent = false →
        ((node.UpdateSelectedState ParentNodePinned bIsCheckedNew bIsSetByParent
          ).bIsOverridingParentState = true
          ↔ bIsCheckedNew ≠ ParentNodePinned.getD false))
    ∧ (node.UpdateSelectedState ParentNodePinned bIsCheckedNew bIsSetByParent).Children
        = node.Children.map
            (FAssetDumpTreeNode.UpdateSelectedState (some bIsCheckedNew) bIsCheckedNew true)
    ∧ (node.UpdateSelectedState ParentNodePinned bIsCheckedNew bIsSetByParent).bIsLeafNode
        = node.bIsLeafNode
    ∧ (node.UpdateSelectedState ParentNodePinned bIsCheckedNew bIsSetByParent).PackageName
        = node.PackageName
    ∧ (node.UpdateSelectedState ParentNodePinned bIsCheckedNew bIsSetByParent
        ).bChildrenNodesInitialized = node.bChildrenNodesInitialized := by
  obtain ⟨a1, a2, a3, a4, a5, a6, a7, a8, Children⟩ := node
  have hdesc : ∀ n,
      n ∈ FAssetDumpTreeNode.Subtree.children
        (FAssetDumpTreeNode.UpdateSelectedState.children bIsCheckedNew Children) →
      n.bIsChecked = bIsCheckedNew ∧ n.bIsOverridingParentState = false := by
    intro n hn
    rw [Subtree_children_mem, UpdateSelectedState_children_eq] at hn
    obtain ⟨c1, hc1, hn1⟩ := hn
    obtain ⟨c, _, rfl⟩ := List.mem_map.mp hc1
    exact UpdateSelectedState_by_parent bIsCheckedNew c (some bIsCheckedNew) n hn1
  refine ⟨?_, ?_, ?_, ?_, ?_, rfl, rfl, rfl⟩
  · intro n hn
    simp only [FAssetDumpTreeNode.UpdateSelectedState, FAssetDumpTreeNode.Subtree,
      List.mem_cons] at hn
    rcases hn with h1 | h1
    · subst h1
      rfl
    · exact (hdesc n h1).1
  · intro n hn
    exact (hdesc n hn).2
  · intro hs
    subst hs
    rfl
  · intro hs
    subst hs
    cases ParentNodePinned with
    | none =>
      cases bIsCheckedNew <;>
        simp [FAssetDumpTreeNode.UpdateSelectedState, FAssetDumpTreeNode.bIsOverridingParentState]
    | some p =>
      cases bIsCheckedNew <;> cases p <;>
        simp [FAssetDumpTreeNode.UpdateSelectedState, FAssetDumpTreeNode.bIsOverridingParentState]
  · simp only [FAssetDumpTreeNode.UpdateSelectedState, FAssetDumpTreeNode.Children]
    exact UpdateSelectedState_children_eq bIsCheckedNew Children

/-- Witness for C28: the root of the example tree is checked by the user; it has no live
parent, so it overrides, and the overrides of the leaves below it are cleared. -/
theorem UpdateSelectedState_sets_the_subtree_witness :
    (ExampleDumpTree.Subtree.map (fun n => (n.bIsChecked, n.bIsOverridingParentState))
        = [(false, false), (true, true), (false, false), (true, true), (false, false),
            (false, false)])
    ∧ ((ExampleDumpTree.UpdateSelectedState none true false).Subtree.map
          (fun n => (n.bIsChecked, n.bIsOverridingParentState))
        = [(true, true), (true, false), (true, false), (true, false), (true, false),
            (true, false)])
    ∧ (∀ n, n ∈ (ExampleDumpTree.UpdateSelectedState none true false).Subtree →
        n.bIsChecked = true)
    ∧ ∀ n, n ∈ (ExampleDumpTree.UpdateSelectedState none true false).Descendants →
        n.bIsOverridingParentState = false :=
  ⟨rfl, rfl, (UpdateSelectedState_sets_the_subtree none true false ExampleDumpTree).1,
    (UpdateSelectedState_sets_the_subtree none true false ExampleDumpTree).2.1⟩

/-- C29: for a tree in which every directory node has its children initialised,
`PopulateGeneratedPackages` returns (any recursion bound above the height of the tree is
enough), leaves the tree as it is, keeps the entries already in the output array and appends
exactly the package names of the leaf nodes whose checked flag is true, in depth-first order
of the children lists. Every checked leaf is in the output. The checked flag (and the override
flag) of a directory node has no effect on the result: the same names are appended whatever
the flags of the directory are, so a checked leaf under an unchecked directory is
included. -/
theorem PopulateGeneratedPackages_appends_checked_leaves (host : FPlatformFile) (fuel : Nat)
    (node : FAssetDumpTreeNode) (OutPackageNames : List FString)
    (hinit : node.ChildrenInitialized = true) (hfuel : node.Height < fuel) :
    node.PopulateGeneratedPackages host fuel OutPackageNames
        = some (node, OutPackageNames ++ node.CheckedPackages)
    ∧ (∀ n, n ∈ node.Leaves → n.bIsChecked = true →
        n.PackageName ∈ OutPackageNames ++ node.CheckedPackages)
    ∧ ∀ RootDirectory DiskPackagePath PackageName NodeName bIsChecked
        bIsOverridingParentState bIsChecked1 bIsOverridingParentState1 Children,
        node = .mk RootDirectory false DiskPackagePath PackageName NodeName bIsChecked
          bIsOverridingParentState true Children →
        FAssetDumpTreeNode.PopulateGeneratedPackages host fuel
            (.mk RootDirectory false DiskPackagePath PackageName NodeName bIsChecked1
              bIsOverridingParentState1 true Children) OutPackageNames
          = some (.mk RootDirectory false DiskPackagePath PackageName NodeName bIsChecked1
              bIsOverridingParentState1 true Children,
            OutPackageNames ++ node.CheckedPackages) := by
  refine ⟨PopulateGeneratedPackages_eq host fuel node OutPackageNames hinit hfuel, ?_, ?_⟩
  · intro n hn hc
    refine List.mem_append_right _ ?_
    unfold FAssetDumpTreeNode.CheckedPackages
    exact List.mem_map.mpr ⟨n, List.mem_filter.mpr ⟨hn, hc⟩, rfl⟩
  · intro a1 a3 a4 a5 c o c1 o1 Children hnode
    subst hnode
    exact PopulateGeneratedPackages_eq host fuel _ OutPackageNames hinit hfuel

/-- Witness for C29: the example tree, whose root directory and sub-directory are unchecked
while the leaves `/Game/A` and `/Game/Sub/B` are checked. -/
theorem PopulateGeneratedPackages_appends_checked_leaves_witness :
    ExampleDumpTree.ChildrenInitialized = true ∧ ExampleDumpTree.Height < 3
    ∧ ExampleDumpTree.bIsChecked = false
    ∧ ExampleDumpTree.CheckedPackages = ["/Game/A", "/Game/Sub/B"]
    ∧ ExampleDumpTree.PopulateGeneratedPackages EmptyPlatformFile 3 ["/X"]
        = some (ExampleDumpTree, ["/X"] ++ ExampleDumpTree.CheckedPackages) :=
  ⟨rfl, by decide, rfl, rfl,
    (PopulateGeneratedPackages_appends_checked_leaves EmptyPlatformFile 3 ExampleDumpTree
      ["/X"] rfl (by decide)).1⟩

end AssetGeneration
